import Mathlib

/-!
ProjectEditor: visibility projection, content cache, invalidation, scrolling,
hit testing and serialization; the word game

A shallow embedding of the cache-carrying part of `src/ProjectEditor.cpp`,
and of the dictionary and the game state of `src/AllWords.cpp` and
`src/MainWindow.cpp` (section "The word game").
Qt containers are embedded as follows.

* `QList<T>` is `List T`; `<<` appends at the end.
* `QSet<int>` is a `List Int` read only through membership; a range-for over
  the set walks the list.
* `QHash<K, V>` is a function `K → Option V`; `remove` binds the key to
  `none`, `clear` is the constant `none`, `contains` is `isSome`, and a
  non-const `operator[]` on an absent key binds it to the default value.
  The nested `QHash<int, QHash<Attributes, T>>` caches are functions of both
  keys: an absent outer key and an outer key bound to an empty inner hash
  answer every read the editor performs in the same way.
* `int` is `Int` (pixel and id arithmetic stays far from the 32-bit range;
  signed overflow is undefined in the source).
* The singleton stores (`AllTaskItems`, `AllTaskGroups`, ...) are read-only
  collaborators and are passed explicitly.
* `update()`, `emit` and `MessageLogger::Error` have no effect on the
  modelled state.
* A read `list[index]` that the source does not guard goes through `listAt`:
  outside the list the read is undefined and the call has no result.
* The height of a laid-out text fragment comes from `QTextDocument`, which is
  a collaborator like the stores.
* A `QDomElement` handed to the serialization methods is the list of its
  `<editor>` children, each kept by the attributes `ReadFromXML` reads.
-/

namespace AllTaskGroups

/-- Modelled from the spec: `AllTaskGroups.h` is not among the sources; the
element kinds are the three enumerators the editor names. -/
inductive ElementType
  | ElementType_TaskID
  | ElementType_GroupID
  | ElementType_Invalid
  deriving DecidableEq, Repr

/-- Modelled from the spec: `AllTaskGroups.h` is not among the sources; the
information kinds are the enumerators the editor names. -/
inductive Information
  | Information_BackgroundColor
  | Information_CompletionValue
  | Information_ParentGroupID
  | Information_TextColor
  | Information_TextStyle
  | Information_Title
  deriving DecidableEq, Repr

end AllTaskGroups

namespace AllTaskItems

/-- Modelled from the spec: `AllTaskItems.h` is not among the sources; the
information kinds are the enumerators the editor names. -/
inductive Information
  | Information_ActualStart
  | Information_ActualFinish
  | Information_Reference
  | Information_Title
  | Information_SchedulingMode
  | Information_FixedStartDate
  | Information_DurationValue
  | Information_DurationUnits
  | Information_CompletionStatus
  | Information_TextColor
  | Information_BackgroundColor
  | Information_TextStyle
  | Information_EarlyStart
  | Information_EarlyFinish
  | Information_LateStart
  | Information_LateFinish
  | Information_SlackWorkdays
  | Information_SlackCalendarDays
  | Information_IsMilestone
  | Information_IsOnCriticalPath
  | Information_Attachments
  | Information_Comments
  | Information_Resources
  | Information_LinkedTasks
  | Information_AnyInformation
  deriving DecidableEq, Repr

end AllTaskItems

namespace AllTaskLinks

/-- Modelled from the spec: `AllTaskLinks.h` is not among the sources; the
information kinds are the enumerators the editor names. -/
inductive Information
  | Information_PredecessorID
  | Information_SuccessorID
  | Information_ConnectionType
  | Information_LeadDuration
  | Information_LeadUnits
  | Information_LagDuration
  | Information_LagUnits
  deriving DecidableEq, Repr

end AllTaskLinks

namespace AllAttachments

/-- Modelled from the spec: `AllAttachments.h` is not among the sources. -/
inductive Information
  | Information_Name
  deriving DecidableEq, Repr

end AllAttachments

namespace AllComments

/-- Modelled from the spec: `AllComments.h` is not among the sources. -/
inductive Information
  | Information_Title
  deriving DecidableEq, Repr

end AllComments

namespace AllResources

/-- Modelled from the spec: `AllResources.h` is not among the sources. -/
inductive Information
  | Information_Name
  deriving DecidableEq, Repr

end AllResources

/-- The task store, as far as the editor reads it. -/
structure AllTaskItems where
  DoesIDExist : Int → Bool
  GetInformation : Int → AllTaskItems.Information → String
  GetAttachmentIDs : Int → List Int
  GetCommentIDs : Int → List Int
  GetResourceIDs : Int → List Int

/-- The group store, as far as the editor reads it. `GetElementIDs` returns
the two parallel lists of the source as one list of pairs. -/
structure AllTaskGroups where
  ROOT_ID : Int
  DoesIDExist : Int → Bool
  GetInformation : Int → AllTaskGroups.Information → String
  GetElementIDs : Int → List (Int × AllTaskGroups.ElementType)
  GetParentGroupIDForTaskID : Int → Int
  GetParentGroupIDForGroupID : Int → Int

/-- The link store, as far as the editor reads it. -/
structure AllTaskLinks where
  GetInformation : Int → AllTaskLinks.Information → String
  GetIDsForSuccessorTaskID : Int → List Int
  GetIDsForPredecessorTaskID : Int → List Int
  GetSuccessorTaskIDsForTaskID : Int → List Int
  GetPredecessorTaskIDsForTaskID : Int → List Int

/-- The attachment store. -/
structure AllAttachments where
  GetInformation : Int → AllAttachments.Information → String

/-- The comment store. -/
structure AllComments where
  GetInformation : Int → AllComments.Information → String
  GetResourcesMentioned : Int → List String

/-- The resource store. -/
structure AllResources where
  GetInformation : Int → AllResources.Information → String

/-- Library routines the formatters call: `StringHelper::SortHash` (ids of a
hash ordered by their text), `std::sort` on a string list, `QString::toInt`
and `QDate::fromString(text, "yyyy-MM-dd").toString(pattern)`. -/
structure StringHelper where
  SortHash : List (Int × String) → List Int
  sort : List String → List String
  toInt : String → Int
  dateToString : String → String → String

/-- Text layout of `QTextDocument`. `addHeight this_height html width` is the
value of the `int` variable after `this_height += text.size().height()` for a
document holding `html`, laid out in the editor's default font with text
width `width` and no margin. -/
structure QTextDocument where
  addHeight : Int → String → Int → Int

/-- All collaborators of the editor. -/
structure Stores where
  items : AllTaskItems
  groups : AllTaskGroups
  links : AllTaskLinks
  attachments : AllAttachments
  comments : AllComments
  resources : AllResources
  helper : StringHelper
  text : QTextDocument

/-! ## The word game

`AllWords` (the dictionary of `src/AllWords.cpp`) and `MainWindow` (the game
state of `src/MainWindow.cpp`).

* A `QSet<QString>` is a `List String` without repetition; its order stands
  for the iteration order of the set, which Qt leaves open.
* A `QString` is a `String`; `size`, `toLower`, `trimmed` and `operator[]`
  work on its characters (the words are written in ASCII letters).
* `QRandomGenerator::global()->bounded(lowest, highest)` and the answer to
  the message box of `CheckNewTry` are arguments of the methods that use
  them.
* `repaint()`, `update()`, `qDebug` and the information boxes have no effect
  on the modelled state.
-/

namespace QString

/-- The call `text.size()`. -/
def size (text : String) : Int :=
  text.data.length

/-- The call `text.toLower()`. -/
def toLower (text : String) : String :=
  ⟨text.data.map Char.toLower⟩

/-- The call `text.trimmed()`. -/
def trimmed (text : String) : String :=
  ⟨((text.data.dropWhile Char.isWhitespace).reverse.dropWhile Char.isWhitespace).reverse⟩

/-- The read `text[index]`; `none` when the index is outside the text, where
the read of the source is undefined. -/
def charAt (text : String) (index : Int) : Option Char :=
  if index < 0 then none else text.data[index.toNat]?

/-- The comparison `left < right` of two texts: the lexicographic order of
their characters. -/
def less (left right : String) : Bool :=
  decide (left.data < right.data)

/-- The call `format.match(text).hasMatch()` for the formats `[a-zA-Z]+` and
`[a-zA-Z]`, which are not anchored: some character of the text is a letter. -/
def hasLetter (text : String) : Bool :=
  text.data.any Char.isAlpha

end QString

/-- The statement `set << item` on a `QSet`. -/
def qsetInsert {α : Type} [DecidableEq α] (set : List α) (item : α) : List α :=
  if item ∈ set then set else set ++ [item]

/-- The members of `AllWords`. -/
structure AllWords where
  m_AllWords : List String
  m_WordsForLength : Int → Option (List String)
  m_UsedWords : List String
  m_WordsWithDuplicateLetters : List String
  m_WordSize : Int
  m_AvoidDuplicateLetters : Bool
  m_NewWords : List String

namespace AllWords

/-- The loop of `HasDuplicateLetters` over the remaining characters, with the
letters seen so far. -/
def HasDuplicateLetters_Loop : List Char → List Char → Bool
  | [], _ => false
  | letter :: rest, letters_used =>
    if letter ∈ letters_used then true
    else HasDuplicateLetters_Loop rest (qsetInsert letters_used letter)

/-- The method `HasDuplicateLetters`. -/
def HasDuplicateLetters (mcWord : String) : Bool :=
  HasDuplicateLetters_Loop mcWord.data []

/-- The statement `m_WordsForLength[size] << word`. -/
def addForLength (hash : Int → Option (List String)) (size : Int) (word : String) :
    Int → Option (List String) :=
  fun key => if key = size then some (qsetInsert ((hash size).getD []) word) else hash key

/-- One pass of the loop of `InitWords` over the lines of the word file; the
second component is the local set `known_words`. -/
def InitWords_Line (state : AllWords × List String) (line : String) :
    AllWords × List String :=
  let new_word := QString.toLower (QString.trimmed line)
  if new_word = "" then state
  else if QString.charAt new_word 0 = some '#' then state
  else if ¬ QString.hasLetter new_word then state
  else if new_word ∈ state.2 then state
  else
    ({ state.1 with
        m_AllWords := qsetInsert state.1.m_AllWords new_word
        m_WordsForLength :=
          addForLength state.1.m_WordsForLength (QString.size new_word) new_word
        m_WordsWithDuplicateLetters :=
          if HasDuplicateLetters new_word then
            qsetInsert state.1.m_WordsWithDuplicateLetters new_word
          else state.1.m_WordsWithDuplicateLetters },
      qsetInsert state.2 new_word)

/-- The method `InitWords`; `word_file` is the list of lines of `Words.txt`,
or `none` when the file cannot be opened. -/
def InitWords (aw : AllWords) (word_file : Option (List String)) : AllWords :=
  let aw := { aw with m_AllWords := [] }
  match word_file with
  | none => aw
  | some lines =>
    { (lines.foldl InitWords_Line (aw, [])).1 with m_UsedWords := [] }

/-- The constructor of `AllWords`. -/
def constructed (word_file : Option (List String)) : AllWords :=
  { InitWords
      { m_AllWords := []
        m_WordsForLength := fun _ => none
        m_UsedWords := []
        m_WordsWithDuplicateLetters := []
        m_WordSize := 0
        m_AvoidDuplicateLetters := false
        m_NewWords := [] } word_file with
    m_WordSize := 5
    m_AvoidDuplicateLetters := true }

/-- The method `SetWordSize`. -/
def SetWordSize (aw : AllWords) (mcNewWordSize : Int) : AllWords :=
  if mcNewWordSize = -1 then
    { aw with m_WordSize := -1 }
  else if mcNewWordSize < 4 then
    aw
  else if ¬ (aw.m_WordsForLength mcNewWordSize).isSome then
    aw
  else
    aw

/-- The method `SetAvoidDuplicateLetters`. -/
def SetAvoidDuplicateLetters (aw : AllWords) (mcNewState : Bool) : AllWords :=
  { aw with m_AvoidDuplicateLetters := mcNewState }

/-- The method `GetAvoidDuplicateLetters`. -/
def GetAvoidDuplicateLetters (aw : AllWords) : Bool :=
  aw.m_AvoidDuplicateLetters

/-- The method `AddWord`. -/
def AddWord (aw : AllWords) (mcNewWord : String) : AllWords :=
  if ¬ QString.hasLetter mcNewWord then aw
  else if QString.size mcNewWord < 4 then aw
  else
    let word := QString.toLower mcNewWord
    if word ∈ aw.m_AllWords then aw
    else
      { aw with
        m_AllWords := qsetInsert aw.m_AllWords word
        m_WordsForLength := addForLength aw.m_WordsForLength (QString.size word) word
        m_WordsWithDuplicateLetters :=
          if HasDuplicateLetters word then qsetInsert aw.m_WordsWithDuplicateLetters word
          else aw.m_WordsWithDuplicateLetters
        m_NewWords := aw.m_NewWords ++ [word] }

/-- The loop of `GetWord` over the available words: the word at which
`pick_index` has come down to 0, the empty text when the loop ends first. -/
def GetWord_Loop : List String → Int → String
  | [], _ => ""
  | word :: rest, pick_index =>
    if pick_index = 0 then word else GetWord_Loop rest (pick_index - 1)

/-- The method `GetWord`. -/
def GetWord (aw : AllWords) (bounded : Int → Int → Int) : String :=
  let available_words :=
    if aw.m_WordSize = -1 then aw.m_AllWords
    else if (aw.m_WordsForLength aw.m_WordSize).isSome then
      (aw.m_WordsForLength aw.m_WordSize).getD []
    else []
  let available_words := available_words.filter (fun word => word ∉ aw.m_UsedWords)
  let available_words :=
    if aw.m_AvoidDuplicateLetters then
      available_words.filter (fun word => word ∉ aw.m_WordsWithDuplicateLetters)
    else available_words
  if available_words = [] then ""
  else GetWord_Loop available_words (bounded 0 (available_words.length - 1))

/-- The method `IsValid`. -/
def IsValid (aw : AllWords) (mcWord : String) : Bool :=
  QString.toLower mcWord ∈ aw.m_AllWords

/-- The method `ResetUsage`. -/
def ResetUsage (aw : AllWords) : AllWords :=
  { aw with m_UsedWords := [] }

end AllWords

namespace MainWindow

/-- The enumeration `Status`; the first enumerator is the value a
`QHash<QString, Status>` gives for an absent key. -/
inductive Status
  | Status_NotTried
  | Status_NotInWord
  | Status_WrongPosition
  | Status_CorrectPosition
  deriving DecidableEq, Repr

end MainWindow

/-- The members of `MainWindow` the game reads and writes. -/
structure MainWindow where
  m_Word : String
  m_Tries : List String
  m_LastTryFinished : Bool
  m_LetterStatus : String → Option MainWindow.Status

namespace MainWindow

open Status

/-- The read `m_LetterStatus[letter]`. -/
def statusOf (table : String → Option Status) (letter : String) : Status :=
  (table letter).getD Status_NotTried

/-- The assignment `m_LetterStatus[letter] = status`. -/
def setStatus (table : String → Option Status) (letter : String) (status : Status) :
    String → Option Status :=
  fun key => if key = letter then some status else table key

/-- The letters the loop `for (char letter = 'a'; letter <= 'z'; letter++)`
visits. -/
def alphabet : List Char :=
  "abcdefghijklmnopqrstuvwxyz".data

/-- The action handler `NewGame`. -/
def NewGame (mw : MainWindow) (aw : AllWords) (bounded : Int → Int → Int) : MainWindow :=
  { mw with
    m_Tries := [""]
    m_LetterStatus :=
      alphabet.foldl (fun table letter =>
        setStatus table (String.singleton letter) Status_NotTried) (fun _ => none)
    m_Word := aw.GetWord bounded
    m_LastTryFinished := false }

/-- The constructor of `MainWindow`, as far as the game state goes. -/
def constructed (aw : AllWords) (bounded : Int → Int → Int) : MainWindow :=
  NewGame
    { m_Word := "", m_Tries := [], m_LastTryFinished := false, m_LetterStatus := fun _ => none }
    aw bounded

/-- The loop "Update letter status" of `CheckNewTry` over `count` positions
from `index` on. `none` means that the guess or the target is read outside
its range. -/
def CheckNewTry_Loop (m_Word word : String) :
    Nat → Int → (String → Option Status) → Option (String → Option Status)
  | 0, _, table => some table
  | count + 1, index, table =>
    match QString.charAt word index, QString.charAt m_Word index with
    | some letter, some target =>
      let status :=
        if letter = target then Status_CorrectPosition
        else if letter ∈ m_Word.data ∧
            statusOf table (String.singleton letter) ≠ Status_CorrectPosition then
          Status_WrongPosition
        else Status_NotInWord
      CheckNewTry_Loop m_Word word count (index + 1)
        (setStatus table (String.singleton letter) status)
    | _, _ => none

/-- The method `CheckNewTry`: the window and the dictionary afterwards.
`response` tells whether the question "Is ... actually a valid word?" is
answered with Yes. `none` means that the call has no defined result: the
list of tries is empty or a text is read outside its range. -/
def CheckNewTry (mw : MainWindow) (aw : AllWords) (response : Bool)
    (bounded : Int → Int → Int) : Option (MainWindow × AllWords) :=
  match mw.m_Tries.getLast? with
  | none => none
  | some word =>
    if aw.GetAvoidDuplicateLetters ∧ AllWords.HasDuplicateLetters word then
      some (mw, aw)
    else if ¬ aw.IsValid word ∧ ¬ response then
      some (mw, aw)
    else
      let aw1 := if ¬ aw.IsValid word then aw.AddWord word else aw
      match CheckNewTry_Loop mw.m_Word word mw.m_Word.data.length 0 mw.m_LetterStatus with
      | none => none
      | some table =>
        let mw1 := { mw with m_LetterStatus := table }
        if word = mw1.m_Word then
          some (NewGame { mw1 with m_LastTryFinished := true } aw1 bounded, aw1)
        else
          some ({ mw1 with m_Tries := mw1.m_Tries ++ [""] }, aw1)

/-- A key press without modifiers, as `keyPressEvent` tells them apart:
Return or Enter, Backspace or Delete, and any other key with its text. -/
inductive Key
  | Key_Return
  | Key_Backspace
  | other (text : String)

/-- The method `keyPressEvent` for a key press without modifiers. -/
def keyPressEvent (mw : MainWindow) (aw : AllWords) (key : Key) (response : Bool)
    (bounded : Int → Int → Int) : Option (MainWindow × AllWords) :=
  match mw.m_Tries.getLast? with
  | none => none
  | some current =>
    match key with
    | .Key_Return =>
      if QString.size current = QString.size mw.m_Word then
        CheckNewTry mw aw response bounded
      else some (mw, aw)
    | .Key_Backspace =>
      let current : String :=
        if QString.size current > 0 then ⟨current.data.dropLast⟩ else current
      some ({ mw with m_Tries := mw.m_Tries.dropLast ++ [current] }, aw)
    | .other text =>
      let text := QString.toLower text
      if ¬ QString.less text "a" ∧ ¬ QString.less "z" text then
        let current := if QString.size current < QString.size mw.m_Word then current ++ text
          else current
        some ({ mw with m_Tries := mw.m_Tries.dropLast ++ [current] }, aw)
      else some (mw, aw)

/-- A sequence of key presses, every question answered with `response`. -/
def keyPresses (response : Bool) (bounded : Int → Int → Int) :
    List Key → MainWindow × AllWords → Option (MainWindow × AllWords)
  | [], state => some state
  | key :: rest, state =>
    match keyPressEvent state.1 state.2 key response bounded with
    | none => none
    | some state1 => keyPresses response bounded rest state1

/-- The keys that type a word and press Return. -/
def typeWord (word : String) : List Key :=
  word.data.map (fun letter => Key.other (String.singleton letter)) ++ [Key.Key_Return]

end MainWindow

/-! ### Sample data for the word game -/

/-- A generator that always returns the lowest value of the range. -/
def lowestPick (lowest _highest : Int) : Int :=
  lowest

/-- A word file with one word of four letters, three of five and one of
six. -/
def sampleWordFile : List String :=
  ["# sample", "east", "stone", "store", "notes", "planet"]

/-- The dictionary built from the sample word file. -/
def sampleWords : AllWords :=
  AllWords.constructed (some sampleWordFile)

/-- The game window opened over the sample dictionary: the target is
"stone". -/
def sampleWindow : MainWindow :=
  MainWindow.constructed sampleWords lowestPick

/-- The sample game after the guess "store". -/
def firstGuess : Option (MainWindow × AllWords) :=
  MainWindow.keyPresses false lowestPick (MainWindow.typeWord "store")
    (sampleWindow, sampleWords)

/-- The sample game after the guesses "store" and "notes". -/
def secondGuess : Option (MainWindow × AllWords) :=
  MainWindow.keyPresses false lowestPick
    (MainWindow.typeWord "store" ++ MainWindow.typeWord "notes") (sampleWindow, sampleWords)

namespace ProjectEditor

open AllTaskGroups.ElementType

/-- Displayable columns (`ProjectEditor::Attributes`). -/
inductive Attributes
  | Attribute_Attachments
  | Attribute_Comments
  | Attribute_CompletionStatus
  | Attribute_CriticalPath
  | Attribute_Duration
  | Attribute_FinishDate
  | Attribute_GanttChart
  | Attribute_ID
  | Attribute_Predecessors
  | Attribute_Resources
  | Attribute_SlackCalendarDays
  | Attribute_SlackWorkdays
  | Attribute_StartDate
  | Attribute_Successors
  | Attribute_Title
  | Attribute_Invalid
  deriving DecidableEq, Repr

/-- Display formats (`ProjectEditor::AttributeDisplayFormat`). -/
inductive AttributeDisplayFormat
  | AttributeDisplayFormat_Invalid
  | AttributeDisplayFormat_Default
  | AttributeDisplayFormat_TitleOnly
  | AttributeDisplayFormat_TitleAndParentGroup
  | AttributeDisplayFormat_TitleAndFullHierarchy
  | AttributeDisplayFormat_LongDateOnly
  | AttributeDisplayFormat_LongDateWithWeekday
  | AttributeDisplayFormat_ISODateOnly
  | AttributeDisplayFormat_ISODateWithWeekday
  | AttributeDisplayFormat_YesNo
  | AttributeDisplayFormat_RedGreen
  | AttributeDisplayFormat_ReferencesWithTitle
  | AttributeDisplayFormat_ReferencesOnly
  | AttributeDisplayFormat_CompletionStatusText
  | AttributeDisplayFormat_CompletionStatusPercent
  | AttributeDisplayFormat_CompletionStatusSymbol
  | AttributeDisplayFormat_CommentTitles
  | AttributeDisplayFormat_CommentResponsibilities
  | AttributeDisplayFormat_GanttAutomatic
  | AttributeDisplayFormat_GanttDays
  | AttributeDisplayFormat_GanttWeekdays
  | AttributeDisplayFormat_GanttWeeks
  | AttributeDisplayFormat_GanttMonths
  | AttributeDisplayFormat_GanttYears
  deriving DecidableEq, Repr

open Attributes AttributeDisplayFormat

/-- A rendered surface; only its presence in a cache is observed. -/
abbrev QImage := Nat

/-- The member variables of `ProjectEditor` that the modelled operations
read or write. -/
structure Editor where
  m_ExpandedTaskGroups : List Int
  m_VisibleIDs : List Int
  m_VisibleIDTypes : List AllTaskGroups.ElementType
  m_VisibleIDIndentation : List Int
  m_SelectedTaskIDs : List Int
  m_SelectedGroupIDs : List Int
  m_VisibleAttributes : List Attributes
  m_AttributeDisplayFormat : Attributes → AttributeDisplayFormat
  m_AttributeContentAlignment : Attributes → String
  m_AttributeWidths : Attributes → Int
  m_MinAttributeWidth : Int
  m_AttributesTotalWidth : Int
  m_VisibleAttributesLeftCoordinates : List Int
  m_VisibleAttributesRightCoordinates : List Int
  m_TaskIDAttributeContent : Int → Attributes → Option (List String)
  m_TaskIDAttributeData : Int → Attributes → Option (List Int)
  m_GroupIDAttributeContent : Int → Attributes → Option (List String)
  m_GroupIDAttributeData : Int → Attributes → Option (List Int)
  m_TaskIDToRowImageHeight : Int → Option Int
  m_GroupIDToRowImageHeight : Int → Option Int
  m_TaskItemIDToImage_Attributes : Int → Option QImage
  m_TaskGroupIDToImage_Attributes : Int → Option QImage
  m_TaskItemIDToImage_GanttChart : Int → Option QImage
  m_TaskGroupIDToImage_GanttChart : Int → Option QImage
  m_HeaderImage_Attributes : Option QImage
  m_HeaderImage_GanttChart : Option QImage
  m_DragStartPosition : Int × Int
  m_DragAttributeWidth_Attribute : Attributes
  m_DragAttributeWidth_OriginalWidth : Int
  m_HeaderHeight : Int
  m_TopIndex : Int
  m_TopOffset : Int
  m_LeftOffset : Int
  m_VisibleIDTopCoordinates : List Int
  m_VisibleIDBottomCoordinates : List Int
  m_AttributeSerializationTitles : Attributes → Option String
  m_RowPadding : Int
  m_AttributePadding : Int
  m_IndentScale : Int
  m_GanttChart_BarHeight : Int
  height : Int
  width : Int

/-- The call `hash.remove(key)`. -/
def remove {K V : Type} [DecidableEq K] (hash : K → Option V) (key : K) : K → Option V :=
  fun k => if k = key then none else hash k

/-- The call `hash[outer].remove(inner)` on a nested hash. -/
def remove2 {K A V : Type} [DecidableEq K] [DecidableEq A] (hash : K → A → Option V)
    (outer : K) (inner : A) : K → A → Option V :=
  fun k a => if k = outer ∧ a = inner then none else hash k a

/-- The assignment `hash[outer][inner] = value` on a nested hash. -/
def insert2 {K A V : Type} [DecidableEq K] [DecidableEq A] (hash : K → A → Option V)
    (outer : K) (inner : A) (value : V) : K → A → Option V :=
  fun k a => if k = outer ∧ a = inner then some value else hash k a

/-- The call `hash.clear()`. -/
def clear {K V : Type} : K → Option V :=
  fun _ => none

/-! ## Visible IDs -/

/-- Recursive part of `UpdateVisibleIDs`. The fuel bounds the nesting depth
of the recursion; `none` means the fuel ran out. -/
def UpdateVisibleIDs_Rec (ag : AllTaskGroups) : Nat → Int → Int → Editor → Option Editor
  | 0, _, _, _ => none
  | fuel + 1, mcTaskGroupID, mcIndent, e =>
    (ag.GetElementIDs mcTaskGroupID).foldlM (fun e new_element =>
      let element_id := new_element.1
      let element_type := new_element.2
      let e1 := { e with
        m_VisibleIDs := e.m_VisibleIDs ++ [element_id]
        m_VisibleIDTypes := e.m_VisibleIDTypes ++ [element_type]
        m_VisibleIDIndentation := e.m_VisibleIDIndentation ++ [mcIndent] }
      if element_type = ElementType_GroupID ∧ element_id ∈ e1.m_ExpandedTaskGroups then
        UpdateVisibleIDs_Rec ag fuel element_id (mcIndent + 1) e1
      else
        some e1) e

/-- The method `UpdateVisibleIDs`: reset the three lists and walk the root. -/
def UpdateVisibleIDs (ag : AllTaskGroups) (fuel : Nat) (e : Editor) : Option Editor :=
  UpdateVisibleIDs_Rec ag fuel ag.ROOT_ID 0
    { e with m_VisibleIDs := [], m_VisibleIDTypes := [], m_VisibleIDIndentation := [] }

/-! ### The hierarchy as a tree -/

/-- A finite acyclic hierarchy: a task, or a group with its children in the
store's declared order. -/
inductive Element
  | task (id : Int)
  | group (id : Int) (children : List Element)

/-- The entry `GetElementIDs` lists for an element. -/
def Element.entry : Element → Int × AllTaskGroups.ElementType
  | .task id => (id, ElementType_TaskID)
  | .group id _ => (id, ElementType_GroupID)

mutual
/-- The store lists, for every group of the element, exactly its children. -/
def Element.Stored (ag : AllTaskGroups) : Element → Prop
  | .task _ => True
  | .group id children =>
    ag.GetElementIDs id = Element.entries children ∧ Element.StoredAll ag children
/-- Every element of the list is stored. -/
def Element.StoredAll (ag : AllTaskGroups) : List Element → Prop
  | [] => True
  | element :: rest => Element.Stored ag element ∧ Element.StoredAll ag rest
/-- The entries of a list of elements, in order. -/
def Element.entries : List Element → List (Int × AllTaskGroups.ElementType)
  | [] => []
  | element :: rest => Element.entry element :: Element.entries rest
end

/-- A row of the visible sequence: id, kind and indentation. -/
abbrev Row := Int × AllTaskGroups.ElementType × Int

mutual
/-- Pre-order flattening of an element at the given depth: the element
itself, then its children one level deeper when it is a group of the
expanded-set. -/
def Element.flatten (expanded : List Int) (depth : Int) : Element → List Row
  | .task id => [(id, ElementType_TaskID, depth)]
  | .group id children =>
    (id, ElementType_GroupID, depth) ::
      (if id ∈ expanded then Element.flattenAll expanded (depth + 1) children else [])
/-- Pre-order flattening of a list of siblings. -/
def Element.flattenAll (expanded : List Int) (depth : Int) : List Element → List Row
  | [] => []
  | element :: rest =>
    Element.flatten expanded depth element ++ Element.flattenAll expanded depth rest
end

mutual
/-- Number of tasks and groups reached from an element when only groups of
the expanded-set are entered. -/
def Element.reachable (expanded : List Int) : Element → Nat
  | .task _ => 1
  | .group id children =>
    1 + (if id ∈ expanded then Element.reachableAll expanded children else 0)
/-- The same count over a list of siblings. -/
def Element.reachableAll (expanded : List Int) : List Element → Nat
  | [] => 0
  | element :: rest => Element.reachable expanded element + Element.reachableAll expanded rest
end

mutual
/-- Nesting depth of groups in an element. -/
def Element.height : Element → Nat
  | .task _ => 0
  | .group _ children => Element.heightAll children + 1
/-- Largest nesting depth among siblings. -/
def Element.heightAll : List Element → Nat
  | [] => 0
  | element :: rest => max (Element.height element) (Element.heightAll rest)
end

/-- The editor with the given rows appended to the three visible lists. -/
def Editor.pushRows (e : Editor) (rows : List Row) : Editor :=
  { e with
    m_VisibleIDs := e.m_VisibleIDs ++ rows.map (fun r => r.1)
    m_VisibleIDTypes := e.m_VisibleIDTypes ++ rows.map (fun r => r.2.1)
    m_VisibleIDIndentation := e.m_VisibleIDIndentation ++ rows.map (fun r => r.2.2) }

/-- One pass of the loop body of `UpdateVisibleIDs_Rec` whose recursive calls
run with the given fuel. -/
def UpdateVisibleIDs_Body (ag : AllTaskGroups) (fuel : Nat) (mcIndent : Int) (e : Editor)
    (new_element : Int × AllTaskGroups.ElementType) : Option Editor :=
  let element_id := new_element.1
  let element_type := new_element.2
  let e1 := { e with
    m_VisibleIDs := e.m_VisibleIDs ++ [element_id]
    m_VisibleIDTypes := e.m_VisibleIDTypes ++ [element_type]
    m_VisibleIDIndentation := e.m_VisibleIDIndentation ++ [mcIndent] }
  if element_type = ElementType_GroupID ∧ element_id ∈ e1.m_ExpandedTaskGroups then
    UpdateVisibleIDs_Rec ag fuel element_id (mcIndent + 1) e1
  else
    some e1

/-! ## Initialisation -/

/-- The value `INVALID_INDEX`. -/
def INVALID_INDEX : Int := -1

/-- The keys of `m_AttributeGUITitles`: every attribute except the internal
invalid one. -/
def all_attributes : List Attributes :=
  [Attribute_Attachments, Attribute_Comments, Attribute_CompletionStatus,
   Attribute_CriticalPath, Attribute_Duration, Attribute_FinishDate, Attribute_GanttChart,
   Attribute_ID, Attribute_Predecessors, Attribute_Resources, Attribute_SlackCalendarDays,
   Attribute_SlackWorkdays, Attribute_StartDate, Attribute_Successors, Attribute_Title]

open AllTaskItems.Information in
/-- The table `m_TaskInformationToAffectedAttributes` as `Initialize_Attributes`
fills it; no other method writes it. -/
def m_TaskInformationToAffectedAttributes :
    AllTaskItems.Information → Option (List Attributes)
  | Information_ActualStart => some [Attribute_StartDate]
  | Information_ActualFinish => some [Attribute_FinishDate]
  | Information_Reference => some [Attribute_ID]
  | Information_Title => some [Attribute_Title]
  | Information_SchedulingMode => some []
  | Information_FixedStartDate => some []
  | Information_DurationValue => some [Attribute_Duration]
  | Information_DurationUnits => some [Attribute_Duration]
  | Information_CompletionStatus => some [Attribute_GanttChart, Attribute_CompletionStatus]
  | Information_TextColor => some all_attributes
  | Information_BackgroundColor => some all_attributes
  | Information_TextStyle => some all_attributes
  | Information_EarlyStart => some [Attribute_StartDate]
  | Information_EarlyFinish => some [Attribute_FinishDate]
  | Information_LateStart => some []
  | Information_LateFinish => some []
  | Information_SlackWorkdays => some [Attribute_SlackWorkdays]
  | Information_SlackCalendarDays => some [Attribute_SlackCalendarDays]
  | Information_IsMilestone => some [Attribute_GanttChart]
  | Information_IsOnCriticalPath => some [Attribute_CriticalPath, Attribute_GanttChart]
  | Information_Attachments => some [Attribute_Attachments]
  | Information_Comments => some [Attribute_Comments]
  | Information_Resources => some [Attribute_Resources]
  | Information_LinkedTasks => some [Attribute_Predecessors, Attribute_Successors]
  | Information_AnyInformation => some all_attributes

open AllTaskGroups.Information in
/-- The table `m_GroupInformationToAffectedAttributes` as `Initialize_Attributes`
fills it; no other method writes it. -/
def m_GroupInformationToAffectedAttributes :
    AllTaskGroups.Information → Option (List Attributes)
  | Information_BackgroundColor => some all_attributes
  | Information_CompletionValue => some [Attribute_CompletionStatus]
  | Information_ParentGroupID => some []
  | Information_TextColor => some all_attributes
  | Information_TextStyle => some all_attributes
  | Information_Title => some [Attribute_Title]

/-- The method `CalculateAttributesTotalWidth`. -/
def CalculateAttributesTotalWidth (e : Editor) : Editor :=
  e.m_VisibleAttributes.foldl (fun e attr =>
    if attr = Attribute_GanttChart then
      e
    else
      let left := e.m_AttributesTotalWidth
      let total := e.m_AttributesTotalWidth + e.m_AttributeWidths attr
      { e with
        m_VisibleAttributesLeftCoordinates := e.m_VisibleAttributesLeftCoordinates ++ [left]
        m_AttributesTotalWidth := total
        m_VisibleAttributesRightCoordinates := e.m_VisibleAttributesRightCoordinates ++ [total] })
    { e with
      m_AttributesTotalWidth := 0
      m_VisibleAttributesLeftCoordinates := []
      m_VisibleAttributesRightCoordinates := [] }

/-- The method `Initialize_General`, on the modelled members. -/
def Initialize_General (ag : AllTaskGroups) (e : Editor) : Editor :=
  { e with
    m_ExpandedTaskGroups := [ag.ROOT_ID]
    m_VisibleIDs := []
    m_VisibleIDTypes := []
    m_VisibleIDIndentation := []
    m_SelectedTaskIDs := []
    m_SelectedGroupIDs := [] }

/-- The method `Initialize_Attributes`, on the modelled members. -/
def Initialize_Attributes (e : Editor) : Editor :=
  CalculateAttributesTotalWidth { e with
    m_AttributeSerializationTitles := fun attr =>
      match attr with
      | Attribute_ID => some "id"
      | Attribute_Title => some "title"
      | Attribute_Duration => some "duration"
      | Attribute_StartDate => some "start date"
      | Attribute_FinishDate => some "finish date"
      | Attribute_CriticalPath => some "critical path"
      | Attribute_SlackWorkdays => some "slack (wd)"
      | Attribute_SlackCalendarDays => some "slack (cd)"
      | Attribute_Predecessors => some "predecessors"
      | Attribute_Successors => some "successors"
      | Attribute_CompletionStatus => some "completion status"
      | Attribute_Resources => some "resources"
      | Attribute_Attachments => some "attachments"
      | Attribute_Comments => some "comments"
      | Attribute_GanttChart => some "gantt chart"
      | Attribute_Invalid => none
    m_VisibleAttributes :=
      [Attribute_ID, Attribute_CompletionStatus, Attribute_Title, Attribute_Duration,
       Attribute_StartDate, Attribute_FinishDate, Attribute_Predecessors,
       Attribute_Successors, Attribute_Resources, Attribute_Attachments, Attribute_Comments,
       Attribute_GanttChart]
    m_AttributeDisplayFormat := fun attr =>
      match attr with
      | Attribute_ID => AttributeDisplayFormat_Default
      | Attribute_Title => AttributeDisplayFormat_TitleOnly
      | Attribute_Duration => AttributeDisplayFormat_Default
      | Attribute_StartDate => AttributeDisplayFormat_ISODateOnly
      | Attribute_FinishDate => AttributeDisplayFormat_ISODateOnly
      | Attribute_CriticalPath => AttributeDisplayFormat_RedGreen
      | Attribute_SlackWorkdays => AttributeDisplayFormat_Default
      | Attribute_SlackCalendarDays => AttributeDisplayFormat_Default
      | Attribute_Predecessors => AttributeDisplayFormat_ReferencesWithTitle
      | Attribute_Successors => AttributeDisplayFormat_ReferencesWithTitle
      | Attribute_CompletionStatus => AttributeDisplayFormat_CompletionStatusSymbol
      | Attribute_Resources => AttributeDisplayFormat_Default
      | Attribute_Attachments => AttributeDisplayFormat_Default
      | Attribute_Comments => AttributeDisplayFormat_CommentTitles
      | Attribute_GanttChart => AttributeDisplayFormat_GanttAutomatic
      | Attribute_Invalid => AttributeDisplayFormat_Invalid
    m_AttributeContentAlignment := fun attr =>
      match attr with
      | Attribute_ID => "center"
      | Attribute_Duration => "center"
      | Attribute_StartDate => "center"
      | Attribute_FinishDate => "center"
      | Attribute_CriticalPath => "center"
      | Attribute_SlackWorkdays => "center"
      | Attribute_SlackCalendarDays => "center"
      | Attribute_CompletionStatus => "center"
      | _ => ""
    m_AttributeWidths := fun attr =>
      match attr with
      | Attribute_ID => 50
      | Attribute_Title => 200
      | Attribute_Duration => 100
      | Attribute_StartDate => 100
      | Attribute_FinishDate => 100
      | Attribute_CriticalPath => 70
      | Attribute_SlackWorkdays => 100
      | Attribute_SlackCalendarDays => 100
      | Attribute_Predecessors => 150
      | Attribute_Successors => 150
      | Attribute_CompletionStatus => 70
      | Attribute_Resources => 150
      | Attribute_Attachments => 150
      | Attribute_Comments => 150
      | Attribute_GanttChart => 1000
      | Attribute_Invalid => 0
    m_MinAttributeWidth := 50
    m_RowPadding := 2
    m_AttributePadding := 5
    m_IndentScale := 20
    m_HeaderImage_Attributes := none
    m_TaskItemIDToImage_Attributes := clear
    m_TaskGroupIDToImage_Attributes := clear }

/-- The method `Initialize_GanttChart`, on the modelled members. -/
def Initialize_GanttChart (e : Editor) : Editor :=
  { e with
    m_GanttChart_BarHeight := 10
    m_HeaderImage_GanttChart := none
    m_TaskItemIDToImage_GanttChart := clear
    m_TaskGroupIDToImage_GanttChart := clear }

/-- The method `Initialize_Drawing`, on the modelled members. -/
def Initialize_Drawing (e : Editor) : Editor :=
  { e with
    m_HeaderHeight := 0
    m_TopIndex := INVALID_INDEX
    m_TopOffset := 0
    m_LeftOffset := 0
    m_VisibleAttributesLeftCoordinates := []
    m_VisibleAttributesRightCoordinates := []
    m_VisibleIDTopCoordinates := []
    m_VisibleIDBottomCoordinates := []
    m_DragStartPosition := (0, 0)
    m_DragAttributeWidth_Attribute := Attribute_Invalid
    m_DragAttributeWidth_OriginalWidth := -1 }

/-- The method `Initialize`. -/
def Initialize (ag : AllTaskGroups) (e : Editor) : Editor :=
  Initialize_Drawing (Initialize_GanttChart (Initialize_Attributes (Initialize_General ag e)))

/-- An editor object whose containers are all empty, before `Initialize`; the
widget has the default geometry of 640 by 480 pixels. -/
def Editor.blank : Editor where
  m_ExpandedTaskGroups := []
  m_VisibleIDs := []
  m_VisibleIDTypes := []
  m_VisibleIDIndentation := []
  m_SelectedTaskIDs := []
  m_SelectedGroupIDs := []
  m_VisibleAttributes := []
  m_AttributeDisplayFormat := fun _ => AttributeDisplayFormat_Invalid
  m_AttributeContentAlignment := fun _ => ""
  m_AttributeWidths := fun _ => 0
  m_MinAttributeWidth := 0
  m_AttributesTotalWidth := 0
  m_VisibleAttributesLeftCoordinates := []
  m_VisibleAttributesRightCoordinates := []
  m_TaskIDAttributeContent := fun _ _ => none
  m_TaskIDAttributeData := fun _ _ => none
  m_GroupIDAttributeContent := fun _ _ => none
  m_GroupIDAttributeData := fun _ _ => none
  m_TaskIDToRowImageHeight := clear
  m_GroupIDToRowImageHeight := clear
  m_TaskItemIDToImage_Attributes := clear
  m_TaskGroupIDToImage_Attributes := clear
  m_TaskItemIDToImage_GanttChart := clear
  m_TaskGroupIDToImage_GanttChart := clear
  m_HeaderImage_Attributes := none
  m_HeaderImage_GanttChart := none
  m_DragStartPosition := (0, 0)
  m_DragAttributeWidth_Attribute := Attribute_Invalid
  m_DragAttributeWidth_OriginalWidth := 0
  m_HeaderHeight := 0
  m_TopIndex := 0
  m_TopOffset := 0
  m_LeftOffset := 0
  m_VisibleIDTopCoordinates := []
  m_VisibleIDBottomCoordinates := []
  m_AttributeSerializationTitles := clear
  m_RowPadding := 0
  m_AttributePadding := 0
  m_IndentScale := 0
  m_GanttChart_BarHeight := 0
  height := 480
  width := 640

/-- The editor right after its constructor has run. -/
def Editor.constructed (ag : AllTaskGroups) : Editor :=
  Initialize ag Editor.blank

/-! ## Sample data -/

/-- A sample hierarchy below the root: task 1, group 2 (holding task 3 and
group 4, which holds task 5) and task 6. -/
def sampleElements : List Element :=
  [.task 1, .group 2 [.task 3, .group 4 [.task 5]], .task 6]

/-- A group store listing the sample hierarchy under root id 0. -/
def sampleGroups : AllTaskGroups where
  ROOT_ID := 0
  DoesIDExist := fun id => id = 0 || id = 2 || id = 4
  GetInformation := fun id info =>
    match info with
    | .Information_Title => if id = 2 then "Phase" else if id = 4 then "Step" else ""
    | .Information_ParentGroupID => if id = 4 then "2" else "0"
    | _ => ""
  GetElementIDs := fun id =>
    if id = 0 then [(1, ElementType_TaskID), (2, ElementType_GroupID), (6, ElementType_TaskID)]
    else if id = 2 then [(3, ElementType_TaskID), (4, ElementType_GroupID)]
    else if id = 4 then [(5, ElementType_TaskID)]
    else []
  GetParentGroupIDForTaskID := fun id => if id = 3 then 2 else if id = 5 then 4 else 0
  GetParentGroupIDForGroupID := fun id => if id = 4 then 2 else 0

/-- The constructed editor over the sample hierarchy with group 2 expanded
and group 4 collapsed. -/
def collapsedEditor : Editor :=
  { Editor.constructed sampleGroups with m_ExpandedTaskGroups := [0, 2] }

/-! ## Invalidation handlers -/

/-- The guarded removal at the end of the handlers: a task's two images and
row height are dropped only when one of the images is cached. -/
def RemoveCachedTaskRow (e : Editor) (task_id : Int) : Editor :=
  if (e.m_TaskItemIDToImage_Attributes task_id).isSome ∨
      (e.m_TaskItemIDToImage_GanttChart task_id).isSome then
    { e with
      m_TaskItemIDToImage_Attributes := remove e.m_TaskItemIDToImage_Attributes task_id
      m_TaskItemIDToImage_GanttChart := remove e.m_TaskItemIDToImage_GanttChart task_id
      m_TaskIDToRowImageHeight := remove e.m_TaskIDToRowImageHeight task_id }
  else
    e

/-- The guarded removal at the end of the handlers, for a group. -/
def RemoveCachedGroupRow (e : Editor) (group_id : Int) : Editor :=
  if (e.m_TaskGroupIDToImage_Attributes group_id).isSome ∨
      (e.m_TaskGroupIDToImage_GanttChart group_id).isSome then
    { e with
      m_TaskGroupIDToImage_Attributes := remove e.m_TaskGroupIDToImage_Attributes group_id
      m_TaskGroupIDToImage_GanttChart := remove e.m_TaskGroupIDToImage_GanttChart group_id
      m_GroupIDToRowImageHeight := remove e.m_GroupIDToRowImageHeight group_id }
  else
    e

/-- The loop "Remove cached content" of `TaskInformationChanged`: drops the
task's content entry of every affected attribute and records whether one of
them is visible. -/
def TaskInformationChanged_Content (mcTaskID : Int) (attributes : List Attributes)
    (e : Editor) : Editor × Bool :=
  attributes.foldl (fun acc attr =>
    ({ acc.1 with
        m_TaskIDAttributeContent := remove2 acc.1.m_TaskIDAttributeContent mcTaskID attr },
      acc.2 || decide (attr ∈ acc.1.m_VisibleAttributes))) (e, false)

/-- One of the two loops of the block "Remove collateral": drops the given
attribute's content entry of every listed task and appends the task to the
list `affected_task_ids` declared inside that block. -/
def TaskInformationChanged_Linked (attr : Attributes) (task_ids : List Int)
    (acc : Editor × List Int) : Editor × List Int :=
  task_ids.foldl (fun acc task_id =>
    ({ acc.1 with
        m_TaskIDAttributeContent := remove2 acc.1.m_TaskIDAttributeContent task_id attr },
      acc.2 ++ [task_id])) acc

open AllTaskItems.Information in
/-- The slot `TaskInformationChanged`. The block "Remove collateral" declares
a second list `affected_task_ids` that shadows the outer one; the ids it
collects go out of scope with the block, so the final loop walks the outer
list only. -/
def TaskInformationChanged (st : Stores) (e : Editor) (mcTaskID : Int)
    (mcInformation : AllTaskItems.Information) : Editor :=
  if st.items.DoesIDExist mcTaskID = false then
    e
  else
    match m_TaskInformationToAffectedAttributes mcInformation with
    | none => e
    | some attributes =>
      let affected_task_ids : List Int := []
      let removed := TaskInformationChanged_Content mcTaskID attributes e
      let e1 := removed.1
      let is_visible_change := removed.2
      let affected_task_ids :=
        if is_visible_change then affected_task_ids ++ [mcTaskID] else affected_task_ids
      let e2 :=
        if mcInformation = Information_AnyInformation ∨ mcInformation = Information_Reference ∨
            mcInformation = Information_Title then
          let inner : Editor × List Int := (e1, [])
          let inner :=
            if Attribute_Predecessors ∈ e1.m_VisibleAttributes then
              TaskInformationChanged_Linked Attribute_Predecessors
                (st.links.GetSuccessorTaskIDsForTaskID mcTaskID) inner
            else inner
          let inner :=
            if Attribute_Successors ∈ e1.m_VisibleAttributes then
              TaskInformationChanged_Linked Attribute_Successors
                (st.links.GetPredecessorTaskIDsForTaskID mcTaskID) inner
            else inner
          inner.1
        else e1
      let e3 :=
        if mcInformation = Information_LinkedTasks then
          { e2 with m_TaskItemIDToImage_GanttChart := clear }
        else e2
      affected_task_ids.foldl RemoveCachedTaskRow e3

/-- The three unguarded removals for a task in `SetSelection`. -/
def RemoveTaskRow (e : Editor) (task_id : Int) : Editor :=
  { e with
    m_TaskItemIDToImage_Attributes := remove e.m_TaskItemIDToImage_Attributes task_id
    m_TaskItemIDToImage_GanttChart := remove e.m_TaskItemIDToImage_GanttChart task_id
    m_TaskIDToRowImageHeight := remove e.m_TaskIDToRowImageHeight task_id }

/-- The three unguarded removals for a group in `SetSelection`. -/
def RemoveGroupRow (e : Editor) (group_id : Int) : Editor :=
  { e with
    m_TaskGroupIDToImage_Attributes := remove e.m_TaskGroupIDToImage_Attributes group_id
    m_TaskGroupIDToImage_GanttChart := remove e.m_TaskGroupIDToImage_GanttChart group_id
    m_GroupIDToRowImageHeight := remove e.m_GroupIDToRowImageHeight group_id }

/-- The method `SetSelection`. The second component of the accumulator is the
flag `selection_changed`. -/
def SetSelection (st : Stores) (e : Editor) (mcNewSelectedTaskIDs : List Int)
    (mcNewSelectedGroupIDs : List Int) : Editor :=
  if mcNewSelectedTaskIDs.all st.items.DoesIDExist = false then
    e
  else if mcNewSelectedGroupIDs.all st.groups.DoesIDExist = false then
    e
  else
    let acc : Editor × Bool := (e, false)
    let acc := acc.1.m_SelectedTaskIDs.foldl (fun acc task_id =>
      if task_id ∉ mcNewSelectedTaskIDs then (RemoveTaskRow acc.1 task_id, true) else acc) acc
    let acc := acc.1.m_SelectedGroupIDs.foldl (fun acc group_id =>
      if group_id ∉ mcNewSelectedGroupIDs then (RemoveGroupRow acc.1 group_id, true)
      else acc) acc
    let acc := mcNewSelectedTaskIDs.foldl (fun acc task_id =>
      if task_id ∉ acc.1.m_SelectedTaskIDs then (RemoveTaskRow acc.1 task_id, true)
      else acc) acc
    let acc := mcNewSelectedGroupIDs.foldl (fun acc group_id =>
      if group_id ∉ acc.1.m_SelectedGroupIDs then (RemoveGroupRow acc.1 group_id, true)
      else acc) acc
    if acc.2 then
      { acc.1 with
        m_SelectedTaskIDs := mcNewSelectedTaskIDs
        m_SelectedGroupIDs := mcNewSelectedGroupIDs }
    else
      acc.1

/-- The getter `GetSelectedTaskIDs`. -/
def GetSelectedTaskIDs (e : Editor) : List Int :=
  e.m_SelectedTaskIDs

/-- The getter `GetSelectedGroupIDs`. -/
def GetSelectedGroupIDs (e : Editor) : List Int :=
  e.m_SelectedGroupIDs

/-- The call `list.indexOf(value)`: position of the first occurrence, -1 when
there is none. -/
def indexOf (list : List Attributes) (value : Attributes) : Int :=
  if value ∈ list then (list.indexOf value : Nat) else -1

/-- The call `list.insert(i, value)`: the value is prepended when `i ≤ 0` and
appended when `i` is at least the size. -/
def insertAt (list : List Attributes) (i : Int) (value : Attributes) : List Attributes :=
  list.take i.toNat ++ value :: list.drop i.toNat

/-- The slot `ContextMenu_ToggleVisibility`. -/
def ContextMenu_ToggleVisibility (e : Editor) (mcAttribute mcAnchorAttribute : Attributes) :
    Editor :=
  let e1 :=
    if mcAttribute ∈ e.m_VisibleAttributes then
      { e with m_VisibleAttributes := e.m_VisibleAttributes.filter (fun a => a ≠ mcAttribute) }
    else if mcAttribute = Attribute_GanttChart then
      { e with m_VisibleAttributes := e.m_VisibleAttributes ++ [mcAttribute] }
    else if mcAnchorAttribute = Attribute_Invalid then
      { e with m_VisibleAttributes := e.m_VisibleAttributes ++ [mcAttribute] }
    else
      let index := indexOf e.m_VisibleAttributes mcAnchorAttribute
      { e with m_VisibleAttributes := insertAt e.m_VisibleAttributes index mcAttribute }
  if mcAttribute = Attribute_GanttChart then
    { e1 with m_HeaderImage_GanttChart := none }
  else
    CalculateAttributesTotalWidth { e1 with
      m_HeaderImage_Attributes := none
      m_TaskItemIDToImage_Attributes := clear
      m_TaskGroupIDToImage_Attributes := clear }

/-- The slot `ContextMenu_SetDisplayFormat`. -/
def ContextMenu_SetDisplayFormat (e : Editor) (mcAttribute : Attributes)
    (mcNewDisplayFormat : AttributeDisplayFormat) : Editor :=
  if e.m_AttributeDisplayFormat mcAttribute = mcNewDisplayFormat then
    e
  else
    let e1 := { e with
      m_AttributeDisplayFormat :=
        Function.update e.m_AttributeDisplayFormat mcAttribute mcNewDisplayFormat }
    if mcAttribute = Attribute_GanttChart then
      { e1 with
        m_HeaderImage_GanttChart := none
        m_TaskItemIDToImage_GanttChart := clear
        m_TaskGroupIDToImage_GanttChart := clear }
    else
      { e1 with
        m_TaskItemIDToImage_Attributes := clear
        m_TaskItemIDToImage_GanttChart := clear
        m_TaskGroupIDToImage_Attributes := clear
        m_TaskGroupIDToImage_GanttChart := clear
        m_TaskIDToRowImageHeight := clear
        m_GroupIDToRowImageHeight := clear }

/-- The method `Drag_Header_Separator`. -/
def Drag_Header_Separator (e : Editor) (mcX : Int) (_mcY : Int) : Editor :=
  let delta := mcX - e.m_DragStartPosition.1
  let new_width := e.m_DragAttributeWidth_OriginalWidth + delta
  let new_width := max new_width e.m_MinAttributeWidth
  let e1 := CalculateAttributesTotalWidth { e with
    m_AttributeWidths :=
      Function.update e.m_AttributeWidths e.m_DragAttributeWidth_Attribute new_width }
  { e1 with
    m_HeaderImage_Attributes := none
    m_HeaderImage_GanttChart := none
    m_TaskItemIDToImage_Attributes := clear
    m_TaskItemIDToImage_GanttChart := clear
    m_TaskGroupIDToImage_Attributes := clear
    m_TaskGroupIDToImage_GanttChart := clear
    m_TaskIDToRowImageHeight := clear
    m_GroupIDToRowImageHeight := clear }

/-- A helper record of library routines for the sample stores: ids ordered by
their text, strings in ascending order, decimal parsing, dates left as text. -/
def sampleHelper : StringHelper where
  SortHash := fun hash => (hash.insertionSort (fun a b => a.2 ≤ b.2)).map (fun p => p.1)
  sort := fun list => list.insertionSort (fun a b => a ≤ b)
  toInt := fun text => text.toInt?.getD 0
  dateToString := fun text _ => text

/-- A sample text layout: every fragment is one line of 16 pixels, whatever
the width. -/
def sampleText : QTextDocument where
  addHeight := fun this_height _ _ => this_height + 16

/-- Sample stores: tasks 1 (A), 2 (B) and 3 (C) under root 0 and the
finish-to-start link 10 from task 2 to task 3; group 7 exists and is empty. -/
def scenarioStores : Stores where
  items := {
    DoesIDExist := fun id => id = 1 || id = 2 || id = 3
    GetInformation := fun id info =>
      match info with
      | .Information_Reference => if id = 1 then "A" else if id = 2 then "B" else "C"
      | .Information_Title => if id = 1 then "Plan" else if id = 2 then "Build" else "Ship"
      | _ => ""
    GetAttachmentIDs := fun _ => []
    GetCommentIDs := fun _ => []
    GetResourceIDs := fun _ => [] }
  groups := {
    ROOT_ID := 0
    DoesIDExist := fun id => id = 0 || id = 7
    GetInformation := fun _ _ => ""
    GetElementIDs := fun id =>
      if id = 0 then
        [(1, ElementType_TaskID), (2, ElementType_TaskID), (3, ElementType_TaskID)]
      else []
    GetParentGroupIDForTaskID := fun _ => 0
    GetParentGroupIDForGroupID := fun _ => 0 }
  links := {
    GetInformation := fun id info =>
      if id = 10 then
        match info with
        | .Information_PredecessorID => "2"
        | .Information_SuccessorID => "3"
        | .Information_ConnectionType => "finish to start"
        | _ => ""
      else ""
    GetIDsForSuccessorTaskID := fun id => if id = 3 then [10] else []
    GetIDsForPredecessorTaskID := fun id => if id = 2 then [10] else []
    GetSuccessorTaskIDsForTaskID := fun id => if id = 2 then [3] else []
    GetPredecessorTaskIDsForTaskID := fun id => if id = 3 then [2] else [] }
  attachments := { GetInformation := fun _ _ => "" }
  comments := { GetInformation := fun _ _ => "", GetResourcesMentioned := fun _ => [] }
  resources := { GetInformation := fun _ _ => "" }
  helper := sampleHelper
  text := sampleText

/-- The constructed editor of the scenario with every task's row rendered:
task 3 holds a cached Predecessors fragment, tasks 1, 2 and 3 hold a cached
Title fragment, an attributes image, a Gantt image and a row height; group 7
holds a cached Title fragment. -/
def scenarioEditor : Editor :=
  { Editor.constructed scenarioStores.groups with
    m_TaskIDAttributeContent := fun id attr =>
      if attr = Attribute_Title ∧ (id = 1 ∨ id = 2 ∨ id = 3) then some ["cached title"]
      else if attr = Attribute_Predecessors ∧ id = 3 then some ["B (Build), FS"]
      else none
    m_TaskIDAttributeData := fun id attr =>
      if attr = Attribute_Title ∧ (id = 1 ∨ id = 2 ∨ id = 3) then some []
      else if attr = Attribute_Predecessors ∧ id = 3 then some [10]
      else none
    m_GroupIDAttributeContent := fun id attr =>
      if attr = Attribute_Title ∧ id = 7 then some ["Later"] else none
    m_GroupIDAttributeData := fun id attr =>
      if attr = Attribute_Title ∧ id = 7 then some [] else none
    m_TaskItemIDToImage_Attributes := fun id => if id = 1 ∨ id = 2 ∨ id = 3 then some 1 else none
    m_TaskItemIDToImage_GanttChart := fun id => if id = 1 ∨ id = 2 ∨ id = 3 then some 2 else none
    m_TaskIDToRowImageHeight := fun id => if id = 1 ∨ id = 2 ∨ id = 3 then some 20 else none }

/-- The scenario editor while the separator right of the Title column is
being dragged: the drag started at x = 320 with the Title column 200 wide. -/
def dragEditor : Editor :=
  { scenarioEditor with
    m_DragStartPosition := (320, 10)
    m_DragAttributeWidth_Attribute := Attribute_Title
    m_DragAttributeWidth_OriginalWidth := 200 }

/-! ## Group handlers -/

/-- The loop "Remove cached content" of `GroupInformationChanged`. -/
def GroupInformationChanged_Content (mcGroupID : Int) (attributes : List Attributes)
    (e : Editor) : Editor × Bool :=
  attributes.foldl (fun acc attr =>
    ({ acc.1 with
        m_GroupIDAttributeContent := remove2 acc.1.m_GroupIDAttributeContent mcGroupID attr },
      acc.2 || decide (attr ∈ acc.1.m_VisibleAttributes))) (e, false)

/-- The locals of `GroupInformationChanged` while it walks child elements:
the editor, `affected_group_ids`, `affected_task_ids` and, in the
full-hierarchy walk, `remaining_group_ids`. -/
structure GroupWalk where
  editor : Editor
  affected_group_ids : List Int
  affected_task_ids : List Int
  remaining_group_ids : List Int

/-- The switch over one child in the parent-group walk. `Except.error` carries
the editor at the `return` of the default case. -/
def GroupInformationChanged_Child (walk : GroupWalk)
    (child : Int × AllTaskGroups.ElementType) : Except Editor GroupWalk :=
  match child.2 with
  | ElementType_TaskID =>
    .ok { walk with
      editor := { walk.editor with
        m_TaskIDAttributeContent :=
          remove2 walk.editor.m_TaskIDAttributeContent child.1 Attribute_Title }
      affected_task_ids := walk.affected_task_ids ++ [child.1] }
  | ElementType_GroupID =>
    .ok { walk with
      editor := { walk.editor with
        m_GroupIDAttributeContent :=
          remove2 walk.editor.m_GroupIDAttributeContent child.1 Attribute_Title }
      affected_group_ids := walk.affected_group_ids ++ [child.1] }
  | ElementType_Invalid => .error walk.editor

/-- The switch over one child in the full-hierarchy walk: a group child is
also queued. -/
def GroupInformationChanged_HierarchyChild (walk : GroupWalk)
    (child : Int × AllTaskGroups.ElementType) : Except Editor GroupWalk :=
  match child.2 with
  | ElementType_TaskID =>
    .ok { walk with
      editor := { walk.editor with
        m_TaskIDAttributeContent :=
          remove2 walk.editor.m_TaskIDAttributeContent child.1 Attribute_Title }
      affected_task_ids := walk.affected_task_ids ++ [child.1] }
  | ElementType_GroupID =>
    .ok { walk with
      editor := { walk.editor with
        m_GroupIDAttributeContent :=
          remove2 walk.editor.m_GroupIDAttributeContent child.1 Attribute_Title }
      affected_group_ids := walk.affected_group_ids ++ [child.1]
      remaining_group_ids := walk.remaining_group_ids ++ [child.1] }
  | ElementType_Invalid => .error walk.editor

/-- The `while (!remaining_group_ids.isEmpty())` loop of the full-hierarchy
walk. The fuel bounds the number of groups taken from the queue; `none` means
it ran out. -/
def GroupInformationChanged_Hierarchy (ag : AllTaskGroups) :
    Nat → GroupWalk → Option (Except Editor GroupWalk)
  | fuel, walk =>
    match walk.remaining_group_ids with
    | [] => some (.ok walk)
    | group_id :: rest =>
      match fuel with
      | 0 => none
      | fuel + 1 =>
        match (ag.GetElementIDs group_id).foldlM GroupInformationChanged_HierarchyChild
            { walk with remaining_group_ids := rest } with
        | .error e => some (.error e)
        | .ok walk1 => GroupInformationChanged_Hierarchy ag fuel walk1

/-- The block "Remove cached images and row height" of
`GroupInformationChanged`. -/
def GroupInformationChanged_Rows (walk : GroupWalk) : Editor :=
  walk.affected_task_ids.foldl RemoveCachedTaskRow
    (walk.affected_group_ids.foldl RemoveCachedGroupRow walk.editor)

open AllTaskGroups.Information in
/-- The slot `GroupInformationChanged`. The fuel is that of the
full-hierarchy walk. -/
def GroupInformationChanged (st : Stores) (fuel : Nat) (e : Editor) (mcGroupID : Int)
    (mcInformation : AllTaskGroups.Information) : Option Editor :=
  if st.groups.DoesIDExist mcGroupID = false then
    some e
  else
    match m_GroupInformationToAffectedAttributes mcInformation with
    | none => some e
    | some attributes =>
      let removed := GroupInformationChanged_Content mcGroupID attributes e
      let is_visible_change := removed.2
      let walk : GroupWalk := {
        editor := removed.1
        affected_group_ids := if is_visible_change then [mcGroupID] else []
        affected_task_ids := []
        remaining_group_ids := [] }
      if mcInformation = Information_Title ∧ Attribute_Title ∈ walk.editor.m_VisibleAttributes then
        if walk.editor.m_AttributeDisplayFormat Attribute_Title =
            AttributeDisplayFormat_TitleAndParentGroup then
          match (st.groups.GetElementIDs mcGroupID).foldlM GroupInformationChanged_Child walk with
          | .error e1 => some e1
          | .ok walk1 => some (GroupInformationChanged_Rows walk1)
        else if walk.editor.m_AttributeDisplayFormat Attribute_Title =
            AttributeDisplayFormat_TitleAndFullHierarchy then
          match GroupInformationChanged_Hierarchy st.groups fuel
              { walk with remaining_group_ids := [mcGroupID] } with
          | none => none
          | some (.error e1) => some e1
          | some (.ok walk1) => some (GroupInformationChanged_Rows walk1)
        else
          some (GroupInformationChanged_Rows walk)
      else
        some (GroupInformationChanged_Rows walk)

/-- The loop over the members of one group in `GroupMembersChanged`: a group
member is queued, any other member loses its attributes image and its row
height. -/
def GroupMembersChanged_Members (members : List (Int × AllTaskGroups.ElementType))
    (acc : Editor × List Int) : Editor × List Int :=
  members.foldl (fun acc member =>
    let element_id := member.1
    let element_type := member.2
    if element_type = ElementType_GroupID then
      (acc.1, acc.2 ++ [element_id])
    else
      ({ acc.1 with
          m_TaskItemIDToImage_Attributes := remove acc.1.m_TaskItemIDToImage_Attributes element_id
          m_TaskIDToRowImageHeight := remove acc.1.m_TaskIDToRowImageHeight element_id },
        acc.2)) acc

/-- The `while (!group_ids.isEmpty())` loop of `GroupMembersChanged`. The fuel
bounds the number of groups taken from the queue. -/
def GroupMembersChanged_Loop (ag : AllTaskGroups) : Nat → List Int → Editor → Option Editor
  | _, [], e => some e
  | 0, _ :: _, _ => none
  | fuel + 1, group_id :: rest, e =>
    let e1 := { e with
      m_TaskGroupIDToImage_Attributes := remove e.m_TaskGroupIDToImage_Attributes group_id
      m_TaskGroupIDToImage_GanttChart := remove e.m_TaskGroupIDToImage_GanttChart group_id
      m_GroupIDToRowImageHeight := remove e.m_GroupIDToRowImageHeight group_id }
    let acc := GroupMembersChanged_Members (ag.GetElementIDs group_id) (e1, rest)
    GroupMembersChanged_Loop ag fuel acc.2 acc.1

/-- The slot `GroupMembersChanged`: rebuild the visible ids, then drop row
caches from the group down. -/
def GroupMembersChanged (ag : AllTaskGroups) (fuel : Nat) (e : Editor) (mcGroupID : Int) :
    Option Editor :=
  match UpdateVisibleIDs ag fuel e with
  | none => none
  | some e1 => GroupMembersChanged_Loop ag fuel [mcGroupID] e1

/-- The constructed editor over the sample hierarchy with the rows of group 2,
group 4 and tasks 3 and 5 rendered, and their Title fragments cached. -/
def sampleEditor : Editor :=
  { Editor.constructed sampleGroups with
    m_ExpandedTaskGroups := [0, 2, 4]
    m_TaskIDAttributeContent := fun id attr =>
      if attr = Attribute_Title ∧ (id = 1 ∨ id = 3 ∨ id = 5) then some ["task title"] else none
    m_GroupIDAttributeContent := fun id attr =>
      if attr = Attribute_Title ∧ (id = 2 ∨ id = 4) then some ["group title"] else none
    m_TaskItemIDToImage_Attributes := fun id => if id = 3 ∨ id = 5 then some 1 else none
    m_TaskItemIDToImage_GanttChart := fun id => if id = 3 ∨ id = 5 then some 2 else none
    m_TaskIDToRowImageHeight := fun id => if id = 3 ∨ id = 5 then some 20 else none
    m_TaskGroupIDToImage_Attributes := fun id => if id = 2 ∨ id = 4 then some 3 else none
    m_TaskGroupIDToImage_GanttChart := fun id => if id = 2 ∨ id = 4 then some 4 else none
    m_GroupIDToRowImageHeight := fun id => if id = 2 ∨ id = 4 then some 20 else none }

/-! ### Subtrees -/

/-- The ids of the tasks that are direct children. -/
def Element.directTaskIDs : List Element → List Int
  | [] => []
  | .task id :: rest => id :: Element.directTaskIDs rest
  | .group _ _ :: rest => Element.directTaskIDs rest

/-- The ids of the groups that are direct children. -/
def Element.directGroupIDs : List Element → List Int
  | [] => []
  | .task _ :: rest => Element.directGroupIDs rest
  | .group id _ :: rest => id :: Element.directGroupIDs rest

/-- The groups that are direct children, each with its own children. -/
def Element.subgroups : List Element → List (Int × List Element)
  | [] => []
  | .task _ :: rest => Element.subgroups rest
  | .group id children :: rest => (id, children) :: Element.subgroups rest

mutual
/-- The ids of all tasks in the subtree of an element. -/
def Element.taskIDs : Element → List Int
  | .task id => [id]
  | .group _ children => Element.taskIDsAll children
/-- The ids of all tasks in the subtrees of a list of siblings. -/
def Element.taskIDsAll : List Element → List Int
  | [] => []
  | element :: rest => Element.taskIDs element ++ Element.taskIDsAll rest
end

mutual
/-- The ids of all groups in the subtree of an element, itself included. -/
def Element.groupIDs : Element → List Int
  | .task _ => []
  | .group id children => id :: Element.groupIDsAll children
/-- The ids of all groups in the subtrees of a list of siblings. -/
def Element.groupIDsAll : List Element → List Int
  | [] => []
  | element :: rest => Element.groupIDs element ++ Element.groupIDsAll rest
end

/-- A content hash with the Title entries of the listed ids removed. -/
def dropTitles (hash : Int → Attributes → Option (List String)) (ids : List Int) :
    Int → Attributes → Option (List String) :=
  fun k a => if a = Attribute_Title ∧ k ∈ ids then none else hash k a

/-- Number of groups a queue of subtrees holds in total. -/
def queueCount (queue : List (Int × List Element)) : Nat :=
  (queue.map (fun p => 1 + (Element.groupIDsAll p.2).length)).sum

/-- Sample stores over the sample hierarchy: the tasks 1, 3, 5 and 6 exist. -/
def sampleStores : Stores :=
  { scenarioStores with
    groups := sampleGroups
    items := { scenarioStores.items with
      DoesIDExist := fun id => id = 1 || id = 3 || id = 5 || id = 6 } }

/-- The sample editor with the Title column showing the full hierarchy. -/
def hierarchyEditor : Editor :=
  { sampleEditor with
    m_AttributeDisplayFormat :=
      Function.update sampleEditor.m_AttributeDisplayFormat Attribute_Title
        AttributeDisplayFormat_TitleAndFullHierarchy }

/-- The sample editor with the Title column showing the parent group. -/
def parentEditor : Editor :=
  { sampleEditor with
    m_AttributeDisplayFormat :=
      Function.update sampleEditor.m_AttributeDisplayFormat Attribute_Title
        AttributeDisplayFormat_TitleAndParentGroup }

/-! ## Content cache -/

/-- The assignment `hash[key] = value` on a local `QHash<int, QString>`, kept
as a list of key-value pairs with distinct keys. -/
def hashInsert (hash : List (Int × String)) (key : Int) (value : String) :
    List (Int × String) :=
  if hash.any (fun p => p.1 = key) then
    hash.map (fun p => if p.1 = key then (key, value) else p)
  else
    hash ++ [(key, value)]

/-- The read `hash[key]` on a local `QHash<int, QString>`. -/
def hashValue (hash : List (Int × String)) (key : Int) : String :=
  match hash.find? (fun p => p.1 = key) with
  | some p => p.2
  | none => ""

/-- The statement `cache[outer][inner] << item` on a content hash. -/
def append2 (hash : Int → Attributes → Option (List String)) (outer : Int)
    (inner : Attributes) (item : String) : Int → Attributes → Option (List String) :=
  insert2 hash outer inner ((hash outer inner).getD [] ++ [item])

/-- The common tail of the list-valued formatters: clear both entries, append
the text of every sorted id, store the sorted ids. -/
def StoreSortedContent (e : Editor) (mcTaskID : Int) (attr : Attributes)
    (all_texts : List (Int × String)) (sorted_ids : List Int) : Editor :=
  let content := insert2 e.m_TaskIDAttributeContent mcTaskID attr []
  let data := insert2 e.m_TaskIDAttributeData mcTaskID attr []
  let content := sorted_ids.foldl (fun content id =>
    append2 content mcTaskID attr (hashValue all_texts id)) content
  let data := insert2 data mcTaskID attr sorted_ids
  { e with m_TaskIDAttributeContent := content, m_TaskIDAttributeData := data }

/-- The common tail of the single-valued formatters: the content entry holds
the one text, the id list is empty. -/
def StoreSingleContent (e : Editor) (mcTaskID : Int) (attr : Attributes) (content : String) :
    Editor :=
  { e with
    m_TaskIDAttributeContent :=
      append2 (insert2 e.m_TaskIDAttributeContent mcTaskID attr []) mcTaskID attr content
    m_TaskIDAttributeData := insert2 e.m_TaskIDAttributeData mcTaskID attr [] }

/-- The method `UpdateTaskContent_Attachments`. -/
def UpdateTaskContent_Attachments (st : Stores) (e : Editor) (mcTaskID : Int)
    (_mcrTaskInfo : AllTaskItems.Information → String) : Editor :=
  let attachment_ids := st.items.GetAttachmentIDs mcTaskID
  let all_attachments := attachment_ids.foldl (fun hash attachment_id =>
    hashInsert hash attachment_id
      (st.attachments.GetInformation attachment_id .Information_Name)) []
  let sorted_attachment_ids := st.helper.SortHash all_attachments
  StoreSortedContent e mcTaskID Attribute_Attachments all_attachments sorted_attachment_ids

/-- The method `UpdateTaskContent_Comments`. -/
def UpdateTaskContent_Comments (st : Stores) (e : Editor) (mcTaskID : Int)
    (_mcrTaskInfo : AllTaskItems.Information → String) : Editor :=
  let comment_ids := st.items.GetCommentIDs mcTaskID
  match e.m_AttributeDisplayFormat Attribute_Comments with
  | AttributeDisplayFormat_CommentTitles =>
    let all_comments := comment_ids.foldl (fun hash comment_id =>
      hashInsert hash comment_id (st.comments.GetInformation comment_id .Information_Title)) []
    let sorted_comment_ids := st.helper.SortHash all_comments
    StoreSortedContent e mcTaskID Attribute_Comments all_comments sorted_comment_ids
  | AttributeDisplayFormat_CommentResponsibilities =>
    let all_resources := comment_ids.foldl (fun all_resources comment_id =>
      (st.comments.GetResourcesMentioned comment_id).foldl (fun all_resources this_resource =>
        if this_resource ∉ all_resources then all_resources ++ [this_resource]
        else all_resources) all_resources) []
    let all_resources := st.helper.sort all_resources
    { e with
      m_TaskIDAttributeContent :=
        insert2 e.m_TaskIDAttributeContent mcTaskID Attribute_Comments all_resources
      m_TaskIDAttributeData := insert2 e.m_TaskIDAttributeData mcTaskID Attribute_Comments [] }
  | _ => e

/-- The method `UpdateTaskContent_CompletionStatus`. -/
def UpdateTaskContent_CompletionStatus (e : Editor) (mcTaskID : Int)
    (mcrTaskInfo : AllTaskItems.Information → String) : Editor :=
  let status := mcrTaskInfo .Information_CompletionStatus
  match e.m_AttributeDisplayFormat Attribute_CompletionStatus with
  | AttributeDisplayFormat_CompletionStatusText =>
    StoreSingleContent e mcTaskID Attribute_CompletionStatus status
  | AttributeDisplayFormat_CompletionStatusPercent =>
    StoreSingleContent e mcTaskID Attribute_CompletionStatus
      (if status = "not started" then "0%"
       else if status = "started" then "50%"
       else if status = "completed" then "100%"
       else "")
  | AttributeDisplayFormat_CompletionStatusSymbol =>
    StoreSingleContent e mcTaskID Attribute_CompletionStatus
      (if status = "not started" then "&hellip;"
       else if status = "started" then "<font color=\"blue\"><b>&#x21E8;</b></font>"
       else if status = "completed" then "<font color=\"green\"><b>&#x2713;</b></font>"
       else "")
  | _ => e

/-- The method `UpdateTaskContent_CriticalPath`. -/
def UpdateTaskContent_CriticalPath (e : Editor) (mcTaskID : Int)
    (mcrTaskInfo : AllTaskItems.Information → String) : Editor :=
  match e.m_AttributeDisplayFormat Attribute_CriticalPath with
  | AttributeDisplayFormat_YesNo =>
    StoreSingleContent e mcTaskID Attribute_CriticalPath
      (mcrTaskInfo .Information_IsOnCriticalPath)
  | AttributeDisplayFormat_RedGreen =>
    StoreSingleContent e mcTaskID Attribute_CriticalPath
      (if mcrTaskInfo .Information_IsOnCriticalPath = "yes" then
        "<font color=\"red\">&#x25FC;</font>"
       else "<font color=\"green\">&#x25FC;</font>")
  | _ => e

/-- The method `UpdateTaskContent_Duration`. -/
def UpdateTaskContent_Duration (e : Editor) (mcTaskID : Int)
    (mcrTaskInfo : AllTaskItems.Information → String) : Editor :=
  StoreSingleContent e mcTaskID Attribute_Duration
    (mcrTaskInfo .Information_DurationValue ++ mcrTaskInfo .Information_DurationUnits)

/-- The method `UpdateTaskContent_FinishDate`. Under the ISO-date-only format
the content is the early finish text itself. -/
def UpdateTaskContent_FinishDate (st : Stores) (e : Editor) (mcTaskID : Int)
    (mcrTaskInfo : AllTaskItems.Information → String) : Editor :=
  let date :=
    if mcrTaskInfo .Information_ActualFinish ≠ "" then mcrTaskInfo .Information_ActualFinish
    else mcrTaskInfo .Information_EarlyFinish
  match e.m_AttributeDisplayFormat Attribute_FinishDate with
  | AttributeDisplayFormat_ISODateOnly =>
    StoreSingleContent e mcTaskID Attribute_FinishDate (mcrTaskInfo .Information_EarlyFinish)
  | AttributeDisplayFormat_ISODateWithWeekday =>
    StoreSingleContent e mcTaskID Attribute_FinishDate
      (st.helper.dateToString date "yyyy-MM-dd (ddd)")
  | AttributeDisplayFormat_LongDateOnly =>
    StoreSingleContent e mcTaskID Attribute_FinishDate
      (st.helper.dateToString date "dd MMM yyyy")
  | AttributeDisplayFormat_LongDateWithWeekday =>
    StoreSingleContent e mcTaskID Attribute_FinishDate
      (st.helper.dateToString date "ddd, dd MMM yyyy")
  | _ => e

/-- The method `UpdateTaskContent_ID`. -/
def UpdateTaskContent_ID (e : Editor) (mcTaskID : Int)
    (mcrTaskInfo : AllTaskItems.Information → String) : Editor :=
  StoreSingleContent e mcTaskID Attribute_ID (mcrTaskInfo .Information_Reference)

/-- The text appended to a link's label for its connection type, lead and
lag, as `UpdateTaskContent_Predecessors` and `UpdateTaskContent_Successors`
build it. -/
def LinkSuffix (st : Stores) (link_info : AllTaskLinks.Information → String) : String :=
  let text :=
    if link_info .Information_ConnectionType = "finish to start" then
      let text :=
        if st.helper.toInt (link_info .Information_LeadDuration) ≠ 0 then
          ", FS" ++ link_info .Information_LeadDuration ++ " " ++
            link_info .Information_LeadUnits
        else ""
      if st.helper.toInt (link_info .Information_LagDuration) ≠ 0 then text ++ ", FS"
      else text
    else if link_info .Information_ConnectionType = "finish to finish" then ", FF"
    else if link_info .Information_ConnectionType = "start to finish" then ", SF"
    else if link_info .Information_ConnectionType = "start to start" then ", SS"
    else ""
  if st.helper.toInt (link_info .Information_LagDuration) ≠ 0 then
    text ++ "+" ++ link_info .Information_LeadDuration ++ " " ++
      link_info .Information_LeadUnits
  else text

/-- The loop over the links in `UpdateTaskContent_Predecessors` and
`UpdateTaskContent_Successors`; `none` is the `return` of the default case of
the format switch. -/
def LinkTexts (st : Stores) (format : AttributeDisplayFormat)
    (other : AllTaskLinks.Information) (link_ids : List Int) : Option (List (Int × String)) :=
  link_ids.foldlM (fun all_links link_id =>
    let link_info := st.links.GetInformation link_id
    let other_id := st.helper.toInt (link_info other)
    let other_info := st.items.GetInformation other_id
    match format with
    | AttributeDisplayFormat_ReferencesWithTitle =>
      some (hashInsert all_links link_id
        (other_info .Information_Reference ++ " (" ++ other_info .Information_Title ++ ")" ++
          LinkSuffix st link_info))
    | AttributeDisplayFormat_ReferencesOnly =>
      some (hashInsert all_links link_id
        (other_info .Information_Reference ++ LinkSuffix st link_info))
    | _ => none) []

/-- The method `UpdateTaskContent_Predecessors`. -/
def UpdateTaskContent_Predecessors (st : Stores) (e : Editor) (mcTaskID : Int)
    (_mcrTaskInfo : AllTaskItems.Information → String) : Editor :=
  let link_ids := st.links.GetIDsForSuccessorTaskID mcTaskID
  match LinkTexts st (e.m_AttributeDisplayFormat Attribute_Predecessors)
      .Information_PredecessorID link_ids with
  | none => e
  | some all_links =>
    let sorted_link_ids := st.helper.SortHash all_links
    StoreSortedContent e mcTaskID Attribute_Predecessors all_links sorted_link_ids

/-- The method `UpdateTaskContent_Resources`. -/
def UpdateTaskContent_Resources (st : Stores) (e : Editor) (mcTaskID : Int)
    (_mcrTaskInfo : AllTaskItems.Information → String) : Editor :=
  let resource_ids := st.items.GetResourceIDs mcTaskID
  let all_resources := resource_ids.foldl (fun hash resource_id =>
    hashInsert hash resource_id (st.resources.GetInformation resource_id .Information_Name)) []
  let sorted_resource_ids := st.helper.SortHash all_resources
  StoreSortedContent e mcTaskID Attribute_Resources all_resources sorted_resource_ids

/-- The method `UpdateTaskContent_SlackCalendarDays`. -/
def UpdateTaskContent_SlackCalendarDays (e : Editor) (mcTaskID : Int)
    (mcrTaskInfo : AllTaskItems.Information → String) : Editor :=
  StoreSingleContent e mcTaskID Attribute_SlackCalendarDays
    (mcrTaskInfo .Information_SlackCalendarDays)

/-- The method `UpdateTaskContent_SlackWorkdays`. Its body reads and writes
the calendar-days keys. -/
def UpdateTaskContent_SlackWorkdays (e : Editor) (mcTaskID : Int)
    (mcrTaskInfo : AllTaskItems.Information → String) : Editor :=
  StoreSingleContent e mcTaskID Attribute_SlackCalendarDays
    (mcrTaskInfo .Information_SlackCalendarDays)

/-- The method `UpdateTaskContent_StartDate`. -/
def UpdateTaskContent_StartDate (st : Stores) (e : Editor) (mcTaskID : Int)
    (mcrTaskInfo : AllTaskItems.Information → String) : Editor :=
  let date :=
    if mcrTaskInfo .Information_ActualStart ≠ "" then mcrTaskInfo .Information_ActualStart
    else mcrTaskInfo .Information_EarlyStart
  match e.m_AttributeDisplayFormat Attribute_StartDate with
  | AttributeDisplayFormat_ISODateOnly =>
    StoreSingleContent e mcTaskID Attribute_StartDate (st.helper.dateToString date "yyyy-MM-dd")
  | AttributeDisplayFormat_ISODateWithWeekday =>
    StoreSingleContent e mcTaskID Attribute_StartDate
      (st.helper.dateToString date "yyyy-MM-dd (ddd)")
  | AttributeDisplayFormat_LongDateOnly =>
    StoreSingleContent e mcTaskID Attribute_StartDate
      (st.helper.dateToString date "dd MMM yyyy")
  | AttributeDisplayFormat_LongDateWithWeekday =>
    StoreSingleContent e mcTaskID Attribute_StartDate
      (st.helper.dateToString date "ddd, dd MMM yyyy")
  | _ => e

/-- The method `UpdateTaskContent_Successors`. -/
def UpdateTaskContent_Successors (st : Stores) (e : Editor) (mcTaskID : Int)
    (_mcrTaskInfo : AllTaskItems.Information → String) : Editor :=
  let link_ids := st.links.GetIDsForPredecessorTaskID mcTaskID
  match LinkTexts st (e.m_AttributeDisplayFormat Attribute_Successors)
      .Information_SuccessorID link_ids with
  | none => e
  | some all_links =>
    let sorted_link_ids := st.helper.SortHash all_links
    StoreSortedContent e mcTaskID Attribute_Successors all_links sorted_link_ids

/-- The loop `while (parent_id != ROOT_ID)` of the full-hierarchy title: the
titles of the group and of its ancestors, nearest first. The fuel bounds the
number of passes; `none` means it ran out. -/
def ParentNames (ag : AllTaskGroups) : Nat → Int → Option (List String)
  | fuel, parent_id =>
    if parent_id = ag.ROOT_ID then
      some []
    else
      match fuel with
      | 0 => none
      | fuel + 1 =>
        match ParentNames ag fuel (ag.GetParentGroupIDForGroupID parent_id) with
        | none => none
        | some parent_names =>
          some (ag.GetInformation parent_id .Information_Title :: parent_names)

/-- The method `UpdateTaskContent_Title`; `none` means the fuel of the parent
walk ran out. -/
def UpdateTaskContent_Title (st : Stores) (fuel : Nat) (e : Editor) (mcTaskID : Int)
    (mcrTaskInfo : AllTaskItems.Information → String) : Option Editor :=
  match e.m_AttributeDisplayFormat Attribute_Title with
  | AttributeDisplayFormat_TitleOnly =>
    some (StoreSingleContent e mcTaskID Attribute_Title (mcrTaskInfo .Information_Title))
  | AttributeDisplayFormat_TitleAndParentGroup =>
    let parent_id := st.groups.GetParentGroupIDForTaskID mcTaskID
    if parent_id ≠ st.groups.ROOT_ID then
      some (StoreSingleContent e mcTaskID Attribute_Title
        (st.groups.GetInformation parent_id .Information_Title ++ ": " ++
          mcrTaskInfo .Information_Title))
    else
      some (StoreSingleContent e mcTaskID Attribute_Title (mcrTaskInfo .Information_Title))
  | AttributeDisplayFormat_TitleAndFullHierarchy =>
    match ParentNames st.groups fuel (st.groups.GetParentGroupIDForTaskID mcTaskID) with
    | none => none
    | some parent_names =>
      some (StoreSingleContent e mcTaskID Attribute_Title
        (String.intercalate "/" parent_names ++ ": " ++ mcrTaskInfo .Information_Title))
  | _ => some e

/-- The switch of `GetTaskContent` over the attribute. The outer `none` means
the fuel ran out, the inner `none` is the `return` of the default case. -/
def UpdateTaskContent (st : Stores) (fuel : Nat) (e : Editor) (mcTaskID : Int)
    (mcAttribute : Attributes) (task_info : AllTaskItems.Information → String) :
    Option (Option Editor) :=
  match mcAttribute with
  | Attribute_Attachments => some (some (UpdateTaskContent_Attachments st e mcTaskID task_info))
  | Attribute_Comments => some (some (UpdateTaskContent_Comments st e mcTaskID task_info))
  | Attribute_CompletionStatus =>
    some (some (UpdateTaskContent_CompletionStatus e mcTaskID task_info))
  | Attribute_CriticalPath => some (some (UpdateTaskContent_CriticalPath e mcTaskID task_info))
  | Attribute_Duration => some (some (UpdateTaskContent_Duration e mcTaskID task_info))
  | Attribute_FinishDate => some (some (UpdateTaskContent_FinishDate st e mcTaskID task_info))
  | Attribute_ID => some (some (UpdateTaskContent_ID e mcTaskID task_info))
  | Attribute_Predecessors =>
    some (some (UpdateTaskContent_Predecessors st e mcTaskID task_info))
  | Attribute_Resources => some (some (UpdateTaskContent_Resources st e mcTaskID task_info))
  | Attribute_SlackCalendarDays =>
    some (some (UpdateTaskContent_SlackCalendarDays e mcTaskID task_info))
  | Attribute_SlackWorkdays =>
    some (some (UpdateTaskContent_SlackWorkdays e mcTaskID task_info))
  | Attribute_StartDate => some (some (UpdateTaskContent_StartDate st e mcTaskID task_info))
  | Attribute_Successors => some (some (UpdateTaskContent_Successors st e mcTaskID task_info))
  | Attribute_Title =>
    match UpdateTaskContent_Title st fuel e mcTaskID task_info with
    | none => none
    | some e1 => some (some e1)
  | _ => some none

/-- The markup put around every fragment: the paragraph of the alignment
(its value read at `Attribute_ID`) when the attribute's alignment is not
empty, then the text style. -/
def StyleMarkup (e : Editor) (mcAttribute : Attributes) (text_style : String) :
    String × String :=
  let html : String × String :=
    if e.m_AttributeContentAlignment mcAttribute ≠ "" then
      ("<p align=\"" ++ e.m_AttributeContentAlignment Attribute_ID ++ "\">", "</p>")
    else ("", "")
  if text_style = "bold" then (html.1 ++ "<b>", "</b>" ++ html.2)
  else if text_style = "italics" then (html.1 ++ "<i>", "</i>" ++ html.2)
  else if text_style = "bold italics" then (html.1 ++ "<b><i>", "</i></b>" ++ html.2)
  else html

/-- The return statement of `GetTaskContent`: both reads go through the
non-const `operator[]`, which binds an absent key to the empty list. -/
def TaskContentResult (e : Editor) (mcTaskID : Int) (mcAttribute : Attributes) :
    (List String × List Int) × Editor :=
  (((e.m_TaskIDAttributeContent mcTaskID mcAttribute).getD [],
    (e.m_TaskIDAttributeData mcTaskID mcAttribute).getD []),
   { e with
     m_TaskIDAttributeContent := insert2 e.m_TaskIDAttributeContent mcTaskID mcAttribute
       ((e.m_TaskIDAttributeContent mcTaskID mcAttribute).getD [])
     m_TaskIDAttributeData := insert2 e.m_TaskIDAttributeData mcTaskID mcAttribute
       ((e.m_TaskIDAttributeData mcTaskID mcAttribute).getD []) })

/-- The method `GetTaskContent`: the returned pair and the editor afterwards;
`none` means the fuel of the parent walk ran out. -/
def GetTaskContent (st : Stores) (fuel : Nat) (e : Editor) (mcTaskID : Int)
    (mcAttribute : Attributes) : Option ((List String × List Int) × Editor) :=
  if (e.m_TaskIDAttributeContent mcTaskID mcAttribute).isSome then
    some (TaskContentResult e mcTaskID mcAttribute)
  else
    let task_info := st.items.GetInformation mcTaskID
    match UpdateTaskContent st fuel e mcTaskID mcAttribute task_info with
    | none => none
    | some none => some (([], []), e)
    | some (some e1) =>
      let html := StyleMarkup e1 mcAttribute (task_info .Information_TextStyle)
      let e2 := { e1 with
        m_TaskIDAttributeContent := insert2 e1.m_TaskIDAttributeContent mcTaskID mcAttribute
          (((e1.m_TaskIDAttributeContent mcTaskID mcAttribute).getD []).map
            (fun item => html.1 ++ item ++ html.2)) }
      some (TaskContentResult e2 mcTaskID mcAttribute)

/-- The tail of the two group formatters: the content entry holds the one
text, the id list is empty. -/
def StoreSingleGroupContent (e : Editor) (mcGroupID : Int) (attr : Attributes)
    (content : String) : Editor :=
  { e with
    m_GroupIDAttributeContent :=
      append2 (insert2 e.m_GroupIDAttributeContent mcGroupID attr []) mcGroupID attr content
    m_GroupIDAttributeData := insert2 e.m_GroupIDAttributeData mcGroupID attr [] }

/-- The method `UpdateGroupContent_CompletionStatus`. -/
def UpdateGroupContent_CompletionStatus (e : Editor) (mcGroupID : Int)
    (mcrGroupInfo : AllTaskGroups.Information → String) : Editor :=
  match e.m_AttributeDisplayFormat Attribute_CompletionStatus with
  | AttributeDisplayFormat_CompletionStatusText =>
    StoreSingleGroupContent e mcGroupID Attribute_CompletionStatus ""
  | AttributeDisplayFormat_CompletionStatusPercent =>
    StoreSingleGroupContent e mcGroupID Attribute_CompletionStatus
      (mcrGroupInfo .Information_CompletionValue)
  | AttributeDisplayFormat_CompletionStatusSymbol =>
    StoreSingleGroupContent e mcGroupID Attribute_CompletionStatus ""
  | _ => e

/-- The method `UpdateGroupContent_Title`; `none` means the fuel of the parent
walk ran out. -/
def UpdateGroupContent_Title (st : Stores) (fuel : Nat) (e : Editor) (mcGroupID : Int)
    (mcrGroupInfo : AllTaskGroups.Information → String) : Option Editor :=
  let parent_id := st.helper.toInt (mcrGroupInfo .Information_ParentGroupID)
  match e.m_AttributeDisplayFormat Attribute_Title with
  | AttributeDisplayFormat_TitleOnly =>
    some (StoreSingleGroupContent e mcGroupID Attribute_Title (mcrGroupInfo .Information_Title))
  | AttributeDisplayFormat_TitleAndParentGroup =>
    if parent_id ≠ st.groups.ROOT_ID then
      some (StoreSingleGroupContent e mcGroupID Attribute_Title
        (st.groups.GetInformation parent_id .Information_Title ++ ": " ++
          mcrGroupInfo .Information_Title))
    else
      some (StoreSingleGroupContent e mcGroupID Attribute_Title
        (mcrGroupInfo .Information_Title))
  | AttributeDisplayFormat_TitleAndFullHierarchy =>
    match ParentNames st.groups fuel parent_id with
    | none => none
    | some parent_names =>
      some (StoreSingleGroupContent e mcGroupID Attribute_Title
        (String.intercalate "/" parent_names ++ ": " ++ mcrGroupInfo .Information_Title))
  | _ => some e

/-- The switch of `GetGroupContent` over the attribute. The outer `none` means
the fuel ran out, the inner `none` is one of the `return`s inside the switch:
groups have content for the completion status and the title only. -/
def UpdateGroupContent (st : Stores) (fuel : Nat) (e : Editor) (mcGroupID : Int)
    (mcAttribute : Attributes) (group_info : AllTaskGroups.Information → String) :
    Option (Option Editor) :=
  match mcAttribute with
  | Attribute_CompletionStatus =>
    some (some (UpdateGroupContent_CompletionStatus e mcGroupID group_info))
  | Attribute_Title =>
    match UpdateGroupContent_Title st fuel e mcGroupID group_info with
    | none => none
    | some e1 => some (some e1)
  | _ => some none

/-- The return statement of `GetGroupContent`. -/
def GroupContentResult (e : Editor) (mcGroupID : Int) (mcAttribute : Attributes) :
    (List String × List Int) × Editor :=
  (((e.m_GroupIDAttributeContent mcGroupID mcAttribute).getD [],
    (e.m_GroupIDAttributeData mcGroupID mcAttribute).getD []),
   { e with
     m_GroupIDAttributeContent := insert2 e.m_GroupIDAttributeContent mcGroupID mcAttribute
       ((e.m_GroupIDAttributeContent mcGroupID mcAttribute).getD [])
     m_GroupIDAttributeData := insert2 e.m_GroupIDAttributeData mcGroupID mcAttribute
       ((e.m_GroupIDAttributeData mcGroupID mcAttribute).getD []) })

/-- The method `GetGroupContent`: the returned pair and the editor afterwards;
`none` means the fuel of the parent walk ran out. -/
def GetGroupContent (st : Stores) (fuel : Nat) (e : Editor) (mcGroupID : Int)
    (mcAttribute : Attributes) : Option ((List String × List Int) × Editor) :=
  if (e.m_GroupIDAttributeContent mcGroupID mcAttribute).isSome then
    some (GroupContentResult e mcGroupID mcAttribute)
  else
    let group_info := st.groups.GetInformation mcGroupID
    match UpdateGroupContent st fuel e mcGroupID mcAttribute group_info with
    | none => none
    | some none => some (([], []), e)
    | some (some e1) =>
      let html := StyleMarkup e1 mcAttribute (group_info .Information_TextStyle)
      let e2 := { e1 with
        m_GroupIDAttributeContent := insert2 e1.m_GroupIDAttributeContent mcGroupID mcAttribute
          (((e1.m_GroupIDAttributeContent mcGroupID mcAttribute).getD []).map
            (fun item => html.1 ++ item ++ html.2)) }
      some (GroupContentResult e2 mcGroupID mcAttribute)


/-! ## Row heights and vertical scrolling

The `int` arithmetic of the source is carried out on `Int`; pixel sums are
taken to stay within the range of `int`. -/

/-- The read `list[index]` with an `int` index; `none` when the index is
outside the list, where the read of the source is undefined. -/
def listAt {α : Type} (list : List α) (index : Int) : Option α :=
  if index < 0 then none else list[index.toNat]?

/-- The method `GetRowImageHeight_TaskItem`: the returned height and the
editor afterwards. `none` means that the call has no defined result: a list
is read outside its range or the fuel of a parent walk ran out. -/
def GetRowImageHeight_TaskItem (st : Stores) (fuel : Nat) (e : Editor) (mcIndex : Int) :
    Option (Int × Editor) :=
  match listAt e.m_VisibleIDs mcIndex with
  | none => none
  | some task_id =>
    match e.m_TaskIDToRowImageHeight task_id with
    | some row_height => some (row_height, e)
    | none =>
      match e.m_VisibleAttributes.foldlM (fun (state : Int × Editor) attr =>
          if attr = Attribute_GanttChart then
            some (max state.1 state.2.m_GanttChart_BarHeight, state.2)
          else
            match GetTaskContent st fuel state.2 task_id attr with
            | none => none
            | some (content, e1) =>
              match (if attr = Attribute_Title then
                  (listAt e1.m_VisibleIDIndentation mcIndex).map (fun i => i * e1.m_IndentScale)
                else some 0) with
              | none => none
              | some indent =>
                let this_height := content.1.foldl (fun this_height html =>
                  st.text.addHeight this_height html
                    (e1.m_AttributeWidths attr - 2 * e1.m_AttributePadding - indent)) 0
                some (max state.1 this_height, e1)) (0, e) with
      | none => none
      | some (row_height, e1) =>
        some (row_height, { e1 with
          m_TaskIDToRowImageHeight := fun id =>
            if id = task_id then some row_height else e1.m_TaskIDToRowImageHeight id })

/-- The method `GetRowImageHeight_TaskGroup`. -/
def GetRowImageHeight_TaskGroup (st : Stores) (fuel : Nat) (e : Editor) (mcIndex : Int) :
    Option (Int × Editor) :=
  match listAt e.m_VisibleIDs mcIndex with
  | none => none
  | some group_id =>
    match e.m_GroupIDToRowImageHeight group_id with
    | some row_height => some (row_height, e)
    | none =>
      match e.m_VisibleAttributes.foldlM (fun (state : Int × Editor) attr =>
          if attr = Attribute_GanttChart then
            some (max state.1 state.2.m_GanttChart_BarHeight, state.2)
          else
            match GetGroupContent st fuel state.2 group_id attr with
            | none => none
            | some (content, e1) =>
              match (if attr = Attribute_Title then
                  (listAt e1.m_VisibleIDIndentation mcIndex).map (fun i => i * e1.m_IndentScale)
                else some 0) with
              | none => none
              | some indent =>
                let this_height := content.1.foldl (fun this_height html =>
                  st.text.addHeight this_height html
                    (e1.m_AttributeWidths attr - 2 * e1.m_AttributePadding - indent)) 0
                some (max state.1 this_height, e1)) (0, e) with
      | none => none
      | some (row_height, e1) =>
        some (row_height, { e1 with
          m_GroupIDToRowImageHeight := fun id =>
            if id = group_id then some row_height else e1.m_GroupIDToRowImageHeight id })

/-- The method `GetRowImageHeight`: a row of a task or of a group has the
height of its content plus the padding above and below; any other element
type is an error and gives 0. -/
def GetRowImageHeight (st : Stores) (fuel : Nat) (e : Editor) (mcIndex : Int) :
    Option (Int × Editor) :=
  match listAt e.m_VisibleIDTypes mcIndex with
  | none => none
  | some ElementType_TaskID =>
    match GetRowImageHeight_TaskItem st fuel e mcIndex with
    | none => none
    | some (row_height, e1) => some (row_height + 2 * e1.m_RowPadding, e1)
  | some ElementType_GroupID =>
    match GetRowImageHeight_TaskGroup st fuel e mcIndex with
    | none => none
    | some (row_height, e1) => some (row_height + 2 * e1.m_RowPadding, e1)
  | some ElementType_Invalid => some (0, e)

/-- The loop `for (index ...) top += GetRowImageHeight(index)` over `count`
rows from `index` on, starting from the sum `top`. -/
def SumRowImageHeights (st : Stores) (fuel : Nat) :
    Nat → Int → Int → Editor → Option (Int × Editor)
  | 0, _, top, e => some (top, e)
  | count + 1, index, top, e =>
    match GetRowImageHeight st fuel e index with
    | none => none
    | some (row_height, e1) =>
      SumRowImageHeights st fuel count (index + 1) (top + row_height) e1

/-- The method `GetMaximumTopOffset`. -/
def GetMaximumTopOffset (st : Stores) (fuel : Nat) (e : Editor) : Option (Int × Editor) :=
  match SumRowImageHeights st fuel e.m_VisibleIDs.length 0 0 e with
  | none => none
  | some (max_top, e1) => some (max (max_top - (e1.height - e1.m_HeaderHeight)) 0, e1)

/-- The method `GetTopOffset`. -/
def GetTopOffset (st : Stores) (fuel : Nat) (e : Editor) : Option (Int × Editor) :=
  match SumRowImageHeights st fuel e.m_TopIndex.toNat 0 0 e with
  | none => none
  | some (top, e1) =>
    if e1.m_TopIndex ≠ INVALID_INDEX then
      match GetRowImageHeight st fuel e1 e1.m_TopIndex with
      | none => none
      | some (row_height, e2) => some (top + (row_height - e2.m_TopOffset), e2)
    else
      some (top, e1)

/-- The loop of `SetTopOffset` over `count` rows from `index` on: the first
row whose height exceeds the remaining pixels `top` becomes the top row. -/
def SetTopOffset_Loop (st : Stores) (fuel : Nat) : Nat → Int → Int → Editor → Option Editor
  | 0, _, _, e => some e
  | count + 1, index, top, e =>
    match GetRowImageHeight st fuel e index with
    | none => none
    | some (row_height, e1) =>
      if top < row_height then
        match GetRowImageHeight st fuel e1 index with
        | none => none
        | some (height_again, e2) =>
          some { e2 with m_TopIndex := index, m_TopOffset := height_again - top }
      else
        match GetRowImageHeight st fuel e1 index with
        | none => none
        | some (height_again, e2) =>
          SetTopOffset_Loop st fuel count (index + 1) (top - height_again) e2

/-- The method `SetTopOffset`. A value outside the valid range is an error
whose message evaluates `GetMaximumTopOffset` once more. -/
def SetTopOffset (st : Stores) (fuel : Nat) (e : Editor) (mcNewTopOffset : Int) :
    Option Editor :=
  if mcNewTopOffset < 0 then
    (GetMaximumTopOffset st fuel e).map (fun result => result.2)
  else
    match GetMaximumTopOffset st fuel e with
    | none => none
    | some (max_top, e1) =>
      if mcNewTopOffset > max_top then
        (GetMaximumTopOffset st fuel e1).map (fun result => result.2)
      else
        SetTopOffset_Loop st fuel e1.m_VisibleIDs.length 0 mcNewTopOffset e1

/-- The method `GetMaximumLeftOffset`. -/
def GetMaximumLeftOffset (e : Editor) : Int :=
  max (e.m_AttributesTotalWidth + e.m_AttributeWidths Attribute_GanttChart - e.width) 0

/-- The method `SetLeftOffset`. -/
def SetLeftOffset (e : Editor) (mcNewLeftOffset : Int) : Editor :=
  if mcNewLeftOffset < 0 ∨ mcNewLeftOffset > GetMaximumLeftOffset e then
    e
  else
    { e with m_LeftOffset := mcNewLeftOffset }

/-- The height of row `index` measured in the state `e`: what
`GetRowImageHeight(index)` returns when it is called in that state (0 when
the call has no result). -/
def RowHeight (st : Stores) (fuel : Nat) (e : Editor) (index : Nat) : Int :=
  match GetRowImageHeight st fuel e index with
  | some result => result.1
  | none => 0

/-- The sum of the heights of the rows `0 .. count - 1`, each measured in the
state `e`. -/
def RowHeightSum (st : Stores) (fuel : Nat) (e : Editor) (count : Nat) : Int :=
  ((List.range count).map (RowHeight st fuel e)).sum

/-- The height of row `index` as the height caches hold it: the cached
content height of the task or group plus twice the row padding. -/
def CachedRowHeight (e : Editor) (index : Nat) : Int :=
  match e.m_VisibleIDTypes[index]?, e.m_VisibleIDs[index]? with
  | some ElementType_TaskID, some id =>
    (e.m_TaskIDToRowImageHeight id).getD 0 + 2 * e.m_RowPadding
  | some ElementType_GroupID, some id =>
    (e.m_GroupIDToRowImageHeight id).getD 0 + 2 * e.m_RowPadding
  | _, _ => 0

/-- The sum of the heights of the rows `0 .. count - 1`. -/
def SumCachedRowHeights (e : Editor) (count : Nat) : Int :=
  ((List.range count).map (CachedRowHeight e)).sum

/-- The editor with its four content hashes emptied: the part of the state
the content formatters leave alone. -/
def Editor.withoutContent (e : Editor) : Editor :=
  { e with
    m_TaskIDAttributeContent := fun _ _ => none
    m_TaskIDAttributeData := fun _ _ => none
    m_GroupIDAttributeContent := fun _ _ => none
    m_GroupIDAttributeData := fun _ _ => none }

/-- The editor with its content hashes and its two row-height caches emptied:
the part of the state the row-height computation leaves alone. -/
def Editor.withoutHeights (e : Editor) : Editor :=
  { e.withoutContent with
    m_TaskIDToRowImageHeight := clear
    m_GroupIDToRowImageHeight := clear }

/-- The part of the state the content of task `t` is computed from: the
editor without its caches, but with the two content entries of the task. -/
def Editor.focusTask (e : Editor) (t : Int) : Editor :=
  { e.withoutHeights with
    m_TaskIDAttributeContent := fun k a => if k = t then e.m_TaskIDAttributeContent t a else none
    m_TaskIDAttributeData := fun k a => if k = t then e.m_TaskIDAttributeData t a else none }

/-- The part of the state the content of group `g` is computed from: the
editor without its caches, but with the two content entries of the group. -/
def Editor.focusGroup (e : Editor) (g : Int) : Editor :=
  { e.withoutHeights with
    m_GroupIDAttributeContent := fun k a =>
      if k = g then e.m_GroupIDAttributeContent g a else none
    m_GroupIDAttributeData := fun k a => if k = g then e.m_GroupIDAttributeData g a else none }

/-- The step `F` on the content of task `t` is local at `e`: what it leaves
for task `t` is computed from what `e` holds for task `t`, and it leaves the
entries of every other task and of every group as they are. -/
def TaskLocalAt (t : Int) (F : Editor → Editor) (e : Editor) : Prop :=
  (F e).focusTask t = (F (e.focusTask t)).focusTask t ∧
  (∀ k, k ≠ t → (F e).focusTask k = e.focusTask k) ∧
  (∀ g, (F e).focusGroup g = e.focusGroup g)

/-- The step `F` on the content of group `g` is local at `e`. -/
def GroupLocalAt (g : Int) (F : Editor → Editor) (e : Editor) : Prop :=
  (F e).focusGroup g = (F (e.focusGroup g)).focusGroup g ∧
  (∀ k, k ≠ g → (F e).focusGroup k = e.focusGroup k) ∧
  (∀ t, (F e).focusTask t = e.focusTask t)

/-- The height of row `index` is held by the cache of its element type (a row
of another element type has no cache to fill). -/
def RowCached (e : Editor) (index : Nat) : Prop :=
  match e.m_VisibleIDTypes[index]?, e.m_VisibleIDs[index]? with
  | some ElementType_TaskID, some id => (e.m_TaskIDToRowImageHeight id).isSome = true
  | some ElementType_GroupID, some id => (e.m_GroupIDToRowImageHeight id).isSome = true
  | some ElementType_Invalid, _ => True
  | _, _ => False

/-- The row-height computation has run from `e` to `e1`: nothing but the
content hashes and the height caches differs, and every height cached in `e`
is still cached in `e1`. -/
def HeightsGrown (e e1 : Editor) : Prop :=
  e1.withoutHeights = e.withoutHeights ∧
  (∀ id v, e.m_TaskIDToRowImageHeight id = some v → e1.m_TaskIDToRowImageHeight id = some v) ∧
  (∀ id v, e.m_GroupIDToRowImageHeight id = some v → e1.m_GroupIDToRowImageHeight id = some v)

/-- Every cached content height is non-negative, as every computed one is. -/
def HeightsNonneg (e : Editor) : Prop :=
  (∀ id v, e.m_TaskIDToRowImageHeight id = some v → 0 ≤ v) ∧
  (∀ id v, e.m_GroupIDToRowImageHeight id = some v → 0 ≤ v)

/-- What the row-height computation needs in order to return on every row:
the three row lists have one entry per row, and, when the Title column shows
the full hierarchy, the parent walk of every visible row (from the parent
group of a task row, from the parent group of a group row) ends within the
fuel. -/
def RowsMeasurable (st : Stores) (fuel : Nat) (e : Editor) : Prop :=
  e.m_VisibleIDTypes.length = e.m_VisibleIDs.length ∧
  e.m_VisibleIDIndentation.length = e.m_VisibleIDs.length ∧
  (e.m_AttributeDisplayFormat Attribute_Title ≠ AttributeDisplayFormat_TitleAndFullHierarchy ∨
    ∀ (i : Nat) (id : Int), e.m_VisibleIDs[i]? = some id →
      (e.m_VisibleIDTypes[i]? = some ElementType_TaskID →
        (ParentNames st.groups fuel (st.groups.GetParentGroupIDForTaskID id)).isSome = true) ∧
      (e.m_VisibleIDTypes[i]? = some ElementType_GroupID →
        (ParentNames st.groups fuel (st.helper.toInt
          (st.groups.GetInformation id .Information_ParentGroupID))).isSome = true))

/-- The sample editor laid out and measured: rows task 1, group 2, task 3,
group 4 and task 6, every content height cached as 16 pixels (rows of 20
pixels with the padding), in a widget 60 pixels high without header. -/
def viewEditor : Editor :=
  { Editor.constructed sampleGroups with
    m_ExpandedTaskGroups := [0, 2]
    m_VisibleIDs := [1, 2, 3, 4, 6]
    m_VisibleIDTypes := [ElementType_TaskID, ElementType_GroupID, ElementType_TaskID,
      ElementType_GroupID, ElementType_TaskID]
    m_VisibleIDIndentation := [0, 0, 1, 1, 0]
    m_TaskIDToRowImageHeight := fun _ => some 16
    m_GroupIDToRowImageHeight := fun _ => some 16
    height := 60 }

/-- The measured sample editor scrolled to the very top by `SetTopOffset(0)`:
the top row is row 0 and the stored offset is the whole height of that row. -/
def topEditor : Editor :=
  { viewEditor with m_TopIndex := 0, m_TopOffset := 20 }

/-- The sample editor laid out but not measured yet: the rows of the measured
sample editor with both row-height caches empty. -/
def unmeasuredEditor : Editor :=
  { viewEditor with
    m_TaskIDToRowImageHeight := clear
    m_GroupIDToRowImageHeight := clear }

/-! ## Hit testing -/

/-- The loop of `GetIndexAtPosition` over `count` rows from `index` on. `none`
means that a coordinate list is read outside its range. -/
def GetIndexAtPosition_Loop (e : Editor) (mcY : Int) : Nat → Int → Option Int
  | 0, _ => some INVALID_INDEX
  | count + 1, index =>
    match listAt e.m_VisibleIDTopCoordinates index with
    | none => none
    | some top =>
      if mcY < top then
        some INVALID_INDEX
      else
        match listAt e.m_VisibleIDBottomCoordinates index with
        | none => none
        | some bottom =>
          if mcY ≥ top ∧ mcY < bottom then
            some index
          else
            GetIndexAtPosition_Loop e mcY count (index + 1)

/-- The method `GetIndexAtPosition`. -/
def GetIndexAtPosition (e : Editor) (_mcX mcY : Int) : Option Int :=
  GetIndexAtPosition_Loop e mcY e.m_VisibleIDs.length 0

/-- The loop of `GetIndexAtPosition` read on the remaining parts of the two
coordinate lists, `index` being the row of their heads. -/
def EarlyExitScan (mcY : Int) : List Int → List Int → Int → Int
  | top :: tops, bottom :: bottoms, index =>
    if mcY < top then INVALID_INDEX
    else if mcY ≥ top ∧ mcY < bottom then index
    else EarlyExitScan mcY tops bottoms (index + 1)
  | _, _, _ => INVALID_INDEX

/-- The plain linear scan of the specification, without the early exit: the
first row whose band `[top, bottom)` holds `mcY`, or `INVALID_INDEX`. -/
def PlainScan (mcY : Int) : List Int → List Int → Int → Int
  | top :: tops, bottom :: bottoms, index =>
    if top ≤ mcY ∧ mcY < bottom then index
    else PlainScan mcY tops bottoms (index + 1)
  | _, _, _ => INVALID_INDEX

/-- Contiguous bands `[top, bottom)` of the given heights, the first one
starting at `top`. -/
def PaintedBands (top : Int) : List Int → List (Int × Int)
  | [] => []
  | height :: heights => (top, top + height) :: PaintedBands (top + height) heights

/-- The per-row coordinates a paint pass leaves behind, as the specification
describes them: `above` rows over the top row and `below` rows under the
viewport recorded as `(-1, -1)`, the painted rows in between as contiguous
bands of the given heights from the header height on. -/
def PaintedRows (above : Nat) (header : Int) (heights : List Int) (below : Nat) :
    List (Int × Int) :=
  List.replicate above (-1, -1) ++ PaintedBands header heights ++ List.replicate below (-1, -1)

/-- Rows that are either recorded as `(-1, -1)` or carry a non-empty band that
starts at or after `low` and is followed by rows after its bottom edge. -/
def WellPainted : Int → List (Int × Int) → Prop
  | _, [] => True
  | low, (top, bottom) :: rest =>
    (top = -1 ∧ bottom = -1 ∧ WellPainted low rest) ∨
    (low ≤ top ∧ top < bottom ∧ WellPainted bottom rest)

/-- The sample editor after a paint pass with row 1 as the top row, 15 of its
20 pixels showing, in a viewport that ends inside row 3: row 0 is above, rows
1, 2 and 3 are painted, row 4 is below. -/
def paintedEditor : Editor :=
  { viewEditor with
    m_TopIndex := 1
    m_TopOffset := 15
    m_HeaderHeight := 10
    m_VisibleIDTopCoordinates := [-1, 10, 25, 45, -1]
    m_VisibleIDBottomCoordinates := [-1, 25, 45, 65, -1] }

/-- The loop of `GetAttributeAtPosition` over `count` columns from `index` on.
`none` means that a coordinate list is read outside its range. -/
def GetAttributeAtPosition_Loop (e : Editor) (mcX : Int) : Nat → Int → Option Attributes
  | 0, _ => some Attribute_Invalid
  | count + 1, index =>
    match listAt e.m_VisibleAttributesLeftCoordinates index with
    | none => none
    | some left =>
      if mcX ≥ left then
        match listAt e.m_VisibleAttributesRightCoordinates index with
        | none => none
        | some right =>
          if mcX < right then
            listAt e.m_VisibleAttributes index
          else
            GetAttributeAtPosition_Loop e mcX count (index + 1)
      else
        GetAttributeAtPosition_Loop e mcX count (index + 1)

/-- The method `GetAttributeAtPosition`: the loop runs over the indices of
`m_VisibleAttributes`. -/
def GetAttributeAtPosition (e : Editor) (mcX _mcY : Int) : Option Attributes :=
  GetAttributeAtPosition_Loop e mcX e.m_VisibleAttributes.length 0

/-- The constructed editor after `CalculateAttributesTotalWidth`: the default
columns, the Gantt column last, with their left and right coordinates. -/
def columnsEditor : Editor :=
  CalculateAttributesTotalWidth (Editor.constructed sampleGroups)

/-- The constructed editor after the Gantt column was hidden from the header
context menu. -/
def noGanttEditor : Editor :=
  ContextMenu_ToggleVisibility (Editor.constructed sampleGroups) Attribute_GanttChart
    Attribute_Invalid

/-! ## Expanding and collapsing groups -/

/-- The statement `set << value` on a `QSet<int>` kept as a list without
repetitions. -/
def setInsert (set : List Int) (value : Int) : List Int :=
  if value ∈ set then set else set ++ [value]

/-- The method `ExpandTaskGroup`; `none` means the fuel of `UpdateVisibleIDs`
ran out. -/
def ExpandTaskGroup (ag : AllTaskGroups) (fuel : Nat) (e : Editor) (mcTaskGroupID : Int) :
    Option Editor :=
  if mcTaskGroupID ∈ e.m_ExpandedTaskGroups then
    some e
  else
    UpdateVisibleIDs ag fuel { e with
      m_ExpandedTaskGroups := setInsert e.m_ExpandedTaskGroups mcTaskGroupID
      m_TaskGroupIDToImage_Attributes := remove e.m_TaskGroupIDToImage_Attributes mcTaskGroupID
      m_GroupIDToRowImageHeight := remove e.m_GroupIDToRowImageHeight mcTaskGroupID }

/-- The method `CollapseTaskGroup`. -/
def CollapseTaskGroup (ag : AllTaskGroups) (fuel : Nat) (e : Editor) (mcTaskGroupID : Int) :
    Option Editor :=
  if mcTaskGroupID ∉ e.m_ExpandedTaskGroups then
    some e
  else
    UpdateVisibleIDs ag fuel { e with
      m_ExpandedTaskGroups := e.m_ExpandedTaskGroups.filter (fun id => id ≠ mcTaskGroupID)
      m_TaskGroupIDToImage_Attributes := remove e.m_TaskGroupIDToImage_Attributes mcTaskGroupID
      m_GroupIDToRowImageHeight := remove e.m_GroupIDToRowImageHeight mcTaskGroupID }

/-- The slot `TaskGroupDeleted`. -/
def TaskGroupDeleted (ag : AllTaskGroups) (fuel : Nat) (e : Editor) (mcGroupID : Int) :
    Option Editor :=
  UpdateVisibleIDs ag fuel { e with
    m_TaskGroupIDToImage_Attributes := remove e.m_TaskGroupIDToImage_Attributes mcGroupID
    m_TaskGroupIDToImage_GanttChart := remove e.m_TaskGroupIDToImage_GanttChart mcGroupID
    m_ExpandedTaskGroups := e.m_ExpandedTaskGroups.filter (fun id => id ≠ mcGroupID) }

/-! ## Serialization -/

/-- The table `m_AttributeGUITitles`, written by `Initialize_Attributes` only
(untranslated texts). -/
def m_AttributeGUITitles : Attributes → String
  | Attribute_ID => "ID"
  | Attribute_Title => "Title"
  | Attribute_Duration => "Duration"
  | Attribute_StartDate => "Start"
  | Attribute_FinishDate => "Finish"
  | Attribute_CriticalPath => "Critical"
  | Attribute_SlackWorkdays => "Slack (wd)"
  | Attribute_SlackCalendarDays => "Slack (cd)"
  | Attribute_Predecessors => "Predecessors"
  | Attribute_Successors => "Successors"
  | Attribute_CompletionStatus => "Status"
  | Attribute_Resources => "Resources"
  | Attribute_Attachments => "Attachments"
  | Attribute_Comments => "Comments"
  | Attribute_GanttChart => "Gantt Chart"
  | Attribute_Invalid => ""

/-- The table `m_AttributeDisplayFormatSerializationTitles`, written by
`Initialize_Attributes` only; a format without entry reads as the empty text. -/
def m_AttributeDisplayFormatSerializationTitles : AttributeDisplayFormat → String
  | AttributeDisplayFormat_Default => "default"
  | AttributeDisplayFormat_TitleOnly => "task name only"
  | AttributeDisplayFormat_TitleAndParentGroup => "task name and group"
  | AttributeDisplayFormat_TitleAndFullHierarchy => "task name and full group hiararchy"
  | AttributeDisplayFormat_LongDateOnly => "long date only"
  | AttributeDisplayFormat_LongDateWithWeekday => "long date with weekday"
  | AttributeDisplayFormat_ISODateOnly => "iso date only"
  | AttributeDisplayFormat_ISODateWithWeekday => "iso date with weekday"
  | AttributeDisplayFormat_YesNo => "yes/no"
  | AttributeDisplayFormat_RedGreen => "red/green"
  | AttributeDisplayFormat_ReferencesWithTitle => "references with titles"
  | AttributeDisplayFormat_ReferencesOnly => "references only"
  | AttributeDisplayFormat_CompletionStatusText => "completion status text"
  | AttributeDisplayFormat_CompletionStatusPercent => "completion status percent"
  | AttributeDisplayFormat_CompletionStatusSymbol => "completion status symbol"
  | AttributeDisplayFormat_CommentTitles => "comment titles"
  | AttributeDisplayFormat_CommentResponsibilities => "comment responsibilities"
  | AttributeDisplayFormat_GanttAutomatic => "automatic"
  | AttributeDisplayFormat_GanttDays => "days"
  | AttributeDisplayFormat_GanttWeekdays => "weekdays"
  | AttributeDisplayFormat_GanttWeeks => "weeks"
  | AttributeDisplayFormat_GanttMonths => "months"
  | AttributeDisplayFormat_GanttYears => "years"
  | AttributeDisplayFormat_Invalid => ""

/-- The keys of `m_AttributeDisplayFormatSerializationTitles`. -/
def all_display_formats : List AttributeDisplayFormat :=
  [AttributeDisplayFormat_Default, AttributeDisplayFormat_TitleOnly,
   AttributeDisplayFormat_TitleAndParentGroup, AttributeDisplayFormat_TitleAndFullHierarchy,
   AttributeDisplayFormat_LongDateOnly, AttributeDisplayFormat_LongDateWithWeekday,
   AttributeDisplayFormat_ISODateOnly, AttributeDisplayFormat_ISODateWithWeekday,
   AttributeDisplayFormat_YesNo, AttributeDisplayFormat_RedGreen,
   AttributeDisplayFormat_ReferencesWithTitle, AttributeDisplayFormat_ReferencesOnly,
   AttributeDisplayFormat_CompletionStatusText, AttributeDisplayFormat_CompletionStatusPercent,
   AttributeDisplayFormat_CompletionStatusSymbol, AttributeDisplayFormat_CommentTitles,
   AttributeDisplayFormat_CommentResponsibilities, AttributeDisplayFormat_GanttAutomatic,
   AttributeDisplayFormat_GanttDays, AttributeDisplayFormat_GanttWeekdays,
   AttributeDisplayFormat_GanttWeeks, AttributeDisplayFormat_GanttMonths,
   AttributeDisplayFormat_GanttYears]

/-- A `<column>` element by what `ReadFromXML` reads from it. An attribute
written from an `int` is kept as that number (`setAttribute` writes its
decimal text and `attribute(..).toInt()` reads it back; an absent attribute
reads as 0), an absent text attribute is the empty text. The `scale` of the
Gantt column, a floating-point number, is not part of the model. -/
structure DomColumn where
  type : String
  title : String
  align : String
  width : Int
  visible : String
  index : Int
  format : String
  deriving DecidableEq, Repr

/-- An `<editor>` element: its columns, the ids of its expanded groups and the
three attributes of its `<visible>` element. -/
structure DomEditor where
  columns : List DomColumn
  expanded_groups : List Int
  top_index : Int
  top_offset : Int
  left_offset : Int
  deriving DecidableEq, Repr

/-- A parent element handed to the serialization methods: `none` is the null
element, otherwise the list of its `<editor>` children. -/
abbrev QDomElement := Option (List DomEditor)

/-- The call `m_AttributeSerializationTitles.keys()`; the keys are taken in the
order of the enumeration (the order of a `QHash` is unspecified). -/
def SerializationKeys (e : Editor) : List Attributes :=
  (all_attributes ++ [Attribute_Invalid]).filter
    (fun attr => (e.m_AttributeSerializationTitles attr).isSome)

/-- The `<column>` element `SaveToXML` writes for one attribute. -/
def SaveToXML_Column (e : Editor) (attr : Attributes) : DomColumn where
  type := (e.m_AttributeSerializationTitles attr).getD ""
  title := if attr = Attribute_GanttChart then "" else m_AttributeGUITitles attr
  align := if attr = Attribute_GanttChart then "" else e.m_AttributeContentAlignment attr
  width := if attr = Attribute_GanttChart then 0 else e.m_AttributeWidths attr
  visible := if attr ∈ e.m_VisibleAttributes then "yes" else "no"
  index := if attr ∈ e.m_VisibleAttributes then indexOf e.m_VisibleAttributes attr else 0
  format := m_AttributeDisplayFormatSerializationTitles (e.m_AttributeDisplayFormat attr)

/-- The `<editor>` element `SaveToXML` writes. -/
def SaveToXML_Editor (e : Editor) : DomEditor where
  columns := (SerializationKeys e).map (SaveToXML_Column e)
  expanded_groups := e.m_ExpandedTaskGroups
  top_index := e.m_TopIndex
  top_offset := e.m_TopOffset
  left_offset := e.m_LeftOffset

/-- The method `SaveToXML`: the return value and the parent element
afterwards. -/
def SaveToXML (e : Editor) (mrParentElement : QDomElement) : Bool × QDomElement :=
  match mrParentElement with
  | none => (false, none)
  | some children => (true, some (children ++ [SaveToXML_Editor e]))

/-- The call `m_AttributeSerializationTitles.key(type_text, Attribute_Invalid)`. -/
def SerializationKey (e : Editor) (type_text : String) : Attributes :=
  ((all_attributes ++ [Attribute_Invalid]).find?
    (fun attr => e.m_AttributeSerializationTitles attr = some type_text)).getD
      Attribute_Invalid

/-- The call `m_AttributeDisplayFormatSerializationTitles.key(format_text,
AttributeDisplayFormat_Invalid)`. -/
def DisplayFormatKey (format_text : String) : AttributeDisplayFormat :=
  (all_display_formats.find?
    (fun format => m_AttributeDisplayFormatSerializationTitles format = format_text)).getD
      AttributeDisplayFormat_Invalid

/-- The assignment `attribute_order[index] = attribute` on the local hash of
`ReadFromXML`. -/
def orderInsert (order : List (Int × Attributes)) (index : Int) (attr : Attributes) :
    List (Int × Attributes) :=
  if order.any (fun p => p.1 = index) then
    order.map (fun p => if p.1 = index then (index, attr) else p)
  else
    order ++ [(index, attr)]

/-- One pass of the column loop of `ReadFromXML` on the editor and the local
hash `attribute_order`; `error` carries the editor at an early `return false`. -/
def ReadFromXML_Column (state : Editor × List (Int × Attributes)) (dom_column : DomColumn) :
    Except Editor (Editor × List (Int × Attributes)) :=
  let e := state.1
  let attr := SerializationKey e dom_column.type
  if attr = Attribute_Invalid then
    .error e
  else
    let e1 :=
      if attr = Attribute_GanttChart then
        e
      else
        { e with
          m_AttributeSerializationTitles := fun a =>
            if a = attr then some dom_column.title else e.m_AttributeSerializationTitles a
          m_AttributeContentAlignment := fun a =>
            if a = attr then dom_column.align else e.m_AttributeContentAlignment a
          m_AttributeWidths := fun a =>
            if a = attr then dom_column.width else e.m_AttributeWidths a }
    let attribute_order :=
      if dom_column.visible = "yes" then orderInsert state.2 dom_column.index attr
      else state.2
    let format := DisplayFormatKey dom_column.format
    if format = AttributeDisplayFormat_Invalid then
      .error e1
    else
      .ok ({ e1 with
        m_AttributeDisplayFormat := fun a =>
          if a = attr then format else e1.m_AttributeDisplayFormat a }, attribute_order)

/-- The column loop of `ReadFromXML`. -/
def ReadFromXML_Columns :
    List DomColumn → Editor × List (Int × Attributes) →
      Except Editor (Editor × List (Int × Attributes))
  | [], state => .ok state
  | dom_column :: rest, state =>
    match ReadFromXML_Column state dom_column with
    | .error e => .error e
    | .ok state1 => ReadFromXML_Columns rest state1

/-- The `<editor>` element read when the parent has no such child: every read
from a null element gives the default. -/
def DomEditor.null : DomEditor where
  columns := []
  expanded_groups := []
  top_index := 0
  top_offset := 0
  left_offset := 0

/-- The method `ReadFromXML`: the return value and the editor afterwards. -/
def ReadFromXML (ag : AllTaskGroups) (e : Editor) (mrParentElement : QDomElement) :
    Bool × Editor :=
  match mrParentElement with
  | none => (false, e)
  | some children =>
    let dom_editor := children.head?.getD DomEditor.null
    match ReadFromXML_Columns dom_editor.columns (Initialize ag e, []) with
    | .error e1 => (false, e1)
    | .ok (e1, attribute_order) =>
      let sorted_indices := (attribute_order.map (fun p => p.1)).insertionSort (fun a b => a ≤ b)
      let e2 := CalculateAttributesTotalWidth { e1 with
        m_VisibleAttributes := sorted_indices.filterMap (fun index =>
          (attribute_order.find? (fun p => p.1 = index)).map (fun p => p.2)) }
      (true, { e2 with
        m_ExpandedTaskGroups := dom_editor.expanded_groups.foldl setInsert e2.m_ExpandedTaskGroups
        m_TopIndex := dom_editor.top_index
        m_TopOffset := dom_editor.top_offset
        m_LeftOffset := dom_editor.left_offset })

/-- The document `SaveToXML` writes for the freshly constructed editor into an
empty parent element. -/
def savedDocument : QDomElement :=
  (SaveToXML (Editor.constructed sampleGroups) (some [])).2

/-- The editor loaded from `savedDocument`. -/
def loadedEditor : Editor :=
  (ReadFromXML sampleGroups (Editor.constructed sampleGroups) savedDocument).2

/-- The document `SaveToXML` writes for `loadedEditor`. -/
def resavedDocument : QDomElement :=
  (SaveToXML loadedEditor (some [])).2

/-- The members the column loop of `ReadFromXML` does not touch: the visible
attributes, the expanded-set, the selection and the scroll position. -/
def Editor.viewState (e : Editor) :
    List Attributes × List Int × List Int × List Int × Int × Int × Int :=
  (e.m_VisibleAttributes, e.m_ExpandedTaskGroups, e.m_SelectedTaskIDs, e.m_SelectedGroupIDs,
    e.m_TopIndex, e.m_TopOffset, e.m_LeftOffset)

/-- Expanding the collapsed group `g`, shown at indentation `indent`, turns
the rows `old` into the rows `new`: the store lists `members` as the children
of `g` and, for every group below them, exactly its children; the task and
group ids of `members` lie in the given scopes; `new` is `old` with the
flattening of `members` one level deeper put right after the row of `g`; and
no row of `old` is a task or a group below `g`. -/
def ExpandsAt (ag : AllTaskGroups) (expanded : List Int) (g indent : Int)
    (taskScope groupScope : List Int) (old new : List Row) : Prop :=
  ∃ (members : List Element) (before after : List Row),
    ag.GetElementIDs g = Element.entries members ∧
    Element.StoredAll ag members ∧
    (∀ k ∈ Element.taskIDsAll members, k ∈ taskScope) ∧
    (∀ k ∈ Element.groupIDsAll members, k ∈ groupScope) ∧
    old = before ++ (g, ElementType_GroupID, indent) :: after ∧
    new = before ++ (g, ElementType_GroupID, indent) ::
      (Element.flattenAll expanded (indent + 1) members ++ after) ∧
    (∀ row ∈ old, (row.2.1 = ElementType_TaskID → row.1 ∉ Element.taskIDsAll members) ∧
      (row.2.1 = ElementType_GroupID → row.1 ∉ Element.groupIDsAll members))

/-- The visible sequence: the three visible lists read row by row. -/
def Editor.rows (e : Editor) : List Row :=
  List.zip e.m_VisibleIDs (List.zip e.m_VisibleIDTypes e.m_VisibleIDIndentation)

/-- The hierarchy of the expand scenario below the root: task 1, group 7 with
the two child tasks 2 and 3, and task 4. -/
def pairElements : List Element :=
  [.task 1, .group 7 [.task 2, .task 3], .task 4]

/-- A group store listing the hierarchy of the expand scenario under root 0. -/
def pairGroups : AllTaskGroups where
  ROOT_ID := 0
  DoesIDExist := fun id => id = 0 || id = 7
  GetInformation := fun _ _ => ""
  GetElementIDs := fun id =>
    if id = 0 then [(1, ElementType_TaskID), (7, ElementType_GroupID), (4, ElementType_TaskID)]
    else if id = 7 then [(2, ElementType_TaskID), (3, ElementType_TaskID)]
    else []
  GetParentGroupIDForTaskID := fun id => if id = 2 ∨ id = 3 then 7 else 0
  GetParentGroupIDForGroupID := fun _ => 0

/-- The constructed editor over the expand scenario with its visible sequence
current: group 7 is collapsed, the rows are task 1, group 7 and task 4. -/
def pairEditor : Editor :=
  { Editor.constructed pairGroups with
    m_VisibleIDs := [1, 7, 4]
    m_VisibleIDTypes := [ElementType_TaskID, ElementType_GroupID, ElementType_TaskID]
    m_VisibleIDIndentation := [0, 0, 0] }

/-- A group store with a group below the group to expand: under root 0 the
task 1, the group 7 and the task 4; under group 7 the task 2 and the group 8;
under group 8 the task 3. -/
def nestedGroups : AllTaskGroups where
  ROOT_ID := 0
  DoesIDExist := fun id => id = 0 || id = 7 || id = 8
  GetInformation := fun _ _ => ""
  GetElementIDs := fun id =>
    if id = 0 then [(1, ElementType_TaskID), (7, ElementType_GroupID), (4, ElementType_TaskID)]
    else if id = 7 then [(2, ElementType_TaskID), (8, ElementType_GroupID)]
    else if id = 8 then [(3, ElementType_TaskID)]
    else []
  GetParentGroupIDForTaskID := fun id => if id = 2 then 7 else if id = 3 then 8 else 0
  GetParentGroupIDForGroupID := fun id => if id = 8 then 7 else 0

/-- The hierarchy of the nested store below the root. -/
def nestedElements : List Element :=
  [.task 1, .group 7 [.task 2, .group 8 [.task 3]], .task 4]

/-- The constructed editor over the nested store with its visible sequence
current: group 8 is in the expanded-set, group 7 is collapsed, and the rows
are task 1, group 7 and task 4. -/
def nestedEditor : Editor :=
  { Editor.constructed nestedGroups with
    m_ExpandedTaskGroups := [0, 8]
    m_VisibleIDs := [1, 7, 4]
    m_VisibleIDTypes := [ElementType_TaskID, ElementType_GroupID, ElementType_TaskID]
    m_VisibleIDIndentation := [0, 0, 0] }

/-- A call of one of the four operations that write the expanded-set. -/
inductive EditorCall
  | expand (id : Int)
  | collapse (id : Int)
  | deleted (id : Int)
  | read (document : QDomElement)

/-- The editor after one call; `none` means the fuel of `UpdateVisibleIDs` ran
out. -/
def EditorCall.run (ag : AllTaskGroups) (fuel : Nat) (e : Editor) : EditorCall → Option Editor
  | .expand id => ExpandTaskGroup ag fuel e id
  | .collapse id => CollapseTaskGroup ag fuel e id
  | .deleted id => TaskGroupDeleted ag fuel e id
  | .read document => some (ReadFromXML ag e document).2

/-- The editor after a sequence of calls, first to last. -/
def runCalls (ag : AllTaskGroups) (fuel : Nat) (calls : List EditorCall) (e : Editor) :
    Option Editor :=
  calls.foldlM (EditorCall.run ag fuel) e

/-- The coordinate bookkeeping of the row loop of `paintEvent`, the rendering
left out: from row `index` on, with `current_top` the next free pixel row and
the heights `GetRowImageHeight` returns for the remaining rows, the pairs
appended to `m_VisibleIDTopCoordinates` and `m_VisibleIDBottomCoordinates`. -/
def paintEvent_Rows (bottom m_TopIndex m_TopOffset : Int) : List Int → Int → Int →
    List (Int × Int)
  | [], _, _ => []
  | row_height :: rest, index, current_top =>
    if index < m_TopIndex then
      (-1, -1) :: paintEvent_Rows bottom m_TopIndex m_TopOffset rest (index + 1) current_top
    else if current_top > bottom then
      (-1, -1) :: paintEvent_Rows bottom m_TopIndex m_TopOffset rest (index + 1) current_top
    else if index = m_TopIndex then
      (current_top, current_top + m_TopOffset) ::
        paintEvent_Rows bottom m_TopIndex m_TopOffset rest (index + 1)
          (current_top + m_TopOffset)
    else
      (current_top, current_top + row_height) ::
        paintEvent_Rows bottom m_TopIndex m_TopOffset rest (index + 1)
          (current_top + row_height)

/-! ## Sample data for the content formatters -/

/-- A helper record for the detailed sample: texts "2" and "3" read as the
numbers 2 and 3, every other text as 0, as `QString::toInt` reads them. -/
def detailHelper : StringHelper :=
  { sampleHelper with
    toInt := fun text => if text = "2" then 2 else if text = "3" then 3 else 0 }

/-- Sample stores with one detailed task: task 1 "Plan" (reference A) started
on 2024-02-02 (planned 2024-02-01) and finished on 2024-03-05 (planned
2024-03-01), with 5 calendar days and 3 workdays of slack and comment 5,
"Review", which mentions the resource Ann; task 2 "Build" (reference B) is
its predecessor by link 10, finish to finish, with no lead and a lag of
2 cd; task 3 "Ship" (reference C) is its successor by link 11, finish to
start, with neither lead nor lag. -/
def detailStores : Stores where
  items := {
    DoesIDExist := fun id => id = 1 || id = 2 || id = 3
    GetInformation := fun id info =>
      if id = 1 then
        match info with
        | .Information_Reference => "A"
        | .Information_Title => "Plan"
        | .Information_ActualStart => "2024-02-02"
        | .Information_EarlyStart => "2024-02-01"
        | .Information_ActualFinish => "2024-03-05"
        | .Information_EarlyFinish => "2024-03-01"
        | .Information_SlackCalendarDays => "5"
        | .Information_SlackWorkdays => "3"
        | _ => ""
      else
        match info with
        | .Information_Reference => if id = 2 then "B" else "C"
        | .Information_Title => if id = 2 then "Build" else "Ship"
        | _ => ""
    GetAttachmentIDs := fun _ => []
    GetCommentIDs := fun id => if id = 1 then [5] else []
    GetResourceIDs := fun _ => [] }
  groups := {
    ROOT_ID := 0
    DoesIDExist := fun id => id = 0
    GetInformation := fun _ _ => ""
    GetElementIDs := fun id =>
      if id = 0 then
        [(1, ElementType_TaskID), (2, ElementType_TaskID), (3, ElementType_TaskID)]
      else []
    GetParentGroupIDForTaskID := fun _ => 0
    GetParentGroupIDForGroupID := fun _ => 0 }
  links := {
    GetInformation := fun id info =>
      if id = 10 then
        match info with
        | .Information_PredecessorID => "2"
        | .Information_SuccessorID => "1"
        | .Information_ConnectionType => "finish to finish"
        | .Information_LeadDuration => "0"
        | .Information_LeadUnits => "wd"
        | .Information_LagDuration => "2"
        | .Information_LagUnits => "cd"
      else if id = 11 then
        match info with
        | .Information_PredecessorID => "1"
        | .Information_SuccessorID => "3"
        | .Information_ConnectionType => "finish to start"
        | .Information_LeadDuration => "0"
        | .Information_LeadUnits => "wd"
        | .Information_LagDuration => "0"
        | .Information_LagUnits => "wd"
      else ""
    GetIDsForSuccessorTaskID := fun id => if id = 1 then [10] else if id = 3 then [11] else []
    GetIDsForPredecessorTaskID := fun id =>
      if id = 2 then [10] else if id = 1 then [11] else []
    GetSuccessorTaskIDsForTaskID := fun id => if id = 2 then [1] else if id = 1 then [3] else []
    GetPredecessorTaskIDsForTaskID := fun id =>
      if id = 1 then [2] else if id = 3 then [1] else [] }
  attachments := { GetInformation := fun _ _ => "" }
  comments := {
    GetInformation := fun id _ => if id = 5 then "Review" else ""
    GetResourcesMentioned := fun id => if id = 5 then ["Ann"] else [] }
  resources := { GetInformation := fun _ _ => "" }
  helper := detailHelper
  text := sampleText

/-- The freshly constructed editor over the detailed sample. -/
def detailEditor : Editor :=
  Editor.constructed detailStores.groups

/-- The editor over the detailed sample with the Comments column switched to
the responsibilities format from the header context menu. -/
def responsibilitiesEditor : Editor :=
  ContextMenu_SetDisplayFormat detailEditor Attribute_Comments
    AttributeDisplayFormat_CommentResponsibilities

/-- The editor over the detailed sample after `GetTaskContent(1,
Attribute_SlackCalendarDays)` has cached the styled calendar-days slack. -/
def slackEditor : Editor :=
  match GetTaskContent detailStores 3 detailEditor 1 Attribute_SlackCalendarDays with
  | some result => result.2
  | none => detailEditor

/-- The `<editor>` children of a document whose Title column is aligned to
the right. -/
def alignedChildren : List DomEditor :=
  [{
    columns := [
      { type := "id", title := "ID", align := "center", width := 50, visible := "yes",
        index := 0, format := "default" },
      { type := "title", title := "Title", align := "right", width := 200, visible := "yes",
        index := 1, format := "task name only" }]
    expanded_groups := []
    top_index := -1
    top_offset := 0
    left_offset := 0 }]

/-- The editor over the detailed sample loaded from the right-aligned
document. -/
def alignedEditor : Editor :=
  (ReadFromXML detailStores.groups detailEditor (some alignedChildren)).2

/-! ## Row images -/

/-- The loop "Vertical lines" that ends `CreateRowImage_TaskItem_Attributes`
and `CreateRowImage_TaskGroup_Attributes`, over `count` columns from
`attr_index` on: the x coordinates of the lines drawn. `none` means that
`m_VisibleAttributesRightCoordinates` is read outside its range. -/
def CreateRowImage_VerticalLines (e : Editor) : Nat → Int → Option (List Int)
  | 0, _ => some []
  | count + 1, attr_index =>
    match listAt e.m_VisibleAttributesRightCoordinates attr_index with
    | none => none
    | some pos =>
      match CreateRowImage_VerticalLines e count (attr_index + 1) with
      | none => none
      | some lines => some ((pos - 1) :: lines)

/-- The vertical lines of a row image: the loop runs over the indices of
`m_VisibleAttributes`. -/
def CreateRowImage_Attributes_Lines (e : Editor) : Option (List Int) :=
  CreateRowImage_VerticalLines e e.m_VisibleAttributes.length 0

/-- The expand scenario after a paint pass over its three rows of 20 pixels
under a header of 10 pixels, no top row set yet: the coordinates are the ones
`paintEvent_Rows` records. -/
def pairPaintedEditor : Editor :=
  { pairEditor with
    m_HeaderHeight := 10
    m_VisibleIDTopCoordinates :=
      (paintEvent_Rows 480 (-1) 0 [20, 20, 20] 0 10).map Prod.fst
    m_VisibleIDBottomCoordinates :=
      (paintEvent_Rows 480 (-1) 0 [20, 20, 20] 0 10).map Prod.snd }

/-- The painted expand scenario after `ExpandTaskGroup(7)`, before the next
paint pass. -/
def pairExpandedEditor : Editor :=
  match ExpandTaskGroup pairGroups 3 pairPaintedEditor 7 with
  | some e => e
  | none => pairPaintedEditor

/-- The read `content_data[content_index]` of `CreateRowImage_TaskItem_Comments`
for the fragment under the pointer of a hovered Comments cell: the id filed
with the edit and the remove action of that fragment. `none` means that the
id list is read outside its range. -/
def CreateRowImage_TaskItem_Comments_ActionData (content : List String × List Int)
    (content_index : Int) : Option Int :=
  listAt content.2 content_index

/-- A rank for the groups of the sample hierarchy: the number of group levels
below a group. -/
def sampleRank (id : Int) : Nat :=
  if id = 0 then 2 else if id = 2 then 1 else 0

/-- A store whose hierarchy has a cycle: the root lists group 2, and group 2
lists itself. -/
def cyclicGroups : AllTaskGroups :=
  { sampleGroups with
    GetElementIDs := fun id =>
      if id = 0 then [(2, ElementType_GroupID)]
      else if id = 2 then [(2, ElementType_GroupID)]
      else [] }
/-! ## Theorems -/

theorem UpdateVisibleIDs_Rec_succ (ag : AllTaskGroups) (fuel : Nat) (g indent : Int)
    (e : Editor) :
    UpdateVisibleIDs_Rec ag (fuel + 1) g indent e =
      (ag.GetElementIDs g).foldlM (UpdateVisibleIDs_Body ag fuel indent) e := by
  rfl

theorem Editor.pushRows_nil (e : Editor) : e.pushRows [] = e := by
  simp [Editor.pushRows]

theorem Editor.pushRows_append (e : Editor) (r1 r2 : List Row) :
    (e.pushRows r1).pushRows r2 = e.pushRows (r1 ++ r2) := by
  simp [Editor.pushRows, List.append_assoc]

theorem Editor.pushRows_expanded (e : Editor) (rows : List Row) :
    (e.pushRows rows).m_ExpandedTaskGroups = e.m_ExpandedTaskGroups := by
  rfl

theorem UpdateVisibleIDs_loop (ag : AllTaskGroups) (fuel : Nat)
    (hrec : ∀ (id : Int) (children : List Element) (indent : Int) (e : Editor),
      Element.Stored ag (.group id children) → Element.heightAll children + 1 ≤ fuel →
      UpdateVisibleIDs_Rec ag fuel id indent e =
        some (e.pushRows (Element.flattenAll e.m_ExpandedTaskGroups indent children))) :
    ∀ (siblings : List Element) (indent : Int) (e : Editor),
      Element.StoredAll ag siblings → Element.heightAll siblings ≤ fuel →
      (Element.entries siblings).foldlM (UpdateVisibleIDs_Body ag fuel indent) e =
        some (e.pushRows (Element.flattenAll e.m_ExpandedTaskGroups indent siblings)) := by
  intro siblings
  induction siblings with
  | nil =>
    intro indent e _ _
    simp [Element.entries, Element.flattenAll, Editor.pushRows_nil]
  | cons x rest ih =>
    intro indent e hst hh
    rw [Element.StoredAll] at hst
    rw [Element.heightAll] at hh
    have hrest : Element.heightAll rest ≤ fuel := le_trans (le_max_right _ _) hh
    have hx : Element.height x ≤ fuel := le_trans (le_max_left _ _) hh
    rw [Element.entries, List.foldlM_cons]
    cases x with
    | task id =>
      have hbody : UpdateVisibleIDs_Body ag fuel indent e (Element.entry (.task id)) =
          some (e.pushRows [(id, ElementType_TaskID, indent)]) := by
        simp [UpdateVisibleIDs_Body, Element.entry, Editor.pushRows]
      rw [hbody]
      simp only [Option.some_bind, Option.bind_eq_bind]
      rw [ih indent _ hst.2 hrest, Editor.pushRows_append, Editor.pushRows_expanded]
      simp [Element.flattenAll, Element.flatten]
    | group id children =>
      rw [Element.height] at hx
      by_cases hexp : id ∈ e.m_ExpandedTaskGroups
      · have hbody : UpdateVisibleIDs_Body ag fuel indent e (Element.entry (.group id children)) =
            some (e.pushRows ((id, ElementType_GroupID, indent) ::
              Element.flattenAll e.m_ExpandedTaskGroups (indent + 1) children)) := by
          simp only [UpdateVisibleIDs_Body, Element.entry, hexp, and_self, if_true]
          rw [hrec id children (indent + 1) _ hst.1 hx]
          simp [Editor.pushRows]
        rw [hbody]
        simp only [Option.some_bind, Option.bind_eq_bind]
        rw [ih indent _ hst.2 hrest, Editor.pushRows_append, Editor.pushRows_expanded]
        simp [Element.flattenAll, Element.flatten, hexp]
      · have hbody : UpdateVisibleIDs_Body ag fuel indent e (Element.entry (.group id children)) =
            some (e.pushRows [(id, ElementType_GroupID, indent)]) := by
          simp [UpdateVisibleIDs_Body, Element.entry, hexp, Editor.pushRows]
        rw [hbody]
        simp only [Option.some_bind, Option.bind_eq_bind]
        rw [ih indent _ hst.2 hrest, Editor.pushRows_append, Editor.pushRows_expanded]
        simp [Element.flattenAll, Element.flatten, hexp]

theorem UpdateVisibleIDs_Rec_spec (ag : AllTaskGroups) :
    ∀ (fuel : Nat) (id : Int) (children : List Element) (indent : Int) (e : Editor),
      Element.Stored ag (.group id children) → Element.heightAll children + 1 ≤ fuel →
      UpdateVisibleIDs_Rec ag fuel id indent e =
        some (e.pushRows (Element.flattenAll e.m_ExpandedTaskGroups indent children)) := by
  intro fuel
  induction fuel with
  | zero => intro id children indent e _ h; omega
  | succ fuel ih =>
    intro id children indent e hst hh
    rw [Element.Stored] at hst
    rw [UpdateVisibleIDs_Rec_succ, hst.1]
    exact UpdateVisibleIDs_loop ag fuel ih children indent e hst.2 (by omega)

theorem Element.flattenAll_length (expanded : List Int) :
    ∀ (fuel : Nat) (siblings : List Element) (depth : Int), Element.heightAll siblings ≤ fuel →
      (Element.flattenAll expanded depth siblings).length =
        Element.reachableAll expanded siblings := by
  intro fuel
  induction fuel with
  | zero =>
    intro siblings
    induction siblings with
    | nil => intro depth _; simp [Element.flattenAll, Element.reachableAll]
    | cons x rest ih =>
      intro depth hh
      rw [Element.heightAll] at hh
      cases x with
      | task id =>
        have := ih depth (le_trans (le_max_right _ _) hh)
        simp [Element.flattenAll, Element.reachableAll, Element.flatten, Element.reachable, this]
        omega
      | group id children =>
        have hx := le_trans (le_max_left _ _) hh
        rw [Element.height] at hx
        omega
  | succ fuel ihf =>
    intro siblings
    induction siblings with
    | nil => intro depth _; simp [Element.flattenAll, Element.reachableAll]
    | cons x rest ih =>
      intro depth hh
      rw [Element.heightAll] at hh
      have hrest := ih depth (le_trans (le_max_right _ _) hh)
      cases x with
      | task id =>
        simp [Element.flattenAll, Element.reachableAll, Element.flatten, Element.reachable, hrest]
        omega
      | group id children =>
        have hx := le_trans (le_max_left _ _) hh
        rw [Element.height] at hx
        have hc := ihf children (depth + 1) (by omega)
        by_cases hexp : id ∈ expanded
        · simp [Element.flattenAll, Element.reachableAll, Element.flatten, Element.reachable,
            hrest, hexp, hc]
          omega
        · simp [Element.flattenAll, Element.reachableAll, Element.flatten, Element.reachable,
            hrest, hexp]
          omega

theorem zip_rows (rows : List Row) :
    List.zip (rows.map (fun r => r.1))
      (List.zip (rows.map (fun r => r.2.1)) (rows.map (fun r => r.2.2))) = rows := by
  induction rows with
  | nil => rfl
  | cons r rest ih => simp [ih]

/-- C1: for a finite acyclic hierarchy below the root (a tree whose groups the
store lists child by child, in order) and any expanded-set, `UpdateVisibleIDs`
returns once the fuel exceeds the nesting depth; the three visible lists then
have equal length, zipped together they are the pre-order flattening of the
elements below the root that enters a listed group only when it is in the
expanded-set, with the children of the root at indentation 0 and every level
below one deeper, and the row count is the number of tasks and groups so
reachable. The root itself is no row; its children are always listed. -/
theorem C1_UpdateVisibleIDs_preorder (ag : AllTaskGroups) (e : Editor)
    (children : List Element) (fuel : Nat)
    (hroot : ag.GetElementIDs ag.ROOT_ID = Element.entries children)
    (hstored : Element.StoredAll ag children)
    (hfuel : Element.heightAll children < fuel) :
    ∃ e1, UpdateVisibleIDs ag fuel e = some e1 ∧
      e1.m_VisibleIDs.length = e1.m_VisibleIDTypes.length ∧
      e1.m_VisibleIDTypes.length = e1.m_VisibleIDIndentation.length ∧
      List.zip e1.m_VisibleIDs (List.zip e1.m_VisibleIDTypes e1.m_VisibleIDIndentation) =
        Element.flattenAll e.m_ExpandedTaskGroups 0 children ∧
      e1.m_VisibleIDs.length = Element.reachableAll e.m_ExpandedTaskGroups children := by
  have hst : Element.Stored ag (.group ag.ROOT_ID children) := by
    rw [Element.Stored]; exact ⟨hroot, hstored⟩
  refine ⟨_, UpdateVisibleIDs_Rec_spec ag fuel ag.ROOT_ID children 0 _ hst (by omega), ?_⟩
  simp only [Editor.pushRows, List.nil_append, List.length_map, zip_rows, true_and]
  exact Element.flattenAll_length _ _ children 0 (le_refl _)

/-- C1 at the sample hierarchy with groups 0 and 2 expanded and fuel 3. -/
theorem C1_UpdateVisibleIDs_preorder_witness :
    ∃ e1, UpdateVisibleIDs sampleGroups 3
        collapsedEditor = some e1 ∧
      e1.m_VisibleIDs.length = e1.m_VisibleIDTypes.length ∧
      e1.m_VisibleIDTypes.length = e1.m_VisibleIDIndentation.length ∧
      List.zip e1.m_VisibleIDs (List.zip e1.m_VisibleIDTypes e1.m_VisibleIDIndentation) =
        Element.flattenAll [0, 2] 0 sampleElements ∧
      e1.m_VisibleIDs.length = Element.reachableAll [0, 2] sampleElements :=
  C1_UpdateVisibleIDs_preorder sampleGroups
    collapsedEditor sampleElements 3
    (by decide)
    (by simp [sampleElements, sampleGroups, Element.StoredAll, Element.Stored, Element.entries,
      Element.entry])
    (by decide)

/-- The scenario of the collapsed group evaluated: with groups 0 and 2
expanded and group 4 collapsed the rows are 1, 2, 3, 4, 6 with task 3 and
group 4 one level in; task 5 below the collapsed group 4 is absent. -/
theorem UpdateVisibleIDs_sample :
    Element.flattenAll [0, 2] 0 sampleElements =
      [(1, ElementType_TaskID, 0), (2, ElementType_GroupID, 0), (3, ElementType_TaskID, 1),
       (4, ElementType_GroupID, 1), (6, ElementType_TaskID, 0)] ∧
    (UpdateVisibleIDs sampleGroups 3 collapsedEditor).map
      (fun e => (e.m_VisibleIDs, e.m_VisibleIDIndentation)) =
      some ([1, 2, 3, 4, 6], [0, 0, 1, 1, 0]) := by
  decide

/-! ### Task information changed -/

theorem TaskInformationChanged_Linked_eq (attr : Attributes) (task_ids : List Int) :
    ∀ (e : Editor) (inner : List Int),
      TaskInformationChanged_Linked attr task_ids (e, inner) =
        ({ e with m_TaskIDAttributeContent := fun k a =>
            if k ∈ task_ids ∧ a = attr then none else e.m_TaskIDAttributeContent k a },
          inner ++ task_ids) := by
  induction task_ids with
  | nil => intro e inner; simp [TaskInformationChanged_Linked]
  | cons id rest ih =>
    intro e inner
    have h := ih { e with m_TaskIDAttributeContent := remove2 e.m_TaskIDAttributeContent id attr }
      (inner ++ [id])
    simp only [TaskInformationChanged_Linked, List.foldl_cons] at h ⊢
    rw [h]
    simp only [List.append_assoc, List.singleton_append, Prod.mk.injEq, and_true]
    congr 1
    funext k a
    by_cases hk : k = id <;> by_cases ha : a = attr <;> simp [remove2, hk, ha]

theorem TaskInformationChanged_Title_eq (st : Stores) (e : Editor) (B : Int)
    (hB : st.items.DoesIDExist B = true) :
    TaskInformationChanged st e B AllTaskItems.Information.Information_Title =
      (if Attribute_Title ∈ e.m_VisibleAttributes then [B] else []).foldl RemoveCachedTaskRow
        { e with m_TaskIDAttributeContent := fun k a =>
            if (k = B ∧ a = Attribute_Title) ∨
                (Attribute_Predecessors ∈ e.m_VisibleAttributes ∧
                  k ∈ st.links.GetSuccessorTaskIDsForTaskID B ∧ a = Attribute_Predecessors) ∨
                (Attribute_Successors ∈ e.m_VisibleAttributes ∧
                  k ∈ st.links.GetPredecessorTaskIDsForTaskID B ∧ a = Attribute_Successors)
            then none else e.m_TaskIDAttributeContent k a } := by
  by_cases hp : Attribute_Predecessors ∈ e.m_VisibleAttributes <;>
    by_cases hs : Attribute_Successors ∈ e.m_VisibleAttributes <;>
    simp only [TaskInformationChanged, hB, m_TaskInformationToAffectedAttributes,
      TaskInformationChanged_Content, List.foldl_cons, List.foldl_nil, Bool.false_or,
      TaskInformationChanged_Linked_eq, or_true, if_true, List.nil_append, decide_eq_true_eq,
      reduceCtorEq, if_false, Bool.true_eq_false, hp, hs, true_and, false_and, or_false,
      false_or] <;>
    congr 1 <;> congr 1 <;> funext k a <;> simp only [remove2] <;>
    by_cases h1 : k = B ∧ a = Attribute_Title <;>
    by_cases h2 : k ∈ st.links.GetSuccessorTaskIDsForTaskID B ∧ a = Attribute_Predecessors <;>
    simp [h1, h2]

theorem RemoveCachedTaskRow_content (e : Editor) (id : Int) :
    (RemoveCachedTaskRow e id).m_TaskIDAttributeContent = e.m_TaskIDAttributeContent ∧
    (RemoveCachedTaskRow e id).m_TaskIDAttributeData = e.m_TaskIDAttributeData := by
  unfold RemoveCachedTaskRow
  split <;> exact ⟨rfl, rfl⟩

theorem RemoveCachedTaskRow_other (e : Editor) (id t : Int) (h : t ≠ id) :
    (RemoveCachedTaskRow e id).m_TaskItemIDToImage_Attributes t =
        e.m_TaskItemIDToImage_Attributes t ∧
    (RemoveCachedTaskRow e id).m_TaskItemIDToImage_GanttChart t =
        e.m_TaskItemIDToImage_GanttChart t ∧
    (RemoveCachedTaskRow e id).m_TaskIDToRowImageHeight t = e.m_TaskIDToRowImageHeight t := by
  unfold RemoveCachedTaskRow
  split <;> simp [remove, h]

/-- C2: for an existing task B, `TaskInformationChanged(B, Title)` removes the
content entry (B, Title), removes (S, Predecessors) for every successor S of B
when the Predecessors column is visible and (P, Successors) for every
predecessor P of B when the Successors column is visible, and leaves the
content entries, id lists, both images and the row height of every task that
is neither B nor linked to B as they were. -/
theorem C2_TaskInformationChanged_Title (st : Stores) (e : Editor) (B : Int)
    (hB : st.items.DoesIDExist B = true) :
    (TaskInformationChanged st e B .Information_Title).m_TaskIDAttributeContent
        B Attribute_Title = none ∧
    (Attribute_Predecessors ∈ e.m_VisibleAttributes →
      ∀ S ∈ st.links.GetSuccessorTaskIDsForTaskID B,
        (TaskInformationChanged st e B .Information_Title).m_TaskIDAttributeContent
          S Attribute_Predecessors = none) ∧
    (Attribute_Successors ∈ e.m_VisibleAttributes →
      ∀ P ∈ st.links.GetPredecessorTaskIDsForTaskID B,
        (TaskInformationChanged st e B .Information_Title).m_TaskIDAttributeContent
          P Attribute_Successors = none) ∧
    (∀ t, t ≠ B → t ∉ st.links.GetSuccessorTaskIDsForTaskID B →
      t ∉ st.links.GetPredecessorTaskIDsForTaskID B →
      (∀ a, (TaskInformationChanged st e B .Information_Title).m_TaskIDAttributeContent t a =
        e.m_TaskIDAttributeContent t a) ∧
      (∀ a, (TaskInformationChanged st e B .Information_Title).m_TaskIDAttributeData t a =
        e.m_TaskIDAttributeData t a) ∧
      (TaskInformationChanged st e B .Information_Title).m_TaskItemIDToImage_Attributes t =
        e.m_TaskItemIDToImage_Attributes t ∧
      (TaskInformationChanged st e B .Information_Title).m_TaskItemIDToImage_GanttChart t =
        e.m_TaskItemIDToImage_GanttChart t ∧
      (TaskInformationChanged st e B .Information_Title).m_TaskIDToRowImageHeight t =
        e.m_TaskIDToRowImageHeight t) := by
  rw [TaskInformationChanged_Title_eq st e B hB]
  by_cases hv : Attribute_Title ∈ e.m_VisibleAttributes
  · simp only [hv, if_true, List.foldl_cons, List.foldl_nil]
    refine ⟨?_, ?_, ?_, ?_⟩
    · rw [(RemoveCachedTaskRow_content _ B).1]; simp
    · intro hp S hS; rw [(RemoveCachedTaskRow_content _ B).1]; simp [hp, hS]
    · intro hs P hP; rw [(RemoveCachedTaskRow_content _ B).1]; simp [hs, hP]
    · intro t htB hS hP
      rw [(RemoveCachedTaskRow_content _ B).1, (RemoveCachedTaskRow_content _ B).2]
      obtain ⟨h1, h2, h3⟩ := RemoveCachedTaskRow_other
        { e with m_TaskIDAttributeContent := fun k a =>
            if (k = B ∧ a = Attribute_Title) ∨
                (Attribute_Predecessors ∈ e.m_VisibleAttributes ∧
                  k ∈ st.links.GetSuccessorTaskIDsForTaskID B ∧ a = Attribute_Predecessors) ∨
                (Attribute_Successors ∈ e.m_VisibleAttributes ∧
                  k ∈ st.links.GetPredecessorTaskIDsForTaskID B ∧ a = Attribute_Successors)
            then none else e.m_TaskIDAttributeContent k a } B t htB
      rw [h1, h2, h3]
      simp [htB, hS, hP]
  · simp only [hv, if_false, List.foldl_nil]
    refine ⟨by simp, ?_, ?_, ?_⟩
    · intro hp S hS; simp [hp, hS]
    · intro hs P hP; simp [hs, hP]
    · intro t htB hS hP; simp [htB, hS, hP]

/-- C2 at the scenario: tasks 1, 2, 3 with task 2 a predecessor of task 3. -/
theorem C2_TaskInformationChanged_Title_witness :
    (TaskInformationChanged scenarioStores scenarioEditor 2
        .Information_Title).m_TaskIDAttributeContent 2 Attribute_Title = none ∧
    (Attribute_Predecessors ∈ scenarioEditor.m_VisibleAttributes →
      ∀ S ∈ scenarioStores.links.GetSuccessorTaskIDsForTaskID 2,
        (TaskInformationChanged scenarioStores scenarioEditor 2
          .Information_Title).m_TaskIDAttributeContent S Attribute_Predecessors = none) ∧
    (Attribute_Successors ∈ scenarioEditor.m_VisibleAttributes →
      ∀ P ∈ scenarioStores.links.GetPredecessorTaskIDsForTaskID 2,
        (TaskInformationChanged scenarioStores scenarioEditor 2
          .Information_Title).m_TaskIDAttributeContent P Attribute_Successors = none) ∧
    (∀ t, t ≠ 2 → t ∉ scenarioStores.links.GetSuccessorTaskIDsForTaskID 2 →
      t ∉ scenarioStores.links.GetPredecessorTaskIDsForTaskID 2 →
      (∀ a, (TaskInformationChanged scenarioStores scenarioEditor 2
          .Information_Title).m_TaskIDAttributeContent t a =
        scenarioEditor.m_TaskIDAttributeContent t a) ∧
      (∀ a, (TaskInformationChanged scenarioStores scenarioEditor 2
          .Information_Title).m_TaskIDAttributeData t a =
        scenarioEditor.m_TaskIDAttributeData t a) ∧
      (TaskInformationChanged scenarioStores scenarioEditor 2
          .Information_Title).m_TaskItemIDToImage_Attributes t =
        scenarioEditor.m_TaskItemIDToImage_Attributes t ∧
      (TaskInformationChanged scenarioStores scenarioEditor 2
          .Information_Title).m_TaskItemIDToImage_GanttChart t =
        scenarioEditor.m_TaskItemIDToImage_GanttChart t ∧
      (TaskInformationChanged scenarioStores scenarioEditor 2
          .Information_Title).m_TaskIDToRowImageHeight t =
        scenarioEditor.m_TaskIDToRowImageHeight t) :=
  C2_TaskInformationChanged_Title scenarioStores scenarioEditor 2 (by decide)

/-- C3, the code at the failing input: in the scenario the handler for
(task 2, Title) drops the Predecessors entry of task 3, yet task 3 keeps its
attributes image and its row height; the changed task 2 itself loses both. -/
theorem C3_TaskInformationChanged_linked_row_kept :
    scenarioEditor.m_TaskIDAttributeContent 3 Attribute_Predecessors = some ["B (Build), FS"] ∧
    (TaskInformationChanged scenarioStores scenarioEditor 2
        .Information_Title).m_TaskIDAttributeContent 3 Attribute_Predecessors = none ∧
    (TaskInformationChanged scenarioStores scenarioEditor 2
        .Information_Title).m_TaskItemIDToImage_Attributes 3 = some 1 ∧
    (TaskInformationChanged scenarioStores scenarioEditor 2
        .Information_Title).m_TaskIDToRowImageHeight 3 = some 20 ∧
    (TaskInformationChanged scenarioStores scenarioEditor 2
        .Information_Title).m_TaskItemIDToImage_Attributes 2 = none ∧
    (TaskInformationChanged scenarioStores scenarioEditor 2
        .Information_Title).m_TaskIDToRowImageHeight 2 = none := by
  decide

/-! ### Selection -/

theorem foldl_RemoveTaskRow (p : Editor → Int → Prop) [∀ e k, Decidable (p e k)]
    (hp : ∀ e id k, p (RemoveTaskRow e id) k ↔ p e k) :
    ∀ (l : List Int) (e : Editor) (b : Bool),
      l.foldl (fun (acc : Editor × Bool) task_id =>
          if p acc.1 task_id then (RemoveTaskRow acc.1 task_id, true) else acc) (e, b) =
        ({ e with
            m_TaskItemIDToImage_Attributes := fun k =>
              if k ∈ l ∧ p e k then none else e.m_TaskItemIDToImage_Attributes k
            m_TaskItemIDToImage_GanttChart := fun k =>
              if k ∈ l ∧ p e k then none else e.m_TaskItemIDToImage_GanttChart k
            m_TaskIDToRowImageHeight := fun k =>
              if k ∈ l ∧ p e k then none else e.m_TaskIDToRowImageHeight k },
          b || l.any (fun k => decide (p e k))) := by
  intro l
  induction l with
  | nil => intro e b; simp
  | cons id rest ih =>
    intro e b
    rw [List.foldl_cons]
    by_cases h : p e id
    · simp only [h, if_true]
      rw [ih]
      simp only [hp, List.any_cons, h, decide_True, Bool.true_or, Bool.or_true, Prod.mk.injEq,
        and_true]
      simp only [RemoveTaskRow, remove]
      congr 1 <;> funext k <;> by_cases hk : k = id <;> simp [hk, h]
    · simp only [h, if_false]
      rw [ih]
      simp only [List.any_cons, h, decide_False, Bool.false_or, Prod.mk.injEq, and_true]
      congr 1 <;> funext k <;> by_cases hk : k = id <;> simp [hk, h]

theorem foldl_RemoveGroupRow (p : Editor → Int → Prop) [∀ e k, Decidable (p e k)]
    (hp : ∀ e id k, p (RemoveGroupRow e id) k ↔ p e k) :
    ∀ (l : List Int) (e : Editor) (b : Bool),
      l.foldl (fun (acc : Editor × Bool) group_id =>
          if p acc.1 group_id then (RemoveGroupRow acc.1 group_id, true) else acc) (e, b) =
        ({ e with
            m_TaskGroupIDToImage_Attributes := fun k =>
              if k ∈ l ∧ p e k then none else e.m_TaskGroupIDToImage_Attributes k
            m_TaskGroupIDToImage_GanttChart := fun k =>
              if k ∈ l ∧ p e k then none else e.m_TaskGroupIDToImage_GanttChart k
            m_GroupIDToRowImageHeight := fun k =>
              if k ∈ l ∧ p e k then none else e.m_GroupIDToRowImageHeight k },
          b || l.any (fun k => decide (p e k))) := by
  intro l
  induction l with
  | nil => intro e b; simp
  | cons id rest ih =>
    intro e b
    rw [List.foldl_cons]
    by_cases h : p e id
    · simp only [h, if_true]
      rw [ih]
      simp only [hp, List.any_cons, h, decide_True, Bool.true_or, Bool.or_true, Prod.mk.injEq,
        and_true]
      simp only [RemoveGroupRow, remove]
      congr 1 <;> funext k <;> by_cases hk : k = id <;> simp [hk, h]
    · simp only [h, if_false]
      rw [ih]
      simp only [List.any_cons, h, decide_False, Bool.false_or, Prod.mk.injEq, and_true]
      congr 1 <;> funext k <;> by_cases hk : k = id <;> simp [hk, h]

theorem SetSelection_eq (st : Stores) (e : Editor) (T G : List Int)
    (hT : ∀ t ∈ T, st.items.DoesIDExist t = true)
    (hG : ∀ g ∈ G, st.groups.DoesIDExist g = true) :
    SetSelection st e T G =
      (if ((e.m_SelectedTaskIDs.any (fun k => decide (k ∉ T)) ||
            e.m_SelectedGroupIDs.any (fun k => decide (k ∉ G))) ||
            T.any (fun k => decide (k ∉ e.m_SelectedTaskIDs))) ||
            G.any (fun k => decide (k ∉ e.m_SelectedGroupIDs)) then
        { e with
          m_SelectedTaskIDs := T
          m_SelectedGroupIDs := G
          m_TaskItemIDToImage_Attributes := fun k =>
            if (k ∈ e.m_SelectedTaskIDs ∧ k ∉ T) ∨ (k ∈ T ∧ k ∉ e.m_SelectedTaskIDs) then none
            else e.m_TaskItemIDToImage_Attributes k
          m_TaskItemIDToImage_GanttChart := fun k =>
            if (k ∈ e.m_SelectedTaskIDs ∧ k ∉ T) ∨ (k ∈ T ∧ k ∉ e.m_SelectedTaskIDs) then none
            else e.m_TaskItemIDToImage_GanttChart k
          m_TaskIDToRowImageHeight := fun k =>
            if (k ∈ e.m_SelectedTaskIDs ∧ k ∉ T) ∨ (k ∈ T ∧ k ∉ e.m_SelectedTaskIDs) then none
            else e.m_TaskIDToRowImageHeight k
          m_TaskGroupIDToImage_Attributes := fun k =>
            if (k ∈ e.m_SelectedGroupIDs ∧ k ∉ G) ∨ (k ∈ G ∧ k ∉ e.m_SelectedGroupIDs) then none
            else e.m_TaskGroupIDToImage_Attributes k
          m_TaskGroupIDToImage_GanttChart := fun k =>
            if (k ∈ e.m_SelectedGroupIDs ∧ k ∉ G) ∨ (k ∈ G ∧ k ∉ e.m_SelectedGroupIDs) then none
            else e.m_TaskGroupIDToImage_GanttChart k
          m_GroupIDToRowImageHeight := fun k =>
            if (k ∈ e.m_SelectedGroupIDs ∧ k ∉ G) ∨ (k ∈ G ∧ k ∉ e.m_SelectedGroupIDs) then none
            else e.m_GroupIDToRowImageHeight k }
      else e) := by
  have hT1 : T.all st.items.DoesIDExist = true := List.all_eq_true.mpr hT
  have hG1 : G.all st.groups.DoesIDExist = true := List.all_eq_true.mpr hG
  have h1 := foldl_RemoveTaskRow (fun _ k => k ∉ T) (fun _ _ _ => Iff.rfl)
  have h2 := foldl_RemoveGroupRow (fun _ k => k ∉ G) (fun _ _ _ => Iff.rfl)
  have h3 := foldl_RemoveTaskRow (fun e k => k ∉ e.m_SelectedTaskIDs) (fun _ _ _ => Iff.rfl)
  have h4 := foldl_RemoveGroupRow (fun e k => k ∉ e.m_SelectedGroupIDs) (fun _ _ _ => Iff.rfl)
  simp only [SetSelection, hT1, hG1, Bool.true_eq_false, if_false]
  simp only at h1 h2 h3 h4
  rw [h1, h2, h3, h4]
  simp only [Bool.false_or]
  split
  · congr 1 <;> funext k <;>
      by_cases ha : k ∈ e.m_SelectedTaskIDs <;> by_cases hb : k ∈ T <;>
      by_cases hc : k ∈ e.m_SelectedGroupIDs <;> by_cases hd : k ∈ G <;> simp [ha, hb, hc, hd]
  · rename_i hflag
    simp only [Bool.or_eq_true, List.any_eq_true, decide_eq_true_eq, not_or, not_exists,
      not_and, not_not] at hflag
    obtain ⟨⟨⟨f1, f2⟩, f3⟩, f4⟩ := hflag
    have e1 : ∀ k, ¬ (k ∈ e.m_SelectedTaskIDs ∧ k ∉ T) := fun k h => h.2 (f1 k h.1)
    have e2 : ∀ k, ¬ (k ∈ e.m_SelectedGroupIDs ∧ k ∉ G) := fun k h => h.2 (f2 k h.1)
    have e3 : ∀ k, ¬ (k ∈ T ∧ k ∉ e.m_SelectedTaskIDs) := fun k h => h.2 (f3 k h.1)
    have e4 : ∀ k, ¬ (k ∈ G ∧ k ∉ e.m_SelectedGroupIDs) := fun k h => h.2 (f4 k h.1)
    simp [e1, e2, e3, e4]

/-- C6: `SetSelection(T, G)` with all ids existing leaves the four content
hashes as they were; a task whose membership differs between the old and the
new task selection loses both images and its row height, every other task
keeps all three; the same holds for groups; afterwards the selected ids are
those of T and of G. -/
theorem C6_SetSelection_frame (st : Stores) (e : Editor) (T G : List Int)
    (hT : ∀ t ∈ T, st.items.DoesIDExist t = true)
    (hG : ∀ g ∈ G, st.groups.DoesIDExist g = true) :
    (SetSelection st e T G).m_TaskIDAttributeContent = e.m_TaskIDAttributeContent ∧
    (SetSelection st e T G).m_TaskIDAttributeData = e.m_TaskIDAttributeData ∧
    (SetSelection st e T G).m_GroupIDAttributeContent = e.m_GroupIDAttributeContent ∧
    (SetSelection st e T G).m_GroupIDAttributeData = e.m_GroupIDAttributeData ∧
    (∀ t, ((t ∈ e.m_SelectedTaskIDs ↔ t ∈ T) →
        (SetSelection st e T G).m_TaskItemIDToImage_Attributes t =
          e.m_TaskItemIDToImage_Attributes t ∧
        (SetSelection st e T G).m_TaskItemIDToImage_GanttChart t =
          e.m_TaskItemIDToImage_GanttChart t ∧
        (SetSelection st e T G).m_TaskIDToRowImageHeight t = e.m_TaskIDToRowImageHeight t) ∧
      (¬ (t ∈ e.m_SelectedTaskIDs ↔ t ∈ T) →
        (SetSelection st e T G).m_TaskItemIDToImage_Attributes t = none ∧
        (SetSelection st e T G).m_TaskItemIDToImage_GanttChart t = none ∧
        (SetSelection st e T G).m_TaskIDToRowImageHeight t = none)) ∧
    (∀ g, ((g ∈ e.m_SelectedGroupIDs ↔ g ∈ G) →
        (SetSelection st e T G).m_TaskGroupIDToImage_Attributes g =
          e.m_TaskGroupIDToImage_Attributes g ∧
        (SetSelection st e T G).m_TaskGroupIDToImage_GanttChart g =
          e.m_TaskGroupIDToImage_GanttChart g ∧
        (SetSelection st e T G).m_GroupIDToRowImageHeight g = e.m_GroupIDToRowImageHeight g) ∧
      (¬ (g ∈ e.m_SelectedGroupIDs ↔ g ∈ G) →
        (SetSelection st e T G).m_TaskGroupIDToImage_Attributes g = none ∧
        (SetSelection st e T G).m_TaskGroupIDToImage_GanttChart g = none ∧
        (SetSelection st e T G).m_GroupIDToRowImageHeight g = none)) ∧
    (∀ x, x ∈ GetSelectedTaskIDs (SetSelection st e T G) ↔ x ∈ T) ∧
    (∀ x, x ∈ GetSelectedGroupIDs (SetSelection st e T G) ↔ x ∈ G) := by
  rw [SetSelection_eq st e T G hT hG]
  split
  · refine ⟨rfl, rfl, rfl, rfl, ?_, ?_, fun _ => Iff.rfl, fun _ => Iff.rfl⟩
    · intro t
      by_cases ha : t ∈ e.m_SelectedTaskIDs <;> by_cases hb : t ∈ T <;> simp [ha, hb]
    · intro g
      by_cases ha : g ∈ e.m_SelectedGroupIDs <;> by_cases hb : g ∈ G <;> simp [ha, hb]
  · rename_i hflag
    simp only [Bool.or_eq_true, List.any_eq_true, decide_eq_true_eq, not_or, not_exists,
      not_and, not_not] at hflag
    obtain ⟨⟨⟨f1, f2⟩, f3⟩, f4⟩ := hflag
    refine ⟨rfl, rfl, rfl, rfl, ?_, ?_, fun x => ⟨f1 x, f3 x⟩, fun x => ⟨f2 x, f4 x⟩⟩
    · intro t
      exact ⟨fun _ => ⟨rfl, rfl, rfl⟩, fun h => absurd ⟨f1 t, f3 t⟩ h⟩
    · intro g
      exact ⟨fun _ => ⟨rfl, rfl, rfl⟩, fun h => absurd ⟨f2 g, f4 g⟩ h⟩

/-- C6 at the scenario: task 1 becomes selected, nothing was selected. -/
theorem C6_SetSelection_frame_witness :
    (SetSelection scenarioStores scenarioEditor [1] []).m_TaskIDAttributeContent =
      scenarioEditor.m_TaskIDAttributeContent ∧
    (SetSelection scenarioStores scenarioEditor [1] []).m_TaskIDAttributeData =
      scenarioEditor.m_TaskIDAttributeData ∧
    (SetSelection scenarioStores scenarioEditor [1] []).m_GroupIDAttributeContent =
      scenarioEditor.m_GroupIDAttributeContent ∧
    (SetSelection scenarioStores scenarioEditor [1] []).m_GroupIDAttributeData =
      scenarioEditor.m_GroupIDAttributeData ∧
    (∀ t, ((t ∈ scenarioEditor.m_SelectedTaskIDs ↔ t ∈ [1]) →
        (SetSelection scenarioStores scenarioEditor [1] []).m_TaskItemIDToImage_Attributes t =
          scenarioEditor.m_TaskItemIDToImage_Attributes t ∧
        (SetSelection scenarioStores scenarioEditor [1] []).m_TaskItemIDToImage_GanttChart t =
          scenarioEditor.m_TaskItemIDToImage_GanttChart t ∧
        (SetSelection scenarioStores scenarioEditor [1] []).m_TaskIDToRowImageHeight t =
          scenarioEditor.m_TaskIDToRowImageHeight t) ∧
      (¬ (t ∈ scenarioEditor.m_SelectedTaskIDs ↔ t ∈ [1]) →
        (SetSelection scenarioStores scenarioEditor [1] []).m_TaskItemIDToImage_Attributes t =
          none ∧
        (SetSelection scenarioStores scenarioEditor [1] []).m_TaskItemIDToImage_GanttChart t =
          none ∧
        (SetSelection scenarioStores scenarioEditor [1] []).m_TaskIDToRowImageHeight t =
          none)) ∧
    (∀ g, ((g ∈ scenarioEditor.m_SelectedGroupIDs ↔ g ∈ ([] : List Int)) →
        (SetSelection scenarioStores scenarioEditor [1] []).m_TaskGroupIDToImage_Attributes g =
          scenarioEditor.m_TaskGroupIDToImage_Attributes g ∧
        (SetSelection scenarioStores scenarioEditor [1] []).m_TaskGroupIDToImage_GanttChart g =
          scenarioEditor.m_TaskGroupIDToImage_GanttChart g ∧
        (SetSelection scenarioStores scenarioEditor [1] []).m_GroupIDToRowImageHeight g =
          scenarioEditor.m_GroupIDToRowImageHeight g) ∧
      (¬ (g ∈ scenarioEditor.m_SelectedGroupIDs ↔ g ∈ ([] : List Int)) →
        (SetSelection scenarioStores scenarioEditor [1] []).m_TaskGroupIDToImage_Attributes g =
          none ∧
        (SetSelection scenarioStores scenarioEditor [1] []).m_TaskGroupIDToImage_GanttChart g =
          none ∧
        (SetSelection scenarioStores scenarioEditor [1] []).m_GroupIDToRowImageHeight g =
          none)) ∧
    (∀ x, x ∈ GetSelectedTaskIDs (SetSelection scenarioStores scenarioEditor [1] []) ↔
      x ∈ [1]) ∧
    (∀ x, x ∈ GetSelectedGroupIDs (SetSelection scenarioStores scenarioEditor [1] []) ↔
      x ∈ ([] : List Int)) :=
  C6_SetSelection_frame scenarioStores scenarioEditor [1] [] (by decide) (by decide)

/-- The scenario of C6 evaluated: selecting task 1 drops the images and the
row height of task 1, keeps its Title fragment and keeps the row of task 2. -/
theorem SetSelection_scenario :
    (SetSelection scenarioStores scenarioEditor [1] []).m_TaskItemIDToImage_Attributes 1 =
      none ∧
    (SetSelection scenarioStores scenarioEditor [1] []).m_TaskIDToRowImageHeight 1 = none ∧
    (SetSelection scenarioStores scenarioEditor [1] []).m_TaskIDAttributeContent
      1 Attribute_Title = some ["cached title"] ∧
    (SetSelection scenarioStores scenarioEditor [1] []).m_TaskItemIDToImage_Attributes 2 =
      some 1 ∧
    (SetSelection scenarioStores scenarioEditor [1] []).m_SelectedTaskIDs = [1] := by
  decide

/-! ### Column widths -/

theorem CalculateAttributesTotalWidth_fold :
    ∀ (l : List Attributes) (e : Editor),
      l.foldl (fun (e : Editor) attr =>
        if attr = Attribute_GanttChart then
          e
        else
          { e with
            m_VisibleAttributesLeftCoordinates :=
              e.m_VisibleAttributesLeftCoordinates ++ [e.m_AttributesTotalWidth]
            m_AttributesTotalWidth := e.m_AttributesTotalWidth + e.m_AttributeWidths attr
            m_VisibleAttributesRightCoordinates :=
              e.m_VisibleAttributesRightCoordinates ++
                [e.m_AttributesTotalWidth + e.m_AttributeWidths attr] }) e =
      { e with
        m_AttributesTotalWidth := e.m_AttributesTotalWidth +
          ((l.filter (fun a => a ≠ Attribute_GanttChart)).map e.m_AttributeWidths).sum
        m_VisibleAttributesLeftCoordinates := e.m_VisibleAttributesLeftCoordinates ++
          (List.range (l.filter (fun a => a ≠ Attribute_GanttChart)).length).map (fun i =>
            e.m_AttributesTotalWidth +
              (((l.filter (fun a => a ≠ Attribute_GanttChart)).take i).map
                e.m_AttributeWidths).sum)
        m_VisibleAttributesRightCoordinates := e.m_VisibleAttributesRightCoordinates ++
          (List.range (l.filter (fun a => a ≠ Attribute_GanttChart)).length).map (fun i =>
            e.m_AttributesTotalWidth +
              (((l.filter (fun a => a ≠ Attribute_GanttChart)).take (i + 1)).map
                e.m_AttributeWidths).sum) } := by
  intro l
  induction l with
  | nil => intro e; simp
  | cons a rest ih =>
    intro e
    rw [List.foldl_cons]
    by_cases ha : a = Attribute_GanttChart
    · simp only [ha, if_true]
      rw [ih]
      simp
    · simp only [ha, if_false]
      rw [ih]
      have hf : (a :: rest).filter (fun a => a ≠ Attribute_GanttChart) =
          a :: rest.filter (fun a => a ≠ Attribute_GanttChart) := by
        simp [List.filter_cons, ha]
      rw [hf]
      simp only [List.map_cons, List.sum_cons, List.length_cons, List.range_succ_eq_map,
        List.map_map, List.take_succ_cons, List.take_zero, List.map_nil, List.sum_nil,
        List.append_assoc, List.singleton_append, add_zero]
      congr 1
      · ring
      · congr 2
        apply List.map_congr_left
        intro i _
        simp only [Function.comp, List.take_succ_cons, List.map_cons, List.sum_cons]
        ring
      · congr 2
        apply List.map_congr_left
        intro i _
        simp only [Function.comp, List.take_succ_cons, List.map_cons, List.sum_cons]
        ring

theorem CalculateAttributesTotalWidth_eq (e : Editor) :
    CalculateAttributesTotalWidth e =
      { e with
        m_AttributesTotalWidth :=
          ((e.m_VisibleAttributes.filter (fun a => a ≠ Attribute_GanttChart)).map
            e.m_AttributeWidths).sum
        m_VisibleAttributesLeftCoordinates :=
          (List.range (e.m_VisibleAttributes.filter
              (fun a => a ≠ Attribute_GanttChart)).length).map (fun i =>
            (((e.m_VisibleAttributes.filter (fun a => a ≠ Attribute_GanttChart)).take i).map
              e.m_AttributeWidths).sum)
        m_VisibleAttributesRightCoordinates :=
          (List.range (e.m_VisibleAttributes.filter
              (fun a => a ≠ Attribute_GanttChart)).length).map (fun i =>
            (((e.m_VisibleAttributes.filter (fun a => a ≠ Attribute_GanttChart)).take
              (i + 1)).map e.m_AttributeWidths).sum) } := by
  unfold CalculateAttributesTotalWidth
  rw [CalculateAttributesTotalWidth_fold]
  simp

/-- C9: `Drag_Header_Separator` at horizontal distance d from the drag start,
on attribute a whose width at drag start was w, sets the width of a to
max(w + d, m_MinAttributeWidth) and no other width; the total attribute width
is the sum of the new widths of the visible non-Gantt columns, the i-th left
offset is the sum of the new widths of the columns before i and the i-th right
offset adds the i-th width; all six row caches are empty afterwards and the
four content hashes are as they were. -/
theorem C9_Drag_Header_Separator (e : Editor) (mcX mcY : Int) (a : Attributes) (w d : Int)
    (ha : e.m_DragAttributeWidth_Attribute = a)
    (hw : e.m_DragAttributeWidth_OriginalWidth = w)
    (hd : mcX - e.m_DragStartPosition.1 = d) :
    (Drag_Header_Separator e mcX mcY).m_AttributeWidths a = max (w + d) e.m_MinAttributeWidth ∧
    (∀ b, b ≠ a → (Drag_Header_Separator e mcX mcY).m_AttributeWidths b =
      e.m_AttributeWidths b) ∧
    (Drag_Header_Separator e mcX mcY).m_AttributesTotalWidth =
      ((e.m_VisibleAttributes.filter (fun c => c ≠ Attribute_GanttChart)).map
        (Drag_Header_Separator e mcX mcY).m_AttributeWidths).sum ∧
    (Drag_Header_Separator e mcX mcY).m_VisibleAttributesLeftCoordinates =
      (List.range (e.m_VisibleAttributes.filter
          (fun c => c ≠ Attribute_GanttChart)).length).map (fun i =>
        (((e.m_VisibleAttributes.filter (fun c => c ≠ Attribute_GanttChart)).take i).map
          (Drag_Header_Separator e mcX mcY).m_AttributeWidths).sum) ∧
    (Drag_Header_Separator e mcX mcY).m_VisibleAttributesRightCoordinates =
      (List.range (e.m_VisibleAttributes.filter
          (fun c => c ≠ Attribute_GanttChart)).length).map (fun i =>
        (((e.m_VisibleAttributes.filter (fun c => c ≠ Attribute_GanttChart)).take
          (i + 1)).map (Drag_Header_Separator e mcX mcY).m_AttributeWidths).sum) ∧
    (∀ id, (Drag_Header_Separator e mcX mcY).m_TaskItemIDToImage_Attributes id = none ∧
      (Drag_Header_Separator e mcX mcY).m_TaskGroupIDToImage_Attributes id = none ∧
      (Drag_Header_Separator e mcX mcY).m_TaskItemIDToImage_GanttChart id = none ∧
      (Drag_Header_Separator e mcX mcY).m_TaskGroupIDToImage_GanttChart id = none ∧
      (Drag_Header_Separator e mcX mcY).m_TaskIDToRowImageHeight id = none ∧
      (Drag_Header_Separator e mcX mcY).m_GroupIDToRowImageHeight id = none) ∧
    (Drag_Header_Separator e mcX mcY).m_TaskIDAttributeContent = e.m_TaskIDAttributeContent ∧
    (Drag_Header_Separator e mcX mcY).m_TaskIDAttributeData = e.m_TaskIDAttributeData ∧
    (Drag_Header_Separator e mcX mcY).m_GroupIDAttributeContent =
      e.m_GroupIDAttributeContent ∧
    (Drag_Header_Separator e mcX mcY).m_GroupIDAttributeData = e.m_GroupIDAttributeData := by
  subst ha hw hd
  simp only [Drag_Header_Separator, CalculateAttributesTotalWidth_eq]
  simp only [Function.update_same, clear, and_self, implies_true, true_and]
  exact ⟨fun b hb => Function.update_noteq hb _ _, trivial⟩

/-- C9 at the scenario: the Title column, 200 wide, dragged 50 to the left. -/
theorem C9_Drag_Header_Separator_witness :
    (Drag_Header_Separator dragEditor 270 12).m_AttributeWidths Attribute_Title =
      max (200 + (-50)) dragEditor.m_MinAttributeWidth ∧
    (∀ b, b ≠ Attribute_Title → (Drag_Header_Separator dragEditor 270 12).m_AttributeWidths b =
      dragEditor.m_AttributeWidths b) ∧
    (Drag_Header_Separator dragEditor 270 12).m_AttributesTotalWidth =
      ((dragEditor.m_VisibleAttributes.filter (fun c => c ≠ Attribute_GanttChart)).map
        (Drag_Header_Separator dragEditor 270 12).m_AttributeWidths).sum ∧
    (Drag_Header_Separator dragEditor 270 12).m_VisibleAttributesLeftCoordinates =
      (List.range (dragEditor.m_VisibleAttributes.filter
          (fun c => c ≠ Attribute_GanttChart)).length).map (fun i =>
        (((dragEditor.m_VisibleAttributes.filter (fun c => c ≠ Attribute_GanttChart)).take
          i).map (Drag_Header_Separator dragEditor 270 12).m_AttributeWidths).sum) ∧
    (Drag_Header_Separator dragEditor 270 12).m_VisibleAttributesRightCoordinates =
      (List.range (dragEditor.m_VisibleAttributes.filter
          (fun c => c ≠ Attribute_GanttChart)).length).map (fun i =>
        (((dragEditor.m_VisibleAttributes.filter (fun c => c ≠ Attribute_GanttChart)).take
          (i + 1)).map (Drag_Header_Separator dragEditor 270 12).m_AttributeWidths).sum) ∧
    (∀ id, (Drag_Header_Separator dragEditor 270 12).m_TaskItemIDToImage_Attributes id = none ∧
      (Drag_Header_Separator dragEditor 270 12).m_TaskGroupIDToImage_Attributes id = none ∧
      (Drag_Header_Separator dragEditor 270 12).m_TaskItemIDToImage_GanttChart id = none ∧
      (Drag_Header_Separator dragEditor 270 12).m_TaskGroupIDToImage_GanttChart id = none ∧
      (Drag_Header_Separator dragEditor 270 12).m_TaskIDToRowImageHeight id = none ∧
      (Drag_Header_Separator dragEditor 270 12).m_GroupIDToRowImageHeight id = none) ∧
    (Drag_Header_Separator dragEditor 270 12).m_TaskIDAttributeContent =
      dragEditor.m_TaskIDAttributeContent ∧
    (Drag_Header_Separator dragEditor 270 12).m_TaskIDAttributeData =
      dragEditor.m_TaskIDAttributeData ∧
    (Drag_Header_Separator dragEditor 270 12).m_GroupIDAttributeContent =
      dragEditor.m_GroupIDAttributeContent ∧
    (Drag_Header_Separator dragEditor 270 12).m_GroupIDAttributeData =
      dragEditor.m_GroupIDAttributeData :=
  C9_Drag_Header_Separator dragEditor 270 12 Attribute_Title 200 (-50) (by decide) (by decide)
    (by decide)

/-- The scenario of C9 evaluated: the Title column ends 150 wide, the columns
to its right move left by 50 and the cached row of task 1 is gone. -/
theorem Drag_Header_Separator_scenario :
    (Drag_Header_Separator dragEditor 270 12).m_AttributeWidths Attribute_Title = 150 ∧
    (Drag_Header_Separator dragEditor 270 12).m_AttributesTotalWidth = 1320 ∧
    (Drag_Header_Separator dragEditor 270 12).m_VisibleAttributesLeftCoordinates =
      [0, 50, 120, 270, 370, 470, 570, 720, 870, 1020, 1170] ∧
    (Drag_Header_Separator dragEditor 270 12).m_VisibleAttributesRightCoordinates =
      [50, 120, 270, 370, 470, 570, 720, 870, 1020, 1170, 1320] ∧
    (Drag_Header_Separator dragEditor 270 12).m_TaskItemIDToImage_Attributes 1 = none ∧
    (Drag_Header_Separator dragEditor 270 12).m_TaskIDToRowImageHeight 1 = none ∧
    (Drag_Header_Separator dragEditor 270 12).m_TaskIDAttributeContent 1 Attribute_Title =
      some ["cached title"] := by
  decide

/-- C10, the code at the failing input: from the initial column list, which
ends with the Gantt column, showing the hidden Critical-path column with the
invalid attribute as anchor appends it behind the Gantt column. -/
theorem C10_ToggleVisibility_after_Gantt :
    (Editor.constructed sampleGroups).m_VisibleAttributes.getLast? =
      some Attribute_GanttChart ∧
    (ContextMenu_ToggleVisibility (Editor.constructed sampleGroups) Attribute_CriticalPath
      Attribute_Invalid).m_VisibleAttributes =
      [Attribute_ID, Attribute_CompletionStatus, Attribute_Title, Attribute_Duration,
       Attribute_StartDate, Attribute_FinishDate, Attribute_Predecessors,
       Attribute_Successors, Attribute_Resources, Attribute_Attachments, Attribute_Comments,
       Attribute_GanttChart, Attribute_CriticalPath] ∧
    Attribute_GanttChart ∈ (ContextMenu_ToggleVisibility (Editor.constructed sampleGroups)
      Attribute_CriticalPath Attribute_Invalid).m_VisibleAttributes ∧
    (ContextMenu_ToggleVisibility (Editor.constructed sampleGroups) Attribute_CriticalPath
      Attribute_Invalid).m_VisibleAttributes.getLast? ≠ some Attribute_GanttChart := by
  decide

/-! ### Group handlers -/

/-- C8, the code at the failing input: in the sample hierarchy
`GroupMembersChanged(2)` returns, group 2, its subgroup 4 and the tasks 3 and 5
below them lose attributes image and row height, the groups lose their Gantt
image too, but the Gantt images of the tasks 3 and 5 stay cached. -/
theorem C8_GroupMembersChanged_task_Gantt_kept :
    (GroupMembersChanged sampleGroups 4 sampleEditor 2).isSome = true ∧
    (GroupMembersChanged sampleGroups 4 sampleEditor 2).map
      (fun e => (e.m_TaskGroupIDToImage_Attributes 2, e.m_TaskGroupIDToImage_GanttChart 2,
        e.m_GroupIDToRowImageHeight 2, e.m_TaskGroupIDToImage_GanttChart 4)) =
      some (none, none, none, none) ∧
    (GroupMembersChanged sampleGroups 4 sampleEditor 2).map
      (fun e => (e.m_TaskItemIDToImage_Attributes 3, e.m_TaskIDToRowImageHeight 3,
        e.m_TaskItemIDToImage_Attributes 5, e.m_TaskIDToRowImageHeight 5)) =
      some (none, none, none, none) ∧
    (GroupMembersChanged sampleGroups 4 sampleEditor 2).map
      (fun e => (e.m_TaskItemIDToImage_GanttChart 3, e.m_TaskItemIDToImage_GanttChart 5)) =
      some (some 2, some 2) := by
  decide

theorem dropTitles_nil (hash : Int → Attributes → Option (List String)) :
    dropTitles hash [] = hash := by
  funext k a; simp [dropTitles]

theorem dropTitles_append (hash : Int → Attributes → Option (List String)) (l1 l2 : List Int) :
    dropTitles (dropTitles hash l1) l2 = dropTitles hash (l1 ++ l2) := by
  funext k a
  by_cases ha : a = Attribute_Title <;> by_cases h1 : k ∈ l1 <;> by_cases h2 : k ∈ l2 <;>
    simp [dropTitles, ha, h1, h2]

theorem dropTitles_remove2 (hash : Int → Attributes → Option (List String)) (id : Int) :
    remove2 hash id Attribute_Title = dropTitles hash [id] := by
  funext k a
  by_cases ha : a = Attribute_Title <;> by_cases h1 : k = id <;>
    simp [dropTitles, remove2, ha, h1]

theorem dropTitles_congr (hash : Int → Attributes → Option (List String)) (l1 l2 : List Int)
    (h : ∀ k, k ∈ l1 ↔ k ∈ l2) : dropTitles hash l1 = dropTitles hash l2 := by
  funext k a
  simp [dropTitles, h k]

theorem Element.subgroups_fst (children : List Element) :
    (Element.subgroups children).map Prod.fst = Element.directGroupIDs children := by
  induction children with
  | nil => rfl
  | cons x rest ih =>
    cases x with
    | task id => simpa [Element.subgroups, Element.directGroupIDs] using ih
    | group id cs => simpa [Element.subgroups, Element.directGroupIDs] using ih

theorem Element.subgroups_stored (ag : AllTaskGroups) (children : List Element)
    (h : Element.StoredAll ag children) :
    ∀ p ∈ Element.subgroups children, Element.Stored ag (.group p.1 p.2) := by
  induction children with
  | nil => intro p hp; simp [Element.subgroups] at hp
  | cons x rest ih =>
    rw [Element.StoredAll] at h
    cases x with
    | task id => intro p hp; exact ih h.2 p (by simpa [Element.subgroups] using hp)
    | group id cs =>
      intro p hp
      simp only [Element.subgroups, List.mem_cons] at hp
      rcases hp with hp | hp
      · subst hp; exact h.1
      · exact ih h.2 p hp

theorem Element.groupIDsAll_length (children : List Element) :
    (Element.groupIDsAll children).length = queueCount (Element.subgroups children) := by
  induction children with
  | nil => rfl
  | cons x rest ih =>
    cases x with
    | task id =>
      simpa [Element.subgroups, Element.groupIDsAll, Element.groupIDs] using ih
    | group id cs =>
      simp only [Element.subgroups, Element.groupIDsAll, Element.groupIDs, List.length_append,
        List.length_cons, ih, queueCount, List.map_cons, List.sum_cons]
      omega

theorem queueCount_append (q1 q2 : List (Int × List Element)) :
    queueCount (q1 ++ q2) = queueCount q1 + queueCount q2 := by
  simp [queueCount]

theorem Element.mem_taskIDsAll (children : List Element) (k : Int) :
    k ∈ Element.taskIDsAll children ↔
      k ∈ Element.directTaskIDs children ∨
        ∃ p ∈ Element.subgroups children, k ∈ Element.taskIDsAll p.2 := by
  induction children with
  | nil => simp [Element.taskIDsAll, Element.directTaskIDs, Element.subgroups]
  | cons x rest ih =>
    cases x with
    | task id =>
      simp only [Element.taskIDsAll, Element.taskIDs, Element.directTaskIDs, Element.subgroups,
        List.mem_append, List.mem_singleton, List.mem_cons, ih]
      tauto
    | group id cs =>
      simp only [Element.taskIDsAll, Element.taskIDs, Element.directTaskIDs, Element.subgroups,
        List.mem_append, List.mem_cons, ih, exists_eq_or_imp]
      tauto

theorem Element.mem_groupIDsAll (children : List Element) (k : Int) :
    k ∈ Element.groupIDsAll children ↔
      k ∈ Element.directGroupIDs children ∨
        ∃ p ∈ Element.subgroups children, k ∈ Element.groupIDsAll p.2 := by
  induction children with
  | nil => simp [Element.groupIDsAll, Element.directGroupIDs, Element.subgroups]
  | cons x rest ih =>
    cases x with
    | task id =>
      simp only [Element.groupIDsAll, Element.groupIDs, Element.directGroupIDs,
        Element.subgroups, List.mem_append, List.not_mem_nil, false_or, ih]
    | group id cs =>
      simp only [Element.groupIDsAll, Element.groupIDs, Element.directGroupIDs,
        Element.subgroups, List.mem_append, List.mem_cons, ih, exists_eq_or_imp]
      tauto

theorem GroupInformationChanged_HierarchyChild_loop :
    ∀ (children : List Element) (walk : GroupWalk),
      (Element.entries children).foldlM GroupInformationChanged_HierarchyChild walk =
        .ok {
          editor := { walk.editor with
            m_TaskIDAttributeContent :=
              dropTitles walk.editor.m_TaskIDAttributeContent (Element.directTaskIDs children)
            m_GroupIDAttributeContent :=
              dropTitles walk.editor.m_GroupIDAttributeContent
                (Element.directGroupIDs children) }
          affected_group_ids := walk.affected_group_ids ++ Element.directGroupIDs children
          affected_task_ids := walk.affected_task_ids ++ Element.directTaskIDs children
          remaining_group_ids :=
            walk.remaining_group_ids ++ Element.directGroupIDs children } := by
  intro children
  induction children with
  | nil =>
    intro walk
    simp [Element.entries, Element.directTaskIDs, Element.directGroupIDs, dropTitles_nil, pure,
      Except.pure]
  | cons x rest ih =>
    intro walk
    cases x with
    | task id =>
      simp only [Element.entries, Element.entry, List.foldlM_cons,
        GroupInformationChanged_HierarchyChild, bind, Except.bind, ih, dropTitles_remove2,
        dropTitles_append, Element.directTaskIDs, Element.directGroupIDs, List.append_assoc,
        List.singleton_append]
    | group id cs =>
      simp only [Element.entries, Element.entry, List.foldlM_cons,
        GroupInformationChanged_HierarchyChild, bind, Except.bind, ih, dropTitles_remove2,
        dropTitles_append, Element.directTaskIDs, Element.directGroupIDs, List.append_assoc,
        List.singleton_append]

theorem GroupInformationChanged_Child_loop :
    ∀ (children : List Element) (walk : GroupWalk),
      (Element.entries children).foldlM GroupInformationChanged_Child walk =
        .ok {
          editor := { walk.editor with
            m_TaskIDAttributeContent :=
              dropTitles walk.editor.m_TaskIDAttributeContent (Element.directTaskIDs children)
            m_GroupIDAttributeContent :=
              dropTitles walk.editor.m_GroupIDAttributeContent
                (Element.directGroupIDs children) }
          affected_group_ids := walk.affected_group_ids ++ Element.directGroupIDs children
          affected_task_ids := walk.affected_task_ids ++ Element.directTaskIDs children
          remaining_group_ids := walk.remaining_group_ids } := by
  intro children
  induction children with
  | nil =>
    intro walk
    simp [Element.entries, Element.directTaskIDs, Element.directGroupIDs, dropTitles_nil, pure,
      Except.pure]
  | cons x rest ih =>
    intro walk
    cases x with
    | task id =>
      simp only [Element.entries, Element.entry, List.foldlM_cons,
        GroupInformationChanged_Child, bind, Except.bind, ih, dropTitles_remove2,
        dropTitles_append, Element.directTaskIDs, Element.directGroupIDs, List.append_assoc,
        List.singleton_append]
    | group id cs =>
      simp only [Element.entries, Element.entry, List.foldlM_cons,
        GroupInformationChanged_Child, bind, Except.bind, ih, dropTitles_remove2,
        dropTitles_append, Element.directTaskIDs, Element.directGroupIDs, List.append_assoc,
        List.singleton_append]

theorem GroupInformationChanged_Hierarchy_spec (ag : AllTaskGroups) :
    ∀ (fuel : Nat) (queue : List (Int × List Element)) (walk : GroupWalk),
      walk.remaining_group_ids = queue.map Prod.fst →
      (∀ p ∈ queue, Element.Stored ag (.group p.1 p.2)) →
      queueCount queue ≤ fuel →
      ∃ walk1 tids gids,
        GroupInformationChanged_Hierarchy ag fuel walk = some (.ok walk1) ∧
        (∀ k, k ∈ tids ↔ ∃ p ∈ queue, k ∈ Element.taskIDsAll p.2) ∧
        (∀ k, k ∈ gids ↔ ∃ p ∈ queue, k ∈ Element.groupIDsAll p.2) ∧
        walk1.editor = { walk.editor with
          m_TaskIDAttributeContent := dropTitles walk.editor.m_TaskIDAttributeContent tids
          m_GroupIDAttributeContent := dropTitles walk.editor.m_GroupIDAttributeContent gids } := by
  intro fuel
  induction fuel with
  | zero =>
    intro queue walk hrem _ hcount
    cases queue with
    | nil =>
      refine ⟨walk, [], [], ?_, by simp, by simp, by simp [dropTitles_nil]⟩
      unfold GroupInformationChanged_Hierarchy
      simp [hrem]
    | cons p rest => simp [queueCount] at hcount
  | succ fuel ih =>
    intro queue walk hrem hstored hcount
    cases queue with
    | nil =>
      refine ⟨walk, [], [], ?_, by simp, by simp, by simp [dropTitles_nil]⟩
      unfold GroupInformationChanged_Hierarchy
      simp [hrem]
    | cons p rest =>
      obtain ⟨id, cs⟩ := p
      have hp := hstored (id, cs) (List.mem_cons_self _ _)
      rw [Element.Stored] at hp
      have hq : ∀ p ∈ rest ++ Element.subgroups cs, Element.Stored ag (.group p.1 p.2) := by
        intro p hp1
        rcases List.mem_append.mp hp1 with h | h
        · exact hstored p (List.mem_cons_of_mem _ h)
        · exact Element.subgroups_stored ag cs hp.2 p h
      have hc : queueCount (rest ++ Element.subgroups cs) ≤ fuel := by
        rw [queueCount_append, ← Element.groupIDsAll_length]
        simp only [queueCount, List.map_cons, List.sum_cons] at hcount
        simp only [queueCount]
        omega
      obtain ⟨walk1, tids, gids, hrun, ht, hg, hed⟩ := ih (rest ++ Element.subgroups cs)
        { editor := { walk.editor with
            m_TaskIDAttributeContent :=
              dropTitles walk.editor.m_TaskIDAttributeContent (Element.directTaskIDs cs)
            m_GroupIDAttributeContent :=
              dropTitles walk.editor.m_GroupIDAttributeContent (Element.directGroupIDs cs) }
          affected_group_ids := walk.affected_group_ids ++ Element.directGroupIDs cs
          affected_task_ids := walk.affected_task_ids ++ Element.directTaskIDs cs
          remaining_group_ids := rest.map Prod.fst ++ Element.directGroupIDs cs }
        (by simp [Element.subgroups_fst]) hq hc
      refine ⟨walk1, Element.directTaskIDs cs ++ tids, Element.directGroupIDs cs ++ gids,
        ?_, ?_, ?_, ?_⟩
      · unfold GroupInformationChanged_Hierarchy
        simp only [hrem, List.map_cons, hp.1, GroupInformationChanged_HierarchyChild_loop]
        exact hrun
      · intro k
        simp only [List.mem_append, ht, List.mem_cons, exists_eq_or_imp,
          Element.mem_taskIDsAll cs k]
        constructor
        · rintro (h | ⟨p, hp1 | hp1, hk⟩)
          · exact Or.inl (Or.inl h)
          · exact Or.inr ⟨p, hp1, hk⟩
          · exact Or.inl (Or.inr ⟨p, hp1, hk⟩)
        · rintro ((h | ⟨p, hp1, hk⟩) | ⟨p, hp1, hk⟩)
          · exact Or.inl h
          · exact Or.inr ⟨p, Or.inr hp1, hk⟩
          · exact Or.inr ⟨p, Or.inl hp1, hk⟩
      · intro k
        simp only [List.mem_append, hg, List.mem_cons, exists_eq_or_imp,
          Element.mem_groupIDsAll cs k]
        constructor
        · rintro (h | ⟨p, hp1 | hp1, hk⟩)
          · exact Or.inl (Or.inl h)
          · exact Or.inr ⟨p, hp1, hk⟩
          · exact Or.inl (Or.inr ⟨p, hp1, hk⟩)
        · rintro ((h | ⟨p, hp1, hk⟩) | ⟨p, hp1, hk⟩)
          · exact Or.inl h
          · exact Or.inr ⟨p, Or.inr hp1, hk⟩
          · exact Or.inr ⟨p, Or.inl hp1, hk⟩
      · rw [hed]
        simp [dropTitles_append]

theorem foldl_RemoveCachedTaskRow_content :
    ∀ (l : List Int) (e : Editor),
      (l.foldl RemoveCachedTaskRow e).m_TaskIDAttributeContent = e.m_TaskIDAttributeContent ∧
      (l.foldl RemoveCachedTaskRow e).m_GroupIDAttributeContent =
        e.m_GroupIDAttributeContent := by
  intro l
  induction l with
  | nil => intro e; exact ⟨rfl, rfl⟩
  | cons id rest ih =>
    intro e
    rw [List.foldl_cons]
    refine ⟨(ih _).1.trans ?_, (ih _).2.trans ?_⟩ <;> unfold RemoveCachedTaskRow <;> split <;> rfl

theorem foldl_RemoveCachedGroupRow_content :
    ∀ (l : List Int) (e : Editor),
      (l.foldl RemoveCachedGroupRow e).m_TaskIDAttributeContent = e.m_TaskIDAttributeContent ∧
      (l.foldl RemoveCachedGroupRow e).m_GroupIDAttributeContent =
        e.m_GroupIDAttributeContent := by
  intro l
  induction l with
  | nil => intro e; exact ⟨rfl, rfl⟩
  | cons id rest ih =>
    intro e
    rw [List.foldl_cons]
    refine ⟨(ih _).1.trans ?_, (ih _).2.trans ?_⟩ <;> unfold RemoveCachedGroupRow <;> split <;> rfl

theorem GroupInformationChanged_Rows_content (walk : GroupWalk) :
    (GroupInformationChanged_Rows walk).m_TaskIDAttributeContent =
      walk.editor.m_TaskIDAttributeContent ∧
    (GroupInformationChanged_Rows walk).m_GroupIDAttributeContent =
      walk.editor.m_GroupIDAttributeContent := by
  unfold GroupInformationChanged_Rows
  exact ⟨(foldl_RemoveCachedTaskRow_content _ _).1.trans (foldl_RemoveCachedGroupRow_content _ _).1,
    (foldl_RemoveCachedTaskRow_content _ _).2.trans (foldl_RemoveCachedGroupRow_content _ _).2⟩

/-- C7: with the Title column visible and the subtree of the existing group g
given as a tree the store lists, `GroupInformationChanged(g, Title)` returns
(the fuel exceeding the number of groups below g) and the Title content
entries it drops are: that of g alone under the title-only format; those of g
and of the direct children of g under the title-and-parent-group format; those
of g and of every task and group of the whole subtree of g under the
title-and-full-hierarchy format. Every other content entry, of any entity and
attribute, is as before. -/
theorem C7_GroupInformationChanged_Title (st : Stores) (fuel : Nat) (e : Editor) (g : Int)
    (children : List Element)
    (hg : st.groups.DoesIDExist g = true)
    (hvis : Attribute_Title ∈ e.m_VisibleAttributes)
    (hst : Element.Stored st.groups (.group g children))
    (hfuel : (Element.groupIDsAll children).length < fuel) :
    ∃ e1, GroupInformationChanged st fuel e g .Information_Title = some e1 ∧
      (e.m_AttributeDisplayFormat Attribute_Title = AttributeDisplayFormat_TitleOnly →
        (∀ k a, e1.m_GroupIDAttributeContent k a =
          if a = Attribute_Title ∧ k = g then none else e.m_GroupIDAttributeContent k a) ∧
        (∀ k a, e1.m_TaskIDAttributeContent k a = e.m_TaskIDAttributeContent k a)) ∧
      (e.m_AttributeDisplayFormat Attribute_Title = AttributeDisplayFormat_TitleAndParentGroup →
        (∀ k a, e1.m_GroupIDAttributeContent k a =
          if a = Attribute_Title ∧ (k = g ∨ k ∈ Element.directGroupIDs children) then none
          else e.m_GroupIDAttributeContent k a) ∧
        (∀ k a, e1.m_TaskIDAttributeContent k a =
          if a = Attribute_Title ∧ k ∈ Element.directTaskIDs children then none
          else e.m_TaskIDAttributeContent k a)) ∧
      (e.m_AttributeDisplayFormat Attribute_Title =
          AttributeDisplayFormat_TitleAndFullHierarchy →
        (∀ k a, e1.m_GroupIDAttributeContent k a =
          if a = Attribute_Title ∧ (k = g ∨ k ∈ Element.groupIDsAll children) then none
          else e.m_GroupIDAttributeContent k a) ∧
        (∀ k a, e1.m_TaskIDAttributeContent k a =
          if a = Attribute_Title ∧ k ∈ Element.taskIDsAll children then none
          else e.m_TaskIDAttributeContent k a)) := by
  rw [Element.Stored] at hst
  by_cases h1 : e.m_AttributeDisplayFormat Attribute_Title =
      AttributeDisplayFormat_TitleAndParentGroup
  · refine ⟨?w, ?hrun, ?_, ?_, ?_⟩
    case hrun =>
      simp only [GroupInformationChanged, hg, m_GroupInformationToAffectedAttributes,
        GroupInformationChanged_Content, List.foldl_cons, List.foldl_nil, hvis, h1, hst.1,
        GroupInformationChanged_Child_loop, Bool.true_eq_false, if_false, true_and, if_true]
      exact rfl
    · intro h; rw [h1] at h; cases h
    · intro _
      rw [(GroupInformationChanged_Rows_content _).1, (GroupInformationChanged_Rows_content _).2]
      constructor
      · intro k a
        by_cases ha : a = Attribute_Title <;> by_cases hk : k = g <;>
          simp [dropTitles, remove2, ha, hk]
      · intro k a; simp [dropTitles]
    · intro h; rw [h1] at h; cases h
  · by_cases h2 : e.m_AttributeDisplayFormat Attribute_Title =
        AttributeDisplayFormat_TitleAndFullHierarchy
    · obtain ⟨walk1, tids, gids, hrun, ht, hgs, hed⟩ :=
        GroupInformationChanged_Hierarchy_spec st.groups fuel [(g, children)]
          { editor := { e with
              m_GroupIDAttributeContent :=
                remove2 e.m_GroupIDAttributeContent g Attribute_Title }
            affected_group_ids := [g]
            affected_task_ids := []
            remaining_group_ids := [g] }
          rfl
          (by intro p hp; simp only [List.mem_singleton] at hp; subst hp
              rw [Element.Stored]; exact hst)
          (by simp only [queueCount, List.map_cons, List.map_nil, List.sum_cons, List.sum_nil]
              omega)
      refine ⟨GroupInformationChanged_Rows walk1, ?_, ?_, ?_, ?_⟩
      · simp only [GroupInformationChanged, hg, m_GroupInformationToAffectedAttributes,
          GroupInformationChanged_Content, List.foldl_cons, List.foldl_nil, hvis, h1, h2,
          Bool.true_eq_false, if_false, true_and, if_true, Bool.false_or, decide_True,
          reduceCtorEq, hrun]
      · intro h; rw [h2] at h; cases h
      · intro h; exact absurd h h1
      · intro _
        rw [(GroupInformationChanged_Rows_content _).1,
          (GroupInformationChanged_Rows_content _).2, hed]
        simp only [List.mem_singleton, exists_eq_left] at ht hgs
        constructor
        · intro k a
          by_cases ha : a = Attribute_Title <;> by_cases hk : k = g <;>
            simp [dropTitles, remove2, ha, hk, hgs]
        · intro k a; simp [dropTitles, ht]
    · refine ⟨?w3, ?hrun3, ?_, ?_, ?_⟩
      case hrun3 =>
        simp only [GroupInformationChanged, hg, m_GroupInformationToAffectedAttributes,
          GroupInformationChanged_Content, List.foldl_cons, List.foldl_nil, hvis, h1, h2,
          Bool.true_eq_false, if_false, true_and, if_true]
        exact rfl
      · intro _
        rw [(GroupInformationChanged_Rows_content _).1,
          (GroupInformationChanged_Rows_content _).2]
        constructor
        · intro k a
          by_cases ha : a = Attribute_Title <;> by_cases hk : k = g <;>
            simp [remove2, ha, hk]
        · intro k a; rfl
      · intro h; exact absurd h h1
      · intro h; exact absurd h h2

/-- C7 at the sample hierarchy: group 2 with task 3 and subgroup 4 (holding
task 5), the Title column showing the full hierarchy. -/
theorem C7_GroupInformationChanged_Title_witness :
    ∃ e1, GroupInformationChanged sampleStores 2 hierarchyEditor 2 .Information_Title =
        some e1 ∧
      (hierarchyEditor.m_AttributeDisplayFormat Attribute_Title =
          AttributeDisplayFormat_TitleOnly →
        (∀ k a, e1.m_GroupIDAttributeContent k a =
          if a = Attribute_Title ∧ k = 2 then none
          else hierarchyEditor.m_GroupIDAttributeContent k a) ∧
        (∀ k a, e1.m_TaskIDAttributeContent k a =
          hierarchyEditor.m_TaskIDAttributeContent k a)) ∧
      (hierarchyEditor.m_AttributeDisplayFormat Attribute_Title =
          AttributeDisplayFormat_TitleAndParentGroup →
        (∀ k a, e1.m_GroupIDAttributeContent k a =
          if a = Attribute_Title ∧
              (k = 2 ∨ k ∈ Element.directGroupIDs [.task 3, .group 4 [.task 5]]) then none
          else hierarchyEditor.m_GroupIDAttributeContent k a) ∧
        (∀ k a, e1.m_TaskIDAttributeContent k a =
          if a = Attribute_Title ∧ k ∈ Element.directTaskIDs [.task 3, .group 4 [.task 5]]
          then none
          else hierarchyEditor.m_TaskIDAttributeContent k a)) ∧
      (hierarchyEditor.m_AttributeDisplayFormat Attribute_Title =
          AttributeDisplayFormat_TitleAndFullHierarchy →
        (∀ k a, e1.m_GroupIDAttributeContent k a =
          if a = Attribute_Title ∧
              (k = 2 ∨ k ∈ Element.groupIDsAll [.task 3, .group 4 [.task 5]]) then none
          else hierarchyEditor.m_GroupIDAttributeContent k a) ∧
        (∀ k a, e1.m_TaskIDAttributeContent k a =
          if a = Attribute_Title ∧ k ∈ Element.taskIDsAll [.task 3, .group 4 [.task 5]]
          then none
          else hierarchyEditor.m_TaskIDAttributeContent k a)) :=
  C7_GroupInformationChanged_Title sampleStores 2 hierarchyEditor 2
    [.task 3, .group 4 [.task 5]] (by decide) (by decide)
    (by simp [sampleStores, sampleGroups, Element.StoredAll, Element.Stored, Element.entries,
      Element.entry])
    (by decide)

/-- The three formats of C7 evaluated on the sample hierarchy for group 2:
title-only drops the Title entry of group 2 alone; title-and-parent-group also
those of task 3 and group 4 but not of task 5; title-and-full-hierarchy also
that of task 5; the entry of task 1 outside the group stays in every case. -/
theorem GroupInformationChanged_sample :
    (GroupInformationChanged sampleStores 2 sampleEditor 2 .Information_Title).map
      (fun e => (e.m_GroupIDAttributeContent 2 Attribute_Title,
        e.m_TaskIDAttributeContent 3 Attribute_Title,
        e.m_GroupIDAttributeContent 4 Attribute_Title,
        e.m_TaskIDAttributeContent 5 Attribute_Title,
        e.m_TaskIDAttributeContent 1 Attribute_Title)) =
      some (none, some ["task title"], some ["group title"], some ["task title"],
        some ["task title"]) ∧
    (GroupInformationChanged sampleStores 2 parentEditor 2 .Information_Title).map
      (fun e => (e.m_GroupIDAttributeContent 2 Attribute_Title,
        e.m_TaskIDAttributeContent 3 Attribute_Title,
        e.m_GroupIDAttributeContent 4 Attribute_Title,
        e.m_TaskIDAttributeContent 5 Attribute_Title,
        e.m_TaskIDAttributeContent 1 Attribute_Title)) =
      some (none, none, none, some ["task title"], some ["task title"]) ∧
    (GroupInformationChanged sampleStores 2 hierarchyEditor 2 .Information_Title).map
      (fun e => (e.m_GroupIDAttributeContent 2 Attribute_Title,
        e.m_TaskIDAttributeContent 3 Attribute_Title,
        e.m_GroupIDAttributeContent 4 Attribute_Title,
        e.m_TaskIDAttributeContent 5 Attribute_Title,
        e.m_TaskIDAttributeContent 1 Attribute_Title)) =
      some (none, none, none, none, some ["task title"]) := by
  refine ⟨?_, ?_, ?_⟩ <;> rfl

/-! ### Content cache -/

theorem insert2_self {V : Type} (hash : Int → Attributes → Option V) (k : Int) (a : Attributes)
    (v : V) (h : hash k a = some v) : insert2 hash k a v = hash := by
  funext k1 a1
  by_cases h1 : k1 = k ∧ a1 = a
  · obtain ⟨rfl, rfl⟩ := h1; simp [insert2, h]
  · simp [insert2, h1]

theorem insert2_get {V : Type} (hash : Int → Attributes → Option V) (k : Int) (a : Attributes)
    (v : V) : insert2 hash k a v k a = some v := by
  simp [insert2]

theorem TaskContentResult_hit (e : Editor) (t : Int) (a : Attributes) (fragments : List String)
    (ids : List Int) (hc : e.m_TaskIDAttributeContent t a = some fragments)
    (hd : e.m_TaskIDAttributeData t a = some ids) :
    TaskContentResult e t a = ((fragments, ids), e) := by
  simp only [TaskContentResult, hc, hd, Option.getD_some]
  rw [insert2_self _ _ _ _ hc, insert2_self _ _ _ _ hd]

theorem GroupContentResult_hit (e : Editor) (g : Int) (a : Attributes) (fragments : List String)
    (ids : List Int) (hc : e.m_GroupIDAttributeContent g a = some fragments)
    (hd : e.m_GroupIDAttributeData g a = some ids) :
    GroupContentResult e g a = ((fragments, ids), e) := by
  simp only [GroupContentResult, hc, hd, Option.getD_some]
  rw [insert2_self _ _ _ _ hc, insert2_self _ _ _ _ hd]

theorem GetTaskContent_after_result (st : Stores) (fuel : Nat) (e : Editor) (t : Int)
    (a : Attributes) :
    GetTaskContent st fuel (TaskContentResult e t a).2 t a =
      some (TaskContentResult e t a) := by
  have hc : (TaskContentResult e t a).2.m_TaskIDAttributeContent t a =
      some ((e.m_TaskIDAttributeContent t a).getD []) := by
    simp [TaskContentResult, insert2]
  have hd : (TaskContentResult e t a).2.m_TaskIDAttributeData t a =
      some ((e.m_TaskIDAttributeData t a).getD []) := by
    simp [TaskContentResult, insert2]
  unfold GetTaskContent
  rw [hc]
  simp only [Option.isSome_some, if_true]
  rw [TaskContentResult_hit _ t a _ _ hc hd]
  rfl

theorem GetGroupContent_after_result (st : Stores) (fuel : Nat) (e : Editor) (g : Int)
    (a : Attributes) :
    GetGroupContent st fuel (GroupContentResult e g a).2 g a =
      some (GroupContentResult e g a) := by
  have hc : (GroupContentResult e g a).2.m_GroupIDAttributeContent g a =
      some ((e.m_GroupIDAttributeContent g a).getD []) := by
    simp [GroupContentResult, insert2]
  have hd : (GroupContentResult e g a).2.m_GroupIDAttributeData g a =
      some ((e.m_GroupIDAttributeData g a).getD []) := by
    simp [GroupContentResult, insert2]
  unfold GetGroupContent
  rw [hc]
  simp only [Option.isSome_some, if_true]
  rw [GroupContentResult_hit _ g a _ _ hc hd]
  rfl

theorem GetTaskContent_repeat (st : Stores) (fuel : Nat) (e : Editor) (t : Int)
    (a : Attributes) (r : (List String × List Int) × Editor)
    (h : GetTaskContent st fuel e t a = some r) :
    GetTaskContent st fuel r.2 t a = some r := by
  unfold GetTaskContent at h
  split at h
  · cases h; exact GetTaskContent_after_result st fuel e t a
  · rename_i hmiss
    cases hupd : UpdateTaskContent st fuel e t a (st.items.GetInformation t) with
    | none => simp only [hupd] at h; cases h
    | some o =>
      cases o with
      | none =>
        simp only [hupd] at h
        cases h
        unfold GetTaskContent
        simp [hmiss, hupd]
      | some e1 =>
        simp only [hupd] at h
        cases h
        exact GetTaskContent_after_result st fuel _ t a

theorem GetGroupContent_repeat (st : Stores) (fuel : Nat) (e : Editor) (g : Int)
    (a : Attributes) (r : (List String × List Int) × Editor)
    (h : GetGroupContent st fuel e g a = some r) :
    GetGroupContent st fuel r.2 g a = some r := by
  unfold GetGroupContent at h
  split at h
  · cases h; exact GetGroupContent_after_result st fuel e g a
  · rename_i hmiss
    cases hupd : UpdateGroupContent st fuel e g a (st.groups.GetInformation g) with
    | none => simp only [hupd] at h; cases h
    | some o =>
      cases o with
      | none =>
        simp only [hupd] at h
        cases h
        unfold GetGroupContent
        simp [hmiss, hupd]
      | some e1 =>
        simp only [hupd] at h
        cases h
        exact GetGroupContent_after_result st fuel _ g a

theorem UpdateTaskContent_Title_returns (st : Stores) (fuel : Nat) (e : Editor) (t : Int)
    (info : AllTaskItems.Information → String)
    (h : e.m_AttributeDisplayFormat Attribute_Title ≠
        AttributeDisplayFormat_TitleAndFullHierarchy ∨
      (ParentNames st.groups fuel (st.groups.GetParentGroupIDForTaskID t)).isSome = true) :
    ∃ e1, UpdateTaskContent_Title st fuel e t info = some e1 := by
  apply Option.isSome_iff_exists.mp
  unfold UpdateTaskContent_Title
  cases hf : e.m_AttributeDisplayFormat Attribute_Title
  case AttributeDisplayFormat_TitleAndParentGroup =>
    by_cases hp : st.groups.GetParentGroupIDForTaskID t = st.groups.ROOT_ID <;> simp [hp]
  case AttributeDisplayFormat_TitleAndFullHierarchy =>
    rcases h with h | h
    · exact absurd hf h
    · cases hp : ParentNames st.groups fuel (st.groups.GetParentGroupIDForTaskID t) with
      | none => rw [hp] at h; cases h
      | some names => simp
  all_goals simp

theorem UpdateGroupContent_Title_returns (st : Stores) (fuel : Nat) (e : Editor) (g : Int)
    (info : AllTaskGroups.Information → String)
    (h : e.m_AttributeDisplayFormat Attribute_Title ≠
        AttributeDisplayFormat_TitleAndFullHierarchy ∨
      (ParentNames st.groups fuel
        (st.helper.toInt (info .Information_ParentGroupID))).isSome = true) :
    ∃ e1, UpdateGroupContent_Title st fuel e g info = some e1 := by
  apply Option.isSome_iff_exists.mp
  unfold UpdateGroupContent_Title
  cases hf : e.m_AttributeDisplayFormat Attribute_Title
  case AttributeDisplayFormat_TitleAndParentGroup =>
    by_cases hp : st.helper.toInt (info .Information_ParentGroupID) = st.groups.ROOT_ID <;>
      simp [hp]
  case AttributeDisplayFormat_TitleAndFullHierarchy =>
    rcases h with h | h
    · exact absurd hf h
    · cases hp : ParentNames st.groups fuel
          (st.helper.toInt (info .Information_ParentGroupID)) with
      | none => rw [hp] at h; cases h
      | some names => simp [hp]
  all_goals simp

theorem GetTaskContent_returns (st : Stores) (fuel : Nat) (e : Editor) (t : Int)
    (a : Attributes)
    (h : a ≠ Attribute_Title ∨
      e.m_AttributeDisplayFormat Attribute_Title ≠ AttributeDisplayFormat_TitleAndFullHierarchy ∨
      (ParentNames st.groups fuel (st.groups.GetParentGroupIDForTaskID t)).isSome = true) :
    (GetTaskContent st fuel e t a).isSome = true := by
  have hu : ∃ o, UpdateTaskContent st fuel e t a (st.items.GetInformation t) = some o := by
    cases a
    case Attribute_Title =>
      rcases h with h | h
      · exact absurd rfl h
      · obtain ⟨e1, he1⟩ := UpdateTaskContent_Title_returns st fuel e t
          (st.items.GetInformation t) h
        exact ⟨some e1, by simp only [UpdateTaskContent, he1]⟩
    all_goals exact ⟨_, rfl⟩
  obtain ⟨o, ho⟩ := hu
  unfold GetTaskContent
  split
  · rfl
  · simp only [ho]
    cases o <;> rfl

theorem GetGroupContent_returns (st : Stores) (fuel : Nat) (e : Editor) (g : Int)
    (a : Attributes)
    (h : a ≠ Attribute_Title ∨
      e.m_AttributeDisplayFormat Attribute_Title ≠ AttributeDisplayFormat_TitleAndFullHierarchy ∨
      (ParentNames st.groups fuel (st.helper.toInt
        (st.groups.GetInformation g .Information_ParentGroupID))).isSome = true) :
    (GetGroupContent st fuel e g a).isSome = true := by
  have hu : ∃ o, UpdateGroupContent st fuel e g a (st.groups.GetInformation g) = some o := by
    cases a
    case Attribute_Title =>
      rcases h with h | h
      · exact absurd rfl h
      · obtain ⟨e1, he1⟩ := UpdateGroupContent_Title_returns st fuel e g
          (st.groups.GetInformation g) h
        exact ⟨some e1, by simp only [UpdateGroupContent, he1]⟩
    all_goals exact ⟨_, rfl⟩
  obtain ⟨o, ho⟩ := hu
  unfold GetGroupContent
  split
  · rfl
  · simp only [ho]
    cases o <;> rfl

/-- C4: when the content hash and the id hash both hold an entry for (t, a),
`GetTaskContent(t, a)` returns exactly the stored fragments and ids and leaves
the editor as it was, and likewise `GetGroupContent`; and for any editor,
entity and attribute, a call that returns (it always does unless the Title
column shows the full hierarchy and the parent walk does not reach the root
within the fuel) is followed by a call that returns the same pair and leaves
the editor as the first call left it. -/
theorem C4_GetContent_cached (st : Stores) (fuel : Nat) (e : Editor) (t : Int) (a : Attributes)
    (fragments : List String) (ids : List Int) (g : Int) (b : Attributes)
    (gfragments : List String) (gids : List Int)
    (hc : e.m_TaskIDAttributeContent t a = some fragments)
    (hd : e.m_TaskIDAttributeData t a = some ids)
    (hgc : e.m_GroupIDAttributeContent g b = some gfragments)
    (hgd : e.m_GroupIDAttributeData g b = some gids) :
    GetTaskContent st fuel e t a = some ((fragments, ids), e) ∧
    GetGroupContent st fuel e g b = some ((gfragments, gids), e) ∧
    (∀ (e0 : Editor) (t0 : Int) (a0 : Attributes),
      (a0 ≠ Attribute_Title ∨
        e0.m_AttributeDisplayFormat Attribute_Title ≠
          AttributeDisplayFormat_TitleAndFullHierarchy ∨
        (ParentNames st.groups fuel (st.groups.GetParentGroupIDForTaskID t0)).isSome = true) →
      ∃ r, GetTaskContent st fuel e0 t0 a0 = some r ∧
        GetTaskContent st fuel r.2 t0 a0 = some r) ∧
    (∀ (e0 : Editor) (g0 : Int) (b0 : Attributes),
      (b0 ≠ Attribute_Title ∨
        e0.m_AttributeDisplayFormat Attribute_Title ≠
          AttributeDisplayFormat_TitleAndFullHierarchy ∨
        (ParentNames st.groups fuel (st.helper.toInt
          (st.groups.GetInformation g0 .Information_ParentGroupID))).isSome = true) →
      ∃ r, GetGroupContent st fuel e0 g0 b0 = some r ∧
        GetGroupContent st fuel r.2 g0 b0 = some r) := by
  refine ⟨?_, ?_, ?_, ?_⟩
  · unfold GetTaskContent
    rw [hc]
    simp only [Option.isSome_some, if_true]
    rw [TaskContentResult_hit e t a fragments ids hc hd]
  · unfold GetGroupContent
    rw [hgc]
    simp only [Option.isSome_some, if_true]
    rw [GroupContentResult_hit e g b gfragments gids hgc hgd]
  · intro e0 t0 a0 h
    obtain ⟨r, hr⟩ := Option.isSome_iff_exists.mp (GetTaskContent_returns st fuel e0 t0 a0 h)
    exact ⟨r, hr, GetTaskContent_repeat st fuel e0 t0 a0 r hr⟩
  · intro e0 g0 b0 h
    obtain ⟨r, hr⟩ := Option.isSome_iff_exists.mp (GetGroupContent_returns st fuel e0 g0 b0 h)
    exact ⟨r, hr, GetGroupContent_repeat st fuel e0 g0 b0 r hr⟩

/-- C4 at the scenario: the cached Predecessors entry of task 3 and the cached
Title entry of group 7. -/
theorem C4_GetContent_cached_witness :
    GetTaskContent scenarioStores 0 scenarioEditor 3 Attribute_Predecessors =
      some ((["B (Build), FS"], [10]), scenarioEditor) ∧
    GetGroupContent scenarioStores 0 scenarioEditor 7 Attribute_Title =
      some ((["Later"], []), scenarioEditor) ∧
    (∀ (e0 : Editor) (t0 : Int) (a0 : Attributes),
      (a0 ≠ Attribute_Title ∨
        e0.m_AttributeDisplayFormat Attribute_Title ≠
          AttributeDisplayFormat_TitleAndFullHierarchy ∨
        (ParentNames scenarioStores.groups 0
          (scenarioStores.groups.GetParentGroupIDForTaskID t0)).isSome = true) →
      ∃ r, GetTaskContent scenarioStores 0 e0 t0 a0 = some r ∧
        GetTaskContent scenarioStores 0 r.2 t0 a0 = some r) ∧
    (∀ (e0 : Editor) (g0 : Int) (b0 : Attributes),
      (b0 ≠ Attribute_Title ∨
        e0.m_AttributeDisplayFormat Attribute_Title ≠
          AttributeDisplayFormat_TitleAndFullHierarchy ∨
        (ParentNames scenarioStores.groups 0 (scenarioStores.helper.toInt
          (scenarioStores.groups.GetInformation g0 .Information_ParentGroupID))).isSome =
            true) →
      ∃ r, GetGroupContent scenarioStores 0 e0 g0 b0 = some r ∧
        GetGroupContent scenarioStores 0 r.2 g0 b0 = some r) :=
  C4_GetContent_cached scenarioStores 0 scenarioEditor 3 Attribute_Predecessors
    ["B (Build), FS"] [10] 7 Attribute_Title ["Later"] [] (by decide) (by decide) (by decide)
    (by decide)

/-- A miss followed by a hit, evaluated: the Title of task 3 of the sample
hierarchy is computed from the stores, and the Slack (workdays) column caches
an empty fragment list under its own key. -/
theorem GetTaskContent_sample :
    (GetTaskContent sampleStores 0 (Editor.constructed sampleGroups) 3 Attribute_Title).map
      (fun r => r.1) = some (["Ship"], []) ∧
    ((GetTaskContent sampleStores 0 (Editor.constructed sampleGroups) 3 Attribute_Title).bind
      (fun r => GetTaskContent sampleStores 0 r.2 3 Attribute_Title)).map
      (fun r => r.1) = some (["Ship"], []) ∧
    (GetTaskContent sampleStores 0 (Editor.constructed sampleGroups) 3
      Attribute_SlackWorkdays).map (fun r => r.1) = some ([], []) := by
  refine ⟨?_, ?_, ?_⟩ <;> rfl

/-- C5, the code at the failing input: the Title of task 3 (in group "Phase")
is cached under the title-only format as "Ship"; after
`ContextMenu_SetDisplayFormat(Title, title-and-parent-group)` the entry is
still there and `GetTaskContent` returns "Ship", while the computation from an
empty cache under the new format returns "Phase: Ship". -/
theorem C5_SetDisplayFormat_keeps_stale_content :
    ((GetTaskContent sampleStores 0 (Editor.constructed sampleGroups) 3 Attribute_Title).bind
      (fun r => GetTaskContent sampleStores 0
        (ContextMenu_SetDisplayFormat r.2 Attribute_Title
          AttributeDisplayFormat_TitleAndParentGroup) 3 Attribute_Title)).map
      (fun r => r.1) = some (["Ship"], []) ∧
    (GetTaskContent sampleStores 0
      (ContextMenu_SetDisplayFormat (Editor.constructed sampleGroups) Attribute_Title
        AttributeDisplayFormat_TitleAndParentGroup) 3 Attribute_Title).map
      (fun r => r.1) = some (["Phase: Ship"], []) := by
  refine ⟨?_, ?_⟩ <;> rfl

/-! ## Row heights -/

theorem StoreSortedContent_withoutContent (e : Editor) (t : Int) (a : Attributes)
    (texts : List (Int × String)) (ids : List Int) :
    (StoreSortedContent e t a texts ids).withoutContent = e.withoutContent := rfl

theorem StoreSingleContent_withoutContent (e : Editor) (t : Int) (a : Attributes)
    (c : String) : (StoreSingleContent e t a c).withoutContent = e.withoutContent := rfl

theorem StoreSingleGroupContent_withoutContent (e : Editor) (t : Int) (a : Attributes)
    (c : String) : (StoreSingleGroupContent e t a c).withoutContent = e.withoutContent := rfl

theorem UpdateTaskContent_Title_withoutContent (st : Stores) (fuel : Nat) (e e1 : Editor)
    (t : Int) (info : AllTaskItems.Information → String)
    (h : UpdateTaskContent_Title st fuel e t info = some e1) :
    e1.withoutContent = e.withoutContent := by
  unfold UpdateTaskContent_Title at h
  split at h
  · cases h; rfl
  · dsimp only at h
    split at h <;> (cases h; rfl)
  · split at h
    · cases h
    · cases h; rfl
  · cases h; rfl

theorem UpdateTaskContent_withoutContent (st : Stores) (fuel : Nat) (e e1 : Editor) (t : Int)
    (a : Attributes) (info : AllTaskItems.Information → String)
    (h : UpdateTaskContent st fuel e t a info = some (some e1)) :
    e1.withoutContent = e.withoutContent := by
  cases a
  case Attribute_Title =>
    simp only [UpdateTaskContent] at h
    cases hu : UpdateTaskContent_Title st fuel e t info with
    | none => simp [hu] at h
    | some e2 =>
      simp only [hu, Option.some.injEq] at h
      subst h
      exact UpdateTaskContent_Title_withoutContent st fuel e _ t info hu
  case Attribute_Invalid => simp [UpdateTaskContent] at h
  case Attribute_GanttChart => simp [UpdateTaskContent] at h
  all_goals
    simp only [UpdateTaskContent, Option.some.injEq] at h
    subst h
    first
      | rfl
      | (unfold UpdateTaskContent_Comments; (try dsimp only); split <;> rfl)
      | (unfold UpdateTaskContent_CompletionStatus; (try dsimp only); split <;> rfl)
      | (unfold UpdateTaskContent_CriticalPath; split <;> rfl)
      | (unfold UpdateTaskContent_FinishDate; (try dsimp only); split <;> rfl)
      | (unfold UpdateTaskContent_Predecessors; (try dsimp only); split <;> rfl)
      | (unfold UpdateTaskContent_StartDate; (try dsimp only); split <;> rfl)
      | (unfold UpdateTaskContent_Successors; (try dsimp only); split <;> rfl)

theorem GetTaskContent_withoutContent (st : Stores) (fuel : Nat) (e e1 : Editor) (t : Int)
    (a : Attributes) (c : List String × List Int)
    (h : GetTaskContent st fuel e t a = some (c, e1)) :
    e1.withoutContent = e.withoutContent := by
  unfold GetTaskContent at h
  split at h
  · cases h; rfl
  · dsimp only at h
    cases hu : UpdateTaskContent st fuel e t a (st.items.GetInformation t) with
    | none => simp [hu] at h
    | some o =>
      cases o with
      | none => simp only [hu, Option.some.injEq, Prod.mk.injEq] at h; rw [← h.2]
      | some e2 =>
        simp only [hu, Option.some.injEq] at h
        have h2 := UpdateTaskContent_withoutContent st fuel e e2 t a _ hu
        rw [← h2]
        cases h
        rfl

theorem UpdateGroupContent_withoutContent (st : Stores) (fuel : Nat) (e e1 : Editor) (g : Int)
    (a : Attributes) (info : AllTaskGroups.Information → String)
    (h : UpdateGroupContent st fuel e g a info = some (some e1)) :
    e1.withoutContent = e.withoutContent := by
  cases a
  case Attribute_Title =>
    simp only [UpdateGroupContent] at h
    cases hu : UpdateGroupContent_Title st fuel e g info with
    | none => simp [hu] at h
    | some e2 =>
      simp only [hu, Option.some.injEq] at h
      subst h
      unfold UpdateGroupContent_Title at hu
      dsimp only at hu
      split at hu
      · cases hu; rfl
      · split at hu <;> (cases hu; rfl)
      · split at hu
        · cases hu
        · cases hu; rfl
      · cases hu; rfl
  case Attribute_CompletionStatus =>
    simp only [UpdateGroupContent, Option.some.injEq] at h
    subst h
    unfold UpdateGroupContent_CompletionStatus
    split <;> rfl
  all_goals simp [UpdateGroupContent] at h

theorem GetGroupContent_withoutContent (st : Stores) (fuel : Nat) (e e1 : Editor) (g : Int)
    (a : Attributes) (c : List String × List Int)
    (h : GetGroupContent st fuel e g a = some (c, e1)) :
    e1.withoutContent = e.withoutContent := by
  unfold GetGroupContent at h
  split at h
  · cases h; rfl
  · dsimp only at h
    cases hu : UpdateGroupContent st fuel e g a (st.groups.GetInformation g) with
    | none => simp [hu] at h
    | some o =>
      cases o with
      | none => simp only [hu, Option.some.injEq, Prod.mk.injEq] at h; rw [← h.2]
      | some e2 =>
        simp only [hu, Option.some.injEq] at h
        have h2 := UpdateGroupContent_withoutContent st fuel e e2 g a _ hu
        rw [← h2]
        cases h
        rfl

theorem foldlM_some_invariant {α β : Type} (f : β → α → Option β) (P : β → Prop)
    (step : ∀ b a b1, P b → f b a = some b1 → P b1) :
    ∀ (l : List α) (b b1 : β), P b → l.foldlM f b = some b1 → P b1 := by
  intro l
  induction l with
  | nil =>
    intro b b1 hb h
    simp only [List.foldlM, pure, Option.some.injEq] at h
    exact h ▸ hb
  | cons a rest ih =>
    intro b b1 hb h
    simp only [List.foldlM, bind, Option.bind] at h
    cases hf : f b a with
    | none => simp [hf] at h
    | some b2 =>
      simp only [hf] at h
      exact ih b2 b1 (step b a b2 hb hf) h

theorem foldlM_some_returns {α β : Type} (f : β → α → Option β) (P : β → Prop)
    (step : ∀ b a, P b → ∃ b1, f b a = some b1 ∧ P b1) :
    ∀ (l : List α) (b : β), P b → ∃ b1, l.foldlM f b = some b1 := by
  intro l
  induction l with
  | nil => intro b _; exact ⟨b, rfl⟩
  | cons a rest ih =>
    intro b hb
    obtain ⟨b1, hf, hb1⟩ := step b a hb
    obtain ⟨b2, h2⟩ := ih b1 hb1
    exact ⟨b2, by simp only [List.foldlM, bind, Option.bind, hf, h2]⟩

theorem withoutHeights_of_withoutContent (e e1 : Editor)
    (h : e1.withoutContent = e.withoutContent) : e1.withoutHeights = e.withoutHeights := by
  unfold Editor.withoutHeights
  rw [h]

theorem GetRowImageHeight_TaskItem_spec (st : Stores) (fuel : Nat) (e e1 : Editor)
    (index h : Int) (hrun : GetRowImageHeight_TaskItem st fuel e index = some (h, e1)) :
    ∃ id, listAt e.m_VisibleIDs index = some id ∧
      e1.withoutHeights = e.withoutHeights ∧
      e1.m_TaskIDToRowImageHeight id = some h ∧
      (∀ k, k ≠ id → e1.m_TaskIDToRowImageHeight k = e.m_TaskIDToRowImageHeight k) ∧
      (∀ v, e.m_TaskIDToRowImageHeight id = some v → v = h) ∧
      e1.m_GroupIDToRowImageHeight = e.m_GroupIDToRowImageHeight ∧
      (e.m_TaskIDToRowImageHeight id = none → 0 ≤ h) := by
  unfold GetRowImageHeight_TaskItem at hrun
  split at hrun
  · cases hrun
  · rename_i id hid
    refine ⟨id, hid, ?_⟩
    split at hrun
    · rename_i v hv
      cases hrun
      exact ⟨rfl, hv, fun _ _ => rfl, fun v1 h1 => by rw [hv] at h1; cases h1; rfl, rfl,
        fun h0 => by rw [hv] at h0; cases h0⟩
    · rename_i hmiss
      split at hrun
      · cases hrun
      · rename_i r e2 hfold
        cases hrun
        have hinv := foldlM_some_invariant _
          (fun (s : Int × Editor) => s.2.withoutContent = e.withoutContent ∧ 0 ≤ s.1)
          (by
            intro b a b1 hb hstep
            split at hstep
            · cases hstep
              exact ⟨hb.1, le_max_of_le_left hb.2⟩
            · split at hstep
              · cases hstep
              · rename_i c e3 hget
                split at hstep
                · cases hstep
                · cases hstep
                  exact ⟨(GetTaskContent_withoutContent st fuel _ _ _ _ _ hget).trans hb.1,
                    le_max_of_le_left hb.2⟩)
          _ _ _ ⟨rfl, le_refl 0⟩ hfold
        have hwc : e2.withoutContent = e.withoutContent := hinv.1
        have hth : e2.m_TaskIDToRowImageHeight = e.m_TaskIDToRowImageHeight := by
          have h := congrArg Editor.m_TaskIDToRowImageHeight hwc
          exact h
        have hgh : e2.m_GroupIDToRowImageHeight = e.m_GroupIDToRowImageHeight := by
          have h := congrArg Editor.m_GroupIDToRowImageHeight hwc
          exact h
        refine ⟨?_, ?_, ?_, ?_, ?_, ?_⟩
        · exact withoutHeights_of_withoutContent e e2 hwc
        · simp
        · intro k hk
          simp only [hk, if_false]
          exact congrFun hth k
        · intro v hv
          rw [hmiss] at hv
          cases hv
        · exact hgh
        · intro _
          exact hinv.2

theorem GetRowImageHeight_TaskGroup_spec (st : Stores) (fuel : Nat) (e e1 : Editor)
    (index h : Int) (hrun : GetRowImageHeight_TaskGroup st fuel e index = some (h, e1)) :
    ∃ id, listAt e.m_VisibleIDs index = some id ∧
      e1.withoutHeights = e.withoutHeights ∧
      e1.m_GroupIDToRowImageHeight id = some h ∧
      (∀ k, k ≠ id → e1.m_GroupIDToRowImageHeight k = e.m_GroupIDToRowImageHeight k) ∧
      (∀ v, e.m_GroupIDToRowImageHeight id = some v → v = h) ∧
      e1.m_TaskIDToRowImageHeight = e.m_TaskIDToRowImageHeight ∧
      (e.m_GroupIDToRowImageHeight id = none → 0 ≤ h) := by
  unfold GetRowImageHeight_TaskGroup at hrun
  split at hrun
  · cases hrun
  · rename_i id hid
    refine ⟨id, hid, ?_⟩
    split at hrun
    · rename_i v hv
      cases hrun
      exact ⟨rfl, hv, fun _ _ => rfl, fun v1 h1 => by rw [hv] at h1; cases h1; rfl, rfl,
        fun h0 => by rw [hv] at h0; cases h0⟩
    · rename_i hmiss
      split at hrun
      · cases hrun
      · rename_i r e2 hfold
        cases hrun
        have hinv := foldlM_some_invariant _
          (fun (s : Int × Editor) => s.2.withoutContent = e.withoutContent ∧ 0 ≤ s.1)
          (by
            intro b a b1 hb hstep
            split at hstep
            · cases hstep
              exact ⟨hb.1, le_max_of_le_left hb.2⟩
            · split at hstep
              · cases hstep
              · rename_i c e3 hget
                split at hstep
                · cases hstep
                · cases hstep
                  exact ⟨(GetGroupContent_withoutContent st fuel _ _ _ _ _ hget).trans hb.1,
                    le_max_of_le_left hb.2⟩)
          _ _ _ ⟨rfl, le_refl 0⟩ hfold
        have hwc : e2.withoutContent = e.withoutContent := hinv.1
        have hgh : e2.m_GroupIDToRowImageHeight = e.m_GroupIDToRowImageHeight := by
          have h := congrArg Editor.m_GroupIDToRowImageHeight hwc
          exact h
        have hth : e2.m_TaskIDToRowImageHeight = e.m_TaskIDToRowImageHeight := by
          have h := congrArg Editor.m_TaskIDToRowImageHeight hwc
          exact h
        refine ⟨?_, ?_, ?_, ?_, ?_, ?_⟩
        · exact withoutHeights_of_withoutContent e e2 hwc
        · simp
        · intro k hk
          simp only [hk, if_false]
          exact congrFun hgh k
        · intro v hv
          rw [hmiss] at hv
          cases hv
        · exact hth
        · intro _
          exact hinv.2

theorem listAt_natCast {α : Type} (l : List α) (i : Nat) : listAt l (i : Int) = l[i]? := by
  simp [listAt]

theorem HeightsGrown.refl (e : Editor) : HeightsGrown e e :=
  ⟨rfl, fun _ _ h => h, fun _ _ h => h⟩

theorem HeightsGrown.trans {a b c : Editor} (h1 : HeightsGrown a b) (h2 : HeightsGrown b c) :
    HeightsGrown a c :=
  ⟨h2.1.trans h1.1, fun id v h => h2.2.1 id v (h1.2.1 id v h),
    fun id v h => h2.2.2 id v (h1.2.2 id v h)⟩

theorem HeightsGrown.ids {e e1 : Editor} (h : HeightsGrown e e1) :
    e1.m_VisibleIDs = e.m_VisibleIDs := by
  have h1 := congrArg Editor.m_VisibleIDs h.1
  exact h1

theorem HeightsGrown.types {e e1 : Editor} (h : HeightsGrown e e1) :
    e1.m_VisibleIDTypes = e.m_VisibleIDTypes := by
  have h1 := congrArg Editor.m_VisibleIDTypes h.1
  exact h1

theorem HeightsGrown.padding {e e1 : Editor} (h : HeightsGrown e e1) :
    e1.m_RowPadding = e.m_RowPadding := by
  have h1 := congrArg Editor.m_RowPadding h.1
  exact h1

theorem HeightsGrown.rowCached {e e1 : Editor} (h : HeightsGrown e e1) (i : Nat)
    (hc : RowCached e i) : RowCached e1 i ∧ CachedRowHeight e1 i = CachedRowHeight e i := by
  unfold RowCached CachedRowHeight at *
  rw [h.ids, h.types, h.padding]
  cases ht : e.m_VisibleIDTypes[i]? with
  | none => simp [ht] at hc
  | some t =>
    cases hid : e.m_VisibleIDs[i]? with
    | none => cases t <;> simp [ht, hid] at hc ⊢
    | some id =>
      cases t
      · simp only [ht, hid] at hc ⊢
        obtain ⟨v, hv⟩ := Option.isSome_iff_exists.mp hc
        simp [h.2.1 id v hv, hv]
      · simp only [ht, hid] at hc ⊢
        obtain ⟨v, hv⟩ := Option.isSome_iff_exists.mp hc
        simp [h.2.2 id v hv, hv]
      · simp

theorem GetRowImageHeight_hit (st : Stores) (fuel : Nat) (e : Editor) (i : Nat)
    (hc : RowCached e i) :
    GetRowImageHeight st fuel e i = some (CachedRowHeight e i, e) := by
  unfold RowCached at hc
  unfold GetRowImageHeight CachedRowHeight
  rw [listAt_natCast]
  cases ht : e.m_VisibleIDTypes[i]? with
  | none => simp [ht] at hc
  | some t =>
    cases hid : e.m_VisibleIDs[i]? with
    | none => cases t <;> simp [ht, hid] at hc ⊢
    | some id =>
      cases t
      · simp only [ht, hid] at hc ⊢
        obtain ⟨v, hv⟩ := Option.isSome_iff_exists.mp hc
        simp [GetRowImageHeight_TaskItem, listAt_natCast, hid, hv]
      · simp only [ht, hid] at hc ⊢
        obtain ⟨v, hv⟩ := Option.isSome_iff_exists.mp hc
        simp [GetRowImageHeight_TaskGroup, listAt_natCast, hid, hv]
      · simp

theorem GetRowImageHeight_spec (st : Stores) (fuel : Nat) (e e1 : Editor) (i : Nat) (h : Int)
    (hrun : GetRowImageHeight st fuel e i = some (h, e1)) :
    HeightsGrown e e1 ∧ RowCached e1 i ∧ h = CachedRowHeight e1 i ∧
      (HeightsNonneg e → HeightsNonneg e1) := by
  unfold GetRowImageHeight at hrun
  rw [listAt_natCast] at hrun
  split at hrun
  · cases hrun
  · rename_i ht
    split at hrun
    · cases hrun
    · rename_i r e2 hitem
      simp only [Option.some.injEq, Prod.mk.injEq] at hrun
      obtain ⟨hh, he⟩ := hrun
      subst he
      subst hh
      obtain ⟨id, hid, hwh, hnew, hother, hold, hgh, hpos⟩ :=
        GetRowImageHeight_TaskItem_spec st fuel e e2 i r hitem
      rw [listAt_natCast] at hid
      have hg : HeightsGrown e e2 := by
        refine ⟨hwh, ?_, ?_⟩
        · intro k v hk
          by_cases hkid : k = id
          · subst hkid
            rw [hnew, hold v hk]
          · rw [hother k hkid, hk]
        · intro k v hk
          rw [hgh, hk]
      refine ⟨hg, ?_, ?_, ?_⟩
      · unfold RowCached
        rw [hg.ids, hg.types]
        simp [ht, hid, hnew]
      · unfold CachedRowHeight
        rw [hg.ids, hg.types]
        simp [ht, hid, hnew]
      · intro hn
        refine ⟨?_, ?_⟩
        · intro k v hk
          by_cases hkid : k = id
          · subst hkid
            rw [hnew] at hk
            cases hk
            cases hc : e.m_TaskIDToRowImageHeight k with
            | none => exact hpos hc
            | some v0 => rw [← hold v0 hc]; exact hn.1 k v0 hc
          · rw [hother k hkid] at hk
            exact hn.1 k v hk
        · intro k v hk
          rw [hgh] at hk
          exact hn.2 k v hk
  · rename_i ht
    split at hrun
    · cases hrun
    · rename_i r e2 hitem
      simp only [Option.some.injEq, Prod.mk.injEq] at hrun
      obtain ⟨hh, he⟩ := hrun
      subst he
      subst hh
      obtain ⟨id, hid, hwh, hnew, hother, hold, hth, hpos⟩ :=
        GetRowImageHeight_TaskGroup_spec st fuel e e2 i r hitem
      rw [listAt_natCast] at hid
      have hg : HeightsGrown e e2 := by
        refine ⟨hwh, ?_, ?_⟩
        · intro k v hk
          rw [hth, hk]
        · intro k v hk
          by_cases hkid : k = id
          · subst hkid
            rw [hnew, hold v hk]
          · rw [hother k hkid, hk]
      refine ⟨hg, ?_, ?_, ?_⟩
      · unfold RowCached
        rw [hg.ids, hg.types]
        simp [ht, hid, hnew]
      · unfold CachedRowHeight
        rw [hg.ids, hg.types]
        simp [ht, hid, hnew]
      · intro hn
        refine ⟨?_, ?_⟩
        · intro k v hk
          rw [hth] at hk
          exact hn.1 k v hk
        · intro k v hk
          by_cases hkid : k = id
          · subst hkid
            rw [hnew] at hk
            cases hk
            cases hc : e.m_GroupIDToRowImageHeight k with
            | none => exact hpos hc
            | some v0 => rw [← hold v0 hc]; exact hn.2 k v0 hc
          · rw [hother k hkid] at hk
            exact hn.2 k v hk
  · rename_i ht
    cases hrun
    refine ⟨HeightsGrown.refl e, ?_, ?_, fun hn => hn⟩
    · unfold RowCached
      simp [ht]
    · unfold CachedRowHeight
      simp [ht]

theorem RowsMeasurable.of_withoutContent {st : Stores} {fuel : Nat} {e e1 : Editor}
    (h : e1.withoutContent = e.withoutContent) (hm : RowsMeasurable st fuel e) :
    RowsMeasurable st fuel e1 := by
  have h1 : RowsMeasurable st fuel e.withoutContent := hm
  rw [← h] at h1
  exact h1

theorem RowsMeasurable.of_grown {st : Stores} {fuel : Nat} {e e1 : Editor}
    (h : HeightsGrown e e1) (hm : RowsMeasurable st fuel e) : RowsMeasurable st fuel e1 := by
  have h1 : RowsMeasurable st fuel e.withoutHeights := hm
  rw [← h.1] at h1
  exact h1

theorem GetRowImageHeight_TaskItem_returns (st : Stores) (fuel : Nat) (e : Editor) (i : Nat)
    (hm : RowsMeasurable st fuel e) (hi : i < e.m_VisibleIDs.length)
    (ht : e.m_VisibleIDTypes[i]? = some ElementType_TaskID) :
    ∃ r, GetRowImageHeight_TaskItem st fuel e i = some r := by
  unfold GetRowImageHeight_TaskItem
  rw [listAt_natCast, List.getElem?_eq_getElem hi]
  dsimp only
  cases hc : e.m_TaskIDToRowImageHeight e.m_VisibleIDs[i] with
  | some v => exact ⟨_, rfl⟩
  | none =>
    dsimp only
    obtain ⟨b1, hb1⟩ := foldlM_some_returns
      (fun (state : Int × Editor) attr =>
          if attr = Attribute_GanttChart then
            some (max state.1 state.2.m_GanttChart_BarHeight, state.2)
          else
            match GetTaskContent st fuel state.2 e.m_VisibleIDs[i] attr with
            | none => none
            | some (content, e1) =>
              match (if attr = Attribute_Title then
                  (listAt e1.m_VisibleIDIndentation (i : Int)).map (fun i => i * e1.m_IndentScale)
                else some 0) with
              | none => none
              | some indent =>
                let this_height := content.1.foldl (fun this_height html =>
                  st.text.addHeight this_height html
                    (e1.m_AttributeWidths attr - 2 * e1.m_AttributePadding - indent)) 0
                some (max state.1 this_height, e1))
      (fun s => s.2.withoutContent = e.withoutContent)
      (by
        intro b a hb
        by_cases hg : a = Attribute_GanttChart
        · refine ⟨(max b.1 b.2.m_GanttChart_BarHeight, b.2), ?_, hb⟩
          simp only [hg, if_true]
        · have hmb : RowsMeasurable st fuel b.2 := RowsMeasurable.of_withoutContent hb hm
          have hfmt : b.2.m_AttributeDisplayFormat = e.m_AttributeDisplayFormat := by
            have h1 := congrArg Editor.m_AttributeDisplayFormat hb
            exact h1
          have hwalk : b.2.m_AttributeDisplayFormat Attribute_Title ≠
                AttributeDisplayFormat_TitleAndFullHierarchy ∨
              (ParentNames st.groups fuel
                (st.groups.GetParentGroupIDForTaskID e.m_VisibleIDs[i])).isSome = true := by
            rw [hfmt]
            exact hm.2.2.elim Or.inl
              (fun h => Or.inr ((h i _ (List.getElem?_eq_getElem hi)).1 ht))
          have hret := GetTaskContent_returns st fuel b.2 e.m_VisibleIDs[i] a (Or.inr hwalk)
          obtain ⟨⟨c, e3⟩, hget⟩ := Option.isSome_iff_exists.mp hret
          have hfr := GetTaskContent_withoutContent st fuel _ _ _ _ _ hget
          have hm3 : RowsMeasurable st fuel e3 := RowsMeasurable.of_withoutContent hfr hmb
          have hids : e3.m_VisibleIDs = e.m_VisibleIDs := by
            have h1 := congrArg Editor.m_VisibleIDs (hfr.trans hb)
            exact h1
          have hi3 : i < e3.m_VisibleIDIndentation.length := by
            rw [hm3.2.1, hids]; exact hi
          simp only [hg, if_false, hget]
          by_cases ht : a = Attribute_Title
          · simp only [ht, if_true, listAt_natCast, List.getElem?_eq_getElem hi3, Option.map]
            exact ⟨(_, e3), rfl, hfr.trans hb⟩
          · simp only [ht, if_false]
            exact ⟨(_, e3), rfl, hfr.trans hb⟩)
      e.m_VisibleAttributes (0, e) rfl
    rw [hb1]
    exact ⟨_, rfl⟩

theorem GetRowImageHeight_TaskGroup_returns (st : Stores) (fuel : Nat) (e : Editor) (i : Nat)
    (hm : RowsMeasurable st fuel e) (hi : i < e.m_VisibleIDs.length)
    (ht : e.m_VisibleIDTypes[i]? = some ElementType_GroupID) :
    ∃ r, GetRowImageHeight_TaskGroup st fuel e i = some r := by
  unfold GetRowImageHeight_TaskGroup
  rw [listAt_natCast, List.getElem?_eq_getElem hi]
  dsimp only
  cases hc : e.m_GroupIDToRowImageHeight e.m_VisibleIDs[i] with
  | some v => exact ⟨_, rfl⟩
  | none =>
    dsimp only
    obtain ⟨b1, hb1⟩ := foldlM_some_returns
      (fun (state : Int × Editor) attr =>
          if attr = Attribute_GanttChart then
            some (max state.1 state.2.m_GanttChart_BarHeight, state.2)
          else
            match GetGroupContent st fuel state.2 e.m_VisibleIDs[i] attr with
            | none => none
            | some (content, e1) =>
              match (if attr = Attribute_Title then
                  (listAt e1.m_VisibleIDIndentation (i : Int)).map (fun i => i * e1.m_IndentScale)
                else some 0) with
              | none => none
              | some indent =>
                let this_height := content.1.foldl (fun this_height html =>
                  st.text.addHeight this_height html
                    (e1.m_AttributeWidths attr - 2 * e1.m_AttributePadding - indent)) 0
                some (max state.1 this_height, e1))
      (fun s => s.2.withoutContent = e.withoutContent)
      (by
        intro b a hb
        by_cases hg : a = Attribute_GanttChart
        · refine ⟨(max b.1 b.2.m_GanttChart_BarHeight, b.2), ?_, hb⟩
          simp only [hg, if_true]
        · have hmb : RowsMeasurable st fuel b.2 := RowsMeasurable.of_withoutContent hb hm
          have hfmt : b.2.m_AttributeDisplayFormat = e.m_AttributeDisplayFormat := by
            have h1 := congrArg Editor.m_AttributeDisplayFormat hb
            exact h1
          have hwalk : b.2.m_AttributeDisplayFormat Attribute_Title ≠
                AttributeDisplayFormat_TitleAndFullHierarchy ∨
              (ParentNames st.groups fuel (st.helper.toInt
                (st.groups.GetInformation e.m_VisibleIDs[i]
                  .Information_ParentGroupID))).isSome = true := by
            rw [hfmt]
            exact hm.2.2.elim Or.inl
              (fun h => Or.inr ((h i _ (List.getElem?_eq_getElem hi)).2 ht))
          have hret := GetGroupContent_returns st fuel b.2 e.m_VisibleIDs[i] a (Or.inr hwalk)
          obtain ⟨⟨c, e3⟩, hget⟩ := Option.isSome_iff_exists.mp hret
          have hfr := GetGroupContent_withoutContent st fuel _ _ _ _ _ hget
          have hm3 : RowsMeasurable st fuel e3 := RowsMeasurable.of_withoutContent hfr hmb
          have hids : e3.m_VisibleIDs = e.m_VisibleIDs := by
            have h1 := congrArg Editor.m_VisibleIDs (hfr.trans hb)
            exact h1
          have hi3 : i < e3.m_VisibleIDIndentation.length := by
            rw [hm3.2.1, hids]; exact hi
          simp only [hg, if_false, hget]
          by_cases ht : a = Attribute_Title
          · simp only [ht, if_true, listAt_natCast, List.getElem?_eq_getElem hi3, Option.map]
            exact ⟨(_, e3), rfl, hfr.trans hb⟩
          · simp only [ht, if_false]
            exact ⟨(_, e3), rfl, hfr.trans hb⟩)
      e.m_VisibleAttributes (0, e) rfl
    rw [hb1]
    exact ⟨_, rfl⟩

theorem GetRowImageHeight_returns (st : Stores) (fuel : Nat) (e : Editor) (i : Nat)
    (hm : RowsMeasurable st fuel e) (hi : i < e.m_VisibleIDs.length) :
    ∃ r, GetRowImageHeight st fuel e i = some r := by
  have hi2 : i < e.m_VisibleIDTypes.length := by rw [hm.1]; exact hi
  unfold GetRowImageHeight
  rw [listAt_natCast, List.getElem?_eq_getElem hi2]
  cases ht : e.m_VisibleIDTypes[i]
  · obtain ⟨r, hr⟩ := GetRowImageHeight_TaskItem_returns st fuel e i hm hi
      (by rw [List.getElem?_eq_getElem hi2, ht])
    simp only [hr]
    exact ⟨_, rfl⟩
  · obtain ⟨r, hr⟩ := GetRowImageHeight_TaskGroup_returns st fuel e i hm hi
      (by rw [List.getElem?_eq_getElem hi2, ht])
    simp only [hr]
    exact ⟨_, rfl⟩
  · exact ⟨_, rfl⟩

theorem range_succ_map_sum (f : Nat → Int) (count : Nat) :
    ((List.range (count + 1)).map f).sum =
      f 0 + ((List.range count).map (fun j => f (j + 1))).sum := by
  rw [List.range_succ_eq_map, List.map_cons, List.sum_cons, List.map_map]
  rfl

theorem SumRowImageHeights_spec (st : Stores) (fuel : Nat) :
    ∀ (count index : Nat) (top : Int) (e e1 : Editor) (r : Int),
      SumRowImageHeights st fuel count index top e = some (r, e1) →
      HeightsGrown e e1 ∧ (∀ i, index ≤ i → i < index + count → RowCached e1 i) ∧
        r = top + ((List.range count).map (fun j => CachedRowHeight e1 (index + j))).sum ∧
        (HeightsNonneg e → HeightsNonneg e1) := by
  intro count
  induction count with
  | zero =>
    intro index top e e1 r h
    simp only [SumRowImageHeights, Option.some.injEq, Prod.mk.injEq] at h
    obtain ⟨h1, h2⟩ := h
    subst h1 h2
    exact ⟨HeightsGrown.refl _, fun i h1 h2 => by omega, by simp, fun hn => hn⟩
  | succ count ih =>
    intro index top e e1 r h
    simp only [SumRowImageHeights] at h
    cases hrow : GetRowImageHeight st fuel e index with
    | none => simp [hrow] at h
    | some res =>
      obtain ⟨row_height, e2⟩ := res
      simp only [hrow] at h
      have hcast : ((index : Int) + 1) = ((index + 1 : Nat) : Int) := by push_cast; rfl
      rw [hcast] at h
      obtain ⟨hg2, hc2, hh2, hn2⟩ := GetRowImageHeight_spec st fuel e e2 index row_height hrow
      obtain ⟨hg1, hc1, hr1, hn1⟩ := ih (index + 1) (top + row_height) e2 e1 r h
      obtain ⟨hc3, hh3⟩ := hg1.rowCached index hc2
      refine ⟨hg2.trans hg1, ?_, ?_, fun hn => hn1 (hn2 hn)⟩
      · intro i hlo hhi
        by_cases hi : i = index
        · subst hi; exact hc3
        · exact hc1 i (by omega) (by omega)
      · rw [hr1, range_succ_map_sum, hh2, ← hh3]
        simp only [Nat.add_zero, add_assoc]
        congr 2
        apply congrArg
        apply List.map_congr_left
        intro j _
        congr 1
        omega

theorem SumCachedRowHeights_succ (e : Editor) (m : Nat) :
    SumCachedRowHeights e (m + 1) = SumCachedRowHeights e m + CachedRowHeight e m := by
  simp [SumCachedRowHeights, List.range_succ]

theorem SumCachedRowHeights_zero (e : Editor) : SumCachedRowHeights e 0 = 0 := rfl

theorem sum_range_shift (e : Editor) (index : Nat) :
    ∀ count : Nat, ((List.range count).map (fun j => CachedRowHeight e (index + j))).sum =
      SumCachedRowHeights e (index + count) - SumCachedRowHeights e index := by
  intro count
  induction count with
  | zero => simp
  | succ count ih =>
    rw [List.range_succ, List.map_append, List.sum_append, ih, ← Nat.add_assoc,
      SumCachedRowHeights_succ]
    simp only [List.map_cons, List.map_nil, List.sum_cons, List.sum_nil]
    ring

theorem SumRowImageHeights_cached (st : Stores) (fuel : Nat) (e : Editor) :
    ∀ (count index : Nat) (top : Int),
      (∀ i, index ≤ i → i < index + count → RowCached e i) →
      SumRowImageHeights st fuel count index top e =
        some (top + (SumCachedRowHeights e (index + count) - SumCachedRowHeights e index), e) := by
  intro count
  induction count with
  | zero => intro index top _; simp [SumRowImageHeights]
  | succ count ih =>
    intro index top hc
    have hcast : ((index : Int) + 1) = ((index + 1 : Nat) : Int) := by push_cast; rfl
    simp only [SumRowImageHeights, GetRowImageHeight_hit st fuel e index (hc index (le_refl _)
      (by omega)), hcast]
    rw [ih (index + 1) _ (fun i h1 h2 => hc i (by omega) (by omega))]
    have h1 : index + 1 + count = index + (count + 1) := by omega
    rw [h1, SumCachedRowHeights_succ]
    congr 2
    ring

theorem SetTopOffset_Loop_cached (st : Stores) (fuel : Nat) (e : Editor) :
    ∀ (count index : Nat) (top : Int),
      (∀ i, index ≤ i → i < index + count → RowCached e i) → 0 ≤ top →
      top < SumCachedRowHeights e (index + count) - SumCachedRowHeights e index →
      ∃ k, index ≤ k ∧ k < index + count ∧
        SumCachedRowHeights e k - SumCachedRowHeights e index ≤ top ∧
        top < SumCachedRowHeights e (k + 1) - SumCachedRowHeights e index ∧
        SetTopOffset_Loop st fuel count index top e = some { e with
          m_TopIndex := (k : Int)
          m_TopOffset := SumCachedRowHeights e (k + 1) - SumCachedRowHeights e index - top } := by
  intro count
  induction count with
  | zero =>
    intro index top _ h0 hlt
    simp at hlt
    omega
  | succ count ih =>
    intro index top hc h0 hlt
    have hhit := GetRowImageHeight_hit st fuel e index (hc index (le_refl _) (by omega))
    by_cases hin : top < CachedRowHeight e index
    · refine ⟨index, le_refl _, by omega, by simpa using h0, ?_, ?_⟩
      · rw [SumCachedRowHeights_succ]; omega
      · simp only [SetTopOffset_Loop, hhit, hin, if_true]
        rw [SumCachedRowHeights_succ]
        congr 2
        ring
    · have hcast : ((index : Int) + 1) = ((index + 1 : Nat) : Int) := by push_cast; rfl
      have h1 : index + 1 + count = index + (count + 1) := by omega
      have hs := SumCachedRowHeights_succ e index
      obtain ⟨k, hk1, hk2, hk3, hk4, hk5⟩ := ih (index + 1) (top - CachedRowHeight e index)
        (fun i h1 h2 => hc i (by omega) (by omega)) (by omega) (by rw [h1]; omega)
      refine ⟨k, by omega, by omega, by omega, by omega, ?_⟩
      simp only [SetTopOffset_Loop, hhit, hin, if_false, hcast, hk5]
      congr 2
      rw [hs]
      ring

theorem SumRowImageHeights_returns (st : Stores) (fuel : Nat) :
    ∀ (count index : Nat) (top : Int) (e : Editor), RowsMeasurable st fuel e →
      index + count ≤ e.m_VisibleIDs.length →
      ∃ r, SumRowImageHeights st fuel count index top e = some r := by
  intro count
  induction count with
  | zero => intro index top e _ _; exact ⟨_, rfl⟩
  | succ count ih =>
    intro index top e hm hle
    obtain ⟨⟨h, e2⟩, hrow⟩ := GetRowImageHeight_returns st fuel e index hm (by omega)
    obtain ⟨hg, _, _, _⟩ := GetRowImageHeight_spec st fuel e e2 index h hrow
    have hcast : ((index : Int) + 1) = ((index + 1 : Nat) : Int) := by push_cast; rfl
    obtain ⟨r, hr⟩ := ih (index + 1) (top + h) e2 (hm.of_grown hg) (by rw [hg.ids]; omega)
    exact ⟨r, by simp only [SumRowImageHeights, hrow, hcast, hr]⟩

theorem HeightsGrown.height {e e1 : Editor} (h : HeightsGrown e e1) :
    e1.height = e.height := by
  have h1 := congrArg Editor.height h.1
  exact h1

theorem HeightsGrown.header {e e1 : Editor} (h : HeightsGrown e e1) :
    e1.m_HeaderHeight = e.m_HeaderHeight := by
  have h1 := congrArg Editor.m_HeaderHeight h.1
  exact h1

/-- What `GetMaximumTopOffset` returns and leaves behind, for every editor on
which the row heights can be computed. -/
theorem GetMaximumTopOffset_spec (st : Stores) (fuel : Nat) (e : Editor)
    (hm : RowsMeasurable st fuel e) :
    ∃ e1, GetMaximumTopOffset st fuel e =
        some (max (SumCachedRowHeights e1 e.m_VisibleIDs.length -
          (e.height - e.m_HeaderHeight)) 0, e1) ∧
      HeightsGrown e e1 ∧ (∀ i, i < e.m_VisibleIDs.length → RowCached e1 i) ∧
      (HeightsNonneg e → HeightsNonneg e1) := by
  obtain ⟨⟨r, e1⟩, hsum⟩ := SumRowImageHeights_returns st fuel e.m_VisibleIDs.length 0 0 e hm
    (by omega)
  obtain ⟨hg, hc, hr, hn⟩ := SumRowImageHeights_spec st fuel _ _ _ _ _ _ hsum
  refine ⟨e1, ?_, hg, fun i hi => hc i (Nat.zero_le _) (by omega), hn⟩
  simp only [Nat.cast_zero] at hsum
  simp only [GetMaximumTopOffset, hsum, hg.height, hg.header]
  rw [hr, sum_range_shift]
  simp [SumCachedRowHeights_zero]

theorem GetMaximumTopOffset_sample :
    GetMaximumTopOffset sampleStores 3 viewEditor = some (40, viewEditor) := by
  rfl

theorem CachedRowHeight_pos (e : Editor) (i : Nat) (hi : i < e.m_VisibleIDs.length)
    (hlen : e.m_VisibleIDTypes.length = e.m_VisibleIDs.length)
    (hkinds : ∀ t ∈ e.m_VisibleIDTypes, t ≠ ElementType_Invalid) (hpad : 0 < e.m_RowPadding)
    (hnn : HeightsNonneg e) : 0 < CachedRowHeight e i := by
  have hi2 : i < e.m_VisibleIDTypes.length := by rw [hlen]; exact hi
  unfold CachedRowHeight
  rw [List.getElem?_eq_getElem hi, List.getElem?_eq_getElem hi2]
  have hk := hkinds _ (List.getElem_mem hi2)
  cases ht : e.m_VisibleIDTypes[i]
  · dsimp only
    cases hv : e.m_TaskIDToRowImageHeight e.m_VisibleIDs[i] with
    | none => simp only [Option.getD]; omega
    | some v =>
      have := hnn.1 _ v hv
      simp only [Option.getD]
      omega
  · dsimp only
    cases hv : e.m_GroupIDToRowImageHeight e.m_VisibleIDs[i] with
    | none => simp only [Option.getD]; omega
    | some v =>
      have := hnn.2 _ v hv
      simp only [Option.getD]
      omega
  · exact absurd ht hk

theorem SumCachedRowHeights_pos (e : Editor) :
    ∀ m : Nat, (∀ i, i < m → 0 < CachedRowHeight e i) → 0 < m →
      0 < SumCachedRowHeights e m := by
  intro m
  induction m with
  | zero => intro _ h; omega
  | succ m ih =>
    intro hpos _
    rw [SumCachedRowHeights_succ]
    have h1 := hpos m (by omega)
    by_cases hm : 0 < m
    · have := ih (fun i hi => hpos i (by omega)) hm
      omega
    · have h0 : m = 0 := by omega
      subst h0
      rw [SumCachedRowHeights_zero]
      omega

theorem GetTopOffset_cached (st : Stores) (fuel : Nat) (e : Editor) (k : Nat)
    (hk : e.m_TopIndex = (k : Int)) (hc : ∀ i, i < k + 1 → RowCached e i) :
    GetTopOffset st fuel e =
      some (SumCachedRowHeights e (k + 1) - e.m_TopOffset, e) := by
  have hsum := SumRowImageHeights_cached st fuel e k 0 0
    (fun i _ h2 => hc i (by omega))
  simp only [Nat.cast_zero, Nat.zero_add, SumCachedRowHeights_zero] at hsum
  have hne : ¬ ((k : Int) = INVALID_INDEX) := by
    unfold INVALID_INDEX
    omega
  simp only [GetTopOffset, hk, Int.toNat_ofNat, hsum, ne_eq, hne, not_false_eq_true, if_true,
    GetRowImageHeight_hit st fuel e k (hc k (by omega)), SumCachedRowHeights_succ]
  congr 2
  ring

theorem SetTopOffset_sample : SetTopOffset sampleStores 3 viewEditor 25 =
    some { viewEditor with m_TopIndex := 1, m_TopOffset := 15 } := by
  rfl

/-- C13 as stated fails twice: the initial top row index is not 0, and after
the accepted call `SetTopOffset(0)` on the measured sample editor the stored
offset equals the height of the top row (20) instead of lying below it. -/
theorem C13_TopOffset_counterexample :
    (Editor.constructed sampleGroups).m_TopIndex ≠ 0 ∧
    SetTopOffset sampleStores 3 viewEditor 0 = some topEditor ∧
    topEditor.m_TopIndex = 0 ∧
    GetRowImageHeight sampleStores 3 topEditor 0 = some (20, topEditor) ∧
    ¬ (topEditor.m_TopOffset < 20) := by
  refine ⟨by decide, rfl, rfl, rfl, by decide⟩

/-! ## Hit testing -/

theorem GetIndexAtPosition_Loop_eq (e : Editor) (y : Int) :
    ∀ (tops bottoms : List Int) (index : Nat), tops.length = bottoms.length →
      (∀ j, j < tops.length → e.m_VisibleIDTopCoordinates[index + j]? = tops[j]? ∧
        e.m_VisibleIDBottomCoordinates[index + j]? = bottoms[j]?) →
      GetIndexAtPosition_Loop e y tops.length index =
        some (EarlyExitScan y tops bottoms index) := by
  intro tops
  induction tops with
  | nil => intro bottoms index _ _; rfl
  | cons top tops ih =>
    intro bottoms index hlen hread
    cases bottoms with
    | nil => simp at hlen
    | cons bottom bottoms =>
      have h0 := hread 0 (by simp)
      simp only [Nat.add_zero, List.getElem?_cons_zero] at h0
      have hcast : ((index : Int) + 1) = ((index + 1 : Nat) : Int) := by push_cast; rfl
      have hrest := ih bottoms (index + 1) (by simpa using hlen) (by
        intro j hj
        have := hread (j + 1) (by simpa using hj)
        simpa [Nat.add_assoc, Nat.add_comm 1 j] using this)
      simp only [List.length_cons, GetIndexAtPosition_Loop, listAt_natCast, h0.1, h0.2,
        EarlyExitScan, hcast, hrest]
      by_cases h1 : y < top
      · simp [h1]
      · by_cases h2 : y ≥ top ∧ y < bottom
        · simp [h1, h2]
        · simp [h1, h2]

theorem WellPainted_no_match (y : Int) :
    ∀ (rows : List (Int × Int)) (low : Int), WellPainted low rows → 0 ≤ low → y < low →
      ∀ band ∈ rows, ¬ (band.1 ≤ y ∧ y < band.2) := by
  intro rows
  induction rows with
  | nil => intro low _ _ _ band hb; simp at hb
  | cons row rest ih =>
    intro low hw h0 hy band hb
    obtain ⟨top, bottom⟩ := row
    rcases List.mem_cons.mp hb with h | h
    · subst h
      rcases hw with ⟨h1, h2, _⟩ | ⟨h1, h2, _⟩
      · dsimp only; omega
      · dsimp only; omega
    · rcases hw with ⟨_, _, h3⟩ | ⟨h1, h2, h3⟩
      · exact ih low h3 h0 hy band h
      · exact ih bottom h3 (by omega) (by omega) band h

theorem PlainScan_no_match (y : Int) :
    ∀ (rows : List (Int × Int)) (index : Int),
      (∀ band ∈ rows, ¬ (band.1 ≤ y ∧ y < band.2)) →
      PlainScan y (rows.map Prod.fst) (rows.map Prod.snd) index = INVALID_INDEX := by
  intro rows
  induction rows with
  | nil => intro index _; rfl
  | cons row rest ih =>
    intro index h
    have h1 := h row (List.mem_cons_self _ _)
    simp only [List.map_cons, PlainScan, h1, if_false]
    exact ih (index + 1) (fun band hb => h band (List.mem_cons_of_mem _ hb))

theorem PlainScan_range (y : Int) :
    ∀ (rows : List (Int × Int)) (index : Int),
      PlainScan y (rows.map Prod.fst) (rows.map Prod.snd) index = INVALID_INDEX ∨
        index ≤ PlainScan y (rows.map Prod.fst) (rows.map Prod.snd) index := by
  intro rows
  induction rows with
  | nil => intro index; exact Or.inl rfl
  | cons row rest ih =>
    intro index
    simp only [List.map_cons, PlainScan]
    by_cases h : row.1 ≤ y ∧ y < row.2
    · simp [h]
    · simp only [h, if_false]
      rcases ih (index + 1) with h1 | h1
      · exact Or.inl h1
      · exact Or.inr (by omega)

theorem EarlyExitScan_eq_PlainScan (y : Int) :
    ∀ (rows : List (Int × Int)) (low : Int) (index : Int), WellPainted low rows → 0 ≤ low →
      EarlyExitScan y (rows.map Prod.fst) (rows.map Prod.snd) index =
        PlainScan y (rows.map Prod.fst) (rows.map Prod.snd) index := by
  intro rows
  induction rows with
  | nil => intro low index _ _; rfl
  | cons row rest ih =>
    intro low index hw h0
    obtain ⟨top, bottom⟩ := row
    simp only [List.map_cons, EarlyExitScan, PlainScan]
    by_cases h1 : y < top
    · have h2 : ¬ (top ≤ y ∧ y < bottom) := by omega
      simp only [h1, if_true, h2, if_false]
      symm
      apply PlainScan_no_match
      rcases hw with ⟨h3, _, h5⟩ | ⟨h3, h4, h5⟩
      · exact WellPainted_no_match y rest low h5 h0 (by omega)
      · exact WellPainted_no_match y rest bottom h5 (by omega) (by omega)
    · by_cases h2 : top ≤ y ∧ y < bottom
      · have h3 : y ≥ top ∧ y < bottom := h2
        simp [h1, h2, h3]
      · have h3 : ¬ (y ≥ top ∧ y < bottom) := h2
        simp only [h1, h2, h3, if_false]
        rcases hw with ⟨_, _, h5⟩ | ⟨h3, h4, h5⟩
        · exact ih low (index + 1) h5 h0
        · exact ih bottom (index + 1) h5 (by omega)

theorem PlainScan_characterised (y : Int) :
    ∀ (rows : List (Int × Int)) (low : Int) (index : Int), WellPainted low rows → 0 ≤ low →
      0 ≤ index →
      (∀ i : Nat, PlainScan y (rows.map Prod.fst) (rows.map Prod.snd) index = index + i ↔
        ∃ band, rows[i]? = some band ∧ band.1 ≤ y ∧ y < band.2) := by
  intro rows
  induction rows with
  | nil =>
    intro low index _ _ hi i
    constructor
    · intro h
      simp only [List.map_nil, PlainScan, INVALID_INDEX] at h
      omega
    · rintro ⟨band, hb, _⟩
      simp at hb
  | cons row rest ih =>
    intro low index hw h0 hi i
    obtain ⟨top, bottom⟩ := row
    simp only [List.map_cons, PlainScan]
    by_cases h2 : top ≤ y ∧ y < bottom
    · simp only [h2, and_self, if_true]
      cases i with
      | zero => simp [h2]
      | succ i =>
        simp only [List.getElem?_cons_succ]
        constructor
        · intro h; push_cast at h; omega
        · rintro ⟨band, hb, hm⟩
          exfalso
          rcases hw with ⟨h3, _, _⟩ | ⟨_, _, h5⟩
          · omega
          · exact WellPainted_no_match y rest bottom h5 (by omega) (by omega) band
              (List.getElem?_mem hb) hm
    · simp only [h2, if_false]
      have hrest : ∃ low1, WellPainted low1 rest ∧ 0 ≤ low1 := by
        rcases hw with ⟨_, _, h5⟩ | ⟨_, _, h5⟩
        · exact ⟨low, h5, h0⟩
        · exact ⟨bottom, h5, by omega⟩
      obtain ⟨low1, hw1, h01⟩ := hrest
      cases i with
      | zero =>
        simp only [Nat.cast_zero, add_zero, List.getElem?_cons_zero, Option.some.injEq,
          exists_eq_left']
        constructor
        · intro h
          rcases PlainScan_range y rest (index + 1) with h1 | h1
          · rw [h1] at h; unfold INVALID_INDEX at h; omega
          · omega
        · intro h; exact absurd h h2
      | succ i =>
        simp only [List.getElem?_cons_succ]
        rw [← ih low1 (index + 1) hw1 h01 (by omega) i]
        push_cast
        constructor <;> intro h <;> omega

theorem WellPainted_replicate (low : Int) :
    ∀ n : Nat, WellPainted low (List.replicate n (-1, -1)) := by
  intro n
  induction n with
  | zero => exact trivial
  | succ n ih => exact Or.inl ⟨rfl, rfl, ih⟩

theorem WellPainted_bands (below : Nat) :
    ∀ (heights : List Int) (top low : Int), (∀ h ∈ heights, 0 < h) → low ≤ top →
      WellPainted low (PaintedBands top heights ++ List.replicate below (-1, -1)) := by
  intro heights
  induction heights with
  | nil => intro top low _ _; exact WellPainted_replicate low below
  | cons h rest ih =>
    intro top low hpos hle
    have h0 := hpos h (List.mem_cons_self _ _)
    exact Or.inr ⟨hle, by omega,
      ih (top + h) (top + h) (fun x hx => hpos x (List.mem_cons_of_mem _ hx)) (le_refl _)⟩

theorem WellPainted_above (low : Int) (rest : List (Int × Int)) (h : WellPainted low rest) :
    ∀ n : Nat, WellPainted low (List.replicate n (-1, -1) ++ rest) := by
  intro n
  induction n with
  | zero => exact h
  | succ n ih => exact Or.inl ⟨rfl, rfl, ih⟩

theorem PaintedRows_wellPainted (above below : Nat) (header : Int) (heights : List Int)
    (hpos : ∀ h ∈ heights, 0 < h) :
    WellPainted header (PaintedRows above header heights below) := by
  unfold PaintedRows
  rw [List.append_assoc]
  exact WellPainted_above _ _ (WellPainted_bands below heights header header hpos (le_refl _)) _

theorem PaintedBands_length : ∀ (heights : List Int) (top : Int),
    (PaintedBands top heights).length = heights.length := by
  intro heights
  induction heights with
  | nil => intro _; rfl
  | cons h rest ih => intro top; simp [PaintedBands, ih]

theorem PaintedRows_length (above below : Nat) (header : Int) (heights : List Int) :
    (PaintedRows above header heights below).length = above + heights.length + below := by
  simp [PaintedRows, PaintedBands_length, Nat.add_assoc]

theorem PaintedRows_match_painted (above below : Nat) (header : Int) (heights : List Int)
    (y : Int) (i : Nat) (band : Int × Int)
    (hb : (PaintedRows above header heights below)[i]? = some band)
    (hm : band.1 ≤ y ∧ y < band.2) : above ≤ i ∧ i < above + heights.length := by
  unfold PaintedRows at hb
  by_contra hcon
  have hmem : band = (-1, -1) := by
    by_cases h1 : i < above
    · rw [List.append_assoc, List.getElem?_append_left (by simpa using h1)] at hb
      exact (List.eq_of_mem_replicate (List.getElem?_mem hb))
    · have h2 : above + heights.length ≤ i := by omega
      rw [List.getElem?_append_right (by simp [PaintedBands_length]; omega)] at hb
      exact (List.eq_of_mem_replicate (List.getElem?_mem hb))
  subst hmem
  dsimp only at hm
  omega

/-- C14: on coordinate lists as a paint pass leaves them (rows above the top
row and rows below the viewport recorded as -1, painted rows as contiguous
non-empty bands from the header height on), `GetIndexAtPosition` returns
what the plain linear scan without early exit returns: index `i` exactly when
row `i` was painted and its band holds `y`, and `INVALID_INDEX` exactly when
no row matches. -/
theorem C14_GetIndexAtPosition (e : Editor) (above below : Nat) (header : Int)
    (heights : List Int) (x y : Int) (hheader : 0 ≤ header) (hpos : ∀ h ∈ heights, 0 < h)
    (hrows : e.m_VisibleIDs.length = above + heights.length + below)
    (htops : e.m_VisibleIDTopCoordinates =
      (PaintedRows above header heights below).map Prod.fst)
    (hbottoms : e.m_VisibleIDBottomCoordinates =
      (PaintedRows above header heights below).map Prod.snd) :
    ∃ r, GetIndexAtPosition e x y = some r ∧
      r = PlainScan y e.m_VisibleIDTopCoordinates e.m_VisibleIDBottomCoordinates 0 ∧
      (∀ i : Nat, r = (i : Int) ↔ above ≤ i ∧ i < above + heights.length ∧
        ∃ band, (PaintedRows above header heights below)[i]? = some band ∧
          band.1 ≤ y ∧ y < band.2) ∧
      (r = INVALID_INDEX ↔
        ∀ band ∈ PaintedRows above header heights below, ¬ (band.1 ≤ y ∧ y < band.2)) := by
  have hw := PaintedRows_wellPainted above below header heights hpos
  have hlen := PaintedRows_length above below header heights
  have hloop := GetIndexAtPosition_Loop_eq e y e.m_VisibleIDTopCoordinates
    e.m_VisibleIDBottomCoordinates 0 (by rw [htops, hbottoms]; simp)
    (fun j _ => by simp)
  have hcount : e.m_VisibleIDTopCoordinates.length = e.m_VisibleIDs.length := by
    rw [htops, hrows, List.length_map, hlen]
  rw [hcount] at hloop
  have heq := EarlyExitScan_eq_PlainScan y _ header 0 hw hheader
  have hchar := PlainScan_characterised y _ header 0 hw hheader (le_refl 0)
  refine ⟨_, hloop, ?_, ?_, ?_⟩
  · rw [htops, hbottoms]
    exact heq
  · intro i
    rw [htops, hbottoms, Nat.cast_zero, heq]
    have h := hchar i
    rw [zero_add] at h
    rw [h]
    constructor
    · rintro ⟨band, hb, hm⟩
      obtain ⟨h1, h2⟩ := PaintedRows_match_painted above below header heights y i band hb hm
      exact ⟨h1, h2, band, hb, hm⟩
    · rintro ⟨_, _, band, hb, hm⟩
      exact ⟨band, hb, hm⟩
  · rw [htops, hbottoms, Nat.cast_zero, heq]
    constructor
    · intro hr band hb hm
      obtain ⟨i, hi⟩ := List.mem_iff_getElem?.mp hb
      have h := (hchar i).mpr ⟨band, hi, hm⟩
      rw [hr] at h
      unfold INVALID_INDEX at h
      omega
    · intro hno
      exact PlainScan_no_match y _ 0 hno

theorem C14_GetIndexAtPosition_witness :
    ∃ r, GetIndexAtPosition paintedEditor 7 30 = some r ∧
      r = PlainScan 30 paintedEditor.m_VisibleIDTopCoordinates
        paintedEditor.m_VisibleIDBottomCoordinates 0 ∧
      (∀ i : Nat, r = (i : Int) ↔ 1 ≤ i ∧ i < 1 + [(15 : Int), 20, 20].length ∧
        ∃ band, (PaintedRows 1 10 [15, 20, 20] 1)[i]? = some band ∧
          band.1 ≤ 30 ∧ 30 < band.2) ∧
      (r = INVALID_INDEX ↔
        ∀ band ∈ PaintedRows 1 10 [15, 20, 20] 1, ¬ (band.1 ≤ 30 ∧ 30 < band.2)) :=
  C14_GetIndexAtPosition paintedEditor 1 1 10 [15, 20, 20] 7 30 (by decide) (by decide) rfl
    rfl rfl

theorem GetIndexAtPosition_sample :
    GetIndexAtPosition paintedEditor 7 30 = some 2 ∧
    GetIndexAtPosition paintedEditor 7 5 = some INVALID_INDEX ∧
    GetIndexAtPosition paintedEditor 7 70 = some INVALID_INDEX := by
  refine ⟨rfl, rfl, rfl⟩

/-- C15 fails at the default columns (eleven attribute columns and the Gantt
column last, coordinates as `CalculateAttributesTotalWidth` computes them):
for an `x` right of the last attribute band, or left of the first one, the
loop of `GetAttributeAtPosition` arrives at index 11, the index of the Gantt
column, where the two coordinate lists (eleven entries each) have no entry,
so the call has no defined result instead of returning `Attribute_Invalid`. -/
theorem C15_GetAttributeAtPosition_reads_outside :
    columnsEditor.m_VisibleAttributes.getLast? = some Attribute_GanttChart ∧
    columnsEditor.m_VisibleAttributes.length = 12 ∧
    columnsEditor.m_VisibleAttributesLeftCoordinates.length = 11 ∧
    columnsEditor.m_VisibleAttributesRightCoordinates.length = 11 ∧
    columnsEditor.m_AttributesTotalWidth = 1370 ∧
    GetAttributeAtPosition columnsEditor 1369 0 = some Attribute_Comments ∧
    listAt columnsEditor.m_VisibleAttributesLeftCoordinates 11 = none ∧
    GetAttributeAtPosition columnsEditor 1370 0 = none ∧
    GetAttributeAtPosition columnsEditor (-1) 0 = none := by
  refine ⟨rfl, rfl, rfl, rfl, rfl, rfl, rfl, rfl, rfl⟩

/-- C16 fails once the Gantt column is hidden: the shown columns are 1370
pixels wide in a widget 640 pixels wide, so the content exceeds the viewport
by 730 pixels, but `GetMaximumLeftOffset` still adds the 1000 pixels of the
hidden Gantt column and returns 1730. -/
theorem C16_GetMaximumLeftOffset_hidden_Gantt :
    Attribute_GanttChart ∉ noGanttEditor.m_VisibleAttributes ∧
    (noGanttEditor.m_VisibleAttributes.map noGanttEditor.m_AttributeWidths).sum = 1370 ∧
    noGanttEditor.m_AttributesTotalWidth = 1370 ∧
    noGanttEditor.width = 640 ∧
    GetMaximumLeftOffset noGanttEditor = 1730 ∧
    GetMaximumLeftOffset noGanttEditor ≠
      max 0 ((noGanttEditor.m_VisibleAttributes.map noGanttEditor.m_AttributeWidths).sum -
        noGanttEditor.width) := by
  refine ⟨by decide, rfl, rfl, rfl, rfl, by decide⟩

/-! ## Serialization -/

/-- C17 fails for a state that was itself loaded: the first round trip from
the constructed editor succeeds and reproduces the visible order, formats,
expanded set and scroll position, but `ReadFromXML` has stored the GUI title
of every column as its serialization key, so the next `SaveToXML` writes
"ID", "Title", ... as column types and `ReadFromXML` rejects that document. -/
theorem C17_round_trip_fails_after_load :
    (SaveToXML (Editor.constructed sampleGroups) (some [])).1 = true ∧
    (ReadFromXML sampleGroups (Editor.constructed sampleGroups) savedDocument).1 = true ∧
    loadedEditor.m_VisibleAttributes = (Editor.constructed sampleGroups).m_VisibleAttributes ∧
    loadedEditor.m_ExpandedTaskGroups = [0] ∧
    loadedEditor.m_AttributeSerializationTitles Attribute_ID = some "ID" ∧
    (SaveToXML loadedEditor (some [])).1 = true ∧
    (ReadFromXML sampleGroups loadedEditor resavedDocument).1 = false := by
  refine ⟨rfl, ?_, ?_, ?_, ?_, rfl, ?_⟩ <;> decide

theorem ReadFromXML_Column_viewState (state : Editor × List (Int × Attributes))
    (dom_column : DomColumn) :
    (∀ e1, ReadFromXML_Column state dom_column = .error e1 →
      e1.viewState = state.1.viewState) ∧
    (∀ state1, ReadFromXML_Column state dom_column = .ok state1 →
      state1.1.viewState = state.1.viewState) := by
  unfold ReadFromXML_Column
  dsimp only
  by_cases h1 : SerializationKey state.1 dom_column.type = Attribute_Invalid
  · simp only [h1, if_true]
    constructor
    · intro e1 h; cases h; rfl
    · intro s h; cases h
  · simp only [h1, if_false]
    by_cases h2 : DisplayFormatKey dom_column.format = AttributeDisplayFormat_Invalid
    · simp only [h2, if_true]
      constructor
      · intro e1 h
        cases h
        by_cases h3 : SerializationKey state.1 dom_column.type = Attribute_GanttChart
        · simp only [h3, if_true]
        · simp only [h3, if_false]; rfl
      · intro s h; cases h
    · simp only [h2, if_false]
      constructor
      · intro e1 h; cases h
      · intro s h
        cases h
        by_cases h3 : SerializationKey state.1 dom_column.type = Attribute_GanttChart
        · simp only [h3, if_true]; rfl
        · simp only [h3, if_false]; rfl

theorem ReadFromXML_Columns_ok_viewState :
    ∀ (columns : List DomColumn) (state state1 : Editor × List (Int × Attributes)),
      ReadFromXML_Columns columns state = .ok state1 →
      state1.1.viewState = state.1.viewState := by
  intro columns
  induction columns with
  | nil => intro state state1 h; cases h; rfl
  | cons c rest ih =>
    intro state state1 h
    simp only [ReadFromXML_Columns] at h
    cases hc : ReadFromXML_Column state c with
    | error e1 => simp [hc] at h
    | ok s =>
      simp only [hc] at h
      rw [ih s state1 h]
      exact (ReadFromXML_Column_viewState state c).2 s hc

theorem ReadFromXML_Columns_error :
    ∀ (columns : List DomColumn) (state : Editor × List (Int × Attributes)) (e1 : Editor),
      ReadFromXML_Columns columns state = .error e1 →
      ∃ before offending rest state1, columns = before ++ offending :: rest ∧
        ReadFromXML_Columns before state = .ok state1 ∧
        ReadFromXML_Column state1 offending = .error e1 := by
  intro columns
  induction columns with
  | nil => intro state e1 h; cases h
  | cons c rest ih =>
    intro state e1 h
    simp only [ReadFromXML_Columns] at h
    cases hc : ReadFromXML_Column state c with
    | error e2 =>
      simp only [hc, Except.error.injEq] at h
      subst h
      exact ⟨[], c, rest, state, rfl, rfl, hc⟩
    | ok s =>
      simp only [hc] at h
      obtain ⟨before, offending, rest1, state1, h1, h2, h3⟩ := ih s e1 h
      refine ⟨c :: before, offending, rest1, state1, by rw [h1]; rfl, ?_, h3⟩
      simp only [ReadFromXML_Columns, hc, h2]

mutual
theorem Element.flatten_congr (exp1 exp2 : List Int) :
    ∀ (x : Element) (d : Int), (∀ id ∈ Element.groupIDs x, id ∈ exp1 ↔ id ∈ exp2) →
      Element.flatten exp1 d x = Element.flatten exp2 d x
  | .task id, d, _ => by simp [Element.flatten]
  | .group id cs, d, h => by
    have h1 : id ∈ exp1 ↔ id ∈ exp2 := h id (by simp [Element.groupIDs])
    have h2 := Element.flattenAll_congr exp1 exp2 cs (d + 1)
      (fun k hk => h k (by simp [Element.groupIDs, hk]))
    by_cases hin : id ∈ exp1
    · simp [Element.flatten, hin, h1.mp hin, h2]
    · have hin2 : id ∉ exp2 := fun hc => hin (h1.mpr hc)
      simp [Element.flatten, hin, hin2]
theorem Element.flattenAll_congr (exp1 exp2 : List Int) :
    ∀ (F : List Element) (d : Int), (∀ id ∈ Element.groupIDsAll F, id ∈ exp1 ↔ id ∈ exp2) →
      Element.flattenAll exp1 d F = Element.flattenAll exp2 d F
  | [], d, _ => by simp [Element.flattenAll]
  | x :: rest, d, h => by
    have h1 := Element.flatten_congr exp1 exp2 x d
      (fun k hk => h k (by simp [Element.groupIDsAll, hk]))
    have h2 := Element.flattenAll_congr exp1 exp2 rest d
      (fun k hk => h k (by simp [Element.groupIDsAll, hk]))
    simp [Element.flattenAll, h1, h2]
end

mutual
theorem Element.flatten_ids (exp : List Int) :
    ∀ (x : Element) (d : Int) (row : Row), row ∈ Element.flatten exp d x →
      (row.2.1 = ElementType_TaskID ∧ row.1 ∈ Element.taskIDs x) ∨
        (row.2.1 = ElementType_GroupID ∧ row.1 ∈ Element.groupIDs x)
  | .task id, d, row, h => by
    simp only [Element.flatten, List.mem_singleton] at h
    subst h
    exact Or.inl ⟨rfl, by simp [Element.taskIDs]⟩
  | .group id cs, d, row, h => by
    simp only [Element.flatten, List.mem_cons] at h
    rcases h with h | h
    · subst h
      exact Or.inr ⟨rfl, by simp [Element.groupIDs]⟩
    · by_cases hin : id ∈ exp
      · simp only [hin, if_true] at h
        rcases Element.flattenAll_ids exp cs (d + 1) row h with h1 | h1
        · exact Or.inl ⟨h1.1, by simpa [Element.taskIDs] using h1.2⟩
        · exact Or.inr ⟨h1.1, by simp [Element.groupIDs, h1.2]⟩
      · simp [hin] at h
theorem Element.flattenAll_ids (exp : List Int) :
    ∀ (F : List Element) (d : Int) (row : Row), row ∈ Element.flattenAll exp d F →
      (row.2.1 = ElementType_TaskID ∧ row.1 ∈ Element.taskIDsAll F) ∨
        (row.2.1 = ElementType_GroupID ∧ row.1 ∈ Element.groupIDsAll F)
  | [], d, row, h => by simp [Element.flattenAll] at h
  | x :: rest, d, row, h => by
    simp only [Element.flattenAll, List.mem_append] at h
    rcases h with h | h
    · rcases Element.flatten_ids exp x d row h with h1 | h1
      · exact Or.inl ⟨h1.1, by simp [Element.taskIDsAll, h1.2]⟩
      · exact Or.inr ⟨h1.1, by simp [Element.groupIDsAll, h1.2]⟩
    · rcases Element.flattenAll_ids exp rest d row h with h1 | h1
      · exact Or.inl ⟨h1.1, by simp [Element.taskIDsAll, h1.2]⟩
      · exact Or.inr ⟨h1.1, by simp [Element.groupIDsAll, h1.2]⟩
end

mutual
theorem Element.flatten_expand (ag : AllTaskGroups) (exp exp1 : List Int) (g indent : Int)
    (hmem : ∀ id, id ∈ exp1 ↔ id ∈ exp ∨ id = g) (hg : g ∉ exp) :
    ∀ (x : Element) (d : Int), Element.Stored ag x → (Element.groupIDs x).Nodup →
      (Element.taskIDs x).Nodup →
      (g, ElementType_GroupID, indent) ∈ Element.flatten exp d x →
      ExpandsAt ag exp g indent (Element.taskIDs x) (Element.groupIDs x)
        (Element.flatten exp d x) (Element.flatten exp1 d x)
  | .task id, d, _, _, _, hrow => by
    simp [Element.flatten] at hrow
  | .group id cs, d, hst, hgn, htn, hrow => by
    rw [Element.Stored] at hst
    simp only [Element.groupIDs, List.nodup_cons] at hgn
    simp only [Element.taskIDs] at htn
    by_cases hid : id = g
    · subst hid
      have hexp1 : id ∈ exp1 := (hmem id).mpr (Or.inr rfl)
      have hcs : Element.flattenAll exp1 (d + 1) cs = Element.flattenAll exp (d + 1) cs :=
        Element.flattenAll_congr exp1 exp cs (d + 1) (fun k hk => by
          rw [hmem k]
          constructor
          · rintro (h | h)
            · exact h
            · subst h; exact absurd hk hgn.1
          · exact Or.inl)
      simp only [Element.flatten, hg, if_false, List.mem_singleton, Prod.mk.injEq, true_and]
        at hrow
      subst hrow
      refine ⟨cs, [], [], hst.1, hst.2, fun k hk => by simpa [Element.taskIDs] using hk,
        fun k hk => by simp [Element.groupIDs, hk], ?_, ?_, ?_⟩
      · simp [Element.flatten, hg]
      · simp [Element.flatten, hexp1, hcs]
      · intro row hr
        simp only [Element.flatten, hg, if_false, List.mem_singleton] at hr
        subst hr
        exact ⟨fun h => (by cases h), fun _ => hgn.1⟩
    · have hin : id ∈ exp := by
        by_contra hin
        simp [Element.flatten, hin] at hrow
        exact hid hrow.1.symm
      have hexp1 : id ∈ exp1 := (hmem id).mpr (Or.inl hin)
      have hrow1 : (g, ElementType_GroupID, indent) ∈ Element.flattenAll exp (d + 1) cs := by
        simp only [Element.flatten, hin, if_true, List.mem_cons, Prod.mk.injEq] at hrow
        rcases hrow with h | h
        · exact absurd h.1.symm hid
        · exact h
      obtain ⟨members, before, after, h1, hs, h2, h3, h4, h5, h6⟩ :=
        Element.flattenAll_expand ag exp exp1 g indent hmem hg cs (d + 1) hst.2 hgn.2 htn hrow1
      refine ⟨members, (id, ElementType_GroupID, d) :: before, after, h1, hs,
        fun k hk => by simpa [Element.taskIDs] using h2 k hk,
        fun k hk => by simp [Element.groupIDs, h3 k hk], ?_, ?_, ?_⟩
      · simp [Element.flatten, hin, h4]
      · simp [Element.flatten, hexp1, h5]
      · intro row hr
        simp only [Element.flatten, hin, if_true, List.mem_cons] at hr
        rcases hr with hr | hr
        · subst hr
          exact ⟨fun h => (by cases h), fun _ hc => hgn.1 (h3 _ hc)⟩
        · exact h6 row hr
theorem Element.flattenAll_expand (ag : AllTaskGroups) (exp exp1 : List Int) (g indent : Int)
    (hmem : ∀ id, id ∈ exp1 ↔ id ∈ exp ∨ id = g) (hg : g ∉ exp) :
    ∀ (F : List Element) (d : Int), Element.StoredAll ag F → (Element.groupIDsAll F).Nodup →
      (Element.taskIDsAll F).Nodup →
      (g, ElementType_GroupID, indent) ∈ Element.flattenAll exp d F →
      ExpandsAt ag exp g indent (Element.taskIDsAll F) (Element.groupIDsAll F)
        (Element.flattenAll exp d F) (Element.flattenAll exp1 d F)
  | [], d, _, _, _, hrow => by
    simp [Element.flattenAll] at hrow
  | x :: rest, d, hst, hgn, htn, hrow => by
    rw [Element.StoredAll] at hst
    simp only [Element.groupIDsAll, List.nodup_append] at hgn
    simp only [Element.taskIDsAll, List.nodup_append] at htn
    obtain ⟨hgx, hgr, hgd⟩ := hgn
    obtain ⟨htx, htr, htd⟩ := htn
    simp only [Element.flattenAll, List.mem_append] at hrow
    rcases hrow with hrow | hrow
    · obtain ⟨members, before, after, h1, hs, h2, h3, h4, h5, h6⟩ :=
        Element.flatten_expand ag exp exp1 g indent hmem hg x d hst.1 hgx htx hrow
      have hgin : g ∈ Element.groupIDs x := by
        rcases Element.flatten_ids exp x d _ hrow with h | h
        · cases h.1
        · exact h.2
      have hrest : Element.flattenAll exp1 d rest = Element.flattenAll exp d rest :=
        Element.flattenAll_congr exp1 exp rest d (fun k hk => by
          rw [hmem k]
          constructor
          · rintro (h | h)
            · exact h
            · subst h; exact absurd hk (fun hc => hgd hgin hc)
          · exact Or.inl)
      refine ⟨members, before, after ++ Element.flattenAll exp d rest, h1, hs,
        fun k hk => by simp [Element.taskIDsAll, h2 k hk],
        fun k hk => by simp [Element.groupIDsAll, h3 k hk], ?_, ?_, ?_⟩
      · simp [Element.flattenAll, h4]
      · simp [Element.flattenAll, h5, hrest]
      · intro row hr
        simp only [Element.flattenAll, List.mem_append] at hr
        rcases hr with hr | hr
        · exact h6 row hr
        · rcases Element.flattenAll_ids exp rest d row hr with h | h
          · exact ⟨fun _ hc => htd (h2 _ hc) h.2, fun hk => (by rw [h.1] at hk; cases hk)⟩
          · exact ⟨fun hk => (by rw [h.1] at hk; cases hk), fun _ hc => hgd (h3 _ hc) h.2⟩
    · obtain ⟨members, before, after, h1, hs, h2, h3, h4, h5, h6⟩ :=
        Element.flattenAll_expand ag exp exp1 g indent hmem hg rest d hst.2 hgr htr hrow
      have hgin : g ∈ Element.groupIDsAll rest := by
        rcases Element.flattenAll_ids exp rest d _ hrow with h | h
        · cases h.1
        · exact h.2
      have hx : Element.flatten exp1 d x = Element.flatten exp d x :=
        Element.flatten_congr exp1 exp x d (fun k hk => by
          rw [hmem k]
          constructor
          · rintro (h | h)
            · exact h
            · subst h; exact absurd hgin (fun hc => hgd hk hc)
          · exact Or.inl)
      refine ⟨members, Element.flatten exp d x ++ before, after, h1, hs,
        fun k hk => by simp [Element.taskIDsAll, h2 k hk],
        fun k hk => by simp [Element.groupIDsAll, h3 k hk], ?_, ?_, ?_⟩
      · simp [Element.flattenAll, h4]
      · simp [Element.flattenAll, h5, hx]
      · intro row hr
        simp only [Element.flattenAll, List.mem_append] at hr
        rcases hr with hr | hr
        · rcases Element.flatten_ids exp x d row hr with h | h
          · exact ⟨fun _ hc => htd h.2 (h2 _ hc), fun hk => (by rw [h.1] at hk; cases hk)⟩
          · exact ⟨fun hk => (by rw [h.1] at hk; cases hk), fun _ hc => hgd h.2 (h3 _ hc)⟩
        · exact h6 row hr
end

theorem UpdateVisibleIDs_eq (ag : AllTaskGroups) (e : Editor) (children : List Element)
    (fuel : Nat) (hroot : ag.GetElementIDs ag.ROOT_ID = Element.entries children)
    (hstored : Element.StoredAll ag children) (hfuel : Element.heightAll children < fuel) :
    UpdateVisibleIDs ag fuel e = some { e with
      m_VisibleIDs := (Element.flattenAll e.m_ExpandedTaskGroups 0 children).map (fun r => r.1)
      m_VisibleIDTypes :=
        (Element.flattenAll e.m_ExpandedTaskGroups 0 children).map (fun r => r.2.1)
      m_VisibleIDIndentation :=
        (Element.flattenAll e.m_ExpandedTaskGroups 0 children).map (fun r => r.2.2) } := by
  have hst : Element.Stored ag (.group ag.ROOT_ID children) := by
    rw [Element.Stored]; exact ⟨hroot, hstored⟩
  unfold UpdateVisibleIDs
  rw [UpdateVisibleIDs_Rec_spec ag fuel ag.ROOT_ID children 0 _ hst (by omega)]
  simp [Editor.pushRows]

theorem Element.entry_row_mem (exp : List Int) (d : Int) :
    ∀ (members : List Element) (m : Element), m ∈ members →
      (m.entry.1, m.entry.2, d) ∈ Element.flattenAll exp d members := by
  intro members
  induction members with
  | nil => intro m h; simp at h
  | cons x rest ih =>
    intro m h
    simp only [Element.flattenAll, List.mem_append]
    rcases List.mem_cons.mp h with h | h
    · subst h
      left
      cases m <;> simp [Element.flatten, Element.entry]
    · exact Or.inr (ih m h)

theorem Element.entry_ids : ∀ (members : List Element) (m : Element), m ∈ members →
    (m.entry.2 = ElementType_TaskID ∧ m.entry.1 ∈ Element.taskIDsAll members) ∨
      (m.entry.2 = ElementType_GroupID ∧ m.entry.1 ∈ Element.groupIDsAll members) := by
  intro members
  induction members with
  | nil => intro m h; simp at h
  | cons x rest ih =>
    intro m h
    rcases List.mem_cons.mp h with h | h
    · subst h
      cases m <;> simp [Element.entry, Element.taskIDsAll, Element.taskIDs,
        Element.groupIDsAll, Element.groupIDs]
    · rcases ih m h with h1 | h1
      · exact Or.inl ⟨h1.1, by simp [Element.taskIDsAll, h1.2]⟩
      · exact Or.inr ⟨h1.1, by simp [Element.groupIDsAll, h1.2]⟩

theorem filter_setInsert (exp : List Int) (g : Int) (hg : g ∉ exp) :
    (setInsert exp g).filter (fun id => id ≠ g) = exp := by
  simp only [setInsert, hg, if_false, List.filter_append]
  have h1 : exp.filter (fun id => decide (id ≠ g)) = exp :=
    List.filter_eq_self.mpr (fun a ha => by
      simp only [ne_eq, decide_not, Bool.not_eq_true', decide_eq_false_iff_not]
      intro hc; subst hc; exact hg ha)
  rw [h1]
  simp

/-- C19: for a hierarchy with distinct ids whose visible sequence is current
and a visible group `G` outside the expanded-set, with `members` the subtree
the store lists below `G` (the children of `G` and, for every group below
them, exactly its children): none of the children of `G` is a row;
`ExpandTaskGroup(G)` adds `G` to the expanded-set and returns the old
sequence with the rows of the visible subtree of `G` (the pre-order
flattening of `members` under the new expanded-set) put right after the row
of `G`, every direct child being a row at indentation `indent(G) + 1`, every
other row as before; and a following `CollapseTaskGroup(G)` gives back the
old three lists and expanded-set. -/
theorem C19_Expand_Collapse (ag : AllTaskGroups) (e : Editor) (children : List Element)
    (fuel : Nat) (G indent : Int)
    (hroot : ag.GetElementIDs ag.ROOT_ID = Element.entries children)
    (hstored : Element.StoredAll ag children) (hfuel : Element.heightAll children < fuel)
    (hgroups : (Element.groupIDsAll children).Nodup)
    (htasks : (Element.taskIDsAll children).Nodup)
    (hcurrent : UpdateVisibleIDs ag fuel e = some e)
    (hvisible : (G, ElementType_GroupID, indent) ∈ e.rows)
    (hcollapsed : G ∉ e.m_ExpandedTaskGroups) :
    ∃ (members : List Element) (before after : List Row) (e1 e2 : Editor),
      ag.GetElementIDs G = Element.entries members ∧
      Element.StoredAll ag members ∧
      e.rows = before ++ (G, ElementType_GroupID, indent) :: after ∧
      (∀ row ∈ e.rows, ∀ m ∈ members, (row.1, row.2.1) ≠ m.entry) ∧
      ExpandTaskGroup ag fuel e G = some e1 ∧
      (∀ id, id ∈ e1.m_ExpandedTaskGroups ↔ id ∈ e.m_ExpandedTaskGroups ∨ id = G) ∧
      e1.rows = before ++ (G, ElementType_GroupID, indent) ::
        (Element.flattenAll e1.m_ExpandedTaskGroups (indent + 1) members ++ after) ∧
      (e1.m_VisibleIDs = e1.rows.map (fun r => r.1) ∧
        e1.m_VisibleIDTypes = e1.rows.map (fun r => r.2.1) ∧
        e1.m_VisibleIDIndentation = e1.rows.map (fun r => r.2.2)) ∧
      (∀ m ∈ members, (m.entry.1, m.entry.2, indent + 1) ∈ e1.rows) ∧
      CollapseTaskGroup ag fuel e1 G = some e2 ∧
      e2.m_VisibleIDs = e.m_VisibleIDs ∧ e2.m_VisibleIDTypes = e.m_VisibleIDTypes ∧
      e2.m_VisibleIDIndentation = e.m_VisibleIDIndentation ∧
      e2.m_ExpandedTaskGroups = e.m_ExpandedTaskGroups := by
  have hupd := UpdateVisibleIDs_eq ag e children fuel hroot hstored hfuel
  rw [hcurrent, Option.some.injEq] at hupd
  have hids := congrArg Editor.m_VisibleIDs hupd
  have htypes := congrArg Editor.m_VisibleIDTypes hupd
  have hind := congrArg Editor.m_VisibleIDIndentation hupd
  dsimp only at hids htypes hind
  have hrows : e.rows = Element.flattenAll e.m_ExpandedTaskGroups 0 children := by
    unfold Editor.rows
    rw [hids, htypes, hind]
    exact zip_rows _
  rw [hrows] at hvisible
  have hmem : ∀ id, id ∈ setInsert e.m_ExpandedTaskGroups G ↔
      id ∈ e.m_ExpandedTaskGroups ∨ id = G := by
    intro id
    simp [setInsert, hcollapsed]
  obtain ⟨members, before, after, h1, hs, _, _, h4, h5, h6⟩ :=
    Element.flattenAll_expand ag e.m_ExpandedTaskGroups (setInsert e.m_ExpandedTaskGroups G)
      G indent hmem hcollapsed children 0 hstored hgroups htasks hvisible
  have hGm : G ∉ Element.groupIDsAll members := (h6 _ hvisible).2 rfl
  have hsub : Element.flattenAll (setInsert e.m_ExpandedTaskGroups G) (indent + 1) members =
      Element.flattenAll e.m_ExpandedTaskGroups (indent + 1) members :=
    Element.flattenAll_congr _ _ members (indent + 1) (fun k hk => by
      rw [hmem k]
      constructor
      · rintro (h | h)
        · exact h
        · subst h; exact absurd hk hGm
      · exact Or.inl)
  have hin1 : G ∈ setInsert e.m_ExpandedTaskGroups G := (hmem G).mpr (Or.inr rfl)
  have hE1 : ExpandTaskGroup ag fuel e G = UpdateVisibleIDs ag fuel { e with
      m_ExpandedTaskGroups := setInsert e.m_ExpandedTaskGroups G
      m_TaskGroupIDToImage_Attributes := remove e.m_TaskGroupIDToImage_Attributes G
      m_GroupIDToRowImageHeight := remove e.m_GroupIDToRowImageHeight G } := by
    simp only [ExpandTaskGroup, hcollapsed, if_false]
  rw [UpdateVisibleIDs_eq ag _ children fuel hroot hstored hfuel] at hE1
  obtain ⟨e1, he1, hexp1, hrows1, hids1, htypes1, hind1⟩ :
      ∃ e1, ExpandTaskGroup ag fuel e G = some e1 ∧
      e1.m_ExpandedTaskGroups = setInsert e.m_ExpandedTaskGroups G ∧
      e1.rows = Element.flattenAll (setInsert e.m_ExpandedTaskGroups G) 0 children ∧
      e1.m_VisibleIDs = (Element.flattenAll (setInsert e.m_ExpandedTaskGroups G) 0
        children).map (fun r => r.1) ∧
      e1.m_VisibleIDTypes = (Element.flattenAll (setInsert e.m_ExpandedTaskGroups G) 0
        children).map (fun r => r.2.1) ∧
      e1.m_VisibleIDIndentation = (Element.flattenAll (setInsert e.m_ExpandedTaskGroups G) 0
        children).map (fun r => r.2.2) :=
    ⟨_, hE1, rfl, zip_rows _, rfl, rfl, rfl⟩
  have hC1 : CollapseTaskGroup ag fuel e1 G = UpdateVisibleIDs ag fuel { e1 with
      m_ExpandedTaskGroups := e1.m_ExpandedTaskGroups.filter (fun id => id ≠ G)
      m_TaskGroupIDToImage_Attributes := remove e1.m_TaskGroupIDToImage_Attributes G
      m_GroupIDToRowImageHeight := remove e1.m_GroupIDToRowImageHeight G } := by
    simp only [CollapseTaskGroup, hexp1, hin1, not_true_eq_false, if_false]
  rw [UpdateVisibleIDs_eq ag _ children fuel hroot hstored hfuel] at hC1
  obtain ⟨e2, he2, hexp2, hids2, htypes2, hind2⟩ : ∃ e2,
      CollapseTaskGroup ag fuel e1 G = some e2 ∧
      e2.m_ExpandedTaskGroups = e1.m_ExpandedTaskGroups.filter (fun id => id ≠ G) ∧
      e2.m_VisibleIDs = (Element.flattenAll
        (e1.m_ExpandedTaskGroups.filter (fun id => id ≠ G)) 0 children).map (fun r => r.1) ∧
      e2.m_VisibleIDTypes = (Element.flattenAll
        (e1.m_ExpandedTaskGroups.filter (fun id => id ≠ G)) 0 children).map (fun r => r.2.1) ∧
      e2.m_VisibleIDIndentation = (Element.flattenAll
        (e1.m_ExpandedTaskGroups.filter (fun id => id ≠ G)) 0 children).map (fun r => r.2.2) :=
    ⟨_, hC1, rfl, rfl, rfl, rfl⟩
  rw [hexp1, filter_setInsert _ _ hcollapsed] at hexp2 hids2 htypes2 hind2
  have hnew : e1.rows = before ++ (G, ElementType_GroupID, indent) ::
      (Element.flattenAll e1.m_ExpandedTaskGroups (indent + 1) members ++ after) := by
    rw [hrows1, hexp1, h5, hsub]
  refine ⟨members, before, after, e1, e2, h1, hs, by rw [hrows]; exact h4, ?_, he1,
    fun id => by rw [hexp1]; exact hmem id, hnew,
    ⟨by rw [hids1, hrows1], by rw [htypes1, hrows1], by rw [hind1, hrows1]⟩, ?_, he2,
    hids2.trans hids.symm, htypes2.trans htypes.symm, hind2.trans hind.symm, hexp2⟩
  · intro row hr m hm hc
    rw [hrows] at hr
    rcases Element.entry_ids members m hm with h | h
    · exact (h6 row hr).1 (by rw [← h.1, ← hc]) (by rw [← hc] at h; exact h.2)
    · exact (h6 row hr).2 (by rw [← h.1, ← hc]) (by rw [← hc] at h; exact h.2)
  · intro m hm
    rw [hnew]
    exact List.mem_append_right _ (List.mem_cons_of_mem _ (List.mem_append_left _
      (Element.entry_row_mem _ _ members m hm)))

theorem C19_Expand_Collapse_witness :
    ∃ (members : List Element) (before after : List Row) (e1 e2 : Editor),
      pairGroups.GetElementIDs 7 = Element.entries members ∧
      Element.StoredAll pairGroups members ∧
      pairEditor.rows = before ++ (7, ElementType_GroupID, 0) :: after ∧
      (∀ row ∈ pairEditor.rows, ∀ m ∈ members, (row.1, row.2.1) ≠ m.entry) ∧
      ExpandTaskGroup pairGroups 3 pairEditor 7 = some e1 ∧
      (∀ id, id ∈ e1.m_ExpandedTaskGroups ↔ id ∈ pairEditor.m_ExpandedTaskGroups ∨ id = 7) ∧
      e1.rows = before ++ (7, ElementType_GroupID, 0) ::
        (Element.flattenAll e1.m_ExpandedTaskGroups (0 + 1) members ++ after) ∧
      (e1.m_VisibleIDs = e1.rows.map (fun r => r.1) ∧
        e1.m_VisibleIDTypes = e1.rows.map (fun r => r.2.1) ∧
        e1.m_VisibleIDIndentation = e1.rows.map (fun r => r.2.2)) ∧
      (∀ m ∈ members, (m.entry.1, m.entry.2, 0 + 1) ∈ e1.rows) ∧
      CollapseTaskGroup pairGroups 3 e1 7 = some e2 ∧
      e2.m_VisibleIDs = pairEditor.m_VisibleIDs ∧
      e2.m_VisibleIDTypes = pairEditor.m_VisibleIDTypes ∧
      e2.m_VisibleIDIndentation = pairEditor.m_VisibleIDIndentation ∧
      e2.m_ExpandedTaskGroups = pairEditor.m_ExpandedTaskGroups :=
  C19_Expand_Collapse pairGroups pairEditor pairElements 3 7 0 (by decide)
    (by simp [pairElements, pairGroups, Element.StoredAll, Element.Stored, Element.entries,
      Element.entry])
    (by decide) (by decide) (by decide) rfl (by decide) (by decide)

/-- The store pins the subtree of a group: two forests that the store lists
below the same entries are the same forest. -/
theorem Element.StoredAll_unique (ag : AllTaskGroups) :
    ∀ (n : Nat) (F F1 : List Element), Element.heightAll F < n →
      Element.entries F = Element.entries F1 → Element.StoredAll ag F →
      Element.StoredAll ag F1 → F = F1 := by
  intro n
  induction n with
  | zero => intro F F1 h; omega
  | succ n ih =>
    intro F
    induction F with
    | nil =>
      intro F1 _ hent _ _
      cases F1 with
      | nil => rfl
      | cons y rest1 => simp [Element.entries] at hent
    | cons x rest ihF =>
      intro F1 hh hent hst hst1
      cases F1 with
      | nil => simp [Element.entries] at hent
      | cons y rest1 =>
        simp only [Element.entries, List.cons.injEq] at hent
        rw [Element.StoredAll] at hst hst1
        simp only [Element.heightAll] at hh
        have hrest := ihF rest1 (by omega) hent.2 hst.2 hst1.2
        subst hrest
        cases x with
        | task id =>
          cases y with
          | task id1 =>
            simp only [Element.entry, Prod.mk.injEq, and_true] at hent
            rw [hent]
          | group id1 cs1 => simp [Element.entry] at hent
        | group id cs =>
          cases y with
          | task id1 => simp [Element.entry] at hent
          | group id1 cs1 =>
            simp only [Element.entry, Prod.mk.injEq, and_true] at hent
            subst hent
            rw [Element.Stored] at hst hst1
            simp only [Element.height] at hh
            have hcs := ih cs cs1 (by omega) (hst.1.1.symm.trans hst1.1.1) hst.1.2 hst1.1.2
            rw [hcs]

/-- A group below the expanded group: group 8, already in the expanded-set,
lies below the collapsed group 7; expanding group 7 shows task 2, group 8 and
below it task 3; collapsing it again gives the rows 1, 7, 4. -/
theorem ExpandTaskGroup_nested_sample :
    UpdateVisibleIDs nestedGroups 4 nestedEditor = some nestedEditor ∧
    nestedGroups.GetElementIDs 0 = Element.entries nestedElements ∧
    (ExpandTaskGroup nestedGroups 4 nestedEditor 7).map
      (fun e => (e.m_VisibleIDs, e.m_VisibleIDIndentation, e.m_ExpandedTaskGroups)) =
      some ([1, 7, 2, 8, 3, 4], [0, 0, 1, 1, 2, 0], [0, 8, 7]) ∧
    ((ExpandTaskGroup nestedGroups 4 nestedEditor 7).bind
      (fun e => CollapseTaskGroup nestedGroups 4 e 7)).map
      (fun e => (e.m_VisibleIDs, e.m_VisibleIDIndentation, e.m_ExpandedTaskGroups)) =
      some ([1, 7, 4], [0, 0, 0], [0, 8]) :=
  ⟨rfl, by decide, by decide, by decide⟩

/-- The scenario of C19 evaluated: group 7 with the two child tasks 2 and 3
is collapsed and the rows are 1, 7, 4; expanding it puts tasks 2 and 3 right
after it one level in; collapsing it again gives the rows 1, 7, 4. -/
theorem ExpandTaskGroup_sample :
    (ExpandTaskGroup pairGroups 3 pairEditor 7).map
      (fun e => (e.m_VisibleIDs, e.m_VisibleIDIndentation, e.m_ExpandedTaskGroups)) =
      some ([1, 7, 2, 3, 4], [0, 0, 1, 1, 0], [0, 7]) ∧
    ((ExpandTaskGroup pairGroups 3 pairEditor 7).bind
      (fun e => CollapseTaskGroup pairGroups 3 e 7)).map
      (fun e => (e.m_VisibleIDs, e.m_VisibleIDIndentation, e.m_ExpandedTaskGroups)) =
      some ([1, 7, 4], [0, 0, 0], [0]) := by
  decide

/-! ## The root group in the expanded-set -/

theorem foldl_setInsert_mem (root : Int) :
    ∀ (ids set : List Int), root ∈ set → root ∈ ids.foldl setInsert set := by
  intro ids
  induction ids with
  | nil => intro set h; exact h
  | cons id rest ih =>
    intro set h
    apply ih
    unfold setInsert
    split
    · exact h
    · exact List.mem_append_left _ h

theorem ReadFromXML_root (ag : AllTaskGroups) (e : Editor) (document : QDomElement)
    (h : ag.ROOT_ID ∈ e.m_ExpandedTaskGroups) :
    ag.ROOT_ID ∈ (ReadFromXML ag e document).2.m_ExpandedTaskGroups := by
  cases document with
  | none => exact h
  | some children =>
    unfold ReadFromXML
    dsimp only
    cases hcols : ReadFromXML_Columns (children.head?.getD DomEditor.null).columns
        (Initialize ag e, []) with
    | error e1 =>
      obtain ⟨_, _, _, state1, _, h2, h3⟩ := ReadFromXML_Columns_error _ _ _ hcols
      have hv : e1.viewState = (Initialize ag e).viewState := by
        rw [(ReadFromXML_Column_viewState state1 _).1 e1 h3]
        exact ReadFromXML_Columns_ok_viewState _ _ state1 h2
      have hexp : e1.m_ExpandedTaskGroups = [ag.ROOT_ID] := by
        have := congrArg (fun v => v.2.1) hv
        exact this
      dsimp only
      rw [hexp]
      exact List.mem_singleton.mpr rfl
    | ok state1 =>
      have hv := ReadFromXML_Columns_ok_viewState _ _ state1 hcols
      have hexp : state1.1.m_ExpandedTaskGroups = [ag.ROOT_ID] := by
        have := congrArg (fun v => v.2.1) hv
        exact this
      dsimp only
      apply foldl_setInsert_mem
      rw [CalculateAttributesTotalWidth_eq]
      dsimp only
      rw [hexp]
      exact List.mem_singleton.mpr rfl

theorem EditorCall.run_root (ag : AllTaskGroups) (children : List Element) (fuel : Nat)
    (hroot : ag.GetElementIDs ag.ROOT_ID = Element.entries children)
    (hstored : Element.StoredAll ag children) (hfuel : Element.heightAll children < fuel)
    (e : Editor) (call : EditorCall) (h : ag.ROOT_ID ∈ e.m_ExpandedTaskGroups)
    (hcall : call ≠ .collapse ag.ROOT_ID ∧ call ≠ .deleted ag.ROOT_ID) :
    ∃ e1, EditorCall.run ag fuel e call = some e1 ∧ ag.ROOT_ID ∈ e1.m_ExpandedTaskGroups := by
  cases call with
  | expand id =>
    simp only [EditorCall.run, ExpandTaskGroup]
    by_cases hin : id ∈ e.m_ExpandedTaskGroups
    · simp only [hin, if_true]
      exact ⟨e, rfl, h⟩
    · simp only [hin, if_false, UpdateVisibleIDs_eq ag _ children fuel hroot hstored hfuel]
      refine ⟨_, rfl, ?_⟩
      simp only [setInsert, hin, if_false]
      exact List.mem_append_left _ h
  | collapse id =>
    have hne : ag.ROOT_ID ≠ id := fun hc => hcall.1 (by rw [hc])
    simp only [EditorCall.run, CollapseTaskGroup]
    by_cases hin : id ∈ e.m_ExpandedTaskGroups
    · simp only [hin, not_true_eq_false, if_false,
        UpdateVisibleIDs_eq ag _ children fuel hroot hstored hfuel]
      refine ⟨_, rfl, ?_⟩
      exact List.mem_filter.mpr ⟨h, by simpa using hne⟩
    · simp only [hin, not_false_eq_true, if_true]
      exact ⟨e, rfl, h⟩
  | deleted id =>
    have hne : ag.ROOT_ID ≠ id := fun hc => hcall.2 (by rw [hc])
    simp only [EditorCall.run, TaskGroupDeleted,
      UpdateVisibleIDs_eq ag _ children fuel hroot hstored hfuel]
    refine ⟨_, rfl, ?_⟩
    exact List.mem_filter.mpr ⟨h, by simpa using hne⟩
  | read document =>
    exact ⟨_, rfl, ReadFromXML_root ag e document h⟩

theorem runCalls_root (ag : AllTaskGroups) (children : List Element) (fuel : Nat)
    (hroot : ag.GetElementIDs ag.ROOT_ID = Element.entries children)
    (hstored : Element.StoredAll ag children) (hfuel : Element.heightAll children < fuel) :
    ∀ (calls : List EditorCall) (e : Editor), ag.ROOT_ID ∈ e.m_ExpandedTaskGroups →
      (∀ call ∈ calls, call ≠ .collapse ag.ROOT_ID ∧ call ≠ .deleted ag.ROOT_ID) →
      ∃ e1, runCalls ag fuel calls e = some e1 ∧ ag.ROOT_ID ∈ e1.m_ExpandedTaskGroups := by
  intro calls
  induction calls with
  | nil => intro e h _; exact ⟨e, rfl, h⟩
  | cons call rest ih =>
    intro e h hcalls
    obtain ⟨e1, h1, h2⟩ := EditorCall.run_root ag children fuel hroot hstored hfuel e call h
      (hcalls call (List.mem_cons_self _ _))
    obtain ⟨e2, h3, h4⟩ := ih e1 h2 (fun c hc => hcalls c (List.mem_cons_of_mem _ hc))
    refine ⟨e2, ?_, h4⟩
    unfold runCalls at h3 ⊢
    simp only [List.foldlM, bind, Option.bind, h1, h3]

/-- C20, as the source has it: in every state reached from the constructed
editor by a sequence of `ExpandTaskGroup`, `CollapseTaskGroup`,
`TaskGroupDeleted` and `ReadFromXML` calls in which `CollapseTaskGroup` and
`TaskGroupDeleted` are not called with the root group id (any other group id
and any document), the root group id is a member of the expanded-set; with
fuel above the nesting depth of the hierarchy every such sequence returns. -/
theorem C20_root_stays_expanded (ag : AllTaskGroups) (children : List Element) (fuel : Nat)
    (calls : List EditorCall)
    (hroot : ag.GetElementIDs ag.ROOT_ID = Element.entries children)
    (hstored : Element.StoredAll ag children) (hfuel : Element.heightAll children < fuel)
    (hcalls : ∀ call ∈ calls, call ≠ .collapse ag.ROOT_ID ∧ call ≠ .deleted ag.ROOT_ID) :
    ∃ e, runCalls ag fuel calls (Editor.constructed ag) = some e ∧
      ag.ROOT_ID ∈ e.m_ExpandedTaskGroups :=
  runCalls_root ag children fuel hroot hstored hfuel calls (Editor.constructed ag)
    (List.mem_singleton.mpr rfl) hcalls

theorem C20_root_stays_expanded_witness :
    ∃ e, runCalls sampleGroups 3
        [.expand 2, .read savedDocument, .expand 4, .collapse 4, .deleted 2, .expand 0]
        (Editor.constructed sampleGroups) = some e ∧
      sampleGroups.ROOT_ID ∈ e.m_ExpandedTaskGroups :=
  C20_root_stays_expanded sampleGroups sampleElements 3
    [.expand 2, .read savedDocument, .expand 4, .collapse 4, .deleted 2, .expand 0]
    (by decide)
    (by simp [sampleElements, sampleGroups, Element.StoredAll, Element.Stored, Element.entries,
      Element.entry])
    (by decide)
    (by
      intro call hcall
      simp only [List.mem_cons, List.mem_singleton, List.not_mem_nil, or_false] at hcall
      rcases hcall with h | h | h | h | h | h <;> subst h <;>
        exact ⟨by simp [sampleGroups], by simp [sampleGroups]⟩)

/-- C20 as stated fails: `CollapseTaskGroup` and `TaskGroupDeleted` accept the
root group id like any other id and take it out of the expanded-set. -/
theorem C20_root_counterexample :
    sampleGroups.ROOT_ID = 0 ∧
    (runCalls sampleGroups 3 [.collapse 0] (Editor.constructed sampleGroups)).map
      (fun e => e.m_ExpandedTaskGroups) = some [] ∧
    (runCalls sampleGroups 3 [.expand 2, .deleted 0] (Editor.constructed sampleGroups)).map
      (fun e => e.m_ExpandedTaskGroups) = some [2] := by
  decide

/-! ## Coordinates of a paint pass -/

theorem paintEvent_Rows_wellPainted (bottom topIndex topOffset : Int) :
    ∀ (heights : List Int) (index current_top : Int), (∀ h ∈ heights, 0 < h) →
      (0 < topOffset ∨ topIndex < index) →
      WellPainted current_top
        (paintEvent_Rows bottom topIndex topOffset heights index current_top) := by
  intro heights
  induction heights with
  | nil => intro _ _ _ _; exact trivial
  | cons h rest ih =>
    intro index current_top hpos hoff
    have hoff1 : 0 < topOffset ∨ topIndex < index + 1 := by omega
    have hrest : ∀ x ∈ rest, 0 < x := fun x hx => hpos x (List.mem_cons_of_mem _ hx)
    have h0 := hpos h (List.mem_cons_self _ _)
    unfold paintEvent_Rows
    split
    · exact Or.inl ⟨rfl, rfl, ih (index + 1) current_top hrest hoff1⟩
    · split
      · exact Or.inl ⟨rfl, rfl, ih (index + 1) current_top hrest hoff1⟩
      · split
        · exact Or.inr ⟨le_refl _, by omega, ih (index + 1) _ hrest hoff1⟩
        · exact Or.inr ⟨le_refl _, by omega, ih (index + 1) _ hrest hoff1⟩

theorem paintEvent_Rows_length (bottom topIndex topOffset : Int) :
    ∀ (heights : List Int) (index current_top : Int),
      (paintEvent_Rows bottom topIndex topOffset heights index current_top).length =
        heights.length := by
  intro heights
  induction heights with
  | nil => intro _ _; rfl
  | cons h rest ih =>
    intro index current_top
    unfold paintEvent_Rows
    split
    · simp [ih]
    · split
      · simp [ih]
      · split <;> simp [ih]

/-- After a paint pass over rows of positive height, with a positive stored
top offset (or no top row yet) and a non-negative header height, `GetIndexAtPosition` returns
what the plain scan returns, and that is row `i` exactly when the band
recorded for row `i` holds `y`. -/
theorem GetIndexAtPosition_after_paint (e : Editor) (heights : List Int) (x y : Int)
    (hheader : 0 ≤ e.m_HeaderHeight) (hoff : 0 < e.m_TopOffset ∨ e.m_TopIndex < 0)
    (hpos : ∀ h ∈ heights, 0 < h) (hrows : e.m_VisibleIDs.length = heights.length)
    (htops : e.m_VisibleIDTopCoordinates =
      (paintEvent_Rows e.height e.m_TopIndex e.m_TopOffset heights 0 e.m_HeaderHeight).map
        Prod.fst)
    (hbottoms : e.m_VisibleIDBottomCoordinates =
      (paintEvent_Rows e.height e.m_TopIndex e.m_TopOffset heights 0 e.m_HeaderHeight).map
        Prod.snd) :
    GetIndexAtPosition e x y =
      some (PlainScan y e.m_VisibleIDTopCoordinates e.m_VisibleIDBottomCoordinates 0) ∧
    ∀ i : Nat,
      PlainScan y e.m_VisibleIDTopCoordinates e.m_VisibleIDBottomCoordinates 0 = (i : Int) ↔
        ∃ band, (paintEvent_Rows e.height e.m_TopIndex e.m_TopOffset heights 0
          e.m_HeaderHeight)[i]? = some band ∧ band.1 ≤ y ∧ y < band.2 := by
  have hw := paintEvent_Rows_wellPainted e.height e.m_TopIndex e.m_TopOffset heights 0
    e.m_HeaderHeight hpos hoff
  have hlen := paintEvent_Rows_length e.height e.m_TopIndex e.m_TopOffset heights 0
    e.m_HeaderHeight
  have hloop := GetIndexAtPosition_Loop_eq e y e.m_VisibleIDTopCoordinates
    e.m_VisibleIDBottomCoordinates 0 (by rw [htops, hbottoms]; simp)
    (fun j _ => by simp)
  have hcount : e.m_VisibleIDTopCoordinates.length = e.m_VisibleIDs.length := by
    rw [htops, hrows, List.length_map, hlen]
  rw [hcount] at hloop
  have heq := EarlyExitScan_eq_PlainScan y _ e.m_HeaderHeight 0 hw hheader
  have hchar := PlainScan_characterised y _ e.m_HeaderHeight 0 hw hheader (le_refl 0)
  constructor
  · unfold GetIndexAtPosition
    simp only [Nat.cast_zero] at hloop
    rw [hloop, htops, hbottoms, heq]
  · intro i
    have h := hchar i
    rw [zero_add] at h
    rw [htops, hbottoms]
    exact h

/-- The coordinates of the painted sample editor are those of a paint pass
over its five rows of 20 pixels. -/
theorem paintEvent_Rows_sample :
    paintEvent_Rows 60 1 15 [20, 20, 20, 20, 20] 0 10 =
      [(-1, -1), (10, 25), (25, 45), (45, 65), (-1, -1)] ∧
    PaintedRows 1 10 [15, 20, 20] 1 = [(-1, -1), (10, 25), (25, 45), (45, 65), (-1, -1)] := by
  decide
/-- C21 fails at a finished task in the default format (ISO date only): task
1 of the detailed sample has the actual finish 2024-03-05 and the early finish
2024-03-01, and `GetTaskContent` shows the early finish; for the start date of
the same task (actual 2024-02-02, early 2024-02-01) it shows the actual date. -/
theorem C21_FinishDate_shows_early_date :
    detailStores.items.GetInformation 1 .Information_ActualFinish = "2024-03-05" ∧
    detailStores.items.GetInformation 1 .Information_EarlyFinish = "2024-03-01" ∧
    detailEditor.m_AttributeDisplayFormat Attribute_FinishDate =
      AttributeDisplayFormat_ISODateOnly ∧
    (GetTaskContent detailStores 3 detailEditor 1 Attribute_FinishDate).map Prod.fst =
      some (["<p align=\"center\">2024-03-01</p>"], []) ∧
    (GetTaskContent detailStores 3 detailEditor 1 Attribute_StartDate).map Prod.fst =
      some (["<p align=\"center\">2024-02-02</p>"], []) := by
  refine ⟨rfl, rfl, rfl, ?_, ?_⟩ <;> decide

/-- C22 fails for the Comments column in the responsibilities format: for
task 1 of the detailed sample `GetTaskContent` returns the fragment "Ann" with
an empty id list, so the read of the id of fragment 0 that the row image
performs is outside the list; in the titles format the fragment "Review"
comes with the id 5 of its comment. -/
theorem C22_Comments_responsibilities_without_ids :
    responsibilitiesEditor.m_AttributeDisplayFormat Attribute_Comments =
      AttributeDisplayFormat_CommentResponsibilities ∧
    (GetTaskContent detailStores 3 responsibilitiesEditor 1 Attribute_Comments).map Prod.fst =
      some (["Ann"], []) ∧
    CreateRowImage_TaskItem_Comments_ActionData (["Ann"], []) 0 = none ∧
    (GetTaskContent detailStores 3 detailEditor 1 Attribute_Comments).map Prod.fst =
      some (["Review"], [5]) ∧
    CreateRowImage_TaskItem_Comments_ActionData (["Review"], [5]) 0 = some 5 := by
  refine ⟨rfl, ?_, rfl, ?_, rfl⟩ <;> decide

/-- C24 fails once a column other than ID has an alignment of its own: in the
editor loaded (with success) from a document whose Title column is aligned to
the right, the Title content of task 1 is wrapped in the alignment of the ID
column, "center". -/
theorem C24_alignment_read_at_ID :
    (ReadFromXML detailStores.groups detailEditor (some alignedChildren)).1 = true ∧
    alignedEditor.m_AttributeContentAlignment Attribute_Title = "right" ∧
    alignedEditor.m_AttributeContentAlignment Attribute_ID = "center" ∧
    (GetTaskContent detailStores 3 alignedEditor 1 Attribute_Title).map Prod.fst =
      some (["<p align=\"center\">Plan</p>"], []) := by
  refine ⟨?_, ?_, ?_, ?_⟩ <;> decide

/-- C25 fails at the default columns: the separator loop runs over the twelve
indices of `m_VisibleAttributes` while `CalculateAttributesTotalWidth` has
filed eleven right coordinates, so the pass for index 11, the Gantt column,
reads outside the list; with the Gantt column hidden the loop draws its
eleven lines. -/
theorem C25_vertical_lines_read_outside :
    columnsEditor.m_VisibleAttributes.length = 12 ∧
    columnsEditor.m_VisibleAttributesRightCoordinates.length = 11 ∧
    listAt columnsEditor.m_VisibleAttributesRightCoordinates 11 = none ∧
    CreateRowImage_Attributes_Lines columnsEditor = none ∧
    CreateRowImage_Attributes_Lines (CalculateAttributesTotalWidth noGanttEditor) =
      some [49, 119, 319, 419, 519, 619, 769, 919, 1069, 1219, 1369] := by
  refine ⟨rfl, rfl, rfl, ?_, ?_⟩ <;> decide

/-- C26 fails between a rebuild and the next paint pass: after a paint pass
over the three rows of the expand scenario, `ExpandTaskGroup(7)` rebuilds the
visible rows to five and leaves the three recorded coordinate pairs, and the
hit test for a point below the recorded bands reads the coordinate lists at
index 3, outside their range; a point inside a recorded band is still
found. -/
theorem C26_stale_coordinates_after_rebuild :
    paintEvent_Rows 480 (-1) 0 [20, 20, 20] 0 10 = [(10, 30), (30, 50), (50, 70)] ∧
    ExpandTaskGroup pairGroups 3 pairPaintedEditor 7 = some pairExpandedEditor ∧
    pairExpandedEditor.m_VisibleIDs = [1, 7, 2, 3, 4] ∧
    pairExpandedEditor.m_VisibleIDTopCoordinates = [10, 30, 50] ∧
    pairExpandedEditor.m_VisibleIDBottomCoordinates = [30, 50, 70] ∧
    GetIndexAtPosition pairExpandedEditor 0 35 = some 1 ∧
    listAt pairExpandedEditor.m_VisibleIDTopCoordinates 3 = none ∧
    GetIndexAtPosition pairExpandedEditor 0 100 = none := by
  refine ⟨rfl, rfl, rfl, rfl, rfl, rfl, rfl, rfl⟩

/-- C27 fails for the workdays slack: with the styled calendar-days slack of
task 1 cached, a `GetTaskContent(1, Attribute_SlackWorkdays)` call on a miss
returns no fragment, leaves the workdays entry empty and replaces the
calendar-days entry by the raw text. -/
theorem C27_SlackWorkdays_writes_calendar_days :
    slackEditor.m_TaskIDAttributeContent 1 Attribute_SlackCalendarDays =
      some ["<p align=\"center\">5</p>"] ∧
    slackEditor.m_TaskIDAttributeContent 1 Attribute_SlackWorkdays = none ∧
    (GetTaskContent detailStores 3 slackEditor 1 Attribute_SlackWorkdays).map Prod.fst =
      some ([], []) ∧
    (GetTaskContent detailStores 3 slackEditor 1 Attribute_SlackWorkdays).map
      (fun result => result.2.m_TaskIDAttributeContent 1 Attribute_SlackCalendarDays) =
      some (some ["5"]) ∧
    (GetTaskContent detailStores 3 slackEditor 1 Attribute_SlackWorkdays).map
      (fun result => result.2.m_TaskIDAttributeContent 1 Attribute_SlackWorkdays) =
      some (some []) := by
  refine ⟨?_, ?_, ?_, ?_, ?_⟩ <;> decide
/-- The lag of a link is annotated with the lead fields: link 10 of the
detailed sample, finish to finish with no lead and a lag of 2 cd, reads
"+0 wd". -/
theorem LinkSuffix_lag_sample :
    detailStores.links.GetInformation 10 .Information_LagDuration = "2" ∧
    detailStores.links.GetInformation 10 .Information_LagUnits = "cd" ∧
    LinkSuffix detailStores (detailStores.links.GetInformation 10) = ", FF+0 wd" ∧
    (GetTaskContent detailStores 3 detailEditor 1 Attribute_Predecessors).map Prod.fst =
      some (["B (Build), FF+0 wd"], [10]) := by
  refine ⟨?_, ?_, ?_, ?_⟩ <;> decide

theorem foldlM_some_returns_mem {α β : Type} (f : β → α → Option β) :
    ∀ (l : List α), (∀ b a, a ∈ l → ∃ b1, f b a = some b1) →
      ∀ b : β, ∃ b1, l.foldlM f b = some b1 := by
  intro l
  induction l with
  | nil => intro _ b; exact ⟨b, rfl⟩
  | cons a rest ih =>
    intro step b
    obtain ⟨b1, hf⟩ := step b a (List.mem_cons_self a rest)
    obtain ⟨b2, h2⟩ := ih (fun b a ha => step b a (List.mem_cons_of_mem _ ha)) b1
    exact ⟨b2, by simp only [List.foldlM, bind, Option.bind, hf, h2]⟩

/-- The recursion returns for every group whose rank is below the fuel, when
every listed child group has a smaller rank than the group that lists it. -/
theorem UpdateVisibleIDs_Rec_returns (ag : AllTaskGroups) (rank : Int → Nat)
    (hacyclic : ∀ g c, (c, ElementType_GroupID) ∈ ag.GetElementIDs g → rank c < rank g) :
    ∀ (fuel : Nat) (g indent : Int) (e : Editor), rank g < fuel →
      ∃ e1, UpdateVisibleIDs_Rec ag fuel g indent e = some e1 := by
  intro fuel
  induction fuel with
  | zero => intro g indent e h; omega
  | succ fuel ih =>
    intro g indent e hrank
    unfold UpdateVisibleIDs_Rec
    apply foldlM_some_returns_mem
    intro b a ha
    obtain ⟨element_id, element_type⟩ := a
    dsimp only
    split
    · rename_i hgroup
      have htype : element_type = ElementType_GroupID := hgroup.1
      subst htype
      have hlt := hacyclic g element_id ha
      exact ih element_id (indent + 1) _ (by omega)
    · exact ⟨_, rfl⟩

/-- C30: `UpdateVisibleIDs` terminates on every acyclic hierarchy, for every
expanded-set. Acyclic is stated by a rank: every group listed as a child has
a smaller rank than the group that lists it, so no group is its own
descendant and each recursive call of `UpdateVisibleIDs_Rec` descends to a
group of strictly smaller rank. The recursion then nests at most as deep as
the rank of the root, and with any fuel above that rank the call returns an
editor. -/
theorem C30_UpdateVisibleIDs_terminates (ag : AllTaskGroups) (rank : Int → Nat) (e : Editor)
    (fuel : Nat)
    (hacyclic : ∀ g c, (c, ElementType_GroupID) ∈ ag.GetElementIDs g → rank c < rank g)
    (hfuel : rank ag.ROOT_ID < fuel) :
    ∃ e1, UpdateVisibleIDs ag fuel e = some e1 :=
  UpdateVisibleIDs_Rec_returns ag rank hacyclic fuel ag.ROOT_ID 0 _ hfuel

theorem sampleRank_decreases (g c : Int)
    (h : (c, ElementType_GroupID) ∈ sampleGroups.GetElementIDs g) :
    sampleRank c < sampleRank g := by
  simp only [sampleGroups] at h
  split at h
  · rename_i hg
    subst hg
    simp at h
    subst h
    decide
  · split at h
    · rename_i hg
      subst hg
      simp at h
      subst h
      decide
    · split at h <;> simp at h

/-- C30 at the sample hierarchy (group 4 inside group 2 inside the root) with
every group expanded and fuel 3. -/
theorem C30_UpdateVisibleIDs_terminates_witness :
    sampleRank sampleGroups.ROOT_ID < 3 ∧
    ∃ e1, UpdateVisibleIDs sampleGroups 3
      { collapsedEditor with m_ExpandedTaskGroups := [0, 2, 4] } = some e1 :=
  ⟨by decide, C30_UpdateVisibleIDs_terminates sampleGroups sampleRank _ 3
    sampleRank_decreases (by decide)⟩

/-- On a hierarchy with a cycle the recursion has no result for any fuel:
with group 2 expanded and listed inside itself, every call nests one level
deeper. -/
theorem UpdateVisibleIDs_cyclic_sample (fuel : Nat) (e : Editor)
    (hexpanded : (2 : Int) ∈ e.m_ExpandedTaskGroups) :
    UpdateVisibleIDs cyclicGroups fuel e = none := by
  have hrec : ∀ (fuel : Nat) (g indent : Int) (e : Editor),
      (2 : Int) ∈ e.m_ExpandedTaskGroups → g = 0 ∨ g = 2 →
      UpdateVisibleIDs_Rec cyclicGroups fuel g indent e = none := by
    intro fuel
    induction fuel with
    | zero => intro g indent e _ _; rfl
    | succ fuel ih =>
      intro g indent e hexp hg
      have hnext := ih 2 (indent + 1)
        { e with
          m_VisibleIDs := e.m_VisibleIDs ++ [2]
          m_VisibleIDTypes := e.m_VisibleIDTypes ++ [ElementType_GroupID]
          m_VisibleIDIndentation := e.m_VisibleIDIndentation ++ [indent] } hexp (Or.inr rfl)
      have hids : cyclicGroups.GetElementIDs g = [(2, ElementType_GroupID)] := by
        rcases hg with hg | hg <;> subst hg <;> rfl
      unfold UpdateVisibleIDs_Rec
      rw [hids]
      simp only [List.foldlM, hexp, and_self, if_true, bind, Option.bind]
      rw [hnext]
  exact hrec fuel _ 0 _ hexpanded (Or.inl rfl)

/-! ## Locality of the content and the height of a row -/

theorem StoreSortedContent_fold (t : Int) (a : Attributes) (texts : List (Int × String)) :
    ∀ (ids : List Int) (content : Int → Attributes → Option (List String)) (acc : List String),
      content t a = some acc →
      ids.foldl (fun content id => append2 content t a (hashValue texts id)) content =
        insert2 content t a (acc ++ ids.map (hashValue texts)) := by
  intro ids
  induction ids with
  | nil =>
    intro content acc h
    funext k b
    by_cases hk : k = t ∧ b = a
    · simp [insert2, hk, h]
    · simp [insert2, hk]
  | cons id rest ih =>
    intro content acc h
    simp only [List.foldl_cons, List.map_cons]
    rw [ih _ (acc ++ [hashValue texts id]) (by simp [append2, insert2, h])]
    funext k b
    by_cases hk : k = t ∧ b = a <;> simp [insert2, append2, hk]

theorem StoreSortedContent_eq (e : Editor) (t : Int) (a : Attributes)
    (texts : List (Int × String)) (ids : List Int) :
    StoreSortedContent e t a texts ids = { e with
      m_TaskIDAttributeContent := insert2 e.m_TaskIDAttributeContent t a (ids.map (hashValue texts))
      m_TaskIDAttributeData := insert2 e.m_TaskIDAttributeData t a ids } := by
  unfold StoreSortedContent
  dsimp only
  rw [StoreSortedContent_fold t a texts ids _ [] (by simp [insert2])]
  congr 1
  · funext k b
    by_cases hk : k = t ∧ b = a <;> simp [insert2, hk]
  · funext k b
    by_cases hk : k = t ∧ b = a <;> simp [insert2, hk]

theorem StoreSingleContent_eq (e : Editor) (t : Int) (a : Attributes) (c : String) :
    StoreSingleContent e t a c = { e with
      m_TaskIDAttributeContent := insert2 e.m_TaskIDAttributeContent t a [c]
      m_TaskIDAttributeData := insert2 e.m_TaskIDAttributeData t a [] } := by
  unfold StoreSingleContent
  congr 1
  funext k b
  by_cases hk : k = t ∧ b = a <;> simp [insert2, append2, hk]

/-- Writing the two entries of (t, a) is local. -/
theorem TaskLocalAt_insert (t : Int) (a : Attributes) (c : List String) (d : List Int)
    (e : Editor) :
    TaskLocalAt t (fun e => { e with
      m_TaskIDAttributeContent := insert2 e.m_TaskIDAttributeContent t a c
      m_TaskIDAttributeData := insert2 e.m_TaskIDAttributeData t a d }) e := by
  refine ⟨?_, ?_, ?_⟩
  · simp only [Editor.focusTask, Editor.withoutHeights, Editor.withoutContent, insert2]
    congr 1
  · intro k hk
    simp only [Editor.focusTask, Editor.withoutHeights, Editor.withoutContent, insert2]
    congr 1 <;> (funext k1 b; by_cases hk1 : k1 = k <;> simp [hk1, hk])
  · intro g
    rfl

theorem TaskLocalAt_id (t : Int) (e : Editor) : TaskLocalAt t (fun e => e) e := by
  refine ⟨?_, fun _ _ => rfl, fun _ => rfl⟩
  simp only [Editor.focusTask, Editor.withoutHeights, Editor.withoutContent, if_true]

theorem TaskLocalAt_single (t : Int) (a : Attributes) (c : String) (e : Editor) :
    TaskLocalAt t (fun e => StoreSingleContent e t a c) e := by
  have h := TaskLocalAt_insert t a [c] [] e
  simp only [StoreSingleContent_eq]
  exact h

theorem TaskLocalAt_sorted (t : Int) (a : Attributes) (texts : List (Int × String))
    (ids : List Int) (e : Editor) :
    TaskLocalAt t (fun e => StoreSortedContent e t a texts ids) e := by
  have h := TaskLocalAt_insert t a (ids.map (hashValue texts)) ids e
  simp only [StoreSortedContent_eq]
  exact h

theorem Editor.focusTask_idem (e : Editor) (t : Int) :
    (e.focusTask t).focusTask t = e.focusTask t := by
  simp only [Editor.focusTask, Editor.withoutHeights, Editor.withoutContent, if_true]

theorem UpdateTaskContent_Attachments_local (st : Stores) (t : Int)
    (info : AllTaskItems.Information → String) (e : Editor) :
    TaskLocalAt t (fun e => UpdateTaskContent_Attachments st e t info) e :=
  TaskLocalAt_sorted t _ _ _ e

theorem UpdateTaskContent_Resources_local (st : Stores) (t : Int)
    (info : AllTaskItems.Information → String) (e : Editor) :
    TaskLocalAt t (fun e => UpdateTaskContent_Resources st e t info) e :=
  TaskLocalAt_sorted t _ _ _ e

theorem UpdateTaskContent_Duration_local (t : Int)
    (info : AllTaskItems.Information → String) (e : Editor) :
    TaskLocalAt t (fun e => UpdateTaskContent_Duration e t info) e :=
  TaskLocalAt_single t _ _ e

theorem UpdateTaskContent_ID_local (t : Int)
    (info : AllTaskItems.Information → String) (e : Editor) :
    TaskLocalAt t (fun e => UpdateTaskContent_ID e t info) e :=
  TaskLocalAt_single t _ _ e

theorem UpdateTaskContent_SlackCalendarDays_local (t : Int)
    (info : AllTaskItems.Information → String) (e : Editor) :
    TaskLocalAt t (fun e => UpdateTaskContent_SlackCalendarDays e t info) e :=
  TaskLocalAt_single t _ _ e

theorem UpdateTaskContent_SlackWorkdays_local (t : Int)
    (info : AllTaskItems.Information → String) (e : Editor) :
    TaskLocalAt t (fun e => UpdateTaskContent_SlackWorkdays e t info) e :=
  TaskLocalAt_single t _ _ e

theorem focusTask_format (e : Editor) (t : Int) :
    (e.focusTask t).m_AttributeDisplayFormat = e.m_AttributeDisplayFormat := rfl

theorem UpdateTaskContent_FinishDate_local (st : Stores) (t : Int)
    (info : AllTaskItems.Information → String) (e : Editor) :
    TaskLocalAt t (fun e => UpdateTaskContent_FinishDate st e t info) e := by
  unfold TaskLocalAt UpdateTaskContent_FinishDate
  simp only [focusTask_format]
  generalize e.m_AttributeDisplayFormat Attribute_FinishDate = fmt
  cases fmt <;> dsimp only <;>
    first | exact TaskLocalAt_id t e | exact TaskLocalAt_single t _ _ e

theorem UpdateTaskContent_StartDate_local (st : Stores) (t : Int)
    (info : AllTaskItems.Information → String) (e : Editor) :
    TaskLocalAt t (fun e => UpdateTaskContent_StartDate st e t info) e := by
  unfold TaskLocalAt UpdateTaskContent_StartDate
  simp only [focusTask_format]
  generalize e.m_AttributeDisplayFormat Attribute_StartDate = fmt
  cases fmt <;> dsimp only <;>
    first | exact TaskLocalAt_id t e | exact TaskLocalAt_single t _ _ e

theorem UpdateTaskContent_CriticalPath_local (t : Int)
    (info : AllTaskItems.Information → String) (e : Editor) :
    TaskLocalAt t (fun e => UpdateTaskContent_CriticalPath e t info) e := by
  unfold TaskLocalAt UpdateTaskContent_CriticalPath
  simp only [focusTask_format]
  generalize e.m_AttributeDisplayFormat Attribute_CriticalPath = fmt
  cases fmt <;> dsimp only <;>
    first | exact TaskLocalAt_id t e | exact TaskLocalAt_single t _ _ e

theorem UpdateTaskContent_CompletionStatus_local (t : Int)
    (info : AllTaskItems.Information → String) (e : Editor) :
    TaskLocalAt t (fun e => UpdateTaskContent_CompletionStatus e t info) e := by
  unfold TaskLocalAt UpdateTaskContent_CompletionStatus
  simp only [focusTask_format]
  generalize e.m_AttributeDisplayFormat Attribute_CompletionStatus = fmt
  cases fmt <;> dsimp only <;>
    first | exact TaskLocalAt_id t e | exact TaskLocalAt_single t _ _ e

theorem UpdateTaskContent_Comments_local (st : Stores) (t : Int)
    (info : AllTaskItems.Information → String) (e : Editor) :
    TaskLocalAt t (fun e => UpdateTaskContent_Comments st e t info) e := by
  unfold TaskLocalAt UpdateTaskContent_Comments
  simp only [focusTask_format]
  generalize e.m_AttributeDisplayFormat Attribute_Comments = fmt
  cases fmt
  case AttributeDisplayFormat_CommentTitles => exact TaskLocalAt_sorted t _ _ _ e
  case AttributeDisplayFormat_CommentResponsibilities => exact TaskLocalAt_insert t _ _ _ e
  all_goals exact TaskLocalAt_id t e

theorem UpdateTaskContent_Predecessors_local (st : Stores) (t : Int)
    (info : AllTaskItems.Information → String) (e : Editor) :
    TaskLocalAt t (fun e => UpdateTaskContent_Predecessors st e t info) e := by
  unfold TaskLocalAt UpdateTaskContent_Predecessors
  simp only [focusTask_format]
  generalize LinkTexts st (e.m_AttributeDisplayFormat Attribute_Predecessors)
    AllTaskLinks.Information.Information_PredecessorID
    (st.links.GetIDsForSuccessorTaskID t) = texts
  cases texts <;> dsimp only <;>
    first | exact TaskLocalAt_id t e | exact TaskLocalAt_sorted t _ _ _ e

theorem UpdateTaskContent_Successors_local (st : Stores) (t : Int)
    (info : AllTaskItems.Information → String) (e : Editor) :
    TaskLocalAt t (fun e => UpdateTaskContent_Successors st e t info) e := by
  unfold TaskLocalAt UpdateTaskContent_Successors
  simp only [focusTask_format]
  generalize LinkTexts st (e.m_AttributeDisplayFormat Attribute_Successors)
    AllTaskLinks.Information.Information_SuccessorID
    (st.links.GetIDsForPredecessorTaskID t) = texts
  cases texts <;> dsimp only <;>
    first | exact TaskLocalAt_id t e | exact TaskLocalAt_sorted t _ _ _ e

/-- The switch of `GetTaskContent` applies a step chosen from the attribute,
the format and the stores, and every such step is local. -/
theorem UpdateTaskContent_shape (st : Stores) (fuel : Nat) (t : Int) (a : Attributes)
    (info : AllTaskItems.Information → String) (e : Editor) :
    ∃ F : Option (Option (Editor → Editor)),
      UpdateTaskContent st fuel e t a info = F.map (Option.map (fun f => f e)) ∧
      UpdateTaskContent st fuel (e.focusTask t) t a info =
        F.map (Option.map (fun f => f (e.focusTask t))) ∧
      ∀ f, F = some (some f) → TaskLocalAt t f e := by
  cases a
  case Attribute_Attachments =>
    exact ⟨some (some (fun e => UpdateTaskContent_Attachments st e t info)), rfl, rfl,
      fun f hf => by cases hf; exact UpdateTaskContent_Attachments_local st t info e⟩
  case Attribute_Comments =>
    exact ⟨some (some (fun e => UpdateTaskContent_Comments st e t info)), rfl, rfl,
      fun f hf => by cases hf; exact UpdateTaskContent_Comments_local st t info e⟩
  case Attribute_CompletionStatus =>
    exact ⟨some (some (fun e => UpdateTaskContent_CompletionStatus e t info)), rfl, rfl,
      fun f hf => by cases hf; exact UpdateTaskContent_CompletionStatus_local t info e⟩
  case Attribute_CriticalPath =>
    exact ⟨some (some (fun e => UpdateTaskContent_CriticalPath e t info)), rfl, rfl,
      fun f hf => by cases hf; exact UpdateTaskContent_CriticalPath_local t info e⟩
  case Attribute_Duration =>
    exact ⟨some (some (fun e => UpdateTaskContent_Duration e t info)), rfl, rfl,
      fun f hf => by cases hf; exact UpdateTaskContent_Duration_local t info e⟩
  case Attribute_FinishDate =>
    exact ⟨some (some (fun e => UpdateTaskContent_FinishDate st e t info)), rfl, rfl,
      fun f hf => by cases hf; exact UpdateTaskContent_FinishDate_local st t info e⟩
  case Attribute_ID =>
    exact ⟨some (some (fun e => UpdateTaskContent_ID e t info)), rfl, rfl,
      fun f hf => by cases hf; exact UpdateTaskContent_ID_local t info e⟩
  case Attribute_Predecessors =>
    exact ⟨some (some (fun e => UpdateTaskContent_Predecessors st e t info)), rfl, rfl,
      fun f hf => by cases hf; exact UpdateTaskContent_Predecessors_local st t info e⟩
  case Attribute_Resources =>
    exact ⟨some (some (fun e => UpdateTaskContent_Resources st e t info)), rfl, rfl,
      fun f hf => by cases hf; exact UpdateTaskContent_Resources_local st t info e⟩
  case Attribute_SlackCalendarDays =>
    exact ⟨some (some (fun e => UpdateTaskContent_SlackCalendarDays e t info)), rfl, rfl,
      fun f hf => by cases hf; exact UpdateTaskContent_SlackCalendarDays_local t info e⟩
  case Attribute_SlackWorkdays =>
    exact ⟨some (some (fun e => UpdateTaskContent_SlackWorkdays e t info)), rfl, rfl,
      fun f hf => by cases hf; exact UpdateTaskContent_SlackWorkdays_local t info e⟩
  case Attribute_StartDate =>
    exact ⟨some (some (fun e => UpdateTaskContent_StartDate st e t info)), rfl, rfl,
      fun f hf => by cases hf; exact UpdateTaskContent_StartDate_local st t info e⟩
  case Attribute_Successors =>
    exact ⟨some (some (fun e => UpdateTaskContent_Successors st e t info)), rfl, rfl,
      fun f hf => by cases hf; exact UpdateTaskContent_Successors_local st t info e⟩
  case Attribute_Title =>
    simp only [UpdateTaskContent, UpdateTaskContent_Title, focusTask_format]
    generalize e.m_AttributeDisplayFormat Attribute_Title = fmt
    cases fmt
    case AttributeDisplayFormat_TitleOnly =>
      exact ⟨some (some (fun e => StoreSingleContent e t Attribute_Title
        (info .Information_Title))), rfl, rfl,
        fun f hf => by cases hf; exact TaskLocalAt_single t _ _ e⟩
    case AttributeDisplayFormat_TitleAndParentGroup =>
      dsimp only
      by_cases hp : st.groups.GetParentGroupIDForTaskID t ≠ st.groups.ROOT_ID
      · simp only [if_pos hp]
        exact ⟨some (some (fun e => StoreSingleContent e t Attribute_Title _)), rfl, rfl,
          fun f hf => by cases hf; exact TaskLocalAt_single t _ _ e⟩
      · simp only [if_neg hp]
        exact ⟨some (some (fun e => StoreSingleContent e t Attribute_Title _)), rfl, rfl,
          fun f hf => by cases hf; exact TaskLocalAt_single t _ _ e⟩
    case AttributeDisplayFormat_TitleAndFullHierarchy =>
      dsimp only
      cases ParentNames st.groups fuel (st.groups.GetParentGroupIDForTaskID t) with
      | none => exact ⟨none, rfl, rfl, fun f hf => by cases hf⟩
      | some names =>
        exact ⟨some (some (fun e => StoreSingleContent e t Attribute_Title _)), rfl, rfl,
          fun f hf => by cases hf; exact TaskLocalAt_single t _ _ e⟩
    all_goals
      exact ⟨some (some (fun e => e)), rfl, rfl,
        fun f hf => by cases hf; exact TaskLocalAt_id t e⟩
  all_goals exact ⟨some none, rfl, rfl, fun f hf => by cases hf⟩

theorem focusTask_content (e : Editor) (t : Int) (a : Attributes) :
    (e.focusTask t).m_TaskIDAttributeContent t a = e.m_TaskIDAttributeContent t a := by
  simp [Editor.focusTask]

theorem focusTask_data (e : Editor) (t : Int) (a : Attributes) :
    (e.focusTask t).m_TaskIDAttributeData t a = e.m_TaskIDAttributeData t a := by
  simp [Editor.focusTask]

theorem focusTask_content_of_eq {x y : Editor} {t : Int}
    (h : x.focusTask t = y.focusTask t) (a : Attributes) :
    x.m_TaskIDAttributeContent t a = y.m_TaskIDAttributeContent t a := by
  rw [← focusTask_content x t a, ← focusTask_content y t a, h]

theorem focusTask_data_of_eq {x y : Editor} {t : Int}
    (h : x.focusTask t = y.focusTask t) (a : Attributes) :
    x.m_TaskIDAttributeData t a = y.m_TaskIDAttributeData t a := by
  rw [← focusTask_data x t a, ← focusTask_data y t a, h]

/-- The last two steps of `GetTaskContent` on a miss: the style markup and
the return statement. -/
theorem TaskContentTail_local (t : Int) (a : Attributes) (style : String) (e : Editor) :
    TaskLocalAt t (fun e1 => (TaskContentResult { e1 with
      m_TaskIDAttributeContent := insert2 e1.m_TaskIDAttributeContent t a
        (((e1.m_TaskIDAttributeContent t a).getD []).map
          (fun item => (StyleMarkup e1 a style).1 ++ item ++ (StyleMarkup e1 a style).2)) }
      t a).2) e := by
  refine ⟨?_, ?_, ?_⟩
  · simp only [Editor.focusTask, Editor.withoutHeights, Editor.withoutContent, insert2,
      TaskContentResult, StyleMarkup]
    congr 1
  · intro k hk
    simp only [Editor.focusTask, Editor.withoutHeights, Editor.withoutContent, insert2,
      TaskContentResult]
    congr 1 <;> (funext k1 b; by_cases hk1 : k1 = k <;> simp [hk1, hk])
  · intro g
    rfl

theorem TaskContentResult_local (t : Int) (a : Attributes) (e : Editor) :
    TaskLocalAt t (fun e1 => (TaskContentResult e1 t a).2) e := by
  refine ⟨?_, ?_, ?_⟩
  · simp only [Editor.focusTask, Editor.withoutHeights, Editor.withoutContent, insert2,
      TaskContentResult]
    congr 1
  · intro k hk
    simp only [Editor.focusTask, Editor.withoutHeights, Editor.withoutContent, insert2,
      TaskContentResult]
    congr 1 <;> (funext k1 b; by_cases hk1 : k1 = k <;> simp [hk1, hk])
  · intro g
    rfl

theorem TaskContentResult_fst (t : Int) (a : Attributes) (e : Editor) :
    (TaskContentResult e t a).1 = (TaskContentResult (e.focusTask t) t a).1 := by
  simp [TaskContentResult, focusTask_content, focusTask_data]

theorem StyleMarkup_focus (e : Editor) (t : Int) (a : Attributes) (style : String) :
    StyleMarkup (e.focusTask t) a style = StyleMarkup e a style := rfl

theorem StyleWrap_local (t : Int) (a : Attributes) (style : String) (e : Editor) :
    TaskLocalAt t (fun e1 => { e1 with
      m_TaskIDAttributeContent := insert2 e1.m_TaskIDAttributeContent t a
        (((e1.m_TaskIDAttributeContent t a).getD []).map
          (fun item => (StyleMarkup e1 a style).1 ++ item ++ (StyleMarkup e1 a style).2)) }) e := by
  refine ⟨?_, ?_, ?_⟩
  · simp only [Editor.focusTask, Editor.withoutHeights, Editor.withoutContent, insert2,
      StyleMarkup]
    congr 1
  · intro k hk
    simp only [Editor.focusTask, Editor.withoutHeights, Editor.withoutContent, insert2]
    congr 1
    funext k1 b
    by_cases hk1 : k1 = k <;> simp [hk1, hk]
  · intro g
    rfl

/-- A local step gives the same entries for task `t` on two editors that hold
the same for task `t`. -/
theorem TaskLocalAt.taskCongr {t : Int} {F : Editor → Editor} {x y : Editor}
    (hx : TaskLocalAt t F x) (hy : TaskLocalAt t F y) (h : x.focusTask t = y.focusTask t) :
    (F x).focusTask t = (F y).focusTask t := by
  rw [hx.1, hy.1, h]

theorem TaskContentResult_view_congr (t : Int) (a : Attributes) {x y : Editor}
    (h : x.focusTask t = y.focusTask t) :
    ((TaskContentResult x t a).1, (TaskContentResult x t a).2.focusTask t) =
      ((TaskContentResult y t a).1, (TaskContentResult y t a).2.focusTask t) := by
  rw [TaskContentResult_fst t a x, TaskContentResult_fst t a y, h,
    (TaskContentResult_local t a x).taskCongr (TaskContentResult_local t a y) h]

/-- What `GetTaskContent(t, a)` returns, and what it leaves for task `t`, is
computed from what the editor holds for task `t`. -/
theorem GetTaskContent_local (st : Stores) (fuel : Nat) (e : Editor) (t : Int)
    (a : Attributes) :
    (GetTaskContent st fuel e t a).map (fun r => (r.1, r.2.focusTask t)) =
      (GetTaskContent st fuel (e.focusTask t) t a).map (fun r => (r.1, r.2.focusTask t)) := by
  unfold GetTaskContent
  rw [focusTask_content]
  by_cases hc : (e.m_TaskIDAttributeContent t a).isSome = true
  · simp only [hc, if_true, Option.map_some']
    exact congrArg some (TaskContentResult_view_congr t a (Editor.focusTask_idem e t).symm)
  · have hc0 : (e.m_TaskIDAttributeContent t a).isSome = false := by simpa using hc
    simp only [hc0, Bool.false_eq_true, if_false]
    obtain ⟨F, h1, h2, hloc⟩ :=
      UpdateTaskContent_shape st fuel t a (st.items.GetInformation t) e
    rw [h1, h2]
    cases F with
    | none => rfl
    | some o =>
      cases o with
      | none =>
        simp only [Option.map_some', Option.map_none']
        rw [Editor.focusTask_idem]
      | some f =>
        simp only [Option.map_some']
        have hf := (hloc f rfl).1
        have hw := (StyleWrap_local t a (st.items.GetInformation t .Information_TextStyle)
          (f e)).taskCongr (StyleWrap_local t a _ (f (e.focusTask t))) hf
        exact congrArg some (TaskContentResult_view_congr t a hw)

/-- `GetTaskContent(t, a)` leaves the entries of every other task and of
every group as they are. -/
theorem GetTaskContent_frame (st : Stores) (fuel : Nat) (e e1 : Editor) (t : Int)
    (a : Attributes) (c : List String × List Int)
    (h : GetTaskContent st fuel e t a = some (c, e1)) :
    (∀ k, k ≠ t → e1.focusTask k = e.focusTask k) ∧ (∀ g, e1.focusGroup g = e.focusGroup g) := by
  unfold GetTaskContent at h
  by_cases hc : (e.m_TaskIDAttributeContent t a).isSome = true
  · simp only [hc, if_true, Option.some.injEq] at h
    have he : e1 = (TaskContentResult e t a).2 := by rw [h]
    subst he
    exact ⟨(TaskContentResult_local t a e).2.1, (TaskContentResult_local t a e).2.2⟩
  · have hc0 : (e.m_TaskIDAttributeContent t a).isSome = false := by simpa using hc
    simp only [hc0, Bool.false_eq_true, if_false] at h
    obtain ⟨F, h1, _, hloc⟩ :=
      UpdateTaskContent_shape st fuel t a (st.items.GetInformation t) e
    rw [h1] at h
    cases F with
    | none => simp at h
    | some o =>
      cases o with
      | none =>
        simp only [Option.map_some', Option.map_none', Option.some.injEq, Prod.mk.injEq] at h
        rw [← h.2]
        exact ⟨fun _ _ => rfl, fun _ => rfl⟩
      | some f =>
        simp only [Option.map_some', Option.some.injEq] at h
        have hf := hloc f rfl
        have hw := StyleWrap_local t a (st.items.GetInformation t .Information_TextStyle) (f e)
        have hr := TaskContentResult_local t a { f e with
          m_TaskIDAttributeContent := insert2 (f e).m_TaskIDAttributeContent t a
            ((((f e).m_TaskIDAttributeContent t a).getD []).map
              (fun item => (StyleMarkup (f e) a
                (st.items.GetInformation t .Information_TextStyle)).1 ++ item ++
                (StyleMarkup (f e) a (st.items.GetInformation t .Information_TextStyle)).2)) }
        have he : e1 = (TaskContentResult { f e with
          m_TaskIDAttributeContent := insert2 (f e).m_TaskIDAttributeContent t a
            ((((f e).m_TaskIDAttributeContent t a).getD []).map
              (fun item => (StyleMarkup (f e) a
                (st.items.GetInformation t .Information_TextStyle)).1 ++ item ++
                (StyleMarkup (f e) a (st.items.GetInformation t .Information_TextStyle)).2)) }
          t a).2 := by rw [h]
        subst he
        refine ⟨fun k hk => ?_, fun g => ?_⟩
        · exact ((hr.2.1 k hk).trans (hw.2.1 k hk)).trans (hf.2.1 k hk)
        · exact ((hr.2.2 g).trans (hw.2.2 g)).trans (hf.2.2 g)

theorem Editor.focusGroup_idem (e : Editor) (g : Int) :
    (e.focusGroup g).focusGroup g = e.focusGroup g := by
  simp only [Editor.focusGroup, Editor.withoutHeights, Editor.withoutContent, if_true]

theorem focusGroup_format (e : Editor) (g : Int) :
    (e.focusGroup g).m_AttributeDisplayFormat = e.m_AttributeDisplayFormat := rfl

theorem focusGroup_content (e : Editor) (g : Int) (a : Attributes) :
    (e.focusGroup g).m_GroupIDAttributeContent g a = e.m_GroupIDAttributeContent g a := by
  simp [Editor.focusGroup]

theorem focusGroup_data (e : Editor) (g : Int) (a : Attributes) :
    (e.focusGroup g).m_GroupIDAttributeData g a = e.m_GroupIDAttributeData g a := by
  simp [Editor.focusGroup]

theorem StoreSingleGroupContent_eq (e : Editor) (g : Int) (a : Attributes) (c : String) :
    StoreSingleGroupContent e g a c = { e with
      m_GroupIDAttributeContent := insert2 e.m_GroupIDAttributeContent g a [c]
      m_GroupIDAttributeData := insert2 e.m_GroupIDAttributeData g a [] } := by
  unfold StoreSingleGroupContent
  congr 1
  funext k b
  by_cases hk : k = g ∧ b = a <;> simp [insert2, append2, hk]

theorem GroupLocalAt_insert (g : Int) (a : Attributes) (c : List String) (d : List Int)
    (e : Editor) :
    GroupLocalAt g (fun e => { e with
      m_GroupIDAttributeContent := insert2 e.m_GroupIDAttributeContent g a c
      m_GroupIDAttributeData := insert2 e.m_GroupIDAttributeData g a d }) e := by
  refine ⟨?_, ?_, ?_⟩
  · simp only [Editor.focusGroup, Editor.withoutHeights, Editor.withoutContent, insert2]
    congr 1
  · intro k hk
    simp only [Editor.focusGroup, Editor.withoutHeights, Editor.withoutContent, insert2]
    congr 1 <;> (funext k1 b; by_cases hk1 : k1 = k <;> simp [hk1, hk])
  · intro t
    rfl

theorem GroupLocalAt_id (g : Int) (e : Editor) : GroupLocalAt g (fun e => e) e := by
  refine ⟨?_, fun _ _ => rfl, fun _ => rfl⟩
  simp only [Editor.focusGroup, Editor.withoutHeights, Editor.withoutContent, if_true]

theorem GroupLocalAt_single (g : Int) (a : Attributes) (c : String) (e : Editor) :
    GroupLocalAt g (fun e => StoreSingleGroupContent e g a c) e := by
  have h := GroupLocalAt_insert g a [c] [] e
  simp only [StoreSingleGroupContent_eq]
  exact h

theorem GroupLocalAt.groupCongr {g : Int} {F : Editor → Editor} {x y : Editor}
    (hx : GroupLocalAt g F x) (hy : GroupLocalAt g F y) (h : x.focusGroup g = y.focusGroup g) :
    (F x).focusGroup g = (F y).focusGroup g := by
  rw [hx.1, hy.1, h]

/-- The switch of `GetGroupContent` applies a step chosen from the attribute,
the format and the stores, and every such step is local. -/
theorem UpdateGroupContent_shape (st : Stores) (fuel : Nat) (g : Int) (a : Attributes)
    (info : AllTaskGroups.Information → String) (e : Editor) :
    ∃ F : Option (Option (Editor → Editor)),
      UpdateGroupContent st fuel e g a info = F.map (Option.map (fun f => f e)) ∧
      UpdateGroupContent st fuel (e.focusGroup g) g a info =
        F.map (Option.map (fun f => f (e.focusGroup g))) ∧
      ∀ f, F = some (some f) → GroupLocalAt g f e := by
  cases a
  case Attribute_CompletionStatus =>
    simp only [UpdateGroupContent, UpdateGroupContent_CompletionStatus, focusGroup_format]
    generalize e.m_AttributeDisplayFormat Attribute_CompletionStatus = fmt
    cases fmt
    case AttributeDisplayFormat_CompletionStatusText =>
      exact ⟨some (some (fun e => StoreSingleGroupContent e g Attribute_CompletionStatus _)),
        rfl, rfl, fun f hf => by cases hf; exact GroupLocalAt_single g _ _ e⟩
    case AttributeDisplayFormat_CompletionStatusPercent =>
      exact ⟨some (some (fun e => StoreSingleGroupContent e g Attribute_CompletionStatus _)),
        rfl, rfl, fun f hf => by cases hf; exact GroupLocalAt_single g _ _ e⟩
    case AttributeDisplayFormat_CompletionStatusSymbol =>
      exact ⟨some (some (fun e => StoreSingleGroupContent e g Attribute_CompletionStatus _)),
        rfl, rfl, fun f hf => by cases hf; exact GroupLocalAt_single g _ _ e⟩
    all_goals
      exact ⟨some (some (fun e => e)), rfl, rfl,
        fun f hf => by cases hf; exact GroupLocalAt_id g e⟩
  case Attribute_Title =>
    simp only [UpdateGroupContent, UpdateGroupContent_Title, focusGroup_format]
    generalize e.m_AttributeDisplayFormat Attribute_Title = fmt
    cases fmt
    case AttributeDisplayFormat_TitleOnly =>
      exact ⟨some (some (fun e => StoreSingleGroupContent e g Attribute_Title _)), rfl, rfl,
        fun f hf => by cases hf; exact GroupLocalAt_single g _ _ e⟩
    case AttributeDisplayFormat_TitleAndParentGroup =>
      dsimp only
      by_cases hp : st.helper.toInt (info .Information_ParentGroupID) ≠ st.groups.ROOT_ID
      · simp only [if_pos hp]
        exact ⟨some (some (fun e => StoreSingleGroupContent e g Attribute_Title _)), rfl, rfl,
          fun f hf => by cases hf; exact GroupLocalAt_single g _ _ e⟩
      · simp only [if_neg hp]
        exact ⟨some (some (fun e => StoreSingleGroupContent e g Attribute_Title _)), rfl, rfl,
          fun f hf => by cases hf; exact GroupLocalAt_single g _ _ e⟩
    case AttributeDisplayFormat_TitleAndFullHierarchy =>
      dsimp only
      cases ParentNames st.groups fuel (st.helper.toInt (info .Information_ParentGroupID)) with
      | none => exact ⟨none, rfl, rfl, fun f hf => by cases hf⟩
      | some names =>
        exact ⟨some (some (fun e => StoreSingleGroupContent e g Attribute_Title _)), rfl, rfl,
          fun f hf => by cases hf; exact GroupLocalAt_single g _ _ e⟩
    all_goals
      exact ⟨some (some (fun e => e)), rfl, rfl,
        fun f hf => by cases hf; exact GroupLocalAt_id g e⟩
  all_goals exact ⟨some none, rfl, rfl, fun f hf => by cases hf⟩

theorem GroupContentResult_local (g : Int) (a : Attributes) (e : Editor) :
    GroupLocalAt g (fun e1 => (GroupContentResult e1 g a).2) e := by
  refine ⟨?_, ?_, ?_⟩
  · simp only [Editor.focusGroup, Editor.withoutHeights, Editor.withoutContent, insert2,
      GroupContentResult]
    congr 1
  · intro k hk
    simp only [Editor.focusGroup, Editor.withoutHeights, Editor.withoutContent, insert2,
      GroupContentResult]
    congr 1 <;> (funext k1 b; by_cases hk1 : k1 = k <;> simp [hk1, hk])
  · intro t
    rfl

theorem GroupContentResult_fst (g : Int) (a : Attributes) (e : Editor) :
    (GroupContentResult e g a).1 = (GroupContentResult (e.focusGroup g) g a).1 := by
  simp [GroupContentResult, focusGroup_content, focusGroup_data]

theorem GroupStyleWrap_local (g : Int) (a : Attributes) (style : String) (e : Editor) :
    GroupLocalAt g (fun e1 => { e1 with
      m_GroupIDAttributeContent := insert2 e1.m_GroupIDAttributeContent g a
        (((e1.m_GroupIDAttributeContent g a).getD []).map
          (fun item => (StyleMarkup e1 a style).1 ++ item ++ (StyleMarkup e1 a style).2)) }) e := by
  refine ⟨?_, ?_, ?_⟩
  · simp only [Editor.focusGroup, Editor.withoutHeights, Editor.withoutContent, insert2,
      StyleMarkup]
    congr 1
  · intro k hk
    simp only [Editor.focusGroup, Editor.withoutHeights, Editor.withoutContent, insert2]
    congr 1
    funext k1 b
    by_cases hk1 : k1 = k <;> simp [hk1, hk]
  · intro t
    rfl

theorem GroupContentResult_view_congr (g : Int) (a : Attributes) {x y : Editor}
    (h : x.focusGroup g = y.focusGroup g) :
    ((GroupContentResult x g a).1, (GroupContentResult x g a).2.focusGroup g) =
      ((GroupContentResult y g a).1, (GroupContentResult y g a).2.focusGroup g) := by
  rw [GroupContentResult_fst g a x, GroupContentResult_fst g a y, h,
    (GroupContentResult_local g a x).groupCongr (GroupContentResult_local g a y) h]

/-- What `GetGroupContent(g, a)` returns, and what it leaves for group `g`,
is computed from what the editor holds for group `g`. -/
theorem GetGroupContent_local (st : Stores) (fuel : Nat) (e : Editor) (g : Int)
    (a : Attributes) :
    (GetGroupContent st fuel e g a).map (fun r => (r.1, r.2.focusGroup g)) =
      (GetGroupContent st fuel (e.focusGroup g) g a).map
        (fun r => (r.1, r.2.focusGroup g)) := by
  unfold GetGroupContent
  rw [focusGroup_content]
  by_cases hc : (e.m_GroupIDAttributeContent g a).isSome = true
  · simp only [hc, if_true, Option.map_some']
    exact congrArg some (GroupContentResult_view_congr g a (Editor.focusGroup_idem e g).symm)
  · have hc0 : (e.m_GroupIDAttributeContent g a).isSome = false := by simpa using hc
    simp only [hc0, Bool.false_eq_true, if_false]
    obtain ⟨F, h1, h2, hloc⟩ :=
      UpdateGroupContent_shape st fuel g a (st.groups.GetInformation g) e
    rw [h1, h2]
    cases F with
    | none => rfl
    | some o =>
      cases o with
      | none =>
        simp only [Option.map_some', Option.map_none']
        rw [Editor.focusGroup_idem]
      | some f =>
        simp only [Option.map_some']
        have hf := (hloc f rfl).1
        have hw := (GroupStyleWrap_local g a (st.groups.GetInformation g .Information_TextStyle)
          (f e)).groupCongr (GroupStyleWrap_local g a _ (f (e.focusGroup g))) hf
        exact congrArg some (GroupContentResult_view_congr g a hw)

/-- `GetGroupContent(g, a)` leaves the entries of every other group and of
every task as they are. -/
theorem GetGroupContent_frame (st : Stores) (fuel : Nat) (e e1 : Editor) (g : Int)
    (a : Attributes) (c : List String × List Int)
    (h : GetGroupContent st fuel e g a = some (c, e1)) :
    (∀ k, k ≠ g → e1.focusGroup k = e.focusGroup k) ∧ (∀ t, e1.focusTask t = e.focusTask t) := by
  unfold GetGroupContent at h
  by_cases hc : (e.m_GroupIDAttributeContent g a).isSome = true
  · simp only [hc, if_true, Option.some.injEq] at h
    have he : e1 = (GroupContentResult e g a).2 := by rw [h]
    subst he
    exact ⟨(GroupContentResult_local g a e).2.1, (GroupContentResult_local g a e).2.2⟩
  · have hc0 : (e.m_GroupIDAttributeContent g a).isSome = false := by simpa using hc
    simp only [hc0, Bool.false_eq_true, if_false] at h
    obtain ⟨F, h1, _, hloc⟩ :=
      UpdateGroupContent_shape st fuel g a (st.groups.GetInformation g) e
    rw [h1] at h
    cases F with
    | none => simp at h
    | some o =>
      cases o with
      | none =>
        simp only [Option.map_some', Option.map_none', Option.some.injEq, Prod.mk.injEq] at h
        rw [← h.2]
        exact ⟨fun _ _ => rfl, fun _ => rfl⟩
      | some f =>
        simp only [Option.map_some', Option.some.injEq] at h
        have hf := hloc f rfl
        have hw := GroupStyleWrap_local g a (st.groups.GetInformation g .Information_TextStyle)
          (f e)
        have hr := GroupContentResult_local g a { f e with
          m_GroupIDAttributeContent := insert2 (f e).m_GroupIDAttributeContent g a
            ((((f e).m_GroupIDAttributeContent g a).getD []).map
              (fun item => (StyleMarkup (f e) a
                (st.groups.GetInformation g .Information_TextStyle)).1 ++ item ++
                (StyleMarkup (f e) a (st.groups.GetInformation g .Information_TextStyle)).2)) }
        have he : e1 = (GroupContentResult { f e with
          m_GroupIDAttributeContent := insert2 (f e).m_GroupIDAttributeContent g a
            ((((f e).m_GroupIDAttributeContent g a).getD []).map
              (fun item => (StyleMarkup (f e) a
                (st.groups.GetInformation g .Information_TextStyle)).1 ++ item ++
                (StyleMarkup (f e) a (st.groups.GetInformation g .Information_TextStyle)).2)) }
          g a).2 := by rw [h]
        subst he
        refine ⟨fun k hk => ?_, fun t => ?_⟩
        · exact ((hr.2.1 k hk).trans (hw.2.1 k hk)).trans (hf.2.1 k hk)
        · exact ((hr.2.2 t).trans (hw.2.2 t)).trans (hf.2.2 t)

theorem focusTask_withoutHeights {x y : Editor} {t : Int}
    (h : x.focusTask t = y.focusTask t) : x.withoutHeights = y.withoutHeights := by
  have h1 := congrArg Editor.withoutHeights h
  exact h1

theorem focusGroup_withoutHeights {x y : Editor} {g : Int}
    (h : x.focusGroup g = y.focusGroup g) : x.withoutHeights = y.withoutHeights := by
  have h1 := congrArg Editor.withoutHeights h
  exact h1

/-- Two runs of a loop from related states stay related: both stop without a
result, or both return related states. -/
theorem foldlM_related {α β : Type} (f : β → α → Option β) (R : β → β → Prop)
    (step : ∀ a b b', R b b' →
      (f b a = none ∧ f b' a = none) ∨ ∃ r r', f b a = some r ∧ f b' a = some r' ∧ R r r') :
    ∀ (l : List α) (b b' : β), R b b' →
      (l.foldlM f b = none ∧ l.foldlM f b' = none) ∨
        ∃ r r', l.foldlM f b = some r ∧ l.foldlM f b' = some r' ∧ R r r' := by
  intro l
  induction l with
  | nil => intro b b' h; exact Or.inr ⟨b, b', rfl, rfl, h⟩
  | cons a rest ih =>
    intro b b' h
    rcases step a b b' h with ⟨h1, h2⟩ | ⟨r, r', h1, h2, hr⟩
    · left
      simp only [List.foldlM, bind, Option.bind, h1, h2, and_self]
    · rcases ih r r' hr with ⟨h3, h4⟩ | ⟨s, s', h3, h4, hs⟩
      · left
        simp only [List.foldlM, bind, Option.bind, h1, h2, h3, h4, and_self]
      · right
        exact ⟨s, s', by simp only [List.foldlM, bind, Option.bind, h1, h3],
          by simp only [List.foldlM, bind, Option.bind, h2, h4], hs⟩

/-- `GetTaskContent(t, a)` on two editors that hold the same for task `t`:
both calls have no result, or both return the same pair and leave the same
for task `t`. -/
theorem GetTaskContent_congr (st : Stores) (fuel : Nat) (x y : Editor) (t : Int)
    (a : Attributes) (h : x.focusTask t = y.focusTask t) :
    (GetTaskContent st fuel x t a = none ∧ GetTaskContent st fuel y t a = none) ∨
      ∃ c x1 y1, GetTaskContent st fuel x t a = some (c, x1) ∧
        GetTaskContent st fuel y t a = some (c, y1) ∧ x1.focusTask t = y1.focusTask t := by
  have hx := GetTaskContent_local st fuel x t a
  have hy := GetTaskContent_local st fuel y t a
  rw [h, ← hy] at hx
  cases h1 : GetTaskContent st fuel x t a with
  | none =>
    cases h2 : GetTaskContent st fuel y t a with
    | none => exact Or.inl ⟨rfl, rfl⟩
    | some r => rw [h1, h2] at hx; cases hx
  | some r =>
    cases h2 : GetTaskContent st fuel y t a with
    | none => rw [h1, h2] at hx; cases hx
    | some s =>
      rw [h1, h2] at hx
      simp only [Option.map_some', Option.some.injEq, Prod.mk.injEq] at hx
      obtain ⟨c, x1⟩ := r
      obtain ⟨d, y1⟩ := s
      dsimp only at hx
      obtain ⟨hc, hf⟩ := hx
      subst hc
      exact Or.inr ⟨c, x1, y1, rfl, rfl, hf⟩

theorem GetGroupContent_congr (st : Stores) (fuel : Nat) (x y : Editor) (g : Int)
    (a : Attributes) (h : x.focusGroup g = y.focusGroup g) :
    (GetGroupContent st fuel x g a = none ∧ GetGroupContent st fuel y g a = none) ∨
      ∃ c x1 y1, GetGroupContent st fuel x g a = some (c, x1) ∧
        GetGroupContent st fuel y g a = some (c, y1) ∧ x1.focusGroup g = y1.focusGroup g := by
  have hx := GetGroupContent_local st fuel x g a
  have hy := GetGroupContent_local st fuel y g a
  rw [h, ← hy] at hx
  cases h1 : GetGroupContent st fuel x g a with
  | none =>
    cases h2 : GetGroupContent st fuel y g a with
    | none => exact Or.inl ⟨rfl, rfl⟩
    | some r => rw [h1, h2] at hx; cases hx
  | some r =>
    cases h2 : GetGroupContent st fuel y g a with
    | none => rw [h1, h2] at hx; cases hx
    | some s =>
      rw [h1, h2] at hx
      simp only [Option.map_some', Option.some.injEq, Prod.mk.injEq] at hx
      obtain ⟨c, x1⟩ := r
      obtain ⟨d, y1⟩ := s
      dsimp only at hx
      obtain ⟨hc, hf⟩ := hx
      subst hc
      exact Or.inr ⟨c, x1, y1, rfl, rfl, hf⟩

theorem withoutHeights_fields {x y : Editor} (h : x.withoutHeights = y.withoutHeights) :
    x.m_VisibleIDs = y.m_VisibleIDs ∧ x.m_VisibleIDTypes = y.m_VisibleIDTypes ∧
    x.m_VisibleIDIndentation = y.m_VisibleIDIndentation ∧
    x.m_VisibleAttributes = y.m_VisibleAttributes ∧
    x.m_GanttChart_BarHeight = y.m_GanttChart_BarHeight ∧
    x.m_IndentScale = y.m_IndentScale ∧ x.m_AttributeWidths = y.m_AttributeWidths ∧
    x.m_AttributePadding = y.m_AttributePadding ∧ x.m_RowPadding = y.m_RowPadding := by
  have h1 := congrArg Editor.m_VisibleIDs h
  have h2 := congrArg Editor.m_VisibleIDTypes h
  have h3 := congrArg Editor.m_VisibleIDIndentation h
  have h4 := congrArg Editor.m_VisibleAttributes h
  have h5 := congrArg Editor.m_GanttChart_BarHeight h
  have h6 := congrArg Editor.m_IndentScale h
  have h7 := congrArg Editor.m_AttributeWidths h
  have h8 := congrArg Editor.m_AttributePadding h
  have h9 := congrArg Editor.m_RowPadding h
  exact ⟨h1, h2, h3, h4, h5, h6, h7, h8, h9⟩

/-- The height `GetRowImageHeight_TaskItem` returns for a row of task `t` is
computed from what the editor holds for task `t` and from the cached height
of task `t`. -/
theorem GetRowImageHeight_TaskItem_congr (st : Stores) (fuel : Nat) (x y : Editor) (i : Int)
    (t : Int) (hid : listAt y.m_VisibleIDs i = some t)
    (hf : x.focusTask t = y.focusTask t)
    (hh : x.m_TaskIDToRowImageHeight t = y.m_TaskIDToRowImageHeight t) :
    (GetRowImageHeight_TaskItem st fuel x i).map Prod.fst =
      (GetRowImageHeight_TaskItem st fuel y i).map Prod.fst := by
  obtain ⟨hids, _, _, hattrs, _, _, _, _, _⟩ := withoutHeights_fields
    (focusTask_withoutHeights hf)
  unfold GetRowImageHeight_TaskItem
  rw [hids, hid]
  dsimp only
  rw [hh]
  cases y.m_TaskIDToRowImageHeight t with
  | some v => rfl
  | none =>
    dsimp only
    rw [hattrs]
    have hrel := foldlM_related
      (fun (state : Int × Editor) attr =>
          if attr = Attribute_GanttChart then
            some (max state.1 state.2.m_GanttChart_BarHeight, state.2)
          else
            match GetTaskContent st fuel state.2 t attr with
            | none => none
            | some (content, e1) =>
              match (if attr = Attribute_Title then
                  (listAt e1.m_VisibleIDIndentation i).map (fun i => i * e1.m_IndentScale)
                else some 0) with
              | none => none
              | some indent =>
                let this_height := content.1.foldl (fun this_height html =>
                  st.text.addHeight this_height html
                    (e1.m_AttributeWidths attr - 2 * e1.m_AttributePadding - indent)) 0
                some (max state.1 this_height, e1))
      (fun s s' => s.1 = s'.1 ∧ s.2.focusTask t = s'.2.focusTask t)
      (by
        intro a b b' hb
        obtain ⟨hb1, hb2⟩ := hb
        obtain ⟨_, _, _, _, hgantt, _, _, _, _⟩ := withoutHeights_fields
          (focusTask_withoutHeights hb2)
        by_cases hg : a = Attribute_GanttChart
        · right
          exact ⟨(max b.1 b.2.m_GanttChart_BarHeight, b.2),
            (max b'.1 b'.2.m_GanttChart_BarHeight, b'.2), by simp only [hg, if_true],
            by simp only [hg, if_true], by rw [hb1, hgantt], hb2⟩
        · rcases GetTaskContent_congr st fuel b.2 b'.2 t a hb2 with
            ⟨h1, h2⟩ | ⟨c, x1, y1, h1, h2, hxy⟩
          · left
            simp only [hg, if_false, h1, h2, and_self]
          · obtain ⟨_, _, hind, _, _, hscale, hwidths, hpad, _⟩ := withoutHeights_fields
              (focusTask_withoutHeights hxy)
            simp only [hg, if_false, h1, h2, hind, hscale, hwidths, hpad, hb1]
            cases (if a = Attribute_Title then
                (listAt y1.m_VisibleIDIndentation i).map (fun i => i * y1.m_IndentScale)
              else some 0) with
            | none => exact Or.inl ⟨rfl, rfl⟩
            | some indent => exact Or.inr ⟨_, _, rfl, rfl, rfl, hxy⟩)
      y.m_VisibleAttributes (0, x) (0, y) ⟨rfl, hf⟩
    rcases hrel with ⟨h1, h2⟩ | ⟨r, r', h1, h2, hr, _⟩
    · rw [h1, h2]
    · rw [h1, h2]
      simp only [Option.map_some', hr]

theorem GetRowImageHeight_TaskGroup_congr (st : Stores) (fuel : Nat) (x y : Editor) (i : Int)
    (g : Int) (hid : listAt y.m_VisibleIDs i = some g)
    (hf : x.focusGroup g = y.focusGroup g)
    (hh : x.m_GroupIDToRowImageHeight g = y.m_GroupIDToRowImageHeight g) :
    (GetRowImageHeight_TaskGroup st fuel x i).map Prod.fst =
      (GetRowImageHeight_TaskGroup st fuel y i).map Prod.fst := by
  obtain ⟨hids, _, _, hattrs, _, _, _, _, _⟩ := withoutHeights_fields
    (focusGroup_withoutHeights hf)
  unfold GetRowImageHeight_TaskGroup
  rw [hids, hid]
  dsimp only
  rw [hh]
  cases y.m_GroupIDToRowImageHeight g with
  | some v => rfl
  | none =>
    dsimp only
    rw [hattrs]
    have hrel := foldlM_related
      (fun (state : Int × Editor) attr =>
          if attr = Attribute_GanttChart then
            some (max state.1 state.2.m_GanttChart_BarHeight, state.2)
          else
            match GetGroupContent st fuel state.2 g attr with
            | none => none
            | some (content, e1) =>
              match (if attr = Attribute_Title then
                  (listAt e1.m_VisibleIDIndentation i).map (fun i => i * e1.m_IndentScale)
                else some 0) with
              | none => none
              | some indent =>
                let this_height := content.1.foldl (fun this_height html =>
                  st.text.addHeight this_height html
                    (e1.m_AttributeWidths attr - 2 * e1.m_AttributePadding - indent)) 0
                some (max state.1 this_height, e1))
      (fun s s' => s.1 = s'.1 ∧ s.2.focusGroup g = s'.2.focusGroup g)
      (by
        intro a b b' hb
        obtain ⟨hb1, hb2⟩ := hb
        obtain ⟨_, _, _, _, hgantt, _, _, _, _⟩ := withoutHeights_fields
          (focusGroup_withoutHeights hb2)
        by_cases hg : a = Attribute_GanttChart
        · right
          exact ⟨(max b.1 b.2.m_GanttChart_BarHeight, b.2),
            (max b'.1 b'.2.m_GanttChart_BarHeight, b'.2), by simp only [hg, if_true],
            by simp only [hg, if_true], by rw [hb1, hgantt], hb2⟩
        · rcases GetGroupContent_congr st fuel b.2 b'.2 g a hb2 with
            ⟨h1, h2⟩ | ⟨c, x1, y1, h1, h2, hxy⟩
          · left
            simp only [hg, if_false, h1, h2, and_self]
          · obtain ⟨_, _, hind, _, _, hscale, hwidths, hpad, _⟩ := withoutHeights_fields
              (focusGroup_withoutHeights hxy)
            simp only [hg, if_false, h1, h2, hind, hscale, hwidths, hpad, hb1]
            cases (if a = Attribute_Title then
                (listAt y1.m_VisibleIDIndentation i).map (fun i => i * y1.m_IndentScale)
              else some 0) with
            | none => exact Or.inl ⟨rfl, rfl⟩
            | some indent => exact Or.inr ⟨_, _, rfl, rfl, rfl, hxy⟩)
      y.m_VisibleAttributes (0, x) (0, y) ⟨rfl, hf⟩
    rcases hrel with ⟨h1, h2⟩ | ⟨r, r', h1, h2, hr, _⟩
    · rw [h1, h2]
    · rw [h1, h2]
      simp only [Option.map_some', hr]
theorem GetRowImageHeight_TaskItem_frame (st : Stores) (fuel : Nat) (e e1 : Editor)
    (index h : Int) (hrun : GetRowImageHeight_TaskItem st fuel e index = some (h, e1)) :
    ∃ id, listAt e.m_VisibleIDs index = some id ∧
      (∀ k, k ≠ id → e1.focusTask k = e.focusTask k) ∧
      (∀ g, e1.focusGroup g = e.focusGroup g) := by
  unfold GetRowImageHeight_TaskItem at hrun
  split at hrun
  · cases hrun
  · rename_i id hid
    refine ⟨id, hid, ?_⟩
    split at hrun
    · cases hrun
      exact ⟨fun _ _ => rfl, fun _ => rfl⟩
    · split at hrun
      · cases hrun
      · rename_i r e2 hfold
        cases hrun
        have hinv := foldlM_some_invariant _
          (fun (s : Int × Editor) => (∀ k, k ≠ id → s.2.focusTask k = e.focusTask k) ∧
            (∀ g, s.2.focusGroup g = e.focusGroup g))
          (by
            intro b a b1 hb hstep
            split at hstep
            · cases hstep
              exact hb
            · split at hstep
              · cases hstep
              · rename_i c e3 hget
                split at hstep
                · cases hstep
                · cases hstep
                  obtain ⟨hf1, hf2⟩ := GetTaskContent_frame st fuel _ _ _ _ _ hget
                  exact ⟨fun k hk => (hf1 k hk).trans (hb.1 k hk),
                    fun g => (hf2 g).trans (hb.2 g)⟩)
          _ _ _ ⟨fun _ _ => rfl, fun _ => rfl⟩ hfold
        exact ⟨fun k hk => hinv.1 k hk, fun g => hinv.2 g⟩

theorem GetRowImageHeight_TaskGroup_frame (st : Stores) (fuel : Nat) (e e1 : Editor)
    (index h : Int) (hrun : GetRowImageHeight_TaskGroup st fuel e index = some (h, e1)) :
    ∃ id, listAt e.m_VisibleIDs index = some id ∧
      (∀ k, k ≠ id → e1.focusGroup k = e.focusGroup k) ∧
      (∀ t, e1.focusTask t = e.focusTask t) := by
  unfold GetRowImageHeight_TaskGroup at hrun
  split at hrun
  · cases hrun
  · rename_i id hid
    refine ⟨id, hid, ?_⟩
    split at hrun
    · cases hrun
      exact ⟨fun _ _ => rfl, fun _ => rfl⟩
    · split at hrun
      · cases hrun
      · rename_i r e2 hfold
        cases hrun
        have hinv := foldlM_some_invariant _
          (fun (s : Int × Editor) => (∀ k, k ≠ id → s.2.focusGroup k = e.focusGroup k) ∧
            (∀ t, s.2.focusTask t = e.focusTask t))
          (by
            intro b a b1 hb hstep
            split at hstep
            · cases hstep
              exact hb
            · split at hstep
              · cases hstep
              · rename_i c e3 hget
                split at hstep
                · cases hstep
                · cases hstep
                  obtain ⟨hf1, hf2⟩ := GetGroupContent_frame st fuel _ _ _ _ _ hget
                  exact ⟨fun k hk => (hf1 k hk).trans (hb.1 k hk),
                    fun t => (hf2 t).trans (hb.2 t)⟩)
          _ _ _ ⟨fun _ _ => rfl, fun _ => rfl⟩ hfold
        exact ⟨fun k hk => hinv.1 k hk, fun t => hinv.2 t⟩
theorem GetRowImageHeight_task_fst (st : Stores) (fuel : Nat) (e : Editor) (i : Nat)
    (ht : e.m_VisibleIDTypes[i]? = some ElementType_TaskID) :
    (GetRowImageHeight st fuel e i).map Prod.fst =
      (GetRowImageHeight_TaskItem st fuel e i).map (fun r => r.1 + 2 * e.m_RowPadding) := by
  unfold GetRowImageHeight
  rw [listAt_natCast, ht]
  dsimp only
  cases hitem : GetRowImageHeight_TaskItem st fuel e i with
  | none => rfl
  | some r =>
    obtain ⟨h, e2⟩ := r
    obtain ⟨_, _, hwh, _⟩ := GetRowImageHeight_TaskItem_spec st fuel e e2 i h hitem
    obtain ⟨_, _, _, _, _, _, _, _, hpad⟩ := withoutHeights_fields hwh
    simp only [Option.map_some', hpad]

theorem GetRowImageHeight_group_fst (st : Stores) (fuel : Nat) (e : Editor) (i : Nat)
    (ht : e.m_VisibleIDTypes[i]? = some ElementType_GroupID) :
    (GetRowImageHeight st fuel e i).map Prod.fst =
      (GetRowImageHeight_TaskGroup st fuel e i).map (fun r => r.1 + 2 * e.m_RowPadding) := by
  unfold GetRowImageHeight
  rw [listAt_natCast, ht]
  dsimp only
  cases hitem : GetRowImageHeight_TaskGroup st fuel e i with
  | none => rfl
  | some r =>
    obtain ⟨h, e2⟩ := r
    obtain ⟨_, _, hwh, _⟩ := GetRowImageHeight_TaskGroup_spec st fuel e e2 i h hitem
    obtain ⟨_, _, _, _, _, _, _, _, hpad⟩ := withoutHeights_fields hwh
    simp only [Option.map_some', hpad]

/-- Measuring row `j` leaves what the editor holds for every task and group
other than the element of row `j`. -/
theorem GetRowImageHeight_frame (st : Stores) (fuel : Nat) (e e1 : Editor) (j : Nat) (h : Int)
    (hrun : GetRowImageHeight st fuel e j = some (h, e1)) :
    (∀ t, ¬ (e.m_VisibleIDTypes[j]? = some ElementType_TaskID ∧ e.m_VisibleIDs[j]? = some t) →
      e1.focusTask t = e.focusTask t ∧
        e1.m_TaskIDToRowImageHeight t = e.m_TaskIDToRowImageHeight t) ∧
    (∀ g, ¬ (e.m_VisibleIDTypes[j]? = some ElementType_GroupID ∧ e.m_VisibleIDs[j]? = some g) →
      e1.focusGroup g = e.focusGroup g ∧
        e1.m_GroupIDToRowImageHeight g = e.m_GroupIDToRowImageHeight g) := by
  unfold GetRowImageHeight at hrun
  rw [listAt_natCast] at hrun
  split at hrun
  · cases hrun
  · rename_i ht
    split at hrun
    · cases hrun
    · rename_i r e2 hitem
      simp only [Option.some.injEq, Prod.mk.injEq] at hrun
      obtain ⟨_, he⟩ := hrun
      subst he
      obtain ⟨id, hid, _, _, hother, _, hgh, _⟩ :=
        GetRowImageHeight_TaskItem_spec st fuel e e2 j r hitem
      obtain ⟨id2, hid2, hft, hfg⟩ := GetRowImageHeight_TaskItem_frame st fuel e e2 j r hitem
      rw [hid] at hid2
      cases hid2
      rw [listAt_natCast] at hid
      refine ⟨fun t hne => ?_, fun g _ => ⟨hfg g, by rw [hgh]⟩⟩
      have hk : t ≠ id := fun hc => hne ⟨ht, by rw [hid, hc]⟩
      exact ⟨hft t hk, hother t hk⟩
  · rename_i ht
    split at hrun
    · cases hrun
    · rename_i r e2 hitem
      simp only [Option.some.injEq, Prod.mk.injEq] at hrun
      obtain ⟨_, he⟩ := hrun
      subst he
      obtain ⟨id, hid, _, _, hother, _, hth, _⟩ :=
        GetRowImageHeight_TaskGroup_spec st fuel e e2 j r hitem
      obtain ⟨id2, hid2, hfg, hft⟩ := GetRowImageHeight_TaskGroup_frame st fuel e e2 j r hitem
      rw [hid] at hid2
      cases hid2
      rw [listAt_natCast] at hid
      refine ⟨fun t _ => ⟨hft t, by rw [hth]⟩, fun g hne => ?_⟩
      have hk : g ≠ id := fun hc => hne ⟨ht, by rw [hid, hc]⟩
      exact ⟨hfg g hk, hother g hk⟩
  · cases hrun
    exact ⟨fun _ _ => ⟨rfl, rfl⟩, fun _ _ => ⟨rfl, rfl⟩⟩

/-- Measuring row `j` does not change the height measured for a row of
another element. -/
theorem RowHeight_other_row (st : Stores) (fuel : Nat) (e e1 : Editor) (i j : Nat) (h : Int)
    (hrun : GetRowImageHeight st fuel e j = some (h, e1))
    (hne : (e.m_VisibleIDs[i]?, e.m_VisibleIDTypes[i]?) ≠
      (e.m_VisibleIDs[j]?, e.m_VisibleIDTypes[j]?)) :
    (GetRowImageHeight st fuel e1 i).map Prod.fst =
      (GetRowImageHeight st fuel e i).map Prod.fst := by
  obtain ⟨hg, _, _, _⟩ := GetRowImageHeight_spec st fuel e e1 j h hrun
  obtain ⟨hft, hfg⟩ := GetRowImageHeight_frame st fuel e e1 j h hrun
  have hpad := hg.padding
  cases ht : e.m_VisibleIDTypes[i]? with
  | none =>
    unfold GetRowImageHeight
    rw [listAt_natCast, listAt_natCast, hg.types, ht]
  | some type =>
    cases type
    · have ht1 : e1.m_VisibleIDTypes[i]? = some ElementType_TaskID := by rw [hg.types, ht]
      rw [GetRowImageHeight_task_fst st fuel e1 i ht1, GetRowImageHeight_task_fst st fuel e i ht,
        hpad]
      cases hid : e.m_VisibleIDs[i]? with
      | none =>
        unfold GetRowImageHeight_TaskItem
        rw [listAt_natCast, listAt_natCast, hg.ids, hid]
      | some t =>
        have hnj : ¬ (e.m_VisibleIDTypes[j]? = some ElementType_TaskID ∧
            e.m_VisibleIDs[j]? = some t) := fun hc => hne (by rw [hid, ht, hc.1, hc.2])
        obtain ⟨h1, h2⟩ := hft t hnj
        have hcongr := GetRowImageHeight_TaskItem_congr st fuel e1 e i t
          (by rw [listAt_natCast, hid]) h1 h2
        cases hx : GetRowImageHeight_TaskItem st fuel e1 i with
        | none =>
          rw [hx] at hcongr
          cases hy : GetRowImageHeight_TaskItem st fuel e i with
          | none => rfl
          | some r => rw [hy] at hcongr; cases hcongr
        | some r =>
          rw [hx] at hcongr
          cases hy : GetRowImageHeight_TaskItem st fuel e i with
          | none => rw [hy] at hcongr; cases hcongr
          | some s =>
            rw [hy] at hcongr
            simp only [Option.map_some', Option.some.injEq] at hcongr ⊢
            rw [hcongr]
    · have ht1 : e1.m_VisibleIDTypes[i]? = some ElementType_GroupID := by rw [hg.types, ht]
      rw [GetRowImageHeight_group_fst st fuel e1 i ht1,
        GetRowImageHeight_group_fst st fuel e i ht, hpad]
      cases hid : e.m_VisibleIDs[i]? with
      | none =>
        unfold GetRowImageHeight_TaskGroup
        rw [listAt_natCast, listAt_natCast, hg.ids, hid]
      | some g =>
        have hnj : ¬ (e.m_VisibleIDTypes[j]? = some ElementType_GroupID ∧
            e.m_VisibleIDs[j]? = some g) := fun hc => hne (by rw [hid, ht, hc.1, hc.2])
        obtain ⟨h1, h2⟩ := hfg g hnj
        have hcongr := GetRowImageHeight_TaskGroup_congr st fuel e1 e i g
          (by rw [listAt_natCast, hid]) h1 h2
        cases hx : GetRowImageHeight_TaskGroup st fuel e1 i with
        | none =>
          rw [hx] at hcongr
          cases hy : GetRowImageHeight_TaskGroup st fuel e i with
          | none => rfl
          | some r => rw [hy] at hcongr; cases hcongr
        | some r =>
          rw [hx] at hcongr
          cases hy : GetRowImageHeight_TaskGroup st fuel e i with
          | none => rw [hy] at hcongr; cases hcongr
          | some s =>
            rw [hy] at hcongr
            simp only [Option.map_some', Option.some.injEq] at hcongr ⊢
            rw [hcongr]
    · unfold GetRowImageHeight
      rw [listAt_natCast, listAt_natCast, hg.types, ht]
      rfl

theorem RowHeight_of_run (st : Stores) (fuel : Nat) (e e1 : Editor) (i : Nat) (h : Int)
    (hrun : GetRowImageHeight st fuel e i = some (h, e1)) : RowHeight st fuel e i = h := by
  simp only [RowHeight, hrun]

theorem RowHeight_congr (st : Stores) (fuel : Nat) (e e1 : Editor) (i : Nat)
    (h : (GetRowImageHeight st fuel e1 i).map Prod.fst =
      (GetRowImageHeight st fuel e i).map Prod.fst) :
    RowHeight st fuel e1 i = RowHeight st fuel e i := by
  unfold RowHeight
  cases hx : GetRowImageHeight st fuel e1 i with
  | none =>
    cases hy : GetRowImageHeight st fuel e i with
    | none => rfl
    | some r => rw [hx, hy] at h; cases h
  | some r =>
    cases hy : GetRowImageHeight st fuel e i with
    | none => rw [hx, hy] at h; cases h
    | some s =>
      rw [hx, hy] at h
      simp only [Option.map_some', Option.some.injEq] at h
      exact h

/-! ## Row heights measured before a scroll call -/

theorem rows_distinct {e : Editor} (hlen : e.m_VisibleIDTypes.length = e.m_VisibleIDs.length)
    (hd : (e.m_VisibleIDs.zip e.m_VisibleIDTypes).Nodup) (i j : Nat)
    (hi : i < e.m_VisibleIDs.length) (hj : j < e.m_VisibleIDs.length) (hne : i ≠ j) :
    (e.m_VisibleIDs[i]?, e.m_VisibleIDTypes[i]?) ≠
      (e.m_VisibleIDs[j]?, e.m_VisibleIDTypes[j]?) := by
  intro h
  have hi2 : i < e.m_VisibleIDTypes.length := by rw [hlen]; exact hi
  have hj2 : j < e.m_VisibleIDTypes.length := by rw [hlen]; exact hj
  have hiz : i < (e.m_VisibleIDs.zip e.m_VisibleIDTypes).length := by
    rw [List.length_zip]; omega
  have hjz : j < (e.m_VisibleIDs.zip e.m_VisibleIDTypes).length := by
    rw [List.length_zip]; omega
  rw [List.getElem?_eq_getElem hi, List.getElem?_eq_getElem hj, List.getElem?_eq_getElem hi2,
    List.getElem?_eq_getElem hj2] at h
  simp only [Prod.mk.injEq, Option.some.injEq] at h
  have heq : (e.m_VisibleIDs.zip e.m_VisibleIDTypes)[i] =
      (e.m_VisibleIDs.zip e.m_VisibleIDTypes)[j] := by
    rw [List.getElem_zip, List.getElem_zip, h.1, h.2]
  exact hne ((List.Nodup.getElem_inj_iff hd).mp heq)

/-- Summing rows that are distinct elements gives each row the height it has
when it is measured in the state before the loop, and leaves that height in
the cache. -/
theorem SumRowImageHeights_measured (st : Stores) (fuel : Nat) :
    ∀ (count index : Nat) (top : Int) (e e1 : Editor) (r : Int),
      SumRowImageHeights st fuel count index top e = some (r, e1) →
      (∀ i j, index ≤ i → i < index + count → index ≤ j → j < index + count → i ≠ j →
        (e.m_VisibleIDs[i]?, e.m_VisibleIDTypes[i]?) ≠
          (e.m_VisibleIDs[j]?, e.m_VisibleIDTypes[j]?)) →
      ∀ i, index ≤ i → i < index + count → CachedRowHeight e1 i = RowHeight st fuel e i := by
  intro count
  induction count with
  | zero => intro index top e e1 r _ _ i h1 h2; omega
  | succ count ih =>
    intro index top e e1 r h hd i hlo hhi
    simp only [SumRowImageHeights] at h
    cases hrow : GetRowImageHeight st fuel e index with
    | none => simp [hrow] at h
    | some res =>
      obtain ⟨row_height, e2⟩ := res
      simp only [hrow] at h
      have hcast : ((index : Int) + 1) = ((index + 1 : Nat) : Int) := by push_cast; rfl
      rw [hcast] at h
      obtain ⟨hg2, hc2, hh2, _⟩ := GetRowImageHeight_spec st fuel e e2 index row_height hrow
      obtain ⟨hg1, _, _, _⟩ := SumRowImageHeights_spec st fuel _ _ _ _ _ _ h
      by_cases hi : i = index
      · subst hi
        rw [(hg1.rowCached i hc2).2, ← hh2, RowHeight_of_run st fuel e e2 i row_height hrow]
      · have hd2 : ∀ a b, index + 1 ≤ a → a < index + 1 + count → index + 1 ≤ b →
            b < index + 1 + count → a ≠ b →
            (e2.m_VisibleIDs[a]?, e2.m_VisibleIDTypes[a]?) ≠
              (e2.m_VisibleIDs[b]?, e2.m_VisibleIDTypes[b]?) := by
          intro a b h1 h2 h3 h4 h5
          rw [hg2.ids, hg2.types]
          exact hd a b (by omega) (by omega) (by omega) (by omega) h5
        rw [ih (index + 1) _ e2 e1 r h hd2 i (by omega) (by omega)]
        exact RowHeight_congr st fuel e e2 i
          (RowHeight_other_row st fuel e e2 i index row_height hrow
            (hd i index hlo hhi (le_refl _) (by omega) hi))

theorem SumCachedRowHeights_measured (st : Stores) (fuel : Nat) (e e1 : Editor) (n : Nat)
    (h : ∀ i, i < n → CachedRowHeight e1 i = RowHeight st fuel e i) :
    ∀ k, k ≤ n → SumCachedRowHeights e1 k = RowHeightSum st fuel e k := by
  intro k hk
  unfold SumCachedRowHeights RowHeightSum
  apply congrArg
  apply List.map_congr_left
  intro i hi
  exact h i (by have := List.mem_range.mp hi; omega)

theorem RowHeightSum_succ (st : Stores) (fuel : Nat) (e : Editor) (m : Nat) :
    RowHeightSum st fuel e (m + 1) = RowHeightSum st fuel e m + RowHeight st fuel e m := by
  simp [RowHeightSum, List.range_succ]

/-- What `GetMaximumTopOffset` returns and leaves behind when the rows are
distinct elements, in terms of the row heights measured before the call. -/
theorem GetMaximumTopOffset_measured (st : Stores) (fuel : Nat) (e : Editor)
    (hm : RowsMeasurable st fuel e)
    (hdistinct : (e.m_VisibleIDs.zip e.m_VisibleIDTypes).Nodup) :
    ∃ e1, GetMaximumTopOffset st fuel e =
        some (max (RowHeightSum st fuel e e.m_VisibleIDs.length -
          (e.height - e.m_HeaderHeight)) 0, e1) ∧
      HeightsGrown e e1 ∧ (∀ i, i < e.m_VisibleIDs.length → RowCached e1 i) ∧
      (∀ i, i < e.m_VisibleIDs.length → CachedRowHeight e1 i = RowHeight st fuel e i) ∧
      (HeightsNonneg e → HeightsNonneg e1) := by
  obtain ⟨⟨r, e1⟩, hsum⟩ := SumRowImageHeights_returns st fuel e.m_VisibleIDs.length 0 0 e hm
    (by omega)
  obtain ⟨hg, hc, hr, hn⟩ := SumRowImageHeights_spec st fuel _ _ _ _ _ _ hsum
  have hpt : ∀ i, i < e.m_VisibleIDs.length → CachedRowHeight e1 i = RowHeight st fuel e i :=
    fun i hi => SumRowImageHeights_measured st fuel _ _ _ _ _ _ hsum
      (fun a b _ h2 _ h4 h5 => rows_distinct hm.1 hdistinct a b (by omega) (by omega) h5)
      i (Nat.zero_le _) (by omega)
  refine ⟨e1, ?_, hg, fun i hi => hc i (Nat.zero_le _) (by omega), hpt, hn⟩
  simp only [Nat.cast_zero] at hsum
  simp only [GetMaximumTopOffset, hsum, hg.height, hg.header]
  rw [hr, sum_range_shift, ← SumCachedRowHeights_measured st fuel e e1 _ hpt _ (le_refl _)]
  simp [SumCachedRowHeights_zero]

theorem GetRowImageHeight_measured (st : Stores) (fuel : Nat) (e : Editor) (i : Nat)
    (hm : RowsMeasurable st fuel e) (hi : i < e.m_VisibleIDs.length) :
    ∃ e2, GetRowImageHeight st fuel e i = some (RowHeight st fuel e i, e2) := by
  obtain ⟨⟨h, e2⟩, hrow⟩ := GetRowImageHeight_returns st fuel e i hm hi
  exact ⟨e2, by rw [RowHeight_of_run st fuel e e2 i h hrow, hrow]⟩

/-- The closed form of an accepted `SetTopOffset` call when the rows are
distinct elements, in terms of the row heights measured before the call. -/
theorem SetTopOffset_measured (st : Stores) (fuel : Nat) (e : Editor) (p : Int)
    (hm : RowsMeasurable st fuel e)
    (hdistinct : (e.m_VisibleIDs.zip e.m_VisibleIDTypes).Nodup)
    (hrows : 0 < e.m_VisibleIDs.length)
    (hview : 0 < e.height - e.m_HeaderHeight)
    (hkinds : ∀ t ∈ e.m_VisibleIDTypes, t ≠ ElementType_Invalid) (hpad : 0 < e.m_RowPadding)
    (hnn : HeightsNonneg e) (hp0 : 0 ≤ p)
    (hpmax : ∀ v e1, GetMaximumTopOffset st fuel e = some (v, e1) → p ≤ v) :
    ∃ (e1 : Editor) (k : Nat), HeightsGrown e e1 ∧
      (∀ i, i < e.m_VisibleIDs.length → RowCached e1 i) ∧
      (∀ i, i < e.m_VisibleIDs.length → CachedRowHeight e1 i = RowHeight st fuel e i) ∧
      k < e.m_VisibleIDs.length ∧
      RowHeightSum st fuel e k ≤ p ∧ p < RowHeightSum st fuel e (k + 1) ∧
      SetTopOffset st fuel e p = some { e1 with
        m_TopIndex := (k : Int)
        m_TopOffset := RowHeightSum st fuel e (k + 1) - p } := by
  obtain ⟨e1, hrun, hg, hc, hpt, hn⟩ := GetMaximumTopOffset_measured st fuel e hm hdistinct
  have hsums := SumCachedRowHeights_measured st fuel e e1 _ hpt
  have hle := hpmax _ _ hrun
  have hm1 := hm.of_grown hg
  have hpos : 0 < SumCachedRowHeights e1 e.m_VisibleIDs.length := by
    apply SumCachedRowHeights_pos e1 _ _ hrows
    intro i hi
    exact CachedRowHeight_pos e1 i (by rw [hg.ids]; exact hi) hm1.1
      (by rw [hg.types]; exact hkinds) (by rw [hg.padding]; exact hpad) (hn hnn)
  have hlt : p < SumCachedRowHeights e1 e.m_VisibleIDs.length := by
    rw [hsums _ (le_refl _)] at hpos ⊢
    rcases le_max_iff.mp hle with h | h <;> omega
  obtain ⟨k, _, hk2, hk3, hk4, hk5⟩ := SetTopOffset_Loop_cached st fuel e1
    e.m_VisibleIDs.length 0 p (fun i _ h2 => hc i (by omega)) hp0
    (by simpa [SumCachedRowHeights_zero] using hlt)
  simp only [SumCachedRowHeights_zero, sub_zero, Nat.cast_zero] at hk3 hk4 hk5
  rw [hsums _ (by omega)] at hk3
  rw [hsums _ (by omega)] at hk4 hk5
  refine ⟨e1, k, hg, hc, hpt, by omega, hk3, hk4, ?_⟩
  have h1 : ¬ p < 0 := by omega
  have h2 : ¬ p > max (RowHeightSum st fuel e e.m_VisibleIDs.length -
      (e.height - e.m_HeaderHeight)) 0 := by omega
  simp only [SetTopOffset, h1, if_false, hrun, h2, hg.ids, hk5]

theorem HeightsGrown.scrolled {e e1 : Editor} (hg : HeightsGrown e e1) (k o : Int) :
    HeightsGrown { e with m_TopIndex := k, m_TopOffset := o }
      { e1 with m_TopIndex := k, m_TopOffset := o } :=
  ⟨congrArg (fun x : Editor => { x with m_TopIndex := k, m_TopOffset := o }) hg.1,
    hg.2.1, hg.2.2⟩

/-- C11: `GetMaximumTopOffset` returns `max(0, S - V)`, where `S` is the sum
over all visible rows `i` of what `GetRowImageHeight(i)` returns in the state
before the call and `V` is the widget height minus the header height; the
result is never negative and equals `S - V` whenever `S` exceeds `V`. The
call changes nothing but the content hashes and the height caches, and every
row keeps its height afterwards. The rows are distinct elements. -/
theorem C11_GetMaximumTopOffset (st : Stores) (fuel : Nat) (e : Editor)
    (hm : RowsMeasurable st fuel e)
    (hdistinct : (e.m_VisibleIDs.zip e.m_VisibleIDTypes).Nodup) :
    ∃ v e1, GetMaximumTopOffset st fuel e = some (v, e1) ∧
      (∀ i : Nat, i < e.m_VisibleIDs.length →
        ∃ e2, GetRowImageHeight st fuel e i = some (RowHeight st fuel e i, e2)) ∧
      v = max 0 (RowHeightSum st fuel e e.m_VisibleIDs.length -
        (e.height - e.m_HeaderHeight)) ∧
      0 ≤ v ∧
      (e.height - e.m_HeaderHeight < RowHeightSum st fuel e e.m_VisibleIDs.length →
        v = RowHeightSum st fuel e e.m_VisibleIDs.length - (e.height - e.m_HeaderHeight)) ∧
      HeightsGrown e e1 ∧
      (∀ i : Nat, i < e.m_VisibleIDs.length →
        GetRowImageHeight st fuel e1 i = some (RowHeight st fuel e i, e1)) := by
  obtain ⟨e1, hrun, hg, hc, hpt, _⟩ := GetMaximumTopOffset_measured st fuel e hm hdistinct
  refine ⟨_, e1, hrun, fun i hi => GetRowImageHeight_measured st fuel e i hm hi, max_comm _ _,
    le_max_right _ _, fun h => max_eq_left (by omega), hg, fun i hi => ?_⟩
  rw [GetRowImageHeight_hit st fuel e1 i (hc i hi), hpt i hi]

theorem C11_GetMaximumTopOffset_witness :
    ∃ v e1, GetMaximumTopOffset sampleStores 3 unmeasuredEditor = some (v, e1) ∧
      (∀ i : Nat, i < unmeasuredEditor.m_VisibleIDs.length →
        ∃ e2, GetRowImageHeight sampleStores 3 unmeasuredEditor i =
          some (RowHeight sampleStores 3 unmeasuredEditor i, e2)) ∧
      v = max 0 (RowHeightSum sampleStores 3 unmeasuredEditor
          unmeasuredEditor.m_VisibleIDs.length -
        (unmeasuredEditor.height - unmeasuredEditor.m_HeaderHeight)) ∧
      0 ≤ v ∧
      (unmeasuredEditor.height - unmeasuredEditor.m_HeaderHeight <
          RowHeightSum sampleStores 3 unmeasuredEditor unmeasuredEditor.m_VisibleIDs.length →
        v = RowHeightSum sampleStores 3 unmeasuredEditor unmeasuredEditor.m_VisibleIDs.length -
          (unmeasuredEditor.height - unmeasuredEditor.m_HeaderHeight)) ∧
      HeightsGrown unmeasuredEditor e1 ∧
      (∀ i : Nat, i < unmeasuredEditor.m_VisibleIDs.length →
        GetRowImageHeight sampleStores 3 e1 i =
          some (RowHeight sampleStores 3 unmeasuredEditor i, e1)) :=
  C11_GetMaximumTopOffset sampleStores 3 unmeasuredEditor ⟨rfl, rfl, Or.inl (by decide)⟩
    (by decide)

/-- On the sample editor that is not measured yet every row measures 20
pixels, so the five rows exceed the viewport of 60 pixels by 40. -/
theorem GetMaximumTopOffset_unmeasured_sample :
    (GetMaximumTopOffset sampleStores 3 unmeasuredEditor).map Prod.fst = some 40 ∧
    (List.range 5).map (RowHeight sampleStores 3 unmeasuredEditor) = [20, 20, 20, 20, 20] := by
  decide!

/-- C12: with at least one visible row and a positive viewport height, for
every `p` with `0 ≤ p ≤ GetMaximumTopOffset()`, `SetTopOffset(p)` makes the
row `k` with (sum of the heights of rows `0..k-1`) `≤ p <` (sum of the heights
of rows `0..k`) the top row, and `GetTopOffset()` then returns `p`. The height
of a row is what `GetRowImageHeight` returns for it in the state before the
call, and every row keeps that height afterwards; apart from the top row, its
offset and the caches the call changes nothing. Rows are distinct tasks or
groups, the row padding is positive and cached content heights are
non-negative, as they are in every editor that was initialised. -/
theorem C12_SetTopOffset_GetTopOffset (st : Stores) (fuel : Nat) (e : Editor) (p : Int)
    (hm : RowsMeasurable st fuel e)
    (hdistinct : (e.m_VisibleIDs.zip e.m_VisibleIDTypes).Nodup)
    (hrows : 0 < e.m_VisibleIDs.length)
    (hview : 0 < e.height - e.m_HeaderHeight)
    (hkinds : ∀ t ∈ e.m_VisibleIDTypes, t ≠ ElementType_Invalid) (hpad : 0 < e.m_RowPadding)
    (hnn : HeightsNonneg e) (hp0 : 0 ≤ p)
    (hpmax : ∀ v e1, GetMaximumTopOffset st fuel e = some (v, e1) → p ≤ v) :
    ∃ (e2 : Editor) (k : Nat), SetTopOffset st fuel e p = some e2 ∧
      e2.m_TopIndex = (k : Int) ∧ k < e.m_VisibleIDs.length ∧
      (∀ i : Nat, i < e.m_VisibleIDs.length →
        ∃ e3, GetRowImageHeight st fuel e i = some (RowHeight st fuel e i, e3)) ∧
      RowHeightSum st fuel e k ≤ p ∧ p < RowHeightSum st fuel e (k + 1) ∧
      HeightsGrown { e with
        m_TopIndex := (k : Int)
        m_TopOffset := RowHeightSum st fuel e (k + 1) - p } e2 ∧
      (∀ i : Nat, i < e.m_VisibleIDs.length →
        GetRowImageHeight st fuel e2 i = some (RowHeight st fuel e i, e2)) ∧
      GetTopOffset st fuel e2 = some (p, e2) := by
  obtain ⟨e1, k, hg, hc, hpt, hk, hlo, hhi, hrun⟩ :=
    SetTopOffset_measured st fuel e p hm hdistinct hrows hview hkinds hpad hnn hp0 hpmax
  have hc2 : ∀ i, i < e.m_VisibleIDs.length → RowCached { e1 with
      m_TopIndex := (k : Int)
      m_TopOffset := RowHeightSum st fuel e (k + 1) - p } i := fun i hi => hc i hi
  have hpt2 : ∀ i, i < e.m_VisibleIDs.length → CachedRowHeight { e1 with
      m_TopIndex := (k : Int)
      m_TopOffset := RowHeightSum st fuel e (k + 1) - p } i = RowHeight st fuel e i :=
    fun i hi => hpt i hi
  refine ⟨_, k, hrun, rfl, hk, fun i hi => GetRowImageHeight_measured st fuel e i hm hi,
    hlo, hhi, hg.scrolled _ _, fun i hi => ?_, ?_⟩
  · rw [GetRowImageHeight_hit st fuel _ i (hc2 i hi), hpt2 i hi]
  · rw [GetTopOffset_cached st fuel _ k rfl (fun i hi => hc2 i (by omega)),
      SumCachedRowHeights_measured st fuel e _ _ hpt2 _ (by omega)]
    congr 2
    show RowHeightSum st fuel e (k + 1) - (RowHeightSum st fuel e (k + 1) - p) = p
    ring

theorem C12_SetTopOffset_GetTopOffset_witness :
    ∃ (e2 : Editor) (k : Nat), SetTopOffset sampleStores 3 unmeasuredEditor 25 = some e2 ∧
      e2.m_TopIndex = (k : Int) ∧ k < unmeasuredEditor.m_VisibleIDs.length ∧
      (∀ i : Nat, i < unmeasuredEditor.m_VisibleIDs.length →
        ∃ e3, GetRowImageHeight sampleStores 3 unmeasuredEditor i =
          some (RowHeight sampleStores 3 unmeasuredEditor i, e3)) ∧
      RowHeightSum sampleStores 3 unmeasuredEditor k ≤ 25 ∧
      25 < RowHeightSum sampleStores 3 unmeasuredEditor (k + 1) ∧
      HeightsGrown { unmeasuredEditor with
        m_TopIndex := (k : Int)
        m_TopOffset := RowHeightSum sampleStores 3 unmeasuredEditor (k + 1) - 25 } e2 ∧
      (∀ i : Nat, i < unmeasuredEditor.m_VisibleIDs.length →
        GetRowImageHeight sampleStores 3 e2 i =
          some (RowHeight sampleStores 3 unmeasuredEditor i, e2)) ∧
      GetTopOffset sampleStores 3 e2 = some (25, e2) :=
  C12_SetTopOffset_GetTopOffset sampleStores 3 unmeasuredEditor 25
    ⟨rfl, rfl, Or.inl (by decide)⟩ (by decide)
    (by decide) (by decide) (by decide) (by decide)
    ⟨fun _ v h => (by cases h), fun _ v h => (by cases h)⟩ (by decide)
    (fun v e1 h => by
      have h2 := GetMaximumTopOffset_unmeasured_sample.1
      rw [h] at h2
      simp only [Option.map_some', Option.some.injEq] at h2
      omega)

/-- On the sample editor that is not measured yet `SetTopOffset(25)` makes
row 1 the top row, 15 of its 20 pixels showing. -/
theorem SetTopOffset_unmeasured_sample :
    (SetTopOffset sampleStores 3 unmeasuredEditor 25).map
      (fun e => (e.m_TopIndex, e.m_TopOffset)) = some (1, 15) := by
  decide!

/-- C13, as the source has it: a freshly initialised editor has the top row
index `INVALID_INDEX` and offset 0, and after an accepted `SetTopOffset(p)`
the top row is the row `k` that pixel `p` falls in and the stored
`m_TopOffset` is the part of that row from the scroll position to the bottom
edge of the row, (sum of the heights of rows `0..k`) `- p`, so
`0 < m_TopOffset ≤` height of the row at `m_TopIndex`. The height of a row is
what `GetRowImageHeight` returns for it in the state before the call, and
every row keeps that height afterwards. Rows are distinct tasks or groups. -/
theorem C13_TopOffset_remainder (ag : AllTaskGroups) (st : Stores) (fuel : Nat) (e : Editor)
    (p : Int) (hm : RowsMeasurable st fuel e)
    (hdistinct : (e.m_VisibleIDs.zip e.m_VisibleIDTypes).Nodup)
    (hrows : 0 < e.m_VisibleIDs.length)
    (hview : 0 < e.height - e.m_HeaderHeight)
    (hkinds : ∀ t ∈ e.m_VisibleIDTypes, t ≠ ElementType_Invalid) (hpad : 0 < e.m_RowPadding)
    (hnn : HeightsNonneg e) (hp0 : 0 ≤ p)
    (hpmax : ∀ v e1, GetMaximumTopOffset st fuel e = some (v, e1) → p ≤ v) :
    ((Editor.constructed ag).m_TopIndex = INVALID_INDEX ∧
      (Editor.constructed ag).m_TopOffset = 0) ∧
    ∃ (e2 : Editor) (k : Nat), SetTopOffset st fuel e p = some e2 ∧
      e2.m_TopIndex = (k : Int) ∧ k < e.m_VisibleIDs.length ∧
      (∀ i : Nat, i < e.m_VisibleIDs.length →
        ∃ e3, GetRowImageHeight st fuel e i = some (RowHeight st fuel e i, e3)) ∧
      (∀ i : Nat, i < e.m_VisibleIDs.length →
        GetRowImageHeight st fuel e2 i = some (RowHeight st fuel e i, e2)) ∧
      RowHeightSum st fuel e k ≤ p ∧ p < RowHeightSum st fuel e (k + 1) ∧
      e2.m_TopOffset = RowHeightSum st fuel e (k + 1) - p ∧
      0 < e2.m_TopOffset ∧ e2.m_TopOffset ≤ RowHeight st fuel e k := by
  refine ⟨⟨rfl, rfl⟩, ?_⟩
  obtain ⟨e1, k, _, hc, hpt, hk, hlo, hhi, hrun⟩ :=
    SetTopOffset_measured st fuel e p hm hdistinct hrows hview hkinds hpad hnn hp0 hpmax
  have hc2 : ∀ i, i < e.m_VisibleIDs.length → RowCached { e1 with
      m_TopIndex := (k : Int)
      m_TopOffset := RowHeightSum st fuel e (k + 1) - p } i := fun i hi => hc i hi
  have hpt2 : ∀ i, i < e.m_VisibleIDs.length → CachedRowHeight { e1 with
      m_TopIndex := (k : Int)
      m_TopOffset := RowHeightSum st fuel e (k + 1) - p } i = RowHeight st fuel e i :=
    fun i hi => hpt i hi
  have hs := RowHeightSum_succ st fuel e k
  refine ⟨_, k, hrun, rfl, hk, fun i hi => GetRowImageHeight_measured st fuel e i hm hi,
    fun i hi => ?_, hlo, hhi, rfl, ?_, ?_⟩
  · rw [GetRowImageHeight_hit st fuel _ i (hc2 i hi), hpt2 i hi]
  · show 0 < RowHeightSum st fuel e (k + 1) - p
    omega
  · show RowHeightSum st fuel e (k + 1) - p ≤ RowHeight st fuel e k
    omega

theorem C13_TopOffset_remainder_witness :
    ((Editor.constructed sampleGroups).m_TopIndex = INVALID_INDEX ∧
      (Editor.constructed sampleGroups).m_TopOffset = 0) ∧
    ∃ (e2 : Editor) (k : Nat), SetTopOffset sampleStores 3 unmeasuredEditor 20 = some e2 ∧
      e2.m_TopIndex = (k : Int) ∧ k < unmeasuredEditor.m_VisibleIDs.length ∧
      (∀ i : Nat, i < unmeasuredEditor.m_VisibleIDs.length →
        ∃ e3, GetRowImageHeight sampleStores 3 unmeasuredEditor i =
          some (RowHeight sampleStores 3 unmeasuredEditor i, e3)) ∧
      (∀ i : Nat, i < unmeasuredEditor.m_VisibleIDs.length →
        GetRowImageHeight sampleStores 3 e2 i =
          some (RowHeight sampleStores 3 unmeasuredEditor i, e2)) ∧
      RowHeightSum sampleStores 3 unmeasuredEditor k ≤ 20 ∧
      20 < RowHeightSum sampleStores 3 unmeasuredEditor (k + 1) ∧
      e2.m_TopOffset = RowHeightSum sampleStores 3 unmeasuredEditor (k + 1) - 20 ∧
      0 < e2.m_TopOffset ∧ e2.m_TopOffset ≤ RowHeight sampleStores 3 unmeasuredEditor k :=
  C13_TopOffset_remainder sampleGroups sampleStores 3 unmeasuredEditor 20
    ⟨rfl, rfl, Or.inl (by decide)⟩ (by decide)
    (by decide) (by decide) (by decide) (by decide)
    ⟨fun _ v h => (by cases h), fun _ v h => (by cases h)⟩ (by decide)
    (fun v e1 h => by
      have h2 := GetMaximumTopOffset_unmeasured_sample.1
      rw [h] at h2
      simp only [Option.map_some', Option.some.injEq] at h2
      omega)

/-! ## Distinct rows -/

mutual
theorem Element.flatten_distinct (exp : List Int) :
    ∀ (x : Element) (d : Int), (Element.groupIDs x).Nodup → (Element.taskIDs x).Nodup →
      ((Element.flatten exp d x).map (fun r => (r.1, r.2.1))).Nodup
  | .task id, d, _, _ => by
    simp [Element.flatten]
  | .group id cs, d, hgn, htn => by
    simp only [Element.groupIDs, List.nodup_cons] at hgn
    simp only [Element.taskIDs] at htn
    by_cases hin : id ∈ exp
    · simp only [Element.flatten, hin, if_true, List.map_cons, List.nodup_cons]
      refine ⟨?_, Element.flattenAll_distinct exp cs (d + 1) hgn.2 htn⟩
      intro hmem
      obtain ⟨row, hrow, hkey⟩ := List.mem_map.mp hmem
      simp only [Prod.mk.injEq] at hkey
      rcases Element.flattenAll_ids exp cs (d + 1) row hrow with h | h
      · rw [hkey.2] at h
        cases h.1
      · rw [hkey.1] at h
        exact hgn.1 h.2
    · simp [Element.flatten, hin]
theorem Element.flattenAll_distinct (exp : List Int) :
    ∀ (F : List Element) (d : Int), (Element.groupIDsAll F).Nodup →
      (Element.taskIDsAll F).Nodup →
      ((Element.flattenAll exp d F).map (fun r => (r.1, r.2.1))).Nodup
  | [], d, _, _ => by
    simp [Element.flattenAll]
  | x :: rest, d, hgn, htn => by
    simp only [Element.groupIDsAll, List.nodup_append] at hgn
    simp only [Element.taskIDsAll, List.nodup_append] at htn
    obtain ⟨hgx, hgr, hgd⟩ := hgn
    obtain ⟨htx, htr, htd⟩ := htn
    simp only [Element.flattenAll, List.map_append, List.nodup_append]
    refine ⟨Element.flatten_distinct exp x d hgx htx,
      Element.flattenAll_distinct exp rest d hgr htr, ?_⟩
    intro key h1 h2
    obtain ⟨row1, hrow1, hkey1⟩ := List.mem_map.mp h1
    obtain ⟨row2, hrow2, hkey2⟩ := List.mem_map.mp h2
    subst hkey1
    simp only [Prod.mk.injEq] at hkey2
    rcases Element.flatten_ids exp x d row1 hrow1 with h | h
    · rcases Element.flattenAll_ids exp rest d row2 hrow2 with k | k
      · exact htd h.2 (by rw [← hkey2.1]; exact k.2)
      · rw [hkey2.2, h.1] at k
        cases k.1
    · rcases Element.flattenAll_ids exp rest d row2 hrow2 with k | k
      · rw [hkey2.2, h.1] at k
        cases k.1
      · exact hgd h.2 (by rw [← hkey2.1]; exact k.2)
end

/-- The rows `UpdateVisibleIDs` builds from a hierarchy with distinct ids are
distinct elements. -/
theorem UpdateVisibleIDs_distinct (ag : AllTaskGroups) (e : Editor) (children : List Element)
    (fuel : Nat) (hroot : ag.GetElementIDs ag.ROOT_ID = Element.entries children)
    (hstored : Element.StoredAll ag children) (hfuel : Element.heightAll children < fuel)
    (hgroups : (Element.groupIDsAll children).Nodup)
    (htasks : (Element.taskIDsAll children).Nodup) :
    ∃ e1, UpdateVisibleIDs ag fuel e = some e1 ∧
      (e1.m_VisibleIDs.zip e1.m_VisibleIDTypes).Nodup := by
  refine ⟨_, UpdateVisibleIDs_eq ag e children fuel hroot hstored hfuel, ?_⟩
  dsimp only
  rw [List.zip_map']
  exact Element.flattenAll_distinct _ children 0 hgroups htasks

end ProjectEditor

/-! ## Theorems on the word game -/

/-- For every size other than -1 `SetWordSize` returns with the dictionary as
it was: no path assigns `m_WordSize` a size. -/
theorem SetWordSize_unchanged (aw : AllWords) (n : Int) (hn : n ≠ -1) :
    aw.SetWordSize n = aw := by
  unfold AllWords.SetWordSize
  simp only [hn, if_false]
  split
  · rfl
  · split <;> rfl

/-- The loop of `GetWord` returns one of the available words or the empty
text. -/
theorem GetWord_Loop_mem (words : List String) :
    ∀ pick_index : Int, AllWords.GetWord_Loop words pick_index ∈ words ∨
      AllWords.GetWord_Loop words pick_index = "" := by
  induction words with
  | nil => intro _; exact Or.inr rfl
  | cons word rest ih =>
    intro pick_index
    unfold AllWords.GetWord_Loop
    split
    · exact Or.inl (List.mem_cons_self _ _)
    · rcases ih (pick_index - 1) with h | h
      · exact Or.inl (List.mem_cons_of_mem _ h)
      · exact Or.inr h

/-- C28 fails at a letter that an earlier guess has placed: with the target
"stone", the guess "store" marks s, t, o and e as CorrectPosition, and the
next guess "notes", which has each of them at another position, marks all
four as NotInWord although they are letters of the target; only n, not tried
before, becomes WrongPosition. -/
theorem C28_CheckNewTry_demotes_placed_letters :
    sampleWindow.m_Word = "stone" ∧
    firstGuess.map (fun state => (state.1.m_Tries, state.1.m_Word)) =
      some (["store", ""], "stone") ∧
    firstGuess.map (fun state =>
        ["s", "t", "o", "e"].map (MainWindow.statusOf state.1.m_LetterStatus)) =
      some [.Status_CorrectPosition, .Status_CorrectPosition, .Status_CorrectPosition,
        .Status_CorrectPosition] ∧
    secondGuess.map (fun state => (state.1.m_Tries, state.1.m_Word)) =
      some (["store", "notes", ""], "stone") ∧
    secondGuess.map (fun state =>
        ["n", "o", "t", "e", "s"].map (MainWindow.statusOf state.1.m_LetterStatus)) =
      some [.Status_WrongPosition, .Status_NotInWord, .Status_NotInWord, .Status_NotInWord,
        .Status_NotInWord] := by
  refine ⟨?_, ?_, ?_, ?_, ?_⟩ <;> decide!

/-- C29 fails at every valid size: the dictionary of the sample word file
knows the word "planet" of length 6 and starts with word size 5; after
`SetWordSize(6)` the word size is still 5, `GetWord` returns "stone", and no
generator makes it return a word of length 6. `SetWordSize(-1)` sets the size
to -1 and the invalid size 3 leaves it at 5. -/
theorem C29_SetWordSize_keeps_size :
    sampleWords.m_WordSize = 5 ∧
    sampleWords.m_WordsForLength 6 = some ["planet"] ∧
    (sampleWords.SetWordSize 6).m_WordSize = 5 ∧
    (sampleWords.SetWordSize 6).GetWord lowestPick = "stone" ∧
    (∀ bounded : Int → Int → Int,
      QString.size ((sampleWords.SetWordSize 6).GetWord bounded) ≠ 6) ∧
    (sampleWords.SetWordSize (-1)).m_WordSize = -1 ∧
    (sampleWords.SetWordSize 3).m_WordSize = 5 := by
  refine ⟨by decide, by decide, by decide, by decide, ?_, by decide, by decide⟩
  intro bounded
  have hrun : (sampleWords.SetWordSize 6).GetWord bounded =
      AllWords.GetWord_Loop ["stone", "store", "notes"] (bounded 0 2) := rfl
  rw [hrun]
  rcases GetWord_Loop_mem ["stone", "store", "notes"] (bounded 0 2) with h | h
  · simp only [List.mem_cons, List.mem_singleton, List.not_mem_nil, or_false] at h
    rcases h with h | h | h <;> rw [h] <;> decide
  · rw [h]
    decide
